import Mathlib

/-!
VSS database scanner: name codec, byte cursor, info-file header, record decoders and the
assembly of the project graph.

A shallow embedding of `VssUtils.cpp`, `BinaryReader.cpp`, `VssScanHeader.cpp`,
`VssScanLogEntry.cpp`, `VssScanChild.cpp`, `VssScanParent.cpp`, `VssScanCheckout.cpp` and of
`ImportFile`, `Free`, `ApplyDifferenceData`, `AssembleDirectoryLinks` and `LookForUnused` of
`VssTree.cpp`.

Conventions of the embedding:

* `u32` / `u16` values are natural numbers; every place where the C++ arithmetic is
  performed in a fixed width carries an explicit `% 4294967296` or `% 65536`.
* `int` values are integers; `toS32` is the two's complement wrap to 32 bits.
* A `char[]` buffer is a `List Nat` of character codes (the byte values), a `u08[]` buffer
  is a `List u08`. The only tests the code applies to a `char` are the range tests
  `'a' <= c && c <= 'z'` and `'A' <= c && c <= 'Z'`, which a byte of 128 or more fails
  whether `char` is signed or not.
* A read of `buffer[i]` is `buffer[i]?`; a function that reads outside its buffer returns
  `none`.
* Output buffers supplied by the caller (`name` of `VssNumberToName`, `pData` of `ReadData`)
  are taken to be large enough for what is stored into them. The local array `pathname[256]`
  of `AssembleDirectoryLinks` has its size: a C string is the list of its characters before
  the NUL, the argument `path` is `none` for `NULL`, and a copy that does not fit the array,
  or that finds no NUL in the 34 bytes of `m_Name`, ends the run as `Run.fault`.
* Console output (`printf`) of the decoders and of `ImportFile` is left out. The lines that
  `AssembleDirectoryLinks` prints are kept, as a list of `Report`s, and those of
  `LookForUnused` as a list of `UnusedLine`s; the bytes `ApplyDifferenceData` writes to its
  output file are a `List u08`.
* The file system is not part of the embedding: what it answers inside `ImportFile` is an
  argument, a `FileAnswer`.
* Loops over chunks and the recursion over the graph take a budget of iterations; a run ends
  as `Run.done` with the result, as `Run.fault` after a read or store outside a buffer, or as
  `Run.timeout` when the budget is used up.
-/

namespace Vss

/-! ## Machine integers -/

/-- Conversion of an integer to `u32`: reduction modulo `2^32`. -/
def toU32 (x : Int) : Int := x % 4294967296

/-- Conversion of an integer to a 32-bit `int`: two's complement wrap. -/
def toS32 (x : Int) : Int := (x + 2147483648) % 4294967296 - 2147483648

/-! ## VssUtils.cpp -/

/-- One pass through `num = (num * 26) + u32(name[i] - 'a')`: the product is computed in
`int`, the sum in `u32` (the right operand is unsigned), and the result is stored back into
the `int` variable `num`. -/
def nameStep (num : Int) (digit : Nat) : Int :=
  toS32 (toU32 (toU32 (toS32 (num * 26)) + (digit : Int)))

/-- The loop `for (int i = 7; i >= 0; --i)` of `VssNameToNumber(char name[])`; the first
argument after the buffer is `i + 1`. -/
def nameToNumberLoop (name : List Nat) : Nat → Int → Option Int
  | 0, num => some num
  | i + 1, num =>
    match name[i]? with
    | none => none
    | some c =>
      if 97 ≤ c ∧ c ≤ 122 then nameToNumberLoop name i (nameStep num (c - 97))
      else if 65 ≤ c ∧ c ≤ 90 then nameToNumberLoop name i (nameStep num (c - 65))
      else some (-1)

/-- `int VssNameToNumber(char name[])`. -/
def VssNameToNumber (name : List Nat) : Option Int :=
  nameToNumberLoop name 8 0

/-- The loop `for (int i = 0; i < 8; ++i)` of `VssNumberToName(u32, char[])`; the first
argument counts the remaining iterations. -/
def numberToNameLoop : Nat → Nat → Nat → List Nat → List Nat
  | 0, _, _, name => name
  | fuel + 1, i, number, name =>
    numberToNameLoop fuel (i + 1) (number / 26) (name.set i (97 + number % 26))

/-- `void VssNumberToName(u32 number, char name[])`: the buffer after the call. The
parameter is a `u32`, so the argument is reduced modulo `2^32` on entry. The function stores
to `name[0..8]`; the buffer is expected to hold at least nine characters. -/
def VssNumberToName (number : Nat) (name : List Nat) : List Nat :=
  (numberToNameLoop 8 0 (number % 4294967296) name).set 8 0

/-- Passing the `int` result of `VssNameToNumber` to the `u32` parameter of
`VssNumberToName`. -/
def intToU32 (x : Int) : Nat := (toU32 x).toNat

/-! ## BinaryReader.cpp -/

/-- The type `u08` of `Common.h`. -/
abbrev u08 := Fin 256

/-- The data members of `class BinaryReader`. -/
structure BinaryReader where
  /-- The buffer `m_pData` points to. -/
  m_pData : List u08
  /-- The size given to `Initialize`. -/
  m_DataSize : Nat
  /-- The current offset. -/
  m_Offset : Nat
deriving DecidableEq

namespace BinaryReader

/-- `void BinaryReader::Initialize(u08 *pData, u32 dataSize, u32 offset)`. -/
def Initialize (pData : List u08) (dataSize : Nat) (offset : Nat) : BinaryReader :=
  { m_pData := pData, m_DataSize := dataSize,
    m_Offset := if offset < dataSize then offset else dataSize }

/-- The comparison loop of `TestBytes`; the first numeric argument counts the remaining
iterations, the second is `i`. -/
def testBytesLoop (bytes data : List u08) (offset : Nat) : Nat → Nat → Option Bool
  | 0, _ => some true
  | fuel + 1, i =>
    match bytes[i]?, data[(i + offset) % 4294967296]? with
    | some x, some y =>
      if x ≠ y then some false else testBytesLoop bytes data offset fuel (i + 1)
    | _, _ => none

/-- `bool BinaryReader::TestBytes(u08 bytes[], u32 byteCount)`. -/
def TestBytes (r : BinaryReader) (bytes : List u08) (byteCount : Nat) : Option Bool :=
  if (r.m_Offset + byteCount) % 4294967296 > r.m_DataSize then some false
  else testBytesLoop bytes r.m_pData r.m_Offset byteCount 0

/-- `bool BinaryReader::Skip(u32 byteCount)`. -/
def Skip (r : BinaryReader) (byteCount : Nat) : Bool × BinaryReader :=
  if (byteCount + r.m_Offset) % 4294967296 > r.m_DataSize then
    (false, { r with m_Offset := r.m_DataSize })
  else
    (true, { r with m_Offset := (r.m_Offset + byteCount) % 4294967296 })

/-- The expression `m_pData[m_Offset++]`. -/
def fetch (r : BinaryReader) : Option (Nat × BinaryReader) :=
  match r.m_pData[r.m_Offset]? with
  | none => none
  | some b => some (b.val, { r with m_Offset := (r.m_Offset + 1) % 4294967296 })

/-- `u08 BinaryReader::Read08(void)`. -/
def Read08 (r : BinaryReader) : Option (Nat × BinaryReader) :=
  if r.m_Offset ≥ r.m_DataSize then some (0, r)
  else r.fetch

/-- `u16 BinaryReader::Read16(void)`. -/
def Read16 (r : BinaryReader) : Option (Nat × BinaryReader) :=
  if (r.m_Offset + 2) % 4294967296 > r.m_DataSize then
    some (0, { r with m_Offset := r.m_DataSize })
  else
    match r.fetch with
    | none => none
    | some (a, r) =>
      match r.fetch with
      | none => none
      | some (b, r) => some ((a ||| (b <<< 8)) % 65536, r)

/-- `u32 BinaryReader::Read32(void)`. The guard is the source's `(m_Offset + 2) > m_DataSize`. -/
def Read32 (r : BinaryReader) : Option (Nat × BinaryReader) :=
  if (r.m_Offset + 2) % 4294967296 > r.m_DataSize then
    some (0, { r with m_Offset := r.m_DataSize })
  else
    match r.fetch with
    | none => none
    | some (a, r) =>
      match r.fetch with
      | none => none
      | some (b, r) =>
        match r.fetch with
        | none => none
        | some (c, r) =>
          match r.fetch with
          | none => none
          | some (d, r) =>
            some (a ||| (b <<< 8) % 4294967296 ||| (c <<< 16) % 4294967296
              ||| (d <<< 24) % 4294967296, r)

/-- The copy loop of `ReadData`: the bytes stored to `pData[0 .. byteCount-1]`; the first
numeric argument counts the remaining iterations, the second is `i`. -/
def copyLoop (data : List u08) (offset : Nat) : Nat → Nat → Option (List u08)
  | 0, _ => some []
  | fuel + 1, i =>
    match data[(i + offset) % 4294967296]? with
    | none => none
    | some b =>
      match copyLoop data offset fuel (i + 1) with
      | none => none
      | some bs => some (b :: bs)

/-- `bool BinaryReader::ReadData(void *pData, u32 byteCount)`: the return value, the
`byteCount` bytes stored to the output, and the cursor after the call. -/
def ReadData (r : BinaryReader) (byteCount : Nat) : Option (Bool × List u08 × BinaryReader) :=
  if (r.m_Offset + byteCount) % 4294967296 > r.m_DataSize then
    some (false, List.replicate byteCount 0, { r with m_Offset := r.m_DataSize })
  else
    match copyLoop r.m_pData r.m_Offset byteCount 0 with
    | none => none
    | some out => some (true, out, { r with m_Offset := (r.m_Offset + byteCount) % 4294967296 })

/-- `u16 BinaryReader::ComputeCRC(u32 byteCount)`. `VssCrc16` is declared in `CRC32.h`; its
definition is not part of the sources, so it is a parameter. It is given the buffer starting at
`m_pData + m_Offset` and the byte count, and reads that many bytes. -/
def ComputeCRC (VssCrc16 : List u08 → Nat → Nat) (r : BinaryReader) (byteCount : Nat) :
    Option Nat :=
  if (byteCount + r.m_Offset) % 4294967296 > r.m_DataSize then some 0
  else if r.m_Offset + byteCount ≤ r.m_pData.length then
    some (VssCrc16 (r.m_pData.drop r.m_Offset) byteCount % 65536)
  else none

end BinaryReader

/-! ## VssTypes.h -/

/-- `#define VssType_File 2`. -/
def VssType_File : Nat := 2

/-- `#define VssType_Project 1`. -/
def VssType_Project : Nat := 1

/-- `#define VssMarker_DataHeader 0x4844`. -/
def VssMarker_DataHeader : Nat := 0x4844

/-! ## VssScanHeader.cpp -/

/-- The data members of `class VssScanHeader`. -/
structure VssScanHeader where
  /-- File or project. -/
  m_Type : Nat
  /-- Number of log entry chunks. -/
  m_LogEntryCount : Nat
  /-- The has-parent flag. -/
  m_HasParentFlag : Nat
  /-- The 34 bytes of the name field. -/
  m_Name : List u08
  /-- Offset into names.dat. -/
  m_NameOffset : Nat
  /-- Branch number. -/
  m_BranchNumber : Nat
  /-- Offset of the first log entry. -/
  m_FirstLogEntry : Nat
  /-- Offset of the last log entry. -/
  m_LastLogEntry : Nat
  /-- Size of the file. -/
  m_FileSize : Nat
deriving DecidableEq

/-- The string literal `"SourceSafe@Microsoft"` with its terminating NUL. -/
def infoMagic : List u08 :=
  [83, 111, 117, 114, 99, 101, 83, 97, 102, 101, 64, 77, 105, 99, 114, 111, 115, 111, 102, 116, 0]

/-- The loops `for (u32 i = 0; i < n; ++i) { if (0 != reader.Read32()) return false; }` of
`Scan`: `false` stands for the early return. -/
def readZeros32 : Nat → BinaryReader → Option (Bool × BinaryReader)
  | 0, reader => some (true, reader)
  | n + 1, reader =>
    match reader.Read32 with
    | none => none
    | some (v, reader) => if 0 ≠ v then some (false, reader) else readZeros32 n reader

/-- The condition `(0 != crc) && (crc != reader.ComputeCRC(chunkSize))`; `ComputeCRC` is
only called when the stored CRC is not zero. -/
def crcMismatch (VssCrc16 : List u08 → Nat → Nat) (reader : BinaryReader)
    (crc chunkSize : Nat) : Option Bool :=
  if 0 ≠ crc then
    match reader.ComputeCRC VssCrc16 chunkSize with
    | none => none
    | some computed => some (decide (crc ≠ computed))
  else some false

namespace VssScanHeader

/-- Lines 109-182 of `Scan`: the payload of the `DH` chunk. Nothing in this part returns
`false`. -/
def scanDataHeader (self : VssScanHeader) (reader : BinaryReader) :
    Option (Bool × VssScanHeader × BinaryReader) :=
  match reader.Read16 with
  | none => none
  | some (_, reader) =>
  match reader.Read16 with
  | none => none
  | some (logEntryCount, reader) =>
  match reader.Read16 with
  | none => none
  | some (hasParentFlag, reader) =>
  match reader.ReadData 34 with
  | none => none
  | some (_, name, reader) =>
  match reader.Read32 with
  | none => none
  | some (nameOffset, reader) =>
  match reader.Read16 with
  | none => none
  | some (branchNumber, reader) =>
  match reader.ReadData 2 with
  | none => none
  | some (_, _, reader) =>
  match reader.Read32 with
  | none => none
  | some (firstLogEntry, reader) =>
  match reader.Read32 with
  | none => none
  | some (lastLogEntry, reader) =>
  match reader.Read32 with
  | none => none
  | some (fileSize, reader) =>
  match reader.Read16 with
  | none => none
  | some (_, reader) =>
  match reader.ReadData 18 with
  | none => none
  | some (_, _, reader) =>
  some (true,
    { m_Type := self.m_Type, m_LogEntryCount := logEntryCount,
      m_HasParentFlag := hasParentFlag, m_Name := name, m_NameOffset := nameOffset,
      m_BranchNumber := branchNumber, m_FirstLogEntry := firstLogEntry,
      m_LastLogEntry := lastLogEntry, m_FileSize := fileSize },
    reader)

/-- `bool VssScanHeader::Scan(BinaryReader &reader)`: the return value, the members and the
cursor after the call. `self` holds the members before the call. -/
def Scan (VssCrc16 : List u08 → Nat → Nat) (self : VssScanHeader) (reader : BinaryReader) :
    Option (Bool × VssScanHeader × BinaryReader) :=
  match reader.TestBytes infoMagic 20 with
  | none => none
  | some false => some (false, self, reader)
  | some true =>
    let reader := (reader.Skip 20).2
    match readZeros32 3 reader with
    | none => none
    | some (false, reader) => some (false, self, reader)
    | some (true, reader) =>
      match reader.Read16 with
      | none => none
      | some (type, reader) =>
        let self := { self with m_Type := type }
        if VssType_File ≠ self.m_Type ∧ VssType_Project ≠ self.m_Type then
          some (false, self, reader)
        else
          match reader.Read16 with
          | none => none
          | some (version, reader) =>
            if 6 ≠ version then some (false, self, reader)
            else
              match readZeros32 4 reader with
              | none => none
              | some (false, reader) => some (false, self, reader)
              | some (true, reader) =>
                match reader.Read32 with
                | none => none
                | some (chunkSize, reader) =>
                  match reader.Read16 with
                  | none => none
                  | some (marker, reader) =>
                    match reader.Read16 with
                    | none => none
                    | some (crc, reader) =>
                      match crcMismatch VssCrc16 reader crc chunkSize with
                      | none => none
                      | some true => some (false, self, reader)
                      | some false =>
                        if VssMarker_DataHeader ≠ marker then some (false, self, reader)
                        else scanDataHeader self reader

end VssScanHeader

/-! ## VssTypes.h: markers and opcodes -/

/-- `#define VssMarker_BranchFile 0x4642`. -/
def VssMarker_BranchFile : Nat := 0x4642

/-- `#define VssMarker_CheckOut 0x4643`. -/
def VssMarker_CheckOut : Nat := 0x4643

/-- `#define VssMarker_Child 0x504A`. -/
def VssMarker_Child : Nat := 0x504A

/-- `#define VssMarker_Comment 0x434D`. -/
def VssMarker_Comment : Nat := 0x434D

/-- `#define VssMarker_Difference 0x4446`. -/
def VssMarker_Difference : Nat := 0x4446

/-- `#define VssMarker_LogEntry 0x4C45`. -/
def VssMarker_LogEntry : Nat := 0x4C45

/-- `#define VssMarker_ParentFolder 0x4650`. -/
def VssMarker_ParentFolder : Nat := 0x4650

/-- `#define VssOpcode_RenamedProject 10`. -/
def VssOpcode_RenamedProject : Nat := 10

/-- `#define VssOpcode_RenamedFile 11`. -/
def VssOpcode_RenamedFile : Nat := 11

/-- `#define VssOpcode_SharedFile 14`. -/
def VssOpcode_SharedFile : Nat := 14

/-- `#define VssOpcode_BranchedFile 15`. -/
def VssOpcode_BranchedFile : Nat := 15

/-- `#define VssOpcode_CheckedInFile 17`. -/
def VssOpcode_CheckedInFile : Nat := 17

/-- A `char[]` array that `ReadData` has filled, as the character codes `VssNameToNumber`
reads. -/
def charsOf (bytes : List u08) : List Nat := bytes.map Fin.val

/-! ## VssScanLogEntry.cpp -/

/-- The data members of `class VssScanLogEntry`. The last six are declared in the class and
never stored to by `Scan`. -/
structure VssScanLogEntry where
  /-- The operation. -/
  m_Opcode : Nat
  /-- The version number. -/
  m_VersionNumber : Nat
  /-- The time stamp. -/
  m_Timestamp : Nat
  /-- Offset of the previous log entry. -/
  m_PreviousOffset : Nat
  /-- Offset of the comment chunk. -/
  m_CommentOffset : Nat
  /-- Length of the comment. -/
  m_CommentLength : Nat
  /-- Offset of the label comment. -/
  m_LabelOffset : Nat
  /-- Length of the label comment. -/
  m_LabelLength : Nat
  /-- The array `char m_Username[32]`. -/
  m_Username : List u08
  /-- The array `char m_Label[32]`. -/
  m_Label : List u08
  /-- The array `char m_DatabasePath[260]`. -/
  m_DatabasePath : List u08
  /-- Offset of the difference chunk. -/
  m_DifferenceOffset : Nat
  /-- The array `char m_FileName[34]`. -/
  m_FileName : List u08
  /-- Offset into names.dat. -/
  m_NamesFileOffset : Nat
  /-- The array `char m_NewFileName[34]`. -/
  m_NewFileName : List u08
  /-- Offset into names.dat of the new name. -/
  m_NewFileNamesOffset : Nat
  /-- The `s32` file reference. -/
  m_FileReference : Int
  /-- The `s32` branch reference. -/
  m_BranchReference : Int
  /-- Declared, not used by `Scan`. -/
  m_Type : Nat
  /-- Declared, not used by `Scan`. -/
  m_Flags : Nat
  /-- Declared, not used by `Scan`. -/
  m_NameFlags : Nat
  /-- Declared, not used by `Scan`. -/
  m_NameOffset : Nat
  /-- Declared, not used by `Scan`. -/
  m_PinnedID : Nat
  /-- Declared, not used by `Scan`. -/
  m_DBName : List u08
deriving DecidableEq

namespace VssScanLogEntry

/-- Lines 40-55 of `Scan`: the three initial stores and the fixed fields. -/
def scanFixed (self : VssScanLogEntry) (reader : BinaryReader) :
    Option (VssScanLogEntry × BinaryReader) :=
  match reader.Read32 with
  | none => none
  | some (previousOffset, reader) =>
  match reader.Read16 with
  | none => none
  | some (opcode, reader) =>
  match reader.Read16 with
  | none => none
  | some (versionNumber, reader) =>
  match reader.Read32 with
  | none => none
  | some (timestamp, reader) =>
  match reader.ReadData 32 with
  | none => none
  | some (_, username, reader) =>
  match reader.ReadData 32 with
  | none => none
  | some (_, label, reader) =>
  match reader.Read32 with
  | none => none
  | some (commentOffset, reader) =>
  match reader.Read32 with
  | none => none
  | some (labelOffset, reader) =>
  match reader.Read16 with
  | none => none
  | some (commentLength, reader) =>
  match reader.Read16 with
  | none => none
  | some (labelLength, reader) =>
  some ({ self with
      m_FileName := self.m_FileName.set 0 0, m_FileReference := -1, m_BranchReference := -1,
      m_PreviousOffset := previousOffset, m_Opcode := opcode,
      m_VersionNumber := versionNumber, m_Timestamp := timestamp, m_Username := username,
      m_Label := label, m_CommentOffset := commentOffset, m_LabelOffset := labelOffset,
      m_CommentLength := commentLength, m_LabelLength := labelLength }, reader)

/-- Lines 57-59 of `Scan`: the database path of a shared file. -/
def scanSharedPath (self : VssScanLogEntry) (reader : BinaryReader) :
    Option (VssScanLogEntry × BinaryReader) :=
  if VssOpcode_SharedFile = self.m_Opcode then
    match reader.ReadData 260 with
    | none => none
    | some (_, databasePath, reader) => some ({ self with m_DatabasePath := databasePath }, reader)
  else some (self, reader)

/-- Lines 62-75 of `Scan`: the body of `if (VssOpcode_CheckedInFile == m_Opcode)`, which ends
in `return`. -/
def scanCheckedIn (self : VssScanLogEntry) (reader : BinaryReader) :
    Option (VssScanLogEntry × BinaryReader) :=
  match reader.Read32 with
  | none => none
  | some (differenceOffset, reader) =>
  match reader.Read32 with
  | none => none
  | some (_, reader) =>
  match reader.ReadData 260 with
  | none => none
  | some (_, databasePath, reader) =>
  some ({ self with m_DifferenceOffset := differenceOffset, m_DatabasePath := databasePath },
    reader)

/-- Lines 81-89 of `Scan`: name flags, name and offset into names.dat. -/
def scanName (self : VssScanLogEntry) (reader : BinaryReader) :
    Option (VssScanLogEntry × BinaryReader) :=
  match reader.Read16 with
  | none => none
  | some (_, reader) =>
  match reader.ReadData 34 with
  | none => none
  | some (_, fileName, reader) =>
  match reader.Read32 with
  | none => none
  | some (namesFileOffset, reader) =>
  some ({ self with m_FileName := fileName, m_NamesFileOffset := namesFileOffset }, reader)

/-- The statements `reader.ReadData(dbname, 10); m_FileReference = VssNameToNumber(dbname);`. -/
def scanFileReference (self : VssScanLogEntry) (reader : BinaryReader) :
    Option (VssScanLogEntry × BinaryReader) :=
  match reader.ReadData 10 with
  | none => none
  | some (_, dbname, reader) =>
  match VssNameToNumber (charsOf dbname) with
  | none => none
  | some number => some ({ self with m_FileReference := number }, reader)

/-- Lines 91-123 of `Scan`: the three ways to reach the file reference. -/
def scanReference (self : VssScanLogEntry) (reader : BinaryReader) :
    Option (VssScanLogEntry × BinaryReader) :=
  if VssOpcode_RenamedProject = self.m_Opcode ∨ VssOpcode_RenamedFile = self.m_Opcode then
    match reader.Read16 with
    | none => none
    | some (_, reader) =>
    match reader.ReadData 34 with
    | none => none
    | some (_, newFileName, reader) =>
    match reader.Read32 with
    | none => none
    | some (newFileNamesOffset, reader) =>
    scanFileReference
      { self with m_NewFileName := newFileName, m_NewFileNamesOffset := newFileNamesOffset }
      reader
  else if VssOpcode_SharedFile = self.m_Opcode then
    match reader.Read16 with
    | none => none
    | some (_, reader) =>
    match reader.Read16 with
    | none => none
    | some (_, reader) =>
    match reader.Read16 with
    | none => none
    | some (_, reader) =>
    scanFileReference self reader
  else scanFileReference self reader

/-- Lines 125-129 of `Scan`: the branch reference of a branched file. -/
def scanBranch (self : VssScanLogEntry) (reader : BinaryReader) :
    Option (VssScanLogEntry × BinaryReader) :=
  if VssOpcode_BranchedFile = self.m_Opcode then
    match reader.ReadData 10 with
    | none => none
    | some (_, dbname, reader) =>
    match VssNameToNumber (charsOf dbname) with
    | none => none
    | some number => some ({ self with m_BranchReference := number }, reader)
  else some (self, reader)

/-- `void VssScanLogEntry::Scan(BinaryReader &reader)`: the members and the cursor after the
call. `self` holds the members before the call. -/
def Scan (self : VssScanLogEntry) (reader : BinaryReader) :
    Option (VssScanLogEntry × BinaryReader) :=
  match scanFixed self reader with
  | none => none
  | some (self, reader) =>
  match scanSharedPath self reader with
  | none => none
  | some (self, reader) =>
  if VssOpcode_CheckedInFile = self.m_Opcode then scanCheckedIn self reader
  else
    match scanName self reader with
    | none => none
    | some (self, reader) =>
    match scanReference self reader with
    | none => none
    | some (self, reader) => scanBranch self reader

end VssScanLogEntry

/-! ## VssScanChild.cpp -/

/-- The data members of `class VssScanChild`. `m_Zero` is declared and never stored to by
`Scan`, which keeps the reserved word in a local variable. -/
structure VssScanChild where
  /-- File or project. -/
  m_Type : Nat
  /-- The flags of the link. -/
  m_Flags : Nat
  /-- The name flags. -/
  m_NameFlags : Nat
  /-- The array `char m_Name[34]`. -/
  m_Name : List u08
  /-- Offset into names.dat. -/
  m_NameOffset : Nat
  /-- Declared, not used by `Scan`. -/
  m_Zero : Nat
  /-- The array `char m_DBName[10]`. -/
  m_DBName : List u08
deriving DecidableEq

namespace VssScanChild

/-- `bool VssScanChild::Scan(BinaryReader &reader)`. -/
def Scan (self : VssScanChild) (reader : BinaryReader) :
    Option (Bool × VssScanChild × BinaryReader) :=
  match reader.Read16 with
  | none => none
  | some (type, reader) =>
  match reader.Read16 with
  | none => none
  | some (flags, reader) =>
  match reader.Read16 with
  | none => none
  | some (nameFlags, reader) =>
  match reader.ReadData 34 with
  | none => none
  | some (_, name, reader) =>
  match reader.Read32 with
  | none => none
  | some (nameOffset, reader) =>
  match reader.Read16 with
  | none => none
  | some (_, reader) =>
  match reader.ReadData 10 with
  | none => none
  | some (_, dbName, reader) =>
  some (true,
    { m_Type := type, m_Flags := flags, m_NameFlags := nameFlags, m_Name := name,
      m_NameOffset := nameOffset, m_Zero := self.m_Zero, m_DBName := dbName }, reader)

end VssScanChild

/-! ## VssScanParent.cpp -/

/-- The data members of `class VssScanParent`. -/
structure VssScanParent where
  /-- Offset of the previous parent chunk. -/
  m_PreviousOffset : Nat
  /-- The `int` parent index. -/
  m_ParentIndex : Int
deriving DecidableEq

namespace VssScanParent

/-- `void VssScanParent::Scan(BinaryReader &reader)`. -/
def Scan (reader : BinaryReader) : Option (VssScanParent × BinaryReader) :=
  match reader.Read32 with
  | none => none
  | some (previousOffset, reader) =>
  match reader.ReadData 10 with
  | none => none
  | some (_, parent, reader) =>
  match VssNameToNumber (charsOf parent) with
  | none => none
  | some number => some ({ m_PreviousOffset := previousOffset, m_ParentIndex := number }, reader)

end VssScanParent

/-! ## VssScanCheckout.cpp -/

/-- The data members of `class VssScanCheckout`. -/
structure VssScanCheckout where
  /-- The array `char m_Username[32]`. -/
  m_Username : List u08
  /-- The array `char m_Machine[32]`. -/
  m_Machine : List u08
  /-- The array `char m_Filename[260]`. -/
  m_Filename : List u08
  /-- The array `char m_Project[260]`. -/
  m_Project : List u08
  /-- The array `char m_Comment[64]`. -/
  m_Comment : List u08
  /-- Offset of the next check-out chunk. -/
  m_NextCheckout : Nat
  /-- Time of the check-out. -/
  m_CheckoutTime : Nat
  /-- Version at check-out. -/
  m_CheckoutVersion : Nat
  /-- The check-out flag. -/
  m_CheckoutFlag : Nat
  /-- Version of the last check-in. -/
  m_CheckinVersion : Nat
  /-- First flag word. -/
  m_Flag1 : Nat
  /-- Second flag word. -/
  m_Flag2 : Nat
deriving DecidableEq

namespace VssScanCheckout

/-- `bool VssScanCheckout::Scan(BinaryReader &reader)`. Every member is stored to. -/
def Scan (reader : BinaryReader) : Option (Bool × VssScanCheckout × BinaryReader) :=
  match reader.ReadData 32 with
  | none => none
  | some (_, username, reader) =>
  match reader.Read32 with
  | none => none
  | some (checkoutTime, reader) =>
  match reader.ReadData 260 with
  | none => none
  | some (_, filename, reader) =>
  match reader.ReadData 32 with
  | none => none
  | some (_, machine, reader) =>
  match reader.ReadData 260 with
  | none => none
  | some (_, project, reader) =>
  match reader.ReadData 64 with
  | none => none
  | some (_, comment, reader) =>
  match reader.Read16 with
  | none => none
  | some (checkoutVersion, reader) =>
  match reader.Read16 with
  | none => none
  | some (checkoutFlag, reader) =>
  match reader.Read32 with
  | none => none
  | some (nextCheckout, reader) =>
  match reader.Read16 with
  | none => none
  | some (flag1, reader) =>
  match reader.Read16 with
  | none => none
  | some (flag2, reader) =>
  match reader.Read16 with
  | none => none
  | some (checkinVersion, reader) =>
  some (true,
    { m_Username := username, m_Machine := machine, m_Filename := filename,
      m_Project := project, m_Comment := comment, m_NextCheckout := nextCheckout,
      m_CheckoutTime := checkoutTime, m_CheckoutVersion := checkoutVersion,
      m_CheckoutFlag := checkoutFlag, m_CheckinVersion := checkinVersion, m_Flag1 := flag1,
      m_Flag2 := flag2 }, reader)

end VssScanCheckout

/-! ## VssTree.cpp -/

/-- `struct VssNode_t` of `VssTypes.h`; a null pointer is `none`. -/
structure VssNode_t where
  /-- Size of the info buffer. -/
  InfoSize : Nat
  /-- The info buffer. -/
  pInfo : Option (List u08)
  /-- Size of the data buffer. -/
  DataSize : Nat
  /-- The data buffer. -/
  pData : Option (List u08)
  /-- The member `Type` (a reserved word here): 0 until the node is visited, then file or
  project. -/
  Type_ : Nat
  /-- Identifier of the parent project. -/
  ParentID : Nat
deriving DecidableEq

/-- The data members of `class VssTree`; `m_pNodes` is the array of `m_MaxNodes` nodes. -/
structure VssTree where
  /-- One more than the largest identifier imported. -/
  m_NodeCount : Nat
  /-- Capacity of the node table. -/
  m_MaxNodes : Nat
  /-- The node table. -/
  m_pNodes : List VssNode_t
  /-- Number of info files imported. -/
  m_InfoCount : Nat
  /-- Number of data files imported. -/
  m_DataCount : Nat
  /-- Bytes held. -/
  m_MemorySize : Nat
deriving DecidableEq

/-- The lines `AssembleDirectoryLinks` itself prints, one constructor per `printf` of its
body, with the numbers it prints (the path and the names it prints are left out). -/
inductive Report where
  /-- `error: node %d does not exist`. -/
  | nodeMissing (index : Nat)
  /-- The line `%s (%d) %d bytes` printed for every call that gets past the header. -/
  | visiting (index infoSize : Nat)
  /-- `error: invalid parent name`. -/
  | invalidParent
  /-- `error: projectCount %d > childCount %d`. -/
  | projectCountAboveChildCount (projectCount childCount : Nat)
  /-- `bad CRC`. -/
  | badCRC
  /-- `error: unknown chunk %04X`, in the info streams. -/
  | unknownChunk (chunkID : Nat)
  /-- `error: unknown chunk ID 0x%04X`, in the data stream of a project. -/
  | unknownChunkID (chunkID : Nat)
  /-- `unexpected checkoutInactive: %08X`. -/
  | unexpectedCheckoutInactive (value : Nat)
  /-- `unexpected checkoutActive: %08X`. -/
  | unexpectedCheckoutActive (value : Nat)
  /-- `CRC mismatch, corrupted data`. -/
  | dataCrcMismatch (stored computed : Nat)
  /-- `non-zero1 [%d] = %02X`. -/
  | nonZero1 (i value : Nat)
  /-- `non-zero2 [%d] = %02X`. -/
  | nonZero2 (i value : Nat)
  /-- `error: projectCount > itemCount`. -/
  | projectCountAboveItemCount (projectCount itemCount : Nat)
  /-- `error: branch count does not match expected value`. -/
  | branchCountMismatch (branchCount branchNum : Nat)
  /-- `error: parent count does not match number of entries still in use`. -/
  | parentCountMismatch (parentCount parentNum : Nat)
deriving DecidableEq

/-- How a run of a function with loops or recursion ends: with a result, with a read or a
store outside a buffer or outside the node table, or with the iteration budget of the
embedding used up. -/
inductive Run (α : Type) where
  /-- The function returned. -/
  | done (a : α)
  /-- A read or store outside a buffer or the node table. -/
  | fault
  /-- The budget of iterations and calls ran out. -/
  | timeout
deriving DecidableEq

/-- `void SetOffset(u32 offset)` of `BinaryReader.h`. -/
def BinaryReader.SetOffset (r : BinaryReader) (offset : Nat) : BinaryReader :=
  { r with m_Offset := offset }

/-- The members of the local object `VssScanHeader header` before `Scan` stores to them. -/
def localHeader : VssScanHeader :=
  { m_Type := 0, m_LogEntryCount := 0, m_HasParentFlag := 0, m_Name := List.replicate 34 0,
    m_NameOffset := 0, m_BranchNumber := 0, m_FirstLogEntry := 0, m_LastLogEntry := 0,
    m_FileSize := 0 }

/-- The members of the local object `VssScanLogEntry logEntry` before its first `Scan`. -/
def localLogEntry : VssScanLogEntry :=
  { m_Opcode := 0, m_VersionNumber := 0, m_Timestamp := 0, m_PreviousOffset := 0,
    m_CommentOffset := 0, m_CommentLength := 0, m_LabelOffset := 0, m_LabelLength := 0,
    m_Username := List.replicate 32 0, m_Label := List.replicate 32 0,
    m_DatabasePath := List.replicate 260 0, m_DifferenceOffset := 0,
    m_FileName := List.replicate 34 0, m_NamesFileOffset := 0,
    m_NewFileName := List.replicate 34 0, m_NewFileNamesOffset := 0, m_FileReference := 0,
    m_BranchReference := 0, m_Type := 0, m_Flags := 0, m_NameFlags := 0, m_NameOffset := 0,
    m_PinnedID := 0, m_DBName := List.replicate 10 0 }

/-- The members of the local object `VssScanChild childScan` before its first `Scan`. -/
def localChild : VssScanChild :=
  { m_Type := 0, m_Flags := 0, m_NameFlags := 0, m_Name := List.replicate 34 0,
    m_NameOffset := 0, m_Zero := 0, m_DBName := List.replicate 10 0 }

/-- `void PrintComment(BinaryReader &reader, u32 size)`: the cursor after the call. The
buffer it allocates has `size + 1` bytes computed in `u32`; for `size = 0xFFFFFFFF` that is
no byte at all, and the stores of `ReadData` and of `pBuffer[size] = 0` fall outside. -/
def PrintComment (reader : BinaryReader) (size : Nat) : Option BinaryReader :=
  if (size + 1) % 4294967296 = 0 then none
  else
    match reader.ReadData size with
    | none => none
    | some (_, _, reader) => some reader

/-- The first four statements of every chunk loop: chunk size, chunk id, stored CRC, and the
cursor at the base offset of the payload. -/
def readChunkHeader (reader : BinaryReader) : Option (Nat × Nat × Nat × BinaryReader) :=
  match reader.Read32 with
  | none => none
  | some (chunkSize, reader) =>
  match reader.Read16 with
  | none => none
  | some (chunkID, reader) =>
  match reader.Read16 with
  | none => none
  | some (crc, reader) => some (chunkSize, chunkID, crc, reader)

/-- The statement `reader.SetOffset(baseOffset + chunkSize)` that ends every pass of a chunk
loop; the sum is computed in `u32`. -/
def nextChunk (reader : BinaryReader) (chunkSize : Nat) : BinaryReader :=
  reader.SetOffset ((reader.m_Offset + chunkSize) % 4294967296)

/-- Lines 387-419 of `AssembleDirectoryLinks`: the chunk loop over the info stream of a
project. The result `false` stands for the `return false` of line 395, `true` for the end of
the loop. -/
def projectInfoLoop (VssCrc16 : List u08 → Nat → Nat) :
    Nat → VssScanLogEntry → BinaryReader → List Report → Run (Bool × List Report)
  | 0, _, _, _ => Run.timeout
  | fuel + 1, logEntry, reader, log =>
    if reader.m_Offset < reader.m_DataSize then
      match readChunkHeader reader with
      | none => Run.fault
      | some (chunkSize, chunkID, crc, reader) =>
        match crcMismatch VssCrc16 reader crc chunkSize with
        | none => Run.fault
        | some true => Run.done (false, log ++ [Report.badCRC])
        | some false =>
          if chunkID = VssMarker_Comment then
            match PrintComment reader chunkSize with
            | none => Run.fault
            | some _ =>
              projectInfoLoop VssCrc16 fuel logEntry (nextChunk reader chunkSize) log
          else if chunkID = VssMarker_LogEntry then
            match logEntry.Scan reader with
            | none => Run.fault
            | some (logEntry, _) =>
              projectInfoLoop VssCrc16 fuel logEntry (nextChunk reader chunkSize) log
          else
            projectInfoLoop VssCrc16 fuel logEntry (nextChunk reader chunkSize)
              (log ++ [Report.unknownChunk chunkID])
    else Run.done (true, log)

/-- The reports of the loops `for (i ...) if (0 != zeroes[i]) printf(...)`, from index `i`. -/
def nonZeroReports (mk : Nat → Nat → Report) : Nat → List u08 → List Report
  | _, [] => []
  | i, b :: bs =>
    if 0 ≠ b.val then mk i b.val :: nonZeroReports mk (i + 1) bs
    else nonZeroReports mk (i + 1) bs

/-- Lines 471-483 of `AssembleDirectoryLinks`: the test of the two check-out offsets. -/
def checkoutReports (checkoutActive checkoutInactive : Nat) : List Report :=
  if 0 = checkoutActive then
    if 0x01A0 ≠ checkoutInactive then [Report.unexpectedCheckoutInactive checkoutInactive]
    else []
  else
    (if 0 ≠ checkoutInactive then [Report.unexpectedCheckoutInactive checkoutInactive]
      else [])
    ++ (if 0x01A0 ≠ checkoutActive then [Report.unexpectedCheckoutActive checkoutActive]
      else [])

/-- Lines 430-528 of `AssembleDirectoryLinks`: the fields of a file that precede its chunks.
The result holds the branch count, the parent count, the cursor and the lines printed.
`VssCrc32` is declared in `CRC32.h`; its definition is not part of the sources, so it is a
parameter. -/
def filePrefix (VssCrc32 : List u08 → Nat → Nat) (data : List u08) (dataSize : Nat)
    (reader : BinaryReader) : Option (Nat × Nat × BinaryReader × List Report) :=
  match reader.Read16 with
  | none => none
  | some (_, reader) =>
  match reader.ReadData 10 with
  | none => none
  | some (_, _, reader) =>
  match reader.Read32 with
  | none => none
  | some (_, reader) =>
  match reader.Read32 with
  | none => none
  | some (_, reader) =>
  match reader.Read16 with
  | none => none
  | some (branchCount, reader) =>
  match reader.Read16 with
  | none => none
  | some (parentCount, reader) =>
  match reader.Read32 with
  | none => none
  | some (checkoutActive, reader) =>
  match reader.Read32 with
  | none => none
  | some (checkoutInactive, reader) =>
  match reader.Read32 with
  | none => none
  | some (dataCRC, reader) =>
  match reader.ReadData 8 with
  | none => none
  | some (_, zeroes1, reader) =>
  match reader.Read32 with
  | none => none
  | some (_, reader) =>
  match reader.Read32 with
  | none => none
  | some (_, reader) =>
  match reader.Read32 with
  | none => none
  | some (_, reader) =>
  match reader.ReadData 16 with
  | none => none
  | some (_, _, reader) =>
  match reader.ReadData 200 with
  | none => none
  | some (_, zeroes2, reader) =>
  match reader.Read16 with
  | none => none
  | some (itemCount, reader) =>
  match reader.Read16 with
  | none => none
  | some (projectCount, reader) =>
  some (branchCount, parentCount, reader,
    checkoutReports checkoutActive checkoutInactive
    ++ (if dataCRC ≠ VssCrc32 data dataSize % 4294967296 then
        [Report.dataCrcMismatch dataCRC (VssCrc32 data dataSize % 4294967296)] else [])
    ++ nonZeroReports Report.nonZero1 0 zeroes1
    ++ nonZeroReports Report.nonZero2 0 zeroes2
    ++ (if projectCount > itemCount then
        [Report.projectCountAboveItemCount projectCount itemCount] else []))

/-- Lines 533-615 of `AssembleDirectoryLinks`: the chunk loop over the info stream of a file.
The result holds `false` for the `return false` of line 541 and `true` for the end of the
loop, then the two counters `branchNum` and `parentNum` (both `u16`) and the lines printed. -/
def fileInfoLoop (VssCrc16 : List u08 → Nat → Nat) :
    Nat → VssScanLogEntry → Nat → Nat → BinaryReader → List Report →
      Run (Bool × Nat × Nat × List Report)
  | 0, _, _, _, _, _ => Run.timeout
  | fuel + 1, logEntry, branchNum, parentNum, reader, log =>
    if reader.m_Offset < reader.m_DataSize then
      match readChunkHeader reader with
      | none => Run.fault
      | some (chunkSize, chunkID, crc, reader) =>
        match crcMismatch VssCrc16 reader crc chunkSize with
        | none => Run.fault
        | some true => Run.done (false, branchNum, parentNum, log ++ [Report.badCRC])
        | some false =>
          if chunkID = VssMarker_BranchFile then
            match reader.Read32 with
            | none => Run.fault
            | some (_, inner) =>
              match inner.ReadData 10 with
              | none => Run.fault
              | some _ =>
                fileInfoLoop VssCrc16 fuel logEntry ((branchNum + 1) % 65536) parentNum
                  (nextChunk reader chunkSize) log
          else if chunkID = VssMarker_CheckOut then
            match VssScanCheckout.Scan reader with
            | none => Run.fault
            | some _ =>
              fileInfoLoop VssCrc16 fuel logEntry branchNum parentNum
                (nextChunk reader chunkSize) log
          else if chunkID = VssMarker_Comment then
            match PrintComment reader chunkSize with
            | none => Run.fault
            | some _ =>
              fileInfoLoop VssCrc16 fuel logEntry branchNum parentNum
                (nextChunk reader chunkSize) log
          else if chunkID = VssMarker_Difference then
            fileInfoLoop VssCrc16 fuel logEntry branchNum parentNum
              (nextChunk reader chunkSize) log
          else if chunkID = VssMarker_LogEntry then
            match logEntry.Scan reader with
            | none => Run.fault
            | some (logEntry, _) =>
              fileInfoLoop VssCrc16 fuel logEntry branchNum parentNum
                (nextChunk reader chunkSize) log
          else if chunkID = VssMarker_ParentFolder then
            match VssScanParent.Scan reader with
            | none => Run.fault
            | some (parent, _) =>
              fileInfoLoop VssCrc16 fuel logEntry branchNum
                (if parent.m_ParentIndex ≥ 0 then (parentNum + 1) % 65536 else parentNum)
                (nextChunk reader chunkSize) log
          else
            fileInfoLoop VssCrc16 fuel logEntry branchNum parentNum
              (nextChunk reader chunkSize) (log ++ [Report.unknownChunk chunkID])
    else Run.done (true, branchNum, parentNum, log)

/-- Lines 421-624 of `AssembleDirectoryLinks`: the `else` branch, taken for a file. The
result is `false` for the `return false` of line 541 and `true` when line 624 is reached. -/
def scanFileInfo (VssCrc16 VssCrc32 : List u08 → Nat → Nat) (fuel : Nat) (data : List u08)
    (dataSize : Nat) (reader : BinaryReader) (log : List Report) : Run (Bool × List Report) :=
  match filePrefix VssCrc32 data dataSize reader with
  | none => Run.fault
  | some (branchCount, parentCount, reader, printed) =>
    match fileInfoLoop VssCrc16 fuel localLogEntry 0 0 reader (log ++ printed) with
    | Run.fault => Run.fault
    | Run.timeout => Run.timeout
    | Run.done (false, _, _, log) => Run.done (false, log)
    | Run.done (true, branchNum, parentNum, log) =>
      Run.done (true,
        log
        ++ (if branchNum ≠ branchCount then [Report.branchCountMismatch branchCount branchNum]
          else [])
        ++ (if parentCount ≠ parentNum then [Report.parentCountMismatch parentCount parentNum]
          else []))

/-- Storing to `m_pNodes[index].Type`. -/
def VssTree.setType (t : VssTree) (index type : Nat) : VssTree :=
  match t.m_pNodes.get? index with
  | none => t
  | some node => { t with m_pNodes := t.m_pNodes.set index { node with Type_ := type } }

/-- Storing to `m_pNodes[index].ParentID`. -/
def VssTree.setParentID (t : VssTree) (index parentID : Nat) : VssTree :=
  match t.m_pNodes.get? index with
  | none => t
  | some node =>
    { t with m_pNodes := t.m_pNodes.set index { node with ParentID := parentID } }

/-- Lines 346-420 of `AssembleDirectoryLinks`: the first branch, taken for a project. The
result is `false` for the `return false` of lines 366, 384 and 395 and `true` when line 420
is reached. -/
def scanProjectInfo (VssCrc16 : List u08 → Nat → Nat) (fuel : Nat) (index : Nat)
    (t : VssTree) (reader : BinaryReader) (log : List Report) :
    Run (Bool × VssTree × List Report) :=
  match reader.ReadData 260 with
  | none => Run.fault
  | some (_, _, reader) =>
  match reader.ReadData 12 with
  | none => Run.fault
  | some (_, parentName, reader) =>
  match (if 0 ≠ (parentName.getD 0 0).val then
      match VssNameToNumber (charsOf parentName) with
      | none => none
      | some number =>
        some (t.setParentID index (intToU32 number), decide (intToU32 number ≥ t.m_NodeCount))
    else some (t, false)) with
  | none => Run.fault
  | some (t, true) => Run.done (false, t, log ++ [Report.invalidParent])
  | some (t, false) =>
  match reader.Read16 with
  | none => Run.fault
  | some (childCount, reader) =>
  match reader.Read16 with
  | none => Run.fault
  | some (projectCount, reader) =>
  if projectCount > childCount then
    Run.done (false, t, log ++ [Report.projectCountAboveChildCount projectCount childCount])
  else
    match projectInfoLoop VssCrc16 fuel localLogEntry reader log with
    | Run.fault => Run.fault
    | Run.timeout => Run.timeout
    | Run.done (result, log) => Run.done (result, t, log)

/-- Lines 638-662 of `AssembleDirectoryLinks`: the chunk loop over the data stream of a
project. `visit` is the recursive call of line 654, whose result is not looked at. The result
is `false` for the `return false` of line 646 and `true` for the end of the loop. -/
def dataLoop (VssCrc16 : List u08 → Nat → Nat)
    (visit : Nat → VssTree → List Report → Run (Bool × VssTree × List Report)) :
    Nat → VssScanChild → BinaryReader → VssTree → List Report →
      Run (Bool × VssTree × List Report)
  | 0, _, _, _, _ => Run.timeout
  | fuel + 1, childScan, reader, t, log =>
    if reader.m_Offset < reader.m_DataSize then
      match readChunkHeader reader with
      | none => Run.fault
      | some (chunkSize, chunkID, crc, reader) =>
        match crcMismatch VssCrc16 reader crc chunkSize with
        | none => Run.fault
        | some true => Run.done (false, t, log ++ [Report.badCRC])
        | some false =>
          if chunkID = VssMarker_Child then
            match childScan.Scan reader with
            | none => Run.fault
            | some (_, childScan, _) =>
              match VssNameToNumber (charsOf childScan.m_DBName) with
              | none => Run.fault
              | some number =>
                match visit (intToU32 number) t log with
                | Run.fault => Run.fault
                | Run.timeout => Run.timeout
                | Run.done (_, t, log) =>
                  dataLoop VssCrc16 visit fuel childScan (nextChunk reader chunkSize) t log
          else
            dataLoop VssCrc16 visit fuel childScan (nextChunk reader chunkSize) t
              (log ++ [Report.unknownChunkID chunkID])
    else Run.done (true, t, log)

/-- The characters of a `char` array before its first NUL, as `strcpy`, `strcat` and `%s`
read them: `none` when the array holds no NUL, where they read past its end. -/
def cString : List u08 → Option (List Nat)
  | [] => none
  | b :: bs =>
    if b.val = 0 then some []
    else
      match cString bs with
      | none => none
      | some cs => some (b.val :: cs)

/-- Lines 323-329 of `AssembleDirectoryLinks`: what `pathname` holds before the name is
appended. `none` stands for `NULL == path`, and 92 is the backslash. -/
def pathStart : Option (List Nat) → List Nat
  | none => []
  | some path => path ++ [92]

/-- Lines 322-330 of `AssembleDirectoryLinks`: the string the calls of `strcpy` and `strcat`
leave in `char pathname[256]`. The result is `none` when `m_Name` holds no NUL, or when the
string and its NUL take more than the 256 bytes of the array, where the copy writes past
its end. -/
def pathnameOf (path : Option (List Nat)) (m_Name : List u08) : Option (List Nat) :=
  match cString m_Name with
  | none => none
  | some name =>
    if (pathStart path ++ name).length + 1 ≤ 256 then some (pathStart path ++ name) else none

/-- `bool VssTree::AssembleDirectoryLinks(u32 index, u32 depth, char path[])`: the return
value, the tree and the lines printed so far. `path` is `none` for `NULL` and else holds the
characters before the NUL. The first argument after the checksum functions bounds the number
of nested calls and of passes through each loop. The call `VssNumberToName(index,
debugname)` of line 320 stores 9 bytes into the 16 of an array that nothing reads, and is
left out. -/
def VssTree.AssembleDirectoryLinks (VssCrc16 VssCrc32 : List u08 → Nat → Nat) :
    Nat → Nat → Nat → Option (List Nat) → VssTree → List Report →
      Run (Bool × VssTree × List Report)
  | 0, _, _, _, _, _ => Run.timeout
  | fuel + 1, index, depth, path, t, log =>
    match t.m_pNodes.get? index with
    | none => Run.fault
    | some node =>
      match node.pInfo, node.pData with
      | some info, some data =>
        match VssScanHeader.Scan VssCrc16 localHeader
            (BinaryReader.Initialize info node.InfoSize 0) with
        | none => Run.fault
        | some (false, _, _) => Run.done (false, t, log)
        | some (true, header, reader) =>
          match pathnameOf path header.m_Name with
          | none => Run.fault
          | some pathname =>
            if 0 ≠ node.Type_ then
              Run.done (true, t, log ++ [Report.visiting index node.InfoSize])
            else if VssType_Project = header.m_Type then
              match scanProjectInfo VssCrc16 fuel index (t.setType index header.m_Type) reader
                  (log ++ [Report.visiting index node.InfoSize]) with
              | Run.fault => Run.fault
              | Run.timeout => Run.timeout
              | Run.done (false, t, log) => Run.done (false, t, log)
              | Run.done (true, t, log) =>
                dataLoop VssCrc16
                  (fun child => VssTree.AssembleDirectoryLinks VssCrc16 VssCrc32 fuel child
                    ((depth + 1) % 4294967296) (some pathname))
                  fuel localChild (BinaryReader.Initialize data node.DataSize 0) t log
            else
              match scanFileInfo VssCrc16 VssCrc32 fuel data node.DataSize reader
                  (log ++ [Report.visiting index node.InfoSize]) with
              | Run.fault => Run.fault
              | Run.timeout => Run.timeout
              | Run.done (result, log) =>
                Run.done (result, t.setType index header.m_Type, log)
      | _, _ => Run.done (false, t, log ++ [Report.nodeMissing index])

/-- The lines `LookForUnused` prints. -/
inductive UnusedLine where
  /-- `skipped: %d %s`, with the characters of the name up to its terminator. -/
  | skipped (i : Nat) (name : List Nat)
  /-- `not allocated: %d`. -/
  | notAllocated (count : Nat)
  /-- `not visited:   %d`. -/
  | notVisited (count : Nat)
deriving DecidableEq

/-- The name `LookForUnused` prints for node `i`: the characters `VssNumberToName` stores
before the terminator at index 8. The local array `char name[16]` is not initialised; the
call stores to all of `name[0..8]`, so zeros stand for its content before the call. -/
def printedName (i : Nat) : List Nat := (VssNumberToName i (List.replicate 16 0)).take 8

/-- The loop `for (u32 i = 0; i < m_NodeCount; ++i)` of `LookForUnused`: the first argument
counts the remaining iterations, the second is `i`, then come the two `u32` counters and the
lines printed so far. A read outside the node table gives `none`. -/
def lookForUnusedLoop (nodes : List VssNode_t) :
    Nat → Nat → Nat → Nat → List UnusedLine → Option (Nat × Nat × List UnusedLine)
  | 0, _, notAllocated, notVisited, out => some (notAllocated, notVisited, out)
  | fuel + 1, i, notAllocated, notVisited, out =>
    match nodes.get? i with
    | none => none
    | some node =>
      match node.pInfo with
      | none =>
        lookForUnusedLoop nodes fuel (i + 1) ((notAllocated + 1) % 4294967296) notVisited out
      | some _ =>
        if 0 = node.Type_ then
          lookForUnusedLoop nodes fuel (i + 1) notAllocated ((notVisited + 1) % 4294967296)
            (out ++ [UnusedLine.skipped i (printedName i)])
        else lookForUnusedLoop nodes fuel (i + 1) notAllocated notVisited out

/-- `bool VssTree::LookForUnused(void)`: the return value, the tree after the call and the
lines printed. The function stores to no member. -/
def VssTree.LookForUnused (t : VssTree) : Option (Bool × VssTree × List UnusedLine) :=
  match lookForUnusedLoop t.m_pNodes t.m_NodeCount 0 0 0 [] with
  | none => none
  | some (notAllocated, notVisited, out) =>
    some (true, t,
      out ++ [UnusedLine.notAllocated notAllocated, UnusedLine.notVisited notVisited])

/-- What the file system answers inside `ImportFile`. -/
inductive FileAnswer where
  /-- `_wfopen` returns `NULL`. -/
  | cannotOpen
  /-- The file opens: the value of `ftell` at the end of the file and the value `fread`
  returns, both converted to `u32`, and the buffer `pData` after `fread`. -/
  | opened (byteCount readSize : Nat) (pData : List u08)
deriving DecidableEq

/-- Lines 182-184 of `ImportFile`: the node count is raised to `index + 1`. -/
def VssTree.raiseNodeCount (t : VssTree) (index : Nat) : VssTree :=
  if t.m_NodeCount ≤ index then { t with m_NodeCount := (index + 1) % 4294967296 } else t

/-- Lines 186-236 of `ImportFile`: the test for a duplicate, the reading of the file and the
stores to the node and to the counters. -/
def VssTree.importSlot (t : VssTree) (index : Nat) (isInfo : Bool) (file : FileAnswer) :
    Option (Bool × VssTree) :=
  match t.m_pNodes.get? index with
  | none => none
  | some node =>
    if (if isInfo then node.pInfo.isSome else node.pData.isSome) then some (false, t)
    else
      match file with
      | FileAnswer.cannotOpen => some (false, t)
      | FileAnswer.opened byteCount readSize pData =>
        if readSize ≠ byteCount then some (false, t)
        else if isInfo then
          some (true,
            { t with
              m_pNodes := t.m_pNodes.set index
                { node with InfoSize := byteCount, pInfo := some pData },
              m_InfoCount := (t.m_InfoCount + 1) % 4294967296,
              m_MemorySize := (t.m_MemorySize + byteCount) % 4294967296 })
        else
          some (true,
            { t with
              m_pNodes := t.m_pNodes.set index
                { node with DataSize := byteCount, pData := some pData },
              m_DataCount := (t.m_DataCount + 1) % 4294967296,
              m_MemorySize := (t.m_MemorySize + byteCount) % 4294967296 })

/-- `bool VssTree::ImportFile(wchar_t filename[], u32 index, bool isInfo)`: the return value
and the tree after the call. The file name only serves the file system and the printed
lines; the answers of the file system are the last argument. -/
def VssTree.ImportFile (t : VssTree) (index : Nat) (isInfo : Bool) (file : FileAnswer) :
    Option (Bool × VssTree) :=
  if index ≥ t.m_MaxNodes then some (false, t)
  else (t.raiseNodeCount index).importSlot index isInfo file

/-- The loop of `Free` over the first `n` nodes of the table; `none` when the table has fewer
nodes. -/
def freeNodes : Nat → List VssNode_t → Option (List VssNode_t)
  | 0, nodes => some nodes
  | _ + 1, [] => none
  | n + 1, node :: rest =>
    match freeNodes n rest with
    | none => none
    | some rest => some ({ node with pInfo := none, pData := none, Type_ := 0 } :: rest)

/-- `void VssTree::Free(void)`. -/
def VssTree.Free (t : VssTree) : Option VssTree :=
  match freeNodes t.m_NodeCount t.m_pNodes with
  | none => none
  | some nodes =>
    some { t with m_pNodes := nodes, m_NodeCount := 0, m_InfoCount := 0, m_DataCount := 0,
                  m_MemorySize := 0 }

/-- The state the constructor `VssTree::VssTree` leaves: 4096 zeroed nodes. -/
def VssTree.new : VssTree :=
  { m_NodeCount := 0, m_MaxNodes := 4096,
    m_pNodes := List.replicate 4096
      { InfoSize := 0, pInfo := none, DataSize := 0, pData := none, Type_ := 0, ParentID := 0 },
    m_InfoCount := 0, m_DataCount := 0, m_MemorySize := 0 }

/-- `void ApplyDifferenceData(FILE *pFile, u08 *pNewFile, BinaryReader &reader)`: the bytes
written to `pFile` and the cursor when the function returns. `fwrite` reads `count` bytes at
`reader.CurrentAddress()`, for opcode 0, or at `pNewFile + offset`, for opcode 1; a read
outside the buffer is a fault. The loop `do ... while (opcode < 2)` goes on after the
opcodes 0 and 1 and ends after any other. The first argument bounds the number of passes;
the last one holds the bytes written so far. -/
def ApplyDifferenceData (pNewFile : List u08) :
    Nat → BinaryReader → List u08 → Run (List u08 × BinaryReader)
  | 0, _, _ => Run.timeout
  | fuel + 1, reader, written =>
    match reader.Read16 with
    | none => Run.fault
    | some (opcode, reader) =>
    match reader.Read16 with
    | none => Run.fault
    | some (_, reader) =>
    match reader.Read32 with
    | none => Run.fault
    | some (offset, reader) =>
    match reader.Read32 with
    | none => Run.fault
    | some (count, reader) =>
      if 0 = opcode then
        if reader.m_Offset + count ≤ reader.m_pData.length then
          ApplyDifferenceData pNewFile fuel (reader.Skip count).2
            (written ++ (reader.m_pData.drop reader.m_Offset).take count)
        else Run.fault
      else if 1 = opcode then
        if offset + count ≤ pNewFile.length then
          ApplyDifferenceData pNewFile fuel reader
            (written ++ (pNewFile.drop offset).take count)
        else Run.fault
      else Run.done (written, reader)

/-! ## Vocabulary of the statements -/

/-- An ASCII letter, upper or lower case. -/
def isAsciiLetter (c : Nat) : Prop := (97 ≤ c ∧ c ≤ 122) ∨ (65 ≤ c ∧ c ≤ 90)

/-- An ASCII lower-case letter. -/
def isLower (c : Nat) : Prop := 97 ≤ c ∧ c ≤ 122

instance (c : Nat) : Decidable (isAsciiLetter c) := by
  unfold isAsciiLetter
  infer_instance

instance (c : Nat) : Decidable (isLower c) := by
  unfold isLower
  infer_instance

/-- The number a lower-case name denotes in base 26, least significant letter first. -/
def nameValue : List Nat → Nat
  | [] => 0
  | c :: cs => (c - 97) + 26 * nameValue cs

/-- The other case of a letter; any other character is left alone. -/
def switchCase (c : Nat) : Nat :=
  if 97 ≤ c ∧ c ≤ 122 then c - 32 else if 65 ≤ c ∧ c ≤ 90 then c + 32 else c

/-- Switch the case of the letters at the selected positions, counted from `i`. -/
def switchCaseFrom (sel : Nat → Bool) : Nat → List Nat → List Nat
  | _, [] => []
  | i, c :: cs => (if sel i then switchCase c else c) :: switchCaseFrom sel (i + 1) cs

/-- The byte at index `k` of a buffer, as a number (0 outside the buffer). -/
def byteAt (data : List u08) (k : Nat) : Nat := (data.getD k 0).val

/-- The little-endian 16-bit value at index `k`. -/
def le16 (data : List u08) (k : Nat) : Nat := byteAt data k + 256 * byteAt data (k + 1)

/-- The little-endian 32-bit value at index `k`. -/
def le32 (data : List u08) (k : Nat) : Nat :=
  byteAt data k + 2 ^ 8 * byteAt data (k + 1) + 2 ^ 16 * byteAt data (k + 2)
    + 2 ^ 24 * byteAt data (k + 3)

/-- A reader whose size field is the length of its buffer, as `Initialize` is called, with
the size a `u32` and the offset not past the end. -/
def BinaryReader.WellFormed (r : BinaryReader) : Prop :=
  r.m_DataSize = r.m_pData.length ∧ r.m_DataSize < 4294967296 ∧ r.m_Offset ≤ r.m_DataSize

instance (r : BinaryReader) : Decidable r.WellFormed := by
  unfold BinaryReader.WellFormed
  infer_instance

/-! ## Sample inputs -/

/-- The name `zzzzzzzz`. -/
def name_zzzzzzzz : List Nat := [122, 122, 122, 122, 122, 122, 122, 122, 0]

/-- The name `aaaaaaaa`. -/
def name_aaaaaaaa : List Nat := [97, 97, 97, 97, 97, 97, 97, 97, 0]

/-- The name `wxlrmxna`, which denotes `2^32`. -/
def name_wxlrmxna : List Nat := [119, 120, 108, 114, 109, 120, 110, 97, 0]

/-- A checksum function for the sample inputs; their stored CRC is 0, so it is never
consulted. -/
def crcZero : List u08 → Nat → Nat := fun _ _ => 0

/-- Header members before `Scan` runs, for the sample inputs. -/
def header0 : VssScanHeader :=
  { m_Type := 0, m_LogEntryCount := 0, m_HasParentFlag := 0, m_Name := [], m_NameOffset := 0,
    m_BranchNumber := 0, m_FirstLogEntry := 0, m_LastLogEntry := 0, m_FileSize := 0 }

/-- A 60-byte info buffer: magic, 12 zero bytes, kind 1, version 6, 16 zero bytes (offsets
36..51), then at offset 52 a chunk header with size 0, marker `DH` and stored CRC 0. -/
def infoDH52 : List u08 :=
  [83, 111, 117, 114, 99, 101, 83, 97, 102, 101, 64, 77, 105, 99, 114, 111, 115, 111, 102, 116,
   0, 0, 0, 0, 0, 0, 0, 0, 0, 0, 0, 0,
   1, 0, 6, 0,
   0, 0, 0, 0, 0, 0, 0, 0, 0, 0, 0, 0, 0, 0, 0, 0,
   0, 0, 0, 0, 0x44, 0x48, 0, 0]

/-- A 60-byte info buffer laid out with a 48-byte fixed header: magic, 12 zero bytes, kind 1,
version 6, 12 zero bytes (offsets 36..47), then at offset 48 a chunk header with size 4,
marker `DH` and stored CRC 0, and a 4-byte payload. -/
def infoDH48 : List u08 :=
  [83, 111, 117, 114, 99, 101, 83, 97, 102, 101, 64, 77, 105, 99, 114, 111, 115, 111, 102, 116,
   0, 0, 0, 0, 0, 0, 0, 0, 0, 0, 0, 0,
   1, 0, 6, 0,
   0, 0, 0, 0, 0, 0, 0, 0, 0, 0, 0, 0,
   4, 0, 0, 0, 0x44, 0x48, 0, 0,
   1, 0, 0, 0]

/-- The members `Scan` leaves behind on `infoDH52`, starting from `header0`. -/
def headerDH52 : VssScanHeader :=
  { m_Type := 1, m_LogEntryCount := 0, m_HasParentFlag := 0, m_Name := List.replicate 34 0,
    m_NameOffset := 0, m_BranchNumber := 0, m_FirstLogEntry := 0, m_LastLogEntry := 0,
    m_FileSize := 0 }

/-- The members `Scan` leaves behind on `infoDH48`, starting from `header0`. -/
def headerDH48 : VssScanHeader :=
  { m_Type := 1, m_LogEntryCount := 0, m_HasParentFlag := 0, m_Name := [], m_NameOffset := 0,
    m_BranchNumber := 0, m_FirstLogEntry := 0, m_LastLogEntry := 0, m_FileSize := 0 }

/-- The buffer `infoDH52` with the version field set to 5. -/
def infoVersion5 : List u08 :=
  [83, 111, 117, 114, 99, 101, 83, 97, 102, 101, 64, 77, 105, 99, 114, 111, 115, 111, 102, 116,
   0, 0, 0, 0, 0, 0, 0, 0, 0, 0, 0, 0,
   1, 0, 5, 0,
   0, 0, 0, 0, 0, 0, 0, 0, 0, 0, 0, 0, 0, 0, 0, 0,
   0, 0, 0, 0, 0x44, 0x48, 0, 0]

/-- A checksum function that always answers 7. -/
def crcSeven : List u08 → Nat → Nat := fun _ _ => 7

/-- The buffer `infoDH52` with the stored CRC of the chunk at offset 52 set to 7. -/
def infoDH52crc : List u08 :=
  [83, 111, 117, 114, 99, 101, 83, 97, 102, 101, 64, 77, 105, 99, 114, 111, 115, 111, 102, 116,
   0, 0, 0, 0, 0, 0, 0, 0, 0, 0, 0, 0,
   1, 0, 6, 0,
   0, 0, 0, 0, 0, 0, 0, 0, 0, 0, 0, 0, 0, 0, 0, 0,
   0, 0, 0, 0, 0x44, 0x48, 7, 0]

/-- The `n` bytes of a buffer that start at index `k`. -/
def bytesAt (data : List u08) (k n : Nat) : List u08 := (data.drop k).take n

/-- The number of bytes `VssScanLogEntry::Scan` reads for an entry with the given opcode: the
88 bytes of the fixed fields, then 268 for CheckedInFile, 260 + 40 + 6 + 10 for SharedFile,
40 + 40 + 10 for the two renames, 40 + 10 + 10 for BranchedFile and 40 + 10 otherwise. -/
def logEntryLength (opcode : Nat) : Nat :=
  if opcode = VssOpcode_CheckedInFile then 356
  else if opcode = VssOpcode_SharedFile then 404
  else if opcode = VssOpcode_RenamedProject ∨ opcode = VssOpcode_RenamedFile then 178
  else if opcode = VssOpcode_BranchedFile then 148
  else 138

/-- The fixed fields of a log entry, as laid out from payload offset `off`. -/
def LogEntryFixed (e : VssScanLogEntry) (data : List u08) (off : Nat) : Prop :=
  e.m_PreviousOffset = le32 data off ∧
  e.m_Opcode = le16 data (off + 4) ∧
  e.m_VersionNumber = le16 data (off + 6) ∧
  e.m_Timestamp = le32 data (off + 8) ∧
  e.m_Username = bytesAt data (off + 12) 32 ∧
  e.m_Label = bytesAt data (off + 44) 32 ∧
  e.m_CommentOffset = le32 data (off + 76) ∧
  e.m_LabelOffset = le32 data (off + 80) ∧
  e.m_CommentLength = le16 data (off + 84) ∧
  e.m_LabelLength = le16 data (off + 86)

/-- Two log entries with the same fixed fields. -/
def sameFixed (e other : VssScanLogEntry) : Prop :=
  other.m_PreviousOffset = e.m_PreviousOffset ∧
  other.m_Opcode = e.m_Opcode ∧
  other.m_VersionNumber = e.m_VersionNumber ∧
  other.m_Timestamp = e.m_Timestamp ∧
  other.m_Username = e.m_Username ∧
  other.m_Label = e.m_Label ∧
  other.m_CommentOffset = e.m_CommentOffset ∧
  other.m_LabelOffset = e.m_LabelOffset ∧
  other.m_CommentLength = e.m_CommentLength ∧
  other.m_LabelLength = e.m_LabelLength

/-- A log entry object before `Scan`, every array at its declared length and filled with
the letter `x`, every number 9. -/
def logEntry0 : VssScanLogEntry :=
  { m_Opcode := 9, m_VersionNumber := 9, m_Timestamp := 9, m_PreviousOffset := 9,
    m_CommentOffset := 9, m_CommentLength := 9, m_LabelOffset := 9, m_LabelLength := 9,
    m_Username := List.replicate 32 120, m_Label := List.replicate 32 120,
    m_DatabasePath := List.replicate 260 120, m_DifferenceOffset := 9,
    m_FileName := List.replicate 34 120, m_NamesFileOffset := 9,
    m_NewFileName := List.replicate 34 120, m_NewFileNamesOffset := 9, m_FileReference := 9,
    m_BranchReference := 9, m_Type := 9, m_Flags := 9, m_NameFlags := 9, m_NameOffset := 9,
    m_PinnedID := 9, m_DBName := List.replicate 10 120 }

/-- The db-name `baaaaaaa`, which denotes 1, as the 10 bytes of a name field. -/
def dbName1 : List u08 := [98, 97, 97, 97, 97, 97, 97, 97, 0, 0]

/-- The db-name `caaaaaaa`, which denotes 2, as the 10 bytes of a name field. -/
def dbName2 : List u08 := [99, 97, 97, 97, 97, 97, 97, 97, 0, 0]

/-- The 88 fixed bytes of a log entry with the given opcode (below 256): previous offset 5,
version 3, every other field zero. -/
def logFixedBytes (opcode : u08) : List u08 :=
  [5, 0, 0, 0, opcode, 0, 3, 0] ++ List.replicate 80 0

/-- A CheckedInFile (17) log entry of 356 bytes: difference offset 7 at 88. -/
def logEntry17 : List u08 := logFixedBytes 17 ++ [7, 0, 0, 0] ++ List.replicate 264 0

/-- A SharedFile (14) log entry of 404 bytes: the db-name `baaaaaaa` at payload offset 354
and the db-name `caaaaaaa` at payload offset 394. -/
def logEntry14 : List u08 :=
  logFixedBytes 14 ++ List.replicate 266 0 ++ dbName1 ++ List.replicate 30 0 ++ dbName2

/-- A RenamedFile (11) log entry of 178 bytes: the db-name `baaaaaaa` at payload offset 168. -/
def logEntry11 : List u08 := logFixedBytes 11 ++ List.replicate 80 0 ++ dbName1

/-- A BranchedFile (15) log entry of 148 bytes: the db-names `baaaaaaa` at payload offset
128 and `caaaaaaa` at 138. -/
def logEntry15 : List u08 := logFixedBytes 15 ++ List.replicate 40 0 ++ dbName1 ++ dbName2

/-- An AddedFile (3) log entry of 138 bytes: the db-name `caaaaaaa` at payload offset 128. -/
def logEntry3 : List u08 := logFixedBytes 3 ++ List.replicate 40 0 ++ dbName2

/-- A child object before `Scan`. -/
def child0 : VssScanChild :=
  { m_Type := 9, m_Flags := 9, m_NameFlags := 9, m_Name := List.replicate 34 120,
    m_NameOffset := 9, m_Zero := 9, m_DBName := List.replicate 10 120 }

/-- A child record of 56 bytes: type 2, flags 8, name flags 0, db-name `baaaaaaa`. -/
def childBytes : List u08 := [2, 0, 8, 0, 0, 0] ++ List.replicate 40 0 ++ dbName1

/-- A parent record of 14 bytes: previous offset 6 and the db-name `caaaaaaa`. -/
def parentBytes : List u08 := [6, 0, 0, 0] ++ dbName2

/-- A parent record of 14 bytes whose name is zeroed out. -/
def parentZeroed : List u08 := [6, 0, 0, 0] ++ List.replicate 10 0

/-- A check-out record of 666 bytes: check-out time 4 at offset 32, version 1 at 652, flag
0x40 at 654, every other byte zero. -/
def checkoutBytes : List u08 :=
  List.replicate 32 0 ++ [4, 0, 0, 0] ++ List.replicate 616 0 ++ [1, 0, 0x40, 0]
    ++ List.replicate 10 0

/-- The buffer `infoDH52` with the padding byte at offset 20 set to 1. -/
def infoPadding20 : List u08 := infoDH52.set 20 1

/-- The buffer `infoDH52` with the zero byte at offset 51 set to 1. -/
def infoPadding51 : List u08 := infoDH52.set 51 1

/-- The result of a run that returned. -/
def Run.result {α : Type} : Run α → Option α
  | Run.done a => some a
  | Run.fault => none
  | Run.timeout => none

/-- A node table as `ImportFile` fills it: the size stored with an info buffer is the length
of the buffer, and fits a `u32`. -/
def VssTree.WellFormed (t : VssTree) : Prop :=
  ∀ (i : Nat) (node : VssNode_t) (info : List u08),
    t.m_pNodes[i]? = some node → node.pInfo = some info →
      node.InfoSize = info.length ∧ info.length < 4294967296

/-- A node before and after assembly steps: the buffers are the same, and the type is either
the same or went from 0 to the kind field at offset 32 of the info buffer, which is project
or file. -/
def NodeMarked (n m : VssNode_t) : Prop :=
  m.InfoSize = n.InfoSize ∧ m.pInfo = n.pInfo ∧ m.DataSize = n.DataSize ∧ m.pData = n.pData ∧
  (m.Type_ = n.Type_ ∨
    (n.Type_ = 0 ∧ ∃ info, n.pInfo = some info ∧ m.Type_ = le16 info 32 ∧
      (m.Type_ = VssType_Project ∨ m.Type_ = VssType_File)))

/-- A tree before and after assembly steps: the same table size and node count, and every
node related by `NodeMarked`. -/
def Marked (t u : VssTree) : Prop :=
  u.m_NodeCount = t.m_NodeCount ∧ u.m_pNodes.length = t.m_pNodes.length ∧
  ∀ (i : Nat) (n m : VssNode_t), t.m_pNodes[i]? = some n → u.m_pNodes[i]? = some m →
    NodeMarked n m

/-- The first 140 bytes of an info file: the fixed header with the given kind at offset 32,
then at offset 52 a `DH` chunk of 80 bytes with stored CRC 0 whose first field, at offset 60,
is the given `type2`; every other field of the chunk is 0. -/
def infoHeader (kind type2 : u08) : List u08 :=
  infoDH52.take 32 ++ [kind, 0, 6, 0] ++ List.replicate 16 0
    ++ [80, 0, 0, 0, 0x44, 0x48, 0, 0] ++ [type2, 0] ++ List.replicate 78 0

/-- A 416-byte info buffer: `infoHeader`, then 276 zero bytes, which are the fields that
precede the chunks of a project as well as of a file; no chunk follows. -/
def infoNoChunks (kind type2 : u08) : List u08 := infoHeader kind type2 ++ List.replicate 276 0

/-- A 12-byte chunk with the marker `XX`, which no chunk loop knows, the given stored CRC and
a payload of 4 zero bytes. -/
def chunkXX (crc : u08) : List u08 := [4, 0, 0, 0, 0x58, 0x58, crc, 0, 0, 0, 0, 0]

/-- A 64-byte chunk with the marker of a child record, the given stored CRC and the payload
`childBytes`, which names node 1. -/
def chunkChild (crc : u08) : List u08 := [56, 0, 0, 0, 0x4A, 0x50, crc, 0] ++ childBytes

/-- A node as `ImportFile` leaves it: both buffers present with their sizes, type 0. -/
def nodeOf (info data : List u08) : VssNode_t :=
  { InfoSize := info.length, pInfo := some info, DataSize := data.length, pData := some data,
    Type_ := 0, ParentID := 0 }

/-- A table of 4096 nodes that starts with the given nodes; the others are zeroed, as the
constructor leaves them. -/
def treeOf (nodes : List VssNode_t) : VssTree :=
  { m_NodeCount := nodes.length, m_MaxNodes := 4096,
    m_pNodes := nodes ++ List.replicate (4096 - nodes.length)
      { InfoSize := 0, pInfo := none, DataSize := 0, pData := none, Type_ := 0, ParentID := 0 },
    m_InfoCount := nodes.length, m_DataCount := nodes.length,
    m_MemorySize := (nodes.map (fun n => n.InfoSize + n.DataSize)).sum }

/-- A project whose kind at offset 32 is 1 while the first field of its `DH` chunk is 2; its
data stream is empty. -/
def treeKindAndType2 : VssTree := treeOf [nodeOf (infoNoChunks 1 2) []]

/-- A project, node 0, whose data stream holds one child chunk naming node 1, and a file,
node 1. -/
def treeProjectAndFile : VssTree :=
  treeOf [nodeOf (infoNoChunks 1 1) (chunkChild 0), nodeOf (infoNoChunks 2 2) []]

/-- A file whose info stream holds two chunks after the fixed fields: one with stored CRC 7
and one with stored CRC 0. -/
def treeFileTwoChunks : VssTree :=
  treeOf [nodeOf (infoNoChunks 2 2 ++ chunkXX 7 ++ chunkXX 0) []]

/-- A project, node 0, whose data stream holds a chunk with stored CRC 7 and then a child
chunk naming node 1, and a project with an empty data stream, node 1. -/
def treeDataTwoChunks : VssTree :=
  treeOf [nodeOf (infoNoChunks 1 1) (chunkXX 7 ++ chunkChild 0), nodeOf (infoNoChunks 1 1) []]

/-- The types stored in the first `k` nodes of the table. -/
def VssTree.types (t : VssTree) (k : Nat) : List Nat := (t.m_pNodes.take k).map (fun n => n.Type_)

/-- The return value, the types of the first `k` nodes and the lines printed by a run. -/
def Run.summary (k : Nat) : Run (Bool × VssTree × List Report) →
    Run (Bool × List Nat × List Report)
  | Run.done (b, t, log) => Run.done (b, t.types k, log)
  | Run.fault => Run.fault
  | Run.timeout => Run.timeout

/-- The invariant of the node table: every node whose type is not 0 has an info buffer, and
its type is the kind field at offset 32 of that buffer, which is project or file. -/
def VssTree.KindsFromHeader (t : VssTree) : Prop :=
  ∀ (i : Nat) (node : VssNode_t), t.m_pNodes[i]? = some node → node.Type_ ≠ 0 →
    ∃ info, node.pInfo = some info ∧ node.Type_ = le16 info 32 ∧
      (node.Type_ = VssType_Project ∨ node.Type_ = VssType_File)

/-- A stream of two chunks: `chunkXX 7` at offset 0 and `chunkXX 0` at offset 12. -/
def streamTwoChunks : List u08 := chunkXX 7 ++ chunkXX 0

/-- A stand-in for the recursive call of the data loop: it returns `true` at once. -/
def visitNothing : Nat → VssTree → List Report → Run (Bool × VssTree × List Report) :=
  fun _ t log => Run.done (true, t, log)

/-- Node `i` of the table has no info buffer. -/
def VssTree.isUnallocated (t : VssTree) (i : Nat) : Bool :=
  match t.m_pNodes.get? i with
  | some node => node.pInfo.isNone
  | none => false

/-- Node `i` of the table has an info buffer and its type is still 0. -/
def VssTree.isOrphan (t : VssTree) (i : Nat) : Bool :=
  match t.m_pNodes.get? i with
  | some node => node.pInfo.isSome && decide (node.Type_ = 0)
  | none => false

/-- A table of four nodes: a visited project, an orphan, an unallocated node that only has
a data buffer, and a visited file. -/
def treeWithOrphan : VssTree :=
  { m_NodeCount := 4, m_MaxNodes := 4096,
    m_pNodes :=
      [{ InfoSize := 60, pInfo := some infoDH52, DataSize := 0, pData := some [], Type_ := 1,
         ParentID := 0 },
       { InfoSize := 60, pInfo := some infoDH52, DataSize := 0, pData := some [], Type_ := 0,
         ParentID := 0 },
       { InfoSize := 0, pInfo := none, DataSize := 0, pData := some [], Type_ := 0,
         ParentID := 0 },
       { InfoSize := 60, pInfo := some infoDH48, DataSize := 0, pData := some [], Type_ := 2,
         ParentID := 0 }]
      ++ List.replicate 4092
        { InfoSize := 0, pInfo := none, DataSize := 0, pData := none, Type_ := 0,
          ParentID := 0 },
    m_InfoCount := 3, m_DataCount := 4, m_MemorySize := 180 }

/-- The slot of a node that `ImportFile` addresses: the info buffer or the data buffer. -/
def VssNode_t.slot (node : VssNode_t) (isInfo : Bool) : Option (List u08) :=
  if isInfo then node.pInfo else node.pData

/-- The node after `ImportFile` has stored a buffer and its size in the addressed slot. -/
def VssNode_t.store (node : VssNode_t) (isInfo : Bool) (byteCount : Nat) (pData : List u08) :
    VssNode_t :=
  if isInfo then { node with InfoSize := byteCount, pInfo := some pData }
  else { node with DataSize := byteCount, pData := some pData }

/-- The invariant of the node table between calls of `ImportFile`: a node that holds a
buffer has an identifier below the node count. -/
def VssTree.OccupiedBelowCount (t : VssTree) : Prop :=
  ∀ (i : Nat) (node : VssNode_t), t.m_pNodes[i]? = some node →
    (node.pInfo.isSome ∨ node.pData.isSome) → i < t.m_NodeCount

/-- The node the constructor leaves in every position of the table. -/
def nodeZero : VssNode_t :=
  { InfoSize := 0, pInfo := none, DataSize := 0, pData := none, Type_ := 0, ParentID := 0 }

/-- The result of a chunk loop over an info stream, with the tree put back in. -/
def Run.withTree (t : VssTree) : Run (Bool × List Report) → Run (Bool × VssTree × List Report)
  | Run.done (b, log) => Run.done (b, t, log)
  | Run.fault => Run.fault
  | Run.timeout => Run.timeout

/-- The 416-byte project info buffer `infoNoChunks 1 1` with the low byte of the size field
of its `DH` chunk, at offset 52, set to the given value. -/
def infoSizedDH (size : u08) : List u08 := (infoNoChunks 1 1).set 52 size

/-- A project whose data stream is a single byte. -/
def treeTrailingByte : VssTree := treeOf [nodeOf (infoNoChunks 1 1) [255]]

/-- A data stream of 12 bytes: a chunk header with size 1000, marker `XX` and stored CRC 0,
and 4 bytes of payload. -/
def streamOvershoot : List u08 := [0xE8, 3, 0, 0, 0x58, 0x58, 0, 0, 0, 0, 0, 0]

/-- A project whose data stream is `streamOvershoot`. -/
def treeOvershoot : VssTree := treeOf [nodeOf (infoNoChunks 1 1) streamOvershoot]

/-- A run with its return value replaced by `true`: what a caller sees that does not look at
the return value. -/
def Run.ignoreResult :
    Run (Bool × VssTree × List Report) → Run (Bool × VssTree × List Report)
  | Run.done (_, t, log) => Run.done (true, t, log)
  | Run.fault => Run.fault
  | Run.timeout => Run.timeout

/-- The db-name `daaaaaaa`, which decodes to 3. -/
def dbName3 : List u08 := [100, 97, 97, 97, 97, 97, 97, 97, 0, 0]

/-- A 64-byte child chunk with stored CRC 0 whose record carries the given db-name. -/
def chunkChildOf (dbName : List u08) : List u08 :=
  [56, 0, 0, 0, 0x4A, 0x50, 0, 0] ++ [2, 0, 8, 0, 0, 0] ++ List.replicate 40 0 ++ dbName

/-- The buffer `infoDH52` with the first byte of the magic string set to 0. -/
def infoBadMagic : List u08 := infoDH52.set 0 0

/-- The buffer `infoDH52` with the kind field set to 3. -/
def infoKind3 : List u08 := infoDH52.set 32 3

/-- A project, node 0, with three children: node 1 has a wrong magic string, node 2 the
kind 3, node 3 the version 5. -/
def treeBadChildren : VssTree :=
  treeOf [nodeOf (infoNoChunks 1 1)
      (chunkChildOf dbName1 ++ chunkChildOf dbName2 ++ chunkChildOf dbName3),
    nodeOf infoBadMagic [], nodeOf infoKind3 [], nodeOf infoVersion5 []]

/-- The db-name `aaabaaaa`, which decodes to `26^3 = 17576`. -/
def dbName17576 : List u08 := [97, 97, 97, 98, 97, 97, 97, 97, 0, 0]

/-- A project whose data stream holds one child chunk with an empty db-name. -/
def treeChildUnnamed : VssTree :=
  treeOf [nodeOf (infoNoChunks 1 1) (chunkChildOf (List.replicate 10 0))]

/-- A project whose data stream holds one child chunk with the db-name `aaabaaaa`. -/
def treeChildFar : VssTree := treeOf [nodeOf (infoNoChunks 1 1) (chunkChildOf dbName17576)]

/-- What follows a nested call in the data loop: the run goes on with the tree and the lines
the call left, whatever the call returned. -/
def Run.andThen (r : Run (Bool × VssTree × List Report))
    (next : VssTree → List Report → Run (Bool × VssTree × List Report)) :
    Run (Bool × VssTree × List Report) :=
  match r with
  | Run.done (_, t, log) => next t log
  | Run.fault => Run.fault
  | Run.timeout => Run.timeout

/-- A child chunk with stored CRC 0 whose size field says 46: the header and the first 46
bytes of a child record, which stop short of the db-name. -/
def chunkChildCut : List u08 :=
  [46, 0, 0, 0, 0x4A, 0x50, 0, 0] ++ [2, 0, 8, 0, 0, 0] ++ List.replicate 40 0

/-- A project, node 0, whose data stream is `chunkChildCut` followed by the given 10 bytes,
and two projects, nodes 1 and 2. -/
def treeChildCut (next : List u08) : VssTree :=
  treeOf [nodeOf (infoNoChunks 1 1) (chunkChildCut ++ next), nodeOf (infoNoChunks 1 1) [],
    nodeOf (infoNoChunks 1 1) []]

/-- A node the assembly can visit: both buffers are present and `Scan` accepts the info
buffer. -/
def VssNode_t.Accepted (VssCrc16 : List u08 → Nat → Nat) (node : VssNode_t) : Prop :=
  ∃ info data hdr r, node.pInfo = some info ∧ node.pData = some data ∧
    VssScanHeader.Scan VssCrc16 localHeader (BinaryReader.Initialize info node.InfoSize 0)
      = some (true, hdr, r)

/-- A node the assembly can visit when called with `path`: both buffers are present, `Scan`
accepts the info buffer, the name field of the header holds a NUL, and the path, the
backslash, the name and the NUL fit the 256 bytes of `pathname`. -/
def VssNode_t.Fits (VssCrc16 : List u08 → Nat → Nat) (path : Option (List Nat))
    (node : VssNode_t) : Prop :=
  ∃ info data hdr r pathname, node.pInfo = some info ∧ node.pData = some data ∧
    VssScanHeader.Scan VssCrc16 localHeader (BinaryReader.Initialize info node.InfoSize 0)
      = some (true, hdr, r) ∧
    pathnameOf path hdr.m_Name = some pathname

/-- The invariant of the node table during assembly: every node whose type is not 0 can be
visited. -/
def VssTree.VisitedAccepted (VssCrc16 : List u08 → Nat → Nat) (t : VssTree) : Prop :=
  ∀ (i : Nat) (node : VssNode_t), t.m_pNodes[i]? = some node → node.Type_ ≠ 0 →
    node.Accepted VssCrc16

/-- A tree before and after assembly steps: the table has the same length, a node whose type
was not 0 is the same node afterwards, and a node whose type went from 0 to another value
can be visited. -/
def Settled (VssCrc16 : List u08 → Nat → Nat) (t u : VssTree) : Prop :=
  u.m_pNodes.length = t.m_pNodes.length ∧
  ∀ (i : Nat) (n m : VssNode_t), t.m_pNodes[i]? = some n → u.m_pNodes[i]? = some m →
    (n.Type_ ≠ 0 → m = n) ∧ (n.Type_ = 0 → m.Type_ ≠ 0 → m.Accepted VssCrc16)

/-- The project of `treeProjectAndFile` after its visit, with its child, a project, not yet
visited. -/
def treeVisited : VssTree :=
  treeOf [{ nodeOf (infoNoChunks 1 1) (chunkChild 0) with Type_ := 1 },
    nodeOf (infoNoChunks 1 1) []]

/-- A project of type 1, already visited, whose `DH` chunk has the stored CRC 7 (the low byte
of the CRC field is at offset 58); its data stream is empty. -/
def treeVisitedCrc : VssTree :=
  treeOf [{ nodeOf ((infoNoChunks 1 1).set 58 7) [] with Type_ := 1 }]

/-- Two log entries that agree on what every call of `Scan` stores: the fixed fields, the
file reference and the branch reference. -/
def sameStored (e other : VssScanLogEntry) : Prop :=
  sameFixed e other ∧ other.m_FileReference = e.m_FileReference ∧
  other.m_BranchReference = e.m_BranchReference

/-- The name `vxlrmxna`, which denotes `2^32 - 1`. -/
def name_vxlrmxna : List Nat := [118, 120, 108, 114, 109, 120, 110, 97, 0]

/-- The name `ZzAbCdEf`, of letters in both cases. -/
def name_ZzAbCdEf : List Nat := [90, 122, 65, 98, 67, 100, 69, 102, 0]

/-- The digit a letter stands for in `VssNameToNumber`: its position in the alphabet, in
either case. -/
def letterDigit (c : Nat) : Nat := if 97 ≤ c ∧ c ≤ 122 then c - 97 else c - 65

/-- The number a name of letters denotes in base 26, least significant letter first. -/
def lettersValue : List Nat → Nat
  | [] => 0
  | c :: cs => letterDigit c + 26 * lettersValue cs

/-- A stream of 8 bytes: one chunk header with size `0xFFFFFFF8`, marker `XX` and stored
CRC 0. -/
def streamWrap : List u08 := [0xF8, 0xFF, 0xFF, 0xFF, 0x58, 0x58, 0, 0]

/-- A project whose data stream is `streamWrap`. -/
def treeWrap : VssTree := treeOf [nodeOf (infoNoChunks 1 1) streamWrap]

/-- A difference script of one record, with no halt record after it: opcode 1 (copy), two
unused bytes, offset 0, count 0. -/
def scriptNoHalt : List u08 := [1, 0, 0, 0, 0, 0, 0, 0, 0, 0, 0, 0]

/-- A difference script of two records: opcode 0 (insert) with count 2 and the bytes 7 and 9,
then opcode 2 (halt). -/
def scriptInsertHalt : List u08 :=
  [0, 0, 0, 0, 0, 0, 0, 0, 2, 0, 0, 0, 7, 9, 2, 0, 0, 0, 0, 0, 0, 0, 0, 0, 0, 0]

/-- The parent name field of the info buffer of a project: the 12 bytes at offset 400, after
the 140 bytes `Scan` reads and the 260 bytes of the path. -/
def parentNameField (info : List u08) : List u08 := bytesAt info 400 12

/-- The info buffer holds a parent name field, and its first byte is not NUL. -/
def hasParentName (info : List u08) : Prop :=
  412 ≤ info.length ∧ ((parentNameField info).getD 0 0).val ≠ 0

/-- A 416-byte info buffer of a project with the given db-name (10 bytes) in its parent name
field; no chunk follows the fixed fields. -/
def infoParent (dbName : List u08) : List u08 :=
  infoHeader 1 1 ++ List.replicate 260 0 ++ dbName ++ List.replicate 6 0

/-- The db-name `aaaaaaaa`, which decodes to 0. -/
def dbName0 : List u08 := [97, 97, 97, 97, 97, 97, 97, 97, 0, 0]

/-- A root project, node 0, whose data stream names node 1, and a project, node 1, whose
parent name is `daaaaaaa`, which decodes to 3; the node count is 2. -/
def treeParentFar : VssTree :=
  treeOf [nodeOf (infoNoChunks 1 1) (chunkChildOf dbName1), nodeOf (infoParent dbName3) []]

/-- A single project whose parent name is `aaaaaaaa`, which decodes to 0. -/
def treeParentNear : VssTree := treeOf [nodeOf (infoParent dbName0) []]

/-- The return value of a run and node `i` of the tree it leaves. -/
def Run.nodeAt (i : Nat) (r : Run (Bool × VssTree × List Report)) :
    Option (Bool × Option VssNode_t × Nat) :=
  r.result.map (fun p => (p.1, p.2.1.m_pNodes.get? i, p.2.1.m_NodeCount))

/-- What the file system answers for a file it can open: the byte count is the length of
the buffer, which `ImportFile` allocates as `new u08[byteCount]`, and it is a `u32`. -/
def FileAnswer.Sized : FileAnswer → Prop
  | FileAnswer.cannotOpen => True
  | FileAnswer.opened byteCount _ pData => byteCount = pData.length ∧ byteCount < 4294967296

/-- The states of the tree that can be reached from the constructor through calls of
`ImportFile`, `AssembleDirectoryLinks` and `Free` that return. -/
inductive Reachable (VssCrc16 VssCrc32 : List u08 → Nat → Nat) : VssTree → Prop where
  /-- The state the constructor leaves. -/
  | new : Reachable VssCrc16 VssCrc32 VssTree.new
  /-- After a call of `ImportFile`, whatever it returns. -/
  | importFile (t u : VssTree) (index : Nat) (isInfo : Bool) (file : FileAnswer) (b : Bool) :
      Reachable VssCrc16 VssCrc32 t → file.Sized →
      t.ImportFile index isInfo file = some (b, u) → Reachable VssCrc16 VssCrc32 u
  /-- After a call of `AssembleDirectoryLinks`, whatever it returns. -/
  | assemble (t u : VssTree) (fuel index depth : Nat) (path : Option (List Nat))
      (log out : List Report) (b : Bool) :
      Reachable VssCrc16 VssCrc32 t →
      VssTree.AssembleDirectoryLinks VssCrc16 VssCrc32 fuel index depth path t log
        = Run.done (b, u, out) →
      Reachable VssCrc16 VssCrc32 u
  /-- After a call of `Free`. -/
  | free (t u : VssTree) :
      Reachable VssCrc16 VssCrc32 t → t.Free = some u → Reachable VssCrc16 VssCrc32 u

/-- Every node whose type is not 0 has both its buffers. -/
def VssTree.VisitedHaveBuffers (t : VssTree) : Prop :=
  ∀ (i : Nat) (node : VssNode_t), t.m_pNodes[i]? = some node → node.Type_ ≠ 0 →
    node.pInfo.isSome ∧ node.pData.isSome

/-- Node `i` of the table has a type other than 0. -/
def VssTree.isVisited (t : VssTree) (i : Nat) : Bool :=
  match t.m_pNodes.get? i with
  | some node => decide (node.Type_ ≠ 0)
  | none => false

/-- What the invariants of the reachable states are: the table keeps its 4096 nodes, the
node count stays within it, sizes are the lengths of the info buffers, buffers are held
below the node count only, and visited nodes have both buffers. -/
def VssTree.Sound (t : VssTree) : Prop :=
  t.m_pNodes.length = 4096 ∧ t.m_NodeCount ≤ t.m_pNodes.length ∧ t.WellFormed ∧
  t.OccupiedBelowCount ∧ t.VisitedHaveBuffers

/-- The tree after `ImportFile` has stored the info file `infoNoChunks 1 1` and an empty
data file for node 0 of a new tree. -/
def treeImported : VssTree :=
  { m_NodeCount := 1, m_MaxNodes := 4096,
    m_pNodes := VssTree.new.m_pNodes.set 0 (nodeOf (infoNoChunks 1 1) []),
    m_InfoCount := 1, m_DataCount := 1, m_MemorySize := 416 }

/-- The tree `treeImported` after the visit of node 0, a project. -/
def treeAssembled : VssTree :=
  { treeImported with
    m_pNodes := VssTree.new.m_pNodes.set 0
      { nodeOf (infoNoChunks 1 1) [] with Type_ := VssType_Project } }

/-- The chunks a chunk loop meets from a cursor on: for each one the cursor before its
header, its size field, its marker and the cursor at its payload, as `readChunkHeader` reads
them; the next chunk is looked for where `nextChunk` leaves the cursor. The first argument
bounds the number of chunks. -/
def chunkWalk : Nat → BinaryReader → List (BinaryReader × Nat × Nat × BinaryReader)
  | 0, _ => []
  | fuel + 1, reader =>
    if reader.m_Offset < reader.m_DataSize then
      match readChunkHeader reader with
      | none => []
      | some (chunkSize, chunkID, _, payload) =>
        (reader, chunkSize, chunkID, payload) :: chunkWalk fuel (nextChunk payload chunkSize)
    else []

/-- A chunk with the marker `BF`. -/
def isBranchChunk (c : BinaryReader × Nat × Nat × BinaryReader) : Bool :=
  decide (c.2.2.1 = VssMarker_BranchFile)

/-- A chunk with the marker `PF` whose parent db-name, as `VssScanParent::Scan` reads it at
the payload, decodes to a non-negative identifier. -/
def isParentInUse (c : BinaryReader × Nat × Nat × BinaryReader) : Bool :=
  decide (c.2.2.1 = VssMarker_ParentFolder) &&
    (match VssScanParent.Scan c.2.2.2 with
      | some (parent, _) => decide (parent.m_ParentIndex ≥ 0)
      | none => false)

/-- The number of `BF` chunks among the given chunks. -/
def branchChunks (chunks : List (BinaryReader × Nat × Nat × BinaryReader)) : Nat :=
  (chunks.filter isBranchChunk).length

/-- The number of `PF` chunks in use among the given chunks. -/
def parentChunksInUse (chunks : List (BinaryReader × Nat × Nat × BinaryReader)) : Nat :=
  (chunks.filter isParentInUse).length

/-- The 8 bytes of a chunk header with size 0, marker `BF` and stored CRC 0. -/
def branchHeader : List u08 := [0, 0, 0, 0, 0x42, 0x46, 0, 0]

/-- The info buffer of a file whose fixed fields are all zero, so that its branch count is
0, followed by 65536 chunks that consist of `branchHeader` alone. -/
def infoManyBranches : List u08 :=
  infoNoChunks 2 2 ++ (List.range 524288).map (fun i => branchHeader.getD (i % 8) 0)

/-- The info buffer of a file whose fixed fields are all zero, followed by one chunk that
consists of `branchHeader` alone. -/
def infoOneBranch : List u08 := infoNoChunks 2 2 ++ branchHeader

/-- Lines 617-624 of `AssembleDirectoryLinks` applied to what the chunk loop of a file left:
the `return false` of the loop is passed on, and after the end of the loop the two counters
are compared with the counts of the fixed fields. -/
def Run.fileEnd (branchCount parentCount : Nat) :
    Run (Bool × Nat × Nat × List Report) → Run (Bool × List Report)
  | Run.fault => Run.fault
  | Run.timeout => Run.timeout
  | Run.done (false, _, _, log) => Run.done (false, log)
  | Run.done (true, branchNum, parentNum, log) =>
    Run.done (true,
      log
      ++ (if branchNum ≠ branchCount then [Report.branchCountMismatch branchCount branchNum]
        else [])
      ++ (if parentCount ≠ parentNum then [Report.parentCountMismatch parentCount parentNum]
        else []))

/-- What follows the first branch of `AssembleDirectoryLinks` for a project: its `return
false` ends the call, and after its end the run goes on with `next`, the chunk loop over the
data stream. -/
def Run.whenTrue (r : Run (Bool × VssTree × List Report))
    (next : VssTree → List Report → Run (Bool × VssTree × List Report)) :
    Run (Bool × VssTree × List Report) :=
  match r with
  | Run.fault => Run.fault
  | Run.timeout => Run.timeout
  | Run.done (false, t, log) => Run.done (false, t, log)
  | Run.done (true, t, log) => next t log

/-- A stream of 4 bytes, the size field `0xFFFFFFFC` of a chunk header that is cut off after
it. -/
def streamWrapShort : List u08 := [0xFC, 0xFF, 0xFF, 0xFF]

/-- A stream of 6 bytes: the size field 0 and the marker `BF` of a chunk header that is cut
off before its stored CRC. -/
def streamBranchShort : List u08 := [0, 0, 0, 0, 0x42, 0x46]

/-- A file whose info stream holds two chunks after the fixed fields: one with stored CRC 0,
which is not tested, and one with stored CRC 7. -/
def treeFileSecondChunk : VssTree :=
  treeOf [nodeOf (infoNoChunks 2 2 ++ chunkXX 0 ++ chunkXX 7) []]

/-- A project whose info stream holds two chunks after the fixed fields: one with stored CRC
0, which is not tested, and one with stored CRC 7; its data stream is empty. -/
def treeProjectSecondChunk : VssTree :=
  treeOf [nodeOf (infoNoChunks 1 1 ++ chunkXX 0 ++ chunkXX 7) []]

/-- A project, node 0, whose data stream holds the child chunk of node 1, then a chunk with
stored CRC 7, then the child chunk of node 2; nodes 1 and 2 are projects with an empty data
stream. -/
def treeDataSecondChunk : VssTree :=
  treeOf [nodeOf (infoNoChunks 1 1) (chunkChildOf dbName1 ++ chunkXX 7 ++ chunkChildOf dbName2),
    nodeOf (infoNoChunks 1 1) [], nodeOf (infoNoChunks 1 1) []]

/-- Without overflow, one pass of the decoding loop is a Horner step. -/
theorem nameStep_small (num : Int) (d : Nat) (h0 : 0 ≤ num) (h1 : num * 26 + d < 2147483648) :
    nameStep num d = num * 26 + d := by
  unfold nameStep toS32 toU32
  omega

/-- One decoding pass rebuilds `q` from its quotient and remainder by 26. -/
theorem nameStep_horner (q : Nat) (hq : q < 2147483648) :
    nameStep ((q / 26 : Nat) : Int) (q % 26) = (q : Int) := by
  rw [nameStep_small _ _ (by omega) (by omega)]
  omega

/-- In general, one pass of the decoding loop is a Horner step modulo `2^32`. -/
theorem nameStep_wrap (x : Int) (d : Nat) : nameStep (toS32 x) d = toS32 (x * 26 + d) := by
  unfold nameStep toS32 toU32
  omega

/-- A character written by the encoder is a lower-case letter. -/
theorem encoded_lower (x : Nat) : 97 ≤ 97 + x % 26 ∧ 97 + x % 26 ≤ 122 := by omega

/-- A buffer of at least nine characters, taken apart. -/
theorem buffer_nine (buf : List Nat) (hb : 9 ≤ buf.length) :
    ∃ c0 c1 c2 c3 c4 c5 c6 c7 c8 rest,
      buf = c0 :: c1 :: c2 :: c3 :: c4 :: c5 :: c6 :: c7 :: c8 :: rest := by
  match buf, hb with
  | c0 :: c1 :: c2 :: c3 :: c4 :: c5 :: c6 :: c7 :: c8 :: rest, _ =>
    exact ⟨_, _, _, _, _, _, _, _, _, _, rfl⟩

/-- What `VssNumberToName` leaves in a buffer of at least nine characters. -/
theorem VssNumberToName_cons (n c0 c1 c2 c3 c4 c5 c6 c7 c8 : Nat) (rest : List Nat)
    (hn : n < 4294967296) :
    VssNumberToName n (c0 :: c1 :: c2 :: c3 :: c4 :: c5 :: c6 :: c7 :: c8 :: rest) =
      (97 + n % 26) :: (97 + n / 26 % 26) :: (97 + n / 26 / 26 % 26)
        :: (97 + n / 26 / 26 / 26 % 26) :: (97 + n / 26 / 26 / 26 / 26 % 26)
        :: (97 + n / 26 / 26 / 26 / 26 / 26 % 26)
        :: (97 + n / 26 / 26 / 26 / 26 / 26 / 26 % 26)
        :: (97 + n / 26 / 26 / 26 / 26 / 26 / 26 / 26 % 26) :: 0 :: rest := by
  have h32 : n % 4294967296 = n := Nat.mod_eq_of_lt hn
  simp only [VssNumberToName, numberToNameLoop, List.set, h32]

/-- The decoding loop returns `-1` as soon as one of the positions below `n` holds a
character that is not a letter, whatever was accumulated. -/
theorem nameToNumberLoop_nonletter (name : List Nat) :
    ∀ (n : Nat) (num : Int), n ≤ name.length →
      (∃ k c, k < n ∧ name[k]? = some c ∧ ¬ isAsciiLetter c) →
      nameToNumberLoop name n num = some (-1) := by
  intro n
  induction n with
  | zero =>
    intro num _ h
    obtain ⟨k, c, hk, _, _⟩ := h
    omega
  | succ i ih =>
    intro num hlen h
    obtain ⟨k, c, hk, hc, hbad⟩ := h
    have hi : i < name.length := by omega
    unfold nameToNumberLoop
    rw [List.getElem?_eq_getElem hi]
    simp only
    by_cases hki : k = i
    · subst hki
      rw [List.getElem?_eq_getElem hi] at hc
      have hcc : name[k] = c := by simpa using hc
      rw [hcc]
      unfold isAsciiLetter at hbad
      have h1 : ¬ (97 ≤ c ∧ c ≤ 122) := fun h => hbad (Or.inl h)
      have h2 : ¬ (65 ≤ c ∧ c ≤ 90) := fun h => hbad (Or.inr h)
      rw [if_neg h1, if_neg h2]
    · have hrec : ∀ num, nameToNumberLoop name i num = some (-1) := fun num =>
        ih num (by omega) ⟨k, c, by omega, hc, hbad⟩
      split
      · exact hrec _
      · split
        · exact hrec _
        · rfl

/-- Decoding the name written for an identifier below `2^31` returns the identifier. -/
theorem decode_encode_below_2_pow_31 (i : Nat) (hi : i < 2147483648) (buf : List Nat)
    (hb : 9 ≤ buf.length) :
    VssNameToNumber (VssNumberToName i buf) = some (i : Int) := by
  obtain ⟨c0, c1, c2, c3, c4, c5, c6, c7, c8, rest, rfl⟩ := buffer_nine buf hb
  rw [VssNumberToName_cons _ _ _ _ _ _ _ _ _ _ _ (by omega)]
  simp only [VssNameToNumber, nameToNumberLoop, List.getElem?_cons_succ,
    List.getElem?_cons_zero, encoded_lower, and_self, if_true, Nat.add_sub_cancel_left]
  have h0 : (0 : Int) = ((i / 26 / 26 / 26 / 26 / 26 / 26 / 26 / 26 : Nat) : Int) := by omega
  rw [h0, nameStep_horner _ (by omega), nameStep_horner _ (by omega),
    nameStep_horner _ (by omega), nameStep_horner _ (by omega), nameStep_horner _ (by omega),
    nameStep_horner _ (by omega), nameStep_horner _ (by omega), nameStep_horner _ (by omega)]

/-! ## Name codec: the claims -/

/-- C1, counterexample: the identifier `2^31` lies below `26^8`, and decoding the name that
`VssNumberToName` writes for it returns `-2^31`, not `2^31`. -/
theorem C1_roundtrip_fails_at_2_pow_31 :
    (2147483648 : Nat) < 26 ^ 8 ∧
    VssNameToNumber (VssNumberToName 2147483648 (List.replicate 9 0)) = some (-2147483648) ∧
    VssNameToNumber (VssNumberToName 2147483648 (List.replicate 9 0))
      ≠ some ((2147483648 : Nat) : Int) := by
  decide

/-- C1, amended: for every identifier `i` with `0 ≤ i < 2^31`, `VssNameToNumber` applied to
the name written by `VssNumberToName i` into any buffer of at least nine characters
returns `i`. -/
theorem C1_roundtrip_below_2_pow_31 (i : Nat) (hi : i < 2147483648) (buf : List Nat)
    (hb : 9 ≤ buf.length) :
    VssNameToNumber (VssNumberToName i buf) = some (i : Int) :=
  decode_encode_below_2_pow_31 i hi buf hb

/-- C1, witness: the identifier 12345 and a buffer of nine NUL characters. -/
theorem C1_roundtrip_below_2_pow_31_witness :
    12345 < 2147483648 ∧ 9 ≤ (List.replicate 9 0).length ∧
    VssNameToNumber (VssNumberToName 12345 (List.replicate 9 0)) = some ((12345 : Nat) : Int) :=
  ⟨by decide, by decide,
    C1_roundtrip_below_2_pow_31 12345 (by decide) (List.replicate 9 0) (by decide)⟩

/-- C2: for every name buffer of at least 8 characters in which one of the positions 0..7
is not an ASCII letter, `VssNameToNumber` returns `-1`; it does so already on the first 8
characters alone, so it performs no read it could fail on and none beyond position 7. -/
theorem C2_nonletter_decodes_to_minus_one (name : List Nat) (hlen : 8 ≤ name.length)
    (hbad : ∃ k c, k < 8 ∧ name[k]? = some c ∧ ¬ isAsciiLetter c) :
    VssNameToNumber name = some (-1) ∧ VssNameToNumber (name.take 8) = some (-1) := by
  constructor
  · exact nameToNumberLoop_nonletter name 8 0 hlen hbad
  · apply nameToNumberLoop_nonletter (name.take 8) 8 0
    · simp [List.length_take]
      omega
    · obtain ⟨k, c, hk, hc, hb⟩ := hbad
      refine ⟨k, c, hk, ?_, hb⟩
      rw [List.getElem?_take_of_lt hk]
      exact hc

/-- C2, witness: the empty string in a buffer of eight NUL characters. -/
theorem C2_nonletter_decodes_to_minus_one_witness :
    8 ≤ [0, 0, 0, 0, 0, 0, 0, 0].length ∧
    (∃ k c, k < 8 ∧ [0, 0, 0, 0, 0, 0, 0, 0][k]? = some c ∧ ¬ isAsciiLetter c) ∧
    VssNameToNumber [0, 0, 0, 0, 0, 0, 0, 0] = some (-1) ∧
    VssNameToNumber (List.take 8 [0, 0, 0, 0, 0, 0, 0, 0]) = some (-1) :=
  ⟨by decide, ⟨0, 0, by decide, rfl, by unfold isAsciiLetter; omega⟩,
    C2_nonletter_decodes_to_minus_one [0, 0, 0, 0, 0, 0, 0, 0] (by decide)
      ⟨0, 0, by decide, rfl, by unfold isAsciiLetter; omega⟩⟩

/-- C3: for every 32-bit number `n` and every buffer of at least nine characters,
`VssNumberToName` stores `'a' + ((n / 26^k) mod 26)` at index `k` for `k = 0..7` (a letter in
`'a'..'z'`, least significant base-26 digit at index 0), stores NUL at index 8, and leaves
the rest of the buffer as it was. -/
theorem C3_encode_digits (n : Nat) (hn : n < 4294967296) (buf : List Nat)
    (hb : 9 ≤ buf.length) :
    (∀ k, k < 8 → (VssNumberToName n buf)[k]? = some (97 + n / 26 ^ k % 26)) ∧
    (∀ k, k < 8 → ∃ c, (VssNumberToName n buf)[k]? = some c ∧ 97 ≤ c ∧ c ≤ 122) ∧
    (VssNumberToName n buf)[8]? = some 0 ∧
    (VssNumberToName n buf).length = buf.length ∧
    (VssNumberToName n buf).drop 9 = buf.drop 9 := by
  obtain ⟨c0, c1, c2, c3, c4, c5, c6, c7, c8, rest, rfl⟩ := buffer_nine buf hb
  rw [VssNumberToName_cons _ _ _ _ _ _ _ _ _ _ _ hn]
  have hdigits : ∀ k, k < 8 →
      ((97 + n % 26) :: (97 + n / 26 % 26) :: (97 + n / 26 / 26 % 26)
        :: (97 + n / 26 / 26 / 26 % 26) :: (97 + n / 26 / 26 / 26 / 26 % 26)
        :: (97 + n / 26 / 26 / 26 / 26 / 26 % 26)
        :: (97 + n / 26 / 26 / 26 / 26 / 26 / 26 % 26)
        :: (97 + n / 26 / 26 / 26 / 26 / 26 / 26 / 26 % 26) :: 0 :: rest)[k]?
        = some (97 + n / 26 ^ k % 26) := by
    intro k hk
    interval_cases k <;>
      simp only [List.getElem?_cons_succ, List.getElem?_cons_zero, Nat.div_div_eq_div_mul,
        Nat.reducePow, Nat.reduceMul, Nat.div_one]
  refine ⟨hdigits, ?_, ?_, ?_, ?_⟩
  · intro k hk
    refine ⟨_, hdigits k hk, ?_, ?_⟩ <;> omega
  · simp only [List.getElem?_cons_succ, List.getElem?_cons_zero]
  · simp only [List.length_cons]
  · simp only [List.drop_succ_cons, List.drop_zero]

/-- C3, witness: the number 12345 and a buffer of nine NUL characters. -/
theorem C3_encode_digits_witness :
    12345 < 4294967296 ∧ 9 ≤ (List.replicate 9 0).length ∧
    (∀ k, k < 8 →
      (VssNumberToName 12345 (List.replicate 9 0))[k]? = some (97 + 12345 / 26 ^ k % 26)) ∧
    (∀ k, k < 8 →
      ∃ c, (VssNumberToName 12345 (List.replicate 9 0))[k]? = some c ∧ 97 ≤ c ∧ c ≤ 122) ∧
    (VssNumberToName 12345 (List.replicate 9 0))[8]? = some 0 ∧
    (VssNumberToName 12345 (List.replicate 9 0)).length = (List.replicate 9 0).length ∧
    (VssNumberToName 12345 (List.replicate 9 0)).drop 9 = (List.replicate 9 0).drop 9 :=
  ⟨by decide, by decide, C3_encode_digits 12345 (by decide) (List.replicate 9 0) (by decide)⟩

/-- A buffer of at least eight characters, taken apart. -/
theorem buffer_eight (buf : List Nat) (hb : 8 ≤ buf.length) :
    ∃ c0 c1 c2 c3 c4 c5 c6 c7 rest,
      buf = c0 :: c1 :: c2 :: c3 :: c4 :: c5 :: c6 :: c7 :: rest := by
  match buf, hb with
  | c0 :: c1 :: c2 :: c3 :: c4 :: c5 :: c6 :: c7 :: rest, _ =>
    exact ⟨_, _, _, _, _, _, _, _, _, rfl⟩

/-- Decoding a lower-case name yields its base-26 value wrapped to a 32-bit `int`. -/
theorem VssNameToNumber_lower (name : List Nat) (hlen : 8 ≤ name.length)
    (hlow : ∀ c ∈ name.take 8, isLower c) :
    VssNameToNumber name = some (toS32 (nameValue (name.take 8))) := by
  obtain ⟨c0, c1, c2, c3, c4, c5, c6, c7, rest, rfl⟩ := buffer_eight name hlen
  simp only [List.take_succ_cons, List.take_zero, List.mem_cons, List.mem_singleton, isLower,
    forall_eq_or_imp, forall_eq, List.not_mem_nil, false_implies, implies_true, and_true]
    at hlow
  obtain ⟨h0, h1, h2, h3, h4, h5, h6, h7⟩ := hlow
  simp only [VssNameToNumber, nameToNumberLoop, List.getElem?_cons_succ,
    List.getElem?_cons_zero, h0, h1, h2, h3, h4, h5, h6, h7, and_self, if_true,
    List.take_succ_cons, List.take_zero, nameValue]
  have e7 : nameStep 0 (c7 - 97) = toS32 ((c7 - 97 : Nat) : Int) := by
    unfold nameStep toS32 toU32
    omega
  rw [e7, nameStep_wrap, nameStep_wrap, nameStep_wrap, nameStep_wrap, nameStep_wrap,
    nameStep_wrap, nameStep_wrap]
  refine congrArg some (congrArg toS32 ?_)
  push_cast
  ring

/-- Converting the wrapped `int` back to `u32` recovers a value below `2^32`. -/
theorem intToU32_toS32 (v : Nat) (hv : v < 4294967296) : intToU32 (toS32 (v : Int)) = v := by
  unfold intToU32 toU32 toS32
  omega

/-- Encoding the base-26 value of a lower-case name writes that name back. -/
theorem VssNumberToName_nameValue (name : List Nat) (hlen : 8 ≤ name.length)
    (hlow : ∀ c ∈ name.take 8, isLower c) (hval : nameValue (name.take 8) < 4294967296)
    (buf : List Nat) (hb : 9 ≤ buf.length) :
    (VssNumberToName (nameValue (name.take 8)) buf).take 9 = name.take 8 ++ [0] := by
  obtain ⟨c0, c1, c2, c3, c4, c5, c6, c7, rest, rfl⟩ := buffer_eight name hlen
  obtain ⟨b0, b1, b2, b3, b4, b5, b6, b7, b8, brest, rfl⟩ := buffer_nine buf hb
  rw [VssNumberToName_cons _ _ _ _ _ _ _ _ _ _ _ hval]
  simp only [List.take_succ_cons, List.take_zero, List.mem_cons, List.mem_singleton, isLower,
    forall_eq_or_imp, forall_eq, List.not_mem_nil, false_implies, implies_true, and_true]
    at hlow
  obtain ⟨h0, h1, h2, h3, h4, h5, h6, h7⟩ := hlow
  simp only [List.take_succ_cons, List.take_zero, nameValue, List.cons_append,
    List.nil_append, List.cons.injEq, and_true]
  refine ⟨?_, ?_, ?_, ?_, ?_, ?_, ?_, ?_⟩ <;> omega

/-- C4, counterexample: `zzzzzzzz` decodes to `-1626332929` and encoding that number does
not give `zzzzzzzz` back; the distinct lower-case names `aaaaaaaa` and `wxlrmxna` decode to
the same integer. -/
theorem C4_bijection_fails :
    (∀ c ∈ name_zzzzzzzz.take 8, isLower c) ∧
    VssNameToNumber name_zzzzzzzz = some (-1626332929) ∧
    VssNumberToName (intToU32 (-1626332929)) name_zzzzzzzz ≠ name_zzzzzzzz ∧
    (∀ c ∈ name_aaaaaaaa.take 8, isLower c) ∧
    (∀ c ∈ name_wxlrmxna.take 8, isLower c) ∧
    name_aaaaaaaa.take 8 ≠ name_wxlrmxna.take 8 ∧
    VssNameToNumber name_aaaaaaaa = VssNameToNumber name_wxlrmxna := by
  decide

/-- C4, amended: for every name of 8 ASCII lower-case letters whose base-26 value is below
`2^32`, `VssNumberToName` applied to the result of `VssNameToNumber` writes the same 8 letters
and a NUL, so two distinct such names never decode to the same integer. -/
theorem C4_decode_encode_below_2_pow_32 (name : List Nat) (hlen : 8 ≤ name.length)
    (hlow : ∀ c ∈ name.take 8, isLower c) (hval : nameValue (name.take 8) < 4294967296) :
    (∃ v, VssNameToNumber name = some v ∧
      ∀ buf : List Nat, 9 ≤ buf.length →
        (VssNumberToName (intToU32 v) buf).take 9 = name.take 8 ++ [0]) ∧
    (∀ other : List Nat, 8 ≤ other.length → (∀ c ∈ other.take 8, isLower c) →
      nameValue (other.take 8) < 4294967296 →
      VssNameToNumber other = VssNameToNumber name → other.take 8 = name.take 8) := by
  constructor
  · refine ⟨_, VssNameToNumber_lower name hlen hlow, ?_⟩
    intro buf hb
    rw [intToU32_toS32 _ hval]
    exact VssNumberToName_nameValue name hlen hlow hval buf hb
  · intro other holen holow hoval heq
    rw [VssNameToNumber_lower name hlen hlow, VssNameToNumber_lower other holen holow] at heq
    have hv : intToU32 (toS32 (nameValue (other.take 8) : Int))
        = intToU32 (toS32 (nameValue (name.take 8) : Int)) := by
      rw [Option.some.inj heq]
    rw [intToU32_toS32 _ hval, intToU32_toS32 _ hoval] at hv
    have h1 := VssNumberToName_nameValue name hlen hlow hval (List.replicate 9 0) (by decide)
    have h2 := VssNumberToName_nameValue other holen holow hoval (List.replicate 9 0)
      (by decide)
    rw [hv, h1] at h2
    exact (List.append_cancel_right h2).symm

/-- C4, witness: the name `aaaaaaaa`. -/
theorem C4_decode_encode_below_2_pow_32_witness :
    8 ≤ name_aaaaaaaa.length ∧ (∀ c ∈ name_aaaaaaaa.take 8, isLower c) ∧
    nameValue (name_aaaaaaaa.take 8) < 4294967296 ∧
    (∃ v, VssNameToNumber name_aaaaaaaa = some v ∧
      ∀ buf : List Nat, 9 ≤ buf.length →
        (VssNumberToName (intToU32 v) buf).take 9 = name_aaaaaaaa.take 8 ++ [0]) ∧
    (∀ other : List Nat, 8 ≤ other.length → (∀ c ∈ other.take 8, isLower c) →
      nameValue (other.take 8) < 4294967296 →
      VssNameToNumber other = VssNameToNumber name_aaaaaaaa →
      other.take 8 = name_aaaaaaaa.take 8) :=
  ⟨by decide, by decide, by decide,
    C4_decode_encode_below_2_pow_32 name_aaaaaaaa (by decide) (by decide) (by decide)⟩

/-- Switching case maps a lower-case letter to the upper-case one with the same digit, an
upper-case letter to the lower-case one, and changes nothing else. -/
theorem switchCase_cases (c : Nat) :
    ((97 ≤ c ∧ c ≤ 122) ∧ switchCase c = c - 32) ∨
    ((65 ≤ c ∧ c ≤ 90) ∧ switchCase c = c + 32) ∨
    (¬ (97 ≤ c ∧ c ≤ 122) ∧ ¬ (65 ≤ c ∧ c ≤ 90) ∧ switchCase c = c) := by
  unfold switchCase
  by_cases h1 : 97 ≤ c ∧ c ≤ 122
  · left
    exact ⟨h1, if_pos h1⟩
  · by_cases h2 : 65 ≤ c ∧ c ≤ 90
    · right
      left
      refine ⟨h2, ?_⟩
      rw [if_neg h1, if_pos h2]
    · right
      right
      refine ⟨h1, h2, ?_⟩
      rw [if_neg h1, if_neg h2]

/-- The character at each position after switching the case of the selected positions. -/
theorem getElem?_switchCaseFrom (sel : Nat → Bool) :
    ∀ (l : List Nat) (i k : Nat),
      (switchCaseFrom sel i l)[k]? =
        (l[k]?).map (fun c => if sel (i + k) then switchCase c else c) := by
  intro l
  induction l with
  | nil =>
    intro i k
    simp [switchCaseFrom]
  | cons c cs ih =>
    intro i k
    cases k with
    | zero => simp [switchCaseFrom]
    | succ k =>
      simp only [switchCaseFrom, List.getElem?_cons_succ]
      rw [ih (i + 1) k]
      have : i + 1 + k = i + (k + 1) := by omega
      rw [this]

/-- The decoding loop does not see the case of the letters. -/
theorem nameToNumberLoop_switchCase (name other : List Nat)
    (h : ∀ k : Nat, other[k]? = name[k]? ∨ other[k]? = (name[k]?).map switchCase) :
    ∀ (n : Nat) (num : Int), nameToNumberLoop other n num = nameToNumberLoop name n num := by
  intro n
  induction n with
  | zero =>
    intro num
    rfl
  | succ i ih =>
    intro num
    unfold nameToNumberLoop
    rcases h i with hsame | hsw
    · rw [hsame]
      cases name[i]? with
      | none => rfl
      | some c => simp only [ih]
    · rw [hsw]
      cases name[i]? with
      | none => rfl
      | some c =>
        simp only [Option.map_some', ih]
        rcases switchCase_cases c with ⟨hc, e⟩ | ⟨hc, e⟩ | ⟨h1, h2, e⟩
        · have n1 : ¬ (97 ≤ c - 32 ∧ c - 32 ≤ 122) := by omega
          have p2 : 65 ≤ c - 32 ∧ c - 32 ≤ 90 := by omega
          have ed : c - 32 - 65 = c - 97 := by omega
          rw [e, if_neg n1, if_pos p2, if_pos hc, ed]
        · have p1 : 97 ≤ c + 32 ∧ c + 32 ≤ 122 := by omega
          have n1 : ¬ (97 ≤ c ∧ c ≤ 122) := by omega
          have ed : c + 32 - 97 = c - 65 := by omega
          rw [e, if_pos p1, if_neg n1, if_pos hc, ed]
        · rw [e]

/-- C5: `VssNameToNumber` returns the same result after the case of the letters at any set
of positions of the name is switched. -/
theorem C5_decode_case_insensitive (name : List Nat) (sel : Nat → Bool) :
    VssNameToNumber (switchCaseFrom sel 0 name) = VssNameToNumber name := by
  apply nameToNumberLoop_switchCase
  intro k
  rw [getElem?_switchCaseFrom]
  cases name[k]? with
  | none => left; rfl
  | some c =>
    cases sel (0 + k) with
    | false => left; rfl
    | true => right; rfl

/-! ## Byte cursor: auxiliary facts -/

/-- Two bytes combined with shift and or are their little-endian value. -/
theorem or16_eq (a b : Nat) (ha : a < 256) (hb : b < 256) :
    (a ||| (b <<< 8)) % 65536 = a + 256 * b := by
  have h1 : b <<< 8 = 2 ^ 8 * b := by rw [Nat.shiftLeft_eq, Nat.mul_comm]
  have h2 : 2 ^ 8 * b + a = 2 ^ 8 * b ||| a := Nat.mul_add_lt_is_or (by omega) b
  rw [h1, Nat.or_comm, ← h2]
  omega

/-- Four bytes combined with shifts and ors are their little-endian value. -/
theorem or32_eq (a b c d : Nat) (ha : a < 256) (hb : b < 256) (hc : c < 256) (hd : d < 256) :
    a ||| (b <<< 8) % 4294967296 ||| (c <<< 16) % 4294967296 ||| (d <<< 24) % 4294967296
      = a + 2 ^ 8 * b + 2 ^ 16 * c + 2 ^ 24 * d := by
  have hb1 : (b <<< 8) % 4294967296 = 2 ^ 8 * b := by
    rw [Nat.shiftLeft_eq, Nat.mul_comm]
    omega
  have hc1 : (c <<< 16) % 4294967296 = 2 ^ 16 * c := by
    rw [Nat.shiftLeft_eq, Nat.mul_comm]
    omega
  have hd1 : (d <<< 24) % 4294967296 = 2 ^ 24 * d := by
    rw [Nat.shiftLeft_eq, Nat.mul_comm]
    omega
  have e1 : 2 ^ 8 * b + a = 2 ^ 8 * b ||| a := Nat.mul_add_lt_is_or (by omega) b
  have e2 : 2 ^ 16 * c + (2 ^ 8 * b + a) = 2 ^ 16 * c ||| (2 ^ 8 * b + a) :=
    Nat.mul_add_lt_is_or (by omega) c
  have e3 : 2 ^ 24 * d + (2 ^ 16 * c + (2 ^ 8 * b + a))
      = 2 ^ 24 * d ||| (2 ^ 16 * c + (2 ^ 8 * b + a)) :=
    Nat.mul_add_lt_is_or (by omega) d
  rw [hb1, hc1, hd1, Nat.or_comm a, ← e1, Nat.or_comm (2 ^ 8 * b + a), ← e2,
    Nat.or_comm (2 ^ 16 * c + (2 ^ 8 * b + a)), ← e3]
  omega

/-- Fetching a byte that is in the buffer. -/
theorem fetch_some (data : List u08) (size off : Nat) (b : u08) (hlt : off + 1 < 4294967296)
    (hb : data[off]? = some b) :
    BinaryReader.fetch ⟨data, size, off⟩ = some (b.val, ⟨data, size, off + 1⟩) := by
  unfold BinaryReader.fetch
  simp only [hb]
  rw [Nat.mod_eq_of_lt hlt]

/-- `Read16` when both bytes are in the buffer. -/
theorem Read16_some (data : List u08) (size off : Nat) (b0 b1 : u08)
    (hsize : size = data.length) (h32 : size < 4294967296)
    (h0 : data[off]? = some b0) (h1 : data[off + 1]? = some b1) :
    BinaryReader.Read16 ⟨data, size, off⟩
      = some (b0.val + 256 * b1.val, ⟨data, size, off + 2⟩) := by
  have hlen : off + 1 < data.length := (List.getElem?_eq_some_iff.mp h1).1
  unfold BinaryReader.Read16
  have hc : ¬ ((off + 2) % 4294967296 > size) := by
    rw [Nat.mod_eq_of_lt (by omega)]
    omega
  simp only [hc, if_false]
  rw [fetch_some data size off b0 (by omega) h0]
  simp only
  rw [fetch_some data size (off + 1) b1 (by omega) h1]
  simp only
  rw [or16_eq _ _ b0.isLt b1.isLt]

/-- `Read32` when all four bytes are in the buffer. -/
theorem Read32_some (data : List u08) (size off : Nat) (b0 b1 b2 b3 : u08)
    (hsize : size = data.length) (h32 : size < 4294967296)
    (h0 : data[off]? = some b0) (h1 : data[off + 1]? = some b1)
    (h2 : data[off + 2]? = some b2) (h3 : data[off + 3]? = some b3) :
    BinaryReader.Read32 ⟨data, size, off⟩
      = some (b0.val + 2 ^ 8 * b1.val + 2 ^ 16 * b2.val + 2 ^ 24 * b3.val,
          ⟨data, size, off + 4⟩) := by
  have hlen : off + 3 < data.length := (List.getElem?_eq_some_iff.mp h3).1
  unfold BinaryReader.Read32
  have hc : ¬ ((off + 2) % 4294967296 > size) := by
    rw [Nat.mod_eq_of_lt (by omega)]
    omega
  simp only [hc, if_false]
  rw [fetch_some data size off b0 (by omega) h0]
  simp only
  rw [fetch_some data size (off + 1) b1 (by omega) h1]
  simp only
  rw [fetch_some data size (off + 2) b2 (by omega) h2]
  simp only
  rw [fetch_some data size (off + 3) b3 (by omega) h3]
  simp only
  rw [or32_eq _ _ _ _ b0.isLt b1.isLt b2.isLt b3.isLt]

/-- The copy loop of `ReadData` when the range it reads lies in the buffer. -/
theorem copyLoop_in_bounds (data : List u08) (offset : Nat) (h32 : data.length < 4294967296) :
    ∀ (fuel i : Nat), i + offset + fuel ≤ data.length →
      BinaryReader.copyLoop data offset fuel i = some ((data.drop (i + offset)).take fuel) := by
  intro fuel
  induction fuel with
  | zero =>
    intro i _
    simp [BinaryReader.copyLoop]
  | succ fuel ih =>
    intro i hle
    have hlt : i + offset < data.length := by omega
    unfold BinaryReader.copyLoop
    rw [Nat.mod_eq_of_lt (by omega), List.getElem?_eq_getElem hlt]
    simp only
    rw [ih (i + 1) (by omega), List.drop_eq_getElem_cons hlt, List.take_succ_cons]
    have e : i + 1 + offset = i + offset + 1 := by omega
    rw [e]

/-- `ReadData` does what is expected of it whenever `m_Offset + byteCount` does not exceed
the range of a `u32`. -/
theorem ReadData_without_wrap (r : BinaryReader) (hwf : r.WellFormed) (n : Nat)
    (hsum : r.m_Offset + n < 4294967296) :
    (r.m_Offset + n ≤ r.m_DataSize →
      r.ReadData n = some (true, (r.m_pData.drop r.m_Offset).take n,
        { r with m_Offset := r.m_Offset + n })) ∧
    (r.m_DataSize < r.m_Offset + n →
      r.ReadData n = some (false, List.replicate n 0, { r with m_Offset := r.m_DataSize })) := by
  obtain ⟨hsize, h32, _⟩ := hwf
  constructor
  · intro hle
    unfold BinaryReader.ReadData
    have hc : ¬ ((r.m_Offset + n) % 4294967296 > r.m_DataSize) := by
      rw [Nat.mod_eq_of_lt hsum]
      omega
    simp only [hc, if_false]
    rw [copyLoop_in_bounds r.m_pData r.m_Offset (by omega) n 0 (by omega)]
    simp only [Nat.zero_add, Nat.mod_eq_of_lt hsum]
  · intro hlt
    unfold BinaryReader.ReadData
    have hc : (r.m_Offset + n) % 4294967296 > r.m_DataSize := by
      rw [Nat.mod_eq_of_lt hsum]
      omega
    simp only [hc, if_true]

/-- `Read32` returns 0 and moves to the end when 0 or 1 bytes remain. -/
theorem Read32_at_most_one_byte (r : BinaryReader)
    (hrem : r.m_DataSize < r.m_Offset + 2) (h32 : r.m_Offset + 2 < 4294967296) :
    r.Read32 = some (0, { r with m_Offset := r.m_DataSize }) := by
  unfold BinaryReader.Read32
  have hc : (r.m_Offset + 2) % 4294967296 > r.m_DataSize := by
    rw [Nat.mod_eq_of_lt h32]
    omega
  simp only [hc, if_true]

/-! ## Byte cursor: the claims -/

/-- C6, at the failing inputs: with exactly 2 or exactly 3 bytes remaining the guard
`(m_Offset + 2) > m_DataSize` of `Read32` does not fire and the function reads `m_pData` at
an index that is not below the data size, where the claim asks for the result 0 with the
offset at the data size. -/
theorem C6_Read32_reads_past_the_end :
    BinaryReader.WellFormed ⟨[1, 2], 2, 0⟩ ∧
    BinaryReader.Read32 ⟨[1, 2], 2, 0⟩ = none ∧
    BinaryReader.Read32 ⟨[1, 2], 2, 0⟩ ≠ some (0, ⟨[1, 2], 2, 2⟩) ∧
    BinaryReader.WellFormed ⟨[1, 2, 3], 3, 0⟩ ∧
    BinaryReader.Read32 ⟨[1, 2, 3], 3, 0⟩ = none ∧
    BinaryReader.Read32 ⟨[1, 2, 3], 3, 0⟩ ≠ some (0, ⟨[1, 2, 3], 3, 3⟩) := by
  decide

/-- C7: on a well-formed reader, when the bytes `b0, b1` are the next two of the buffer,
`Read16` returns `b0 + 256*b1` and advances the offset by 2; when `b0, b1, b2, b3` are the
next four, `Read32` returns `b0 + 2^8*b1 + 2^16*b2 + 2^24*b3` and advances the offset by 4. -/
theorem C7_little_endian (r : BinaryReader) (hwf : r.WellFormed) :
    (∀ b0 b1 : u08, r.m_pData[r.m_Offset]? = some b0 → r.m_pData[r.m_Offset + 1]? = some b1 →
      r.Read16 = some (b0.val + 256 * b1.val, { r with m_Offset := r.m_Offset + 2 })) ∧
    (∀ b0 b1 b2 b3 : u08, r.m_pData[r.m_Offset]? = some b0 →
      r.m_pData[r.m_Offset + 1]? = some b1 → r.m_pData[r.m_Offset + 2]? = some b2 →
      r.m_pData[r.m_Offset + 3]? = some b3 →
      r.Read32 = some (b0.val + 2 ^ 8 * b1.val + 2 ^ 16 * b2.val + 2 ^ 24 * b3.val,
        { r with m_Offset := r.m_Offset + 4 })) := by
  obtain ⟨hsize, h32, _⟩ := hwf
  constructor
  · intro b0 b1 h0 h1
    exact Read16_some r.m_pData r.m_DataSize r.m_Offset b0 b1 hsize h32 h0 h1
  · intro b0 b1 b2 b3 h0 h1 h2 h3
    exact Read32_some r.m_pData r.m_DataSize r.m_Offset b0 b1 b2 b3 hsize h32 h0 h1 h2 h3

/-- C7, witness: a reader at offset 1 of the five bytes 9, 1, 2, 3, 4. -/
theorem C7_little_endian_witness :
    BinaryReader.WellFormed ⟨[9, 1, 2, 3, 4], 5, 1⟩ ∧
    BinaryReader.Read16 ⟨[9, 1, 2, 3, 4], 5, 1⟩ = some (513, ⟨[9, 1, 2, 3, 4], 5, 3⟩) ∧
    BinaryReader.Read32 ⟨[9, 1, 2, 3, 4], 5, 1⟩ = some (67305985, ⟨[9, 1, 2, 3, 4], 5, 5⟩) :=
  ⟨by decide,
    (C7_little_endian ⟨[9, 1, 2, 3, 4], 5, 1⟩ (by decide)).1 1 2 rfl rfl,
    (C7_little_endian ⟨[9, 1, 2, 3, 4], 5, 1⟩ (by decide)).2 1 2 3 4 rfl rfl rfl rfl⟩

/-- C8, at the failing input: the buffer is the chunk header `FF FF FF FF 4D 43 00 00`
(size `0xFFFFFFFF`, marker `MC`, stored CRC 0), the reader stands at its end and `byteCount`
is `0xFFFFFFFF`. No byte remains, so the claim asks for a zero-filled output, the offset at
the data size and the result `false`; the sum `m_Offset + byteCount` wraps to 7, the guard
does not fire, and the copy loop reads `m_pData[8]`, outside the buffer. -/
theorem C8_ReadData_wraps_and_reads_past_the_end :
    BinaryReader.WellFormed ⟨[255, 255, 255, 255, 77, 67, 0, 0], 8, 8⟩ ∧
    (4294967295 : Nat) < 4294967296 ∧
    (8 + 4294967295) % 4294967296 = 7 ∧
    BinaryReader.ReadData ⟨[255, 255, 255, 255, 77, 67, 0, 0], 8, 8⟩ 4294967295 = none ∧
    BinaryReader.ReadData ⟨[255, 255, 255, 255, 77, 67, 0, 0], 8, 8⟩ 4294967295
      ≠ some (false, List.replicate 4294967295 0, ⟨[255, 255, 255, 255, 77, 67, 0, 0], 8, 8⟩) := by
  refine ⟨by decide, by decide, by decide, by decide, ?_⟩
  have h : BinaryReader.ReadData ⟨[255, 255, 255, 255, 77, 67, 0, 0], 8, 8⟩ 4294967295 = none := by
    decide
  rw [h]
  exact fun e => Option.noConfusion e

/-! ## Info-file header: auxiliary facts -/

/-- The byte accessor at an index where the buffer holds `b`. -/
theorem byteAt_of_getElem? (data : List u08) (k : Nat) (b : u08) (h : data[k]? = some b) :
    byteAt data k = b.val := by
  unfold byteAt
  rw [List.getD_eq_getElem?_getD, h]
  rfl

/-- `Read16` at the end of the buffer returns 0 and stays there. -/
theorem Read16_at_end (data : List u08) (size : Nat) (hsize : size = data.length)
    (v : Nat) (r : BinaryReader)
    (h : BinaryReader.Read16 ⟨data, size, size⟩ = some (v, r)) :
    v = 0 ∧ r = ⟨data, size, size⟩ := by
  unfold BinaryReader.Read16 at h
  split at h
  · simp only [Option.some.injEq, Prod.mk.injEq] at h
    exact ⟨h.1.symm, h.2.symm⟩
  · have hn : data[size]? = none := List.getElem?_eq_none (by omega)
    simp only [BinaryReader.fetch, hn] at h
    exact absurd h (by simp)

/-- `Read32` at the end of the buffer returns 0 and stays there. -/
theorem Read32_at_end (data : List u08) (size : Nat) (hsize : size = data.length)
    (v : Nat) (r : BinaryReader)
    (h : BinaryReader.Read32 ⟨data, size, size⟩ = some (v, r)) :
    v = 0 ∧ r = ⟨data, size, size⟩ := by
  unfold BinaryReader.Read32 at h
  split at h
  · simp only [Option.some.injEq, Prod.mk.injEq] at h
    exact ⟨h.1.symm, h.2.symm⟩
  · have hn : data[size]? = none := List.getElem?_eq_none (by omega)
    simp only [BinaryReader.fetch, hn] at h
    exact absurd h (by simp)

/-- The outcomes of `Read16`: either fewer than 2 bytes remain, the result is 0 and the
reader is at the end, or the result is the little-endian value and the offset advanced. -/
theorem Read16_cases (data : List u08) (size off : Nat) (hsize : size = data.length)
    (h32 : size < 4294967296) (hoff : off ≤ size) (v : Nat) (r : BinaryReader)
    (h : BinaryReader.Read16 ⟨data, size, off⟩ = some (v, r)) :
    (size < off + 2 ∧ v = 0 ∧ r = ⟨data, size, size⟩) ∨
    (off + 2 ≤ size ∧ v = le16 data off ∧ r = ⟨data, size, off + 2⟩) := by
  by_cases hle : off + 2 ≤ size
  · right
    have h0 : data[off]? = some data[off] := List.getElem?_eq_getElem (by omega)
    have h1 : data[off + 1]? = some data[off + 1] := List.getElem?_eq_getElem (by omega)
    rw [Read16_some data size off _ _ hsize h32 h0 h1] at h
    simp only [Option.some.injEq, Prod.mk.injEq] at h
    refine ⟨hle, ?_, h.2.symm⟩
    unfold le16
    rw [byteAt_of_getElem? data off _ h0, byteAt_of_getElem? data (off + 1) _ h1]
    exact h.1.symm
  · left
    refine ⟨by omega, ?_⟩
    by_cases hend : off = size
    · subst hend
      exact Read16_at_end data off hsize v r h
    · have hoff1 : off + 1 = size := by omega
      unfold BinaryReader.Read16 at h
      have hc : (off + 2) % 4294967296 > size ∨ ¬ ((off + 2) % 4294967296 > size) := by omega
      rcases hc with hc | hc
      · simp only [hc, if_true, Option.some.injEq, Prod.mk.injEq] at h
        exact ⟨h.1.symm, h.2.symm⟩
      · exfalso
        simp only [hc, if_false] at h
        have h0 : data[off]? = some data[off] := List.getElem?_eq_getElem (by omega)
        have hn : data[off + 1]? = none := List.getElem?_eq_none (by omega)
        have hm : (off + 1) % 4294967296 = off + 1 := Nat.mod_eq_of_lt (by omega)
        simp only [BinaryReader.fetch, h0, hm, hn] at h
        exact absurd h (by simp)

/-- Fetching a byte that is not in the buffer. -/
theorem fetch_none (data : List u08) (size off : Nat) (hb : data[off]? = none) :
    BinaryReader.fetch ⟨data, size, off⟩ = none := by
  unfold BinaryReader.fetch
  simp only [hb]

/-- With exactly 2 or 3 bytes remaining `Read32` reads outside the buffer. -/
theorem Read32_two_or_three_bytes (data : List u08) (size off : Nat)
    (hsize : size = data.length) (h32 : size < 4294967296)
    (hlo : off + 2 ≤ size) (hhi : size < off + 4) :
    BinaryReader.Read32 ⟨data, size, off⟩ = none := by
  have h0 : data[off]? = some data[off] := List.getElem?_eq_getElem (by omega)
  have h1 : data[off + 1]? = some data[off + 1] := List.getElem?_eq_getElem (by omega)
  unfold BinaryReader.Read32
  have hc : ¬ ((off + 2) % 4294967296 > size) := by
    rw [Nat.mod_eq_of_lt (by omega)]
    omega
  simp only [hc, if_false]
  rw [fetch_some data size off _ (by omega) h0]
  simp only
  rw [fetch_some data size (off + 1) _ (by omega) h1]
  simp only
  by_cases h2 : off + 2 < size
  · have h2s : data[off + 2]? = some data[off + 2] := List.getElem?_eq_getElem (by omega)
    have h3n : data[off + 3]? = none := List.getElem?_eq_none (by omega)
    rw [fetch_some data size (off + 2) _ (by omega) h2s]
    simp only
    rw [fetch_none data size (off + 3) h3n]
  · have h2n : data[off + 2]? = none := List.getElem?_eq_none (by omega)
    rw [fetch_none data size (off + 2) h2n]

/-- The outcomes of `Read32` that are not a read outside the buffer: either the result is 0
and the reader is at the end, or the result is the little-endian value and the offset
advanced by 4. -/
theorem Read32_cases (data : List u08) (size off : Nat) (hsize : size = data.length)
    (h32 : size < 4294967296) (hoff : off ≤ size) (v : Nat) (r : BinaryReader)
    (h : BinaryReader.Read32 ⟨data, size, off⟩ = some (v, r)) :
    (v = 0 ∧ r = ⟨data, size, size⟩) ∨
    (off + 4 ≤ size ∧ v = le32 data off ∧ r = ⟨data, size, off + 4⟩) := by
  by_cases hle : off + 4 ≤ size
  · right
    have h0 : data[off]? = some data[off] := List.getElem?_eq_getElem (by omega)
    have h1 : data[off + 1]? = some data[off + 1] := List.getElem?_eq_getElem (by omega)
    have h2 : data[off + 2]? = some data[off + 2] := List.getElem?_eq_getElem (by omega)
    have h3 : data[off + 3]? = some data[off + 3] := List.getElem?_eq_getElem (by omega)
    rw [Read32_some data size off _ _ _ _ hsize h32 h0 h1 h2 h3] at h
    simp only [Option.some.injEq, Prod.mk.injEq] at h
    refine ⟨hle, ?_, h.2.symm⟩
    unfold le32
    rw [byteAt_of_getElem? data off _ h0, byteAt_of_getElem? data (off + 1) _ h1,
      byteAt_of_getElem? data (off + 2) _ h2, byteAt_of_getElem? data (off + 3) _ h3]
    exact h.1.symm
  · left
    by_cases hlo : off + 2 ≤ size
    · rw [Read32_two_or_three_bytes data size off hsize h32 hlo (by omega)] at h
      exact absurd h (by simp)
    · by_cases hend : off = size
      · subst hend
        exact Read32_at_end data off hsize v r h
      · have hoff1 : off + 1 = size := by omega
        unfold BinaryReader.Read32 at h
        have hc : (off + 2) % 4294967296 > size ∨ ¬ ((off + 2) % 4294967296 > size) := by
          omega
        rcases hc with hc | hc
        · simp only [hc, if_true, Option.some.injEq, Prod.mk.injEq] at h
          exact ⟨h.1.symm, h.2.symm⟩
        · exfalso
          simp only [hc, if_false] at h
          have h0 : data[off]? = some data[off] := List.getElem?_eq_getElem (by omega)
          have hn : data[off + 1]? = none := List.getElem?_eq_none (by omega)
          rw [fetch_some data size off _ (by omega) h0] at h
          simp only at h
          rw [fetch_none data size (off + 1) hn] at h
          exact absurd h (by simp)

/-- The zero-reading loop at the end of the buffer stays at the end. -/
theorem readZeros32_at_end (data : List u08) (size : Nat) (hsize : size = data.length) :
    ∀ (n : Nat) (b : Bool) (r : BinaryReader),
      readZeros32 n ⟨data, size, size⟩ = some (b, r) → r = ⟨data, size, size⟩ := by
  intro n
  induction n with
  | zero =>
    intro b r h
    simp only [readZeros32, Option.some.injEq, Prod.mk.injEq] at h
    exact h.2.symm
  | succ n ih =>
    intro b r h
    unfold readZeros32 at h
    split at h
    · exact absurd h (by simp)
    · rename_i v r1 hr
      obtain ⟨_, hr1⟩ := Read32_at_end data size hsize v r1 hr
      subst hr1
      split at h
      · simp only [Option.some.injEq, Prod.mk.injEq] at h
        exact h.2.symm
      · exact ih b r h

/-- The zero-reading loop, when it does not return early: either the reader ends at the
end of the buffer, or all `4 * n` bytes were in the buffer, were zero, and the offset
advanced past them. -/
theorem readZeros32_true (data : List u08) (size : Nat) (hsize : size = data.length)
    (h32 : size < 4294967296) :
    ∀ (n off : Nat) (r : BinaryReader), off ≤ size →
      readZeros32 n ⟨data, size, off⟩ = some (true, r) →
      r = ⟨data, size, size⟩ ∨
      (off + 4 * n ≤ size ∧ r = ⟨data, size, off + 4 * n⟩ ∧
        ∀ j, off ≤ j → j < off + 4 * n → byteAt data j = 0) := by
  intro n
  induction n with
  | zero =>
    intro off r _ h
    simp only [readZeros32, Option.some.injEq, Prod.mk.injEq, true_and] at h
    right
    refine ⟨by omega, h.symm, ?_⟩
    intro j h1 h2
    omega
  | succ n ih =>
    intro off r hoff h
    unfold readZeros32 at h
    split at h
    · exact absurd h (by simp)
    · rename_i v r1 hr
      split at h
      · simp at h
      · rename_i hv
        have hv0 : v = 0 := by omega
        rcases Read32_cases data size off hsize h32 hoff v r1 hr with
          ⟨_, hr1⟩ | ⟨hle, hval, hr1⟩
        · subst hr1
          left
          exact readZeros32_at_end data size hsize n true r h
        · subst hr1
          rcases ih (off + 4) r (by omega) h with hend | ⟨hle2, hr, hz⟩
          · left
            exact hend
          · right
            refine ⟨by omega, ?_, ?_⟩
            · rw [hr]
              congr 1
              omega
            · intro j h1 h2
              by_cases hj : off + 4 ≤ j
              · exact hz j hj (by omega)
              · rw [hv0] at hval
                unfold le32 at hval
                have hj4 : j = off ∨ j = off + 1 ∨ j = off + 2 ∨ j = off + 3 := by omega
                rcases hj4 with e | e | e | e <;> subst e <;> omega

/-- When the comparison loop of `TestBytes` answers `true`, every byte it was asked to
compare was present on both sides and equal. -/
theorem testBytesLoop_true (bytes data : List u08) (offset : Nat) :
    ∀ (fuel i : Nat), BinaryReader.testBytesLoop bytes data offset fuel i = some true →
      ∀ j, i ≤ j → j < i + fuel →
        ∃ x, bytes[j]? = some x ∧ data[(j + offset) % 4294967296]? = some x := by
  intro fuel
  induction fuel with
  | zero =>
    intro i _ j h1 h2
    omega
  | succ fuel ih =>
    intro i h j h1 h2
    unfold BinaryReader.testBytesLoop at h
    split at h
    · rename_i x y hx hy
      split at h
      · exact absurd h (by simp)
      · rename_i hxy
        have hxy2 : x = y := by
          by_contra hne
          exact hxy hne
        by_cases hj : j = i
        · subst hj
          exact ⟨x, hx, by rw [hy, hxy2]⟩
        · exact ih (i + 1) h j (by omega) (by omega)
    · exact absurd h (by simp)

/-- When `TestBytes` accepts the magic string at offset 0, the buffer holds at least 20
bytes and starts with the 20 characters of the string. -/
theorem TestBytes_magic (data : List u08) (size : Nat)
    (h : BinaryReader.TestBytes ⟨data, size, 0⟩ infoMagic 20 = some true) :
    20 ≤ size ∧ data.take 20 = infoMagic.take 20 := by
  unfold BinaryReader.TestBytes at h
  split at h
  · exact absurd h (by simp)
  · rename_i hc
    simp only [Nat.zero_add, Nat.reduceMod, gt_iff_lt, not_lt] at hc
    refine ⟨hc, ?_⟩
    apply List.ext_getElem?
    intro n
    by_cases hn : n < 20
    · rw [List.getElem?_take_of_lt hn, List.getElem?_take_of_lt hn]
      obtain ⟨x, hx, hy⟩ := testBytesLoop_true infoMagic data 0 20 0 h n (by omega) (by omega)
      rw [Nat.add_zero, Nat.mod_eq_of_lt (by omega)] at hy
      rw [hx, hy]
    · rw [List.getElem?_take_eq_none (by omega), List.getElem?_take_eq_none (by omega)]

/-- The payload part of `Scan` does not change `m_Type`. -/
theorem scanDataHeader_type (self hdr : VssScanHeader) (reader r : BinaryReader) (b : Bool)
    (h : VssScanHeader.scanDataHeader self reader = some (b, hdr, r)) :
    hdr.m_Type = self.m_Type := by
  unfold VssScanHeader.scanDataHeader at h
  repeat (split at h; · exact absurd h (by simp))
  simp only [Option.some.injEq, Prod.mk.injEq] at h
  rw [← h.2.1]

/-- When the CRC test of `Scan` lets a chunk with a non-zero stored CRC pass, the computed
CRC equals the stored one. -/
theorem crcMismatch_false (VssCrc16 : List u08 → Nat → Nat) (reader : BinaryReader)
    (crc chunkSize : Nat) (h : crcMismatch VssCrc16 reader crc chunkSize = some false)
    (hcrc : crc ≠ 0) :
    reader.ComputeCRC VssCrc16 chunkSize = some crc := by
  unfold crcMismatch at h
  have h0 : 0 ≠ crc := fun e => hcrc e.symm
  rw [if_pos h0] at h
  split at h
  · exact absurd h (by simp)
  · rename_i computed hcomp
    simp only [Option.some.injEq, decide_eq_false_iff_not, ne_eq, not_not] at h
    rw [hcomp, h]

/-- `Initialize` with the buffer length and offset 0. -/
theorem Initialize_zero (data : List u08) :
    BinaryReader.Initialize data data.length 0 = ⟨data, data.length, 0⟩ := by
  unfold BinaryReader.Initialize
  by_cases h : 0 < data.length
  · rw [if_pos h]
  · rw [if_neg h]
    congr 1
    omega

/-- `Skip(20)` at offset 0 of a buffer of at least 20 bytes. -/
theorem Skip_twenty (data : List u08) (size : Nat) (h20 : 20 ≤ size) :
    (BinaryReader.Skip ⟨data, size, 0⟩ 20).2 = ⟨data, size, 20⟩ := by
  unfold BinaryReader.Skip
  have hc : ¬ ((20 + 0) % 4294967296 > size) := by omega
  simp only [hc, if_false]

/-- Everything `Scan` has checked when it returns `true` on a buffer read from offset 0: the
magic string, the 12 zero bytes, the kind at offset 32, the version at offset 34, the 16 zero
bytes at offsets 36..51, and the chunk header at offset 52 (size), 56 (marker) and 58 (stored
CRC). -/
theorem Scan_accept_layout (VssCrc16 : List u08 → Nat → Nat) (self hdr : VssScanHeader)
    (data : List u08) (r : BinaryReader) (h32 : data.length < 4294967296)
    (h : VssScanHeader.Scan VssCrc16 self (BinaryReader.Initialize data data.length 0)
      = some (true, hdr, r)) :
    data.take 20 = infoMagic.take 20 ∧ 58 ≤ data.length ∧
    (∀ j, 20 ≤ j → j < 32 → byteAt data j = 0) ∧
    hdr.m_Type = le16 data 32 ∧
    (le16 data 32 = VssType_Project ∨ le16 data 32 = VssType_File) ∧
    le16 data 34 = 6 ∧
    (∀ j, 36 ≤ j → j < 52 → byteAt data j = 0) ∧
    le16 data 56 = VssMarker_DataHeader ∧
    (60 ≤ data.length → le16 data 58 ≠ 0 →
      BinaryReader.ComputeCRC VssCrc16 ⟨data, data.length, 60⟩ (le32 data 52)
        = some (le16 data 58)) := by
  rw [Initialize_zero] at h
  unfold VssScanHeader.Scan at h
  split at h
  · exact absurd h (by simp)
  · exact absurd h (by simp)
  rename_i hT
  obtain ⟨h20, hmagic⟩ := TestBytes_magic data data.length hT
  simp only [Skip_twenty data data.length h20] at h
  split at h
  · exact absurd h (by simp)
  · exact absurd h (by simp)
  rename_i r1 hz3
  split at h
  · exact absurd h (by simp)
  rename_i type r2 hty
  split at h
  · exact absurd h (by simp)
  rename_i htype
  split at h
  · exact absurd h (by simp)
  rename_i version r3 hver
  split at h
  · exact absurd h (by simp)
  rename_i hversion
  split at h
  · exact absurd h (by simp)
  · exact absurd h (by simp)
  rename_i r4 hz4
  split at h
  · exact absurd h (by simp)
  rename_i chunkSize r5 hcs
  split at h
  · exact absurd h (by simp)
  rename_i marker r6 hmk
  split at h
  · exact absurd h (by simp)
  rename_i crc r7 hcr
  split at h
  · exact absurd h (by simp)
  · exact absurd h (by simp)
  rename_i hmis
  split at h
  · exact absurd h (by simp)
  rename_i hmarker
  have hT2 : hdr.m_Type = type := scanDataHeader_type _ _ _ _ _ h
  have htype2 : type = 2 ∨ type = 1 := by
    unfold VssType_File VssType_Project at htype
    omega
  have hversion2 : version = 6 := by omega
  have hmarker2 : marker = 18500 := by
    unfold VssMarker_DataHeader at hmarker
    omega
  rcases readZeros32_true data _ rfl h32 3 20 r1 h20 hz3 with e | ⟨hle32, e, hzA⟩
  · subst e
    obtain ⟨hv, _⟩ := Read16_at_end data _ rfl _ _ hty
    omega
  subst e
  rcases Read16_cases data _ 32 rfl h32 hle32 _ _ hty with ⟨_, hv, _⟩ | ⟨hle34, htv, e⟩
  · omega
  subst e
  rcases Read16_cases data _ 34 rfl h32 hle34 _ _ hver with ⟨_, hv, _⟩ | ⟨hle36, hvv, e⟩
  · omega
  subst e
  rcases readZeros32_true data _ rfl h32 4 36 r4 hle36 hz4 with e | ⟨hle52, e, hzB⟩
  · subst e
    obtain ⟨_, e5⟩ := Read32_at_end data _ rfl _ _ hcs
    subst e5
    obtain ⟨hv, _⟩ := Read16_at_end data _ rfl _ _ hmk
    omega
  subst e
  rcases Read32_cases data _ 52 rfl h32 hle52 _ _ hcs with ⟨_, e⟩ | ⟨hle56, hcsv, e⟩
  · subst e
    obtain ⟨hv, _⟩ := Read16_at_end data _ rfl _ _ hmk
    omega
  subst e
  rcases Read16_cases data _ 56 rfl h32 hle56 _ _ hmk with ⟨_, hv, _⟩ | ⟨hle58, hmv, e⟩
  · omega
  subst e
  refine ⟨hmagic, hle58, ?_, ?_, ?_, ?_, ?_, ?_, ?_⟩
  · intro j h1 h2
    exact hzA j h1 (by omega)
  · rw [hT2, htv]
  · unfold VssType_Project VssType_File
    omega
  · omega
  · intro j h1 h2
    exact hzB j h1 (by omega)
  · unfold VssMarker_DataHeader
    omega
  · intro h60 hne
    rcases Read16_cases data _ 58 rfl h32 hle58 _ _ hcr with ⟨hlt, _, _⟩ | ⟨_, hcv, e⟩
    · omega
    · subst e
      rw [← hcv, ← hcsv]
      exact crcMismatch_false VssCrc16 _ crc chunkSize hmis (by omega)

/-- The comparison loop of `TestBytes` gives an answer when both ranges are in their
buffers. -/
theorem testBytesLoop_some (bytes data : List u08) (offset : Nat)
    (h32 : data.length < 4294967296) :
    ∀ (fuel i : Nat), i + fuel ≤ bytes.length → i + fuel + offset ≤ data.length →
      ∃ b, BinaryReader.testBytesLoop bytes data offset fuel i = some b := by
  intro fuel
  induction fuel with
  | zero =>
    intro i _ _
    exact ⟨true, rfl⟩
  | succ fuel ih =>
    intro i hb hd
    unfold BinaryReader.testBytesLoop
    have e1 : bytes[i]? = some bytes[i] := List.getElem?_eq_getElem (by omega)
    have e2 : data[(i + offset) % 4294967296]? = some data[i + offset] := by
      rw [Nat.mod_eq_of_lt (by omega)]
      exact List.getElem?_eq_getElem (by omega)
    rw [e1, e2]
    simp only
    split
    · exact ⟨false, rfl⟩
    · exact ih (i + 1) (by omega) (by omega)

/-- The zero-reading loop gives an answer when the bytes it reads are in the buffer, and
when it does not return early the offset has advanced past them. -/
theorem readZeros32_some (data : List u08) (size : Nat) (hsize : size = data.length)
    (h32 : size < 4294967296) :
    ∀ (n off : Nat), off + 4 * n ≤ size →
      (∃ r, readZeros32 n ⟨data, size, off⟩ = some (false, r)) ∨
      readZeros32 n ⟨data, size, off⟩ = some (true, ⟨data, size, off + 4 * n⟩) := by
  intro n
  induction n with
  | zero =>
    intro off _
    right
    rfl
  | succ n ih =>
    intro off hle
    have h0 : data[off]? = some data[off] := List.getElem?_eq_getElem (by omega)
    have h1 : data[off + 1]? = some data[off + 1] := List.getElem?_eq_getElem (by omega)
    have h2 : data[off + 2]? = some data[off + 2] := List.getElem?_eq_getElem (by omega)
    have h3 : data[off + 3]? = some data[off + 3] := List.getElem?_eq_getElem (by omega)
    unfold readZeros32
    rw [Read32_some data size off _ _ _ _ hsize h32 h0 h1 h2 h3]
    simp only
    split
    · left
      exact ⟨_, rfl⟩
    · rcases ih (off + 4) (by omega) with hf | ht
      · left
        exact hf
      · right
        rw [ht]
        have e : off + 4 + 4 * n = off + 4 * (n + 1) := by omega
        rw [e]

/-- `Scan` returns `false` on every buffer of at least 36 bytes whose version field is
not 6. -/
theorem Scan_other_version (VssCrc16 : List u08 → Nat → Nat) (self : VssScanHeader)
    (data : List u08) (h32 : data.length < 4294967296) (h36 : 36 ≤ data.length)
    (hv : le16 data 34 ≠ 6) :
    ∃ hdr r, VssScanHeader.Scan VssCrc16 self (BinaryReader.Initialize data data.length 0)
      = some (false, hdr, r) := by
  rw [Initialize_zero]
  unfold VssScanHeader.Scan
  have hT : ∃ b, BinaryReader.TestBytes ⟨data, data.length, 0⟩ infoMagic 20 = some b := by
    unfold BinaryReader.TestBytes
    have hc : ¬ ((0 + 20) % 4294967296 > data.length) := by omega
    simp only [hc, if_false]
    exact testBytesLoop_some infoMagic data 0 h32 20 0 (by decide) (by omega)
  obtain ⟨b, hb⟩ := hT
  rw [hb]
  cases b with
  | false => exact ⟨_, _, rfl⟩
  | true =>
    simp only [Skip_twenty data data.length (by omega)]
    rcases readZeros32_some data data.length rfl h32 3 20 (by omega) with ⟨r1, hz⟩ | hz
    · rw [hz]
      exact ⟨_, _, rfl⟩
    · rw [hz]
      simp only
      have e32 : data[32]? = some data[32] := List.getElem?_eq_getElem (by omega)
      have e33 : data[32 + 1]? = some data[32 + 1] := List.getElem?_eq_getElem (by omega)
      have e34 : data[34]? = some data[34] := List.getElem?_eq_getElem (by omega)
      have e35 : data[34 + 1]? = some data[34 + 1] := List.getElem?_eq_getElem (by omega)
      rw [Read16_some data data.length 32 _ _ rfl h32 e32 e33]
      simp only
      split
      · exact ⟨_, _, rfl⟩
      · rw [Read16_some data data.length 34 _ _ rfl h32 e34 e35]
        simp only
        have hver : 6 ≠ (data[34]).val + 256 * (data[34 + 1]).val := by
          unfold le16 at hv
          rw [byteAt_of_getElem? data 34 _ e34, byteAt_of_getElem? data (34 + 1) _ e35] at hv
          exact fun e => hv e.symm
        rw [if_pos hver]
        exact ⟨_, _, rfl⟩

/-! ## Info-file header: the claims -/

/-- C9: on an info buffer read from offset 0, `Scan` returns `true` only if the buffer
begins with the 20 bytes of `"SourceSafe@Microsoft"`, the u16 kind field after the 12 padding
bytes (offset 32) is 1 or 2, the next u16 (the version, offset 34) is 6 and the marker of the
first chunk is `DH` (0x4844); `m_Type` then equals the kind field. In particular `Scan`
returns `false` on every buffer whose version field is not 6. -/
theorem C9_Scan_accepts_only_valid_headers (VssCrc16 : List u08 → Nat → Nat)
    (self : VssScanHeader) (data : List u08) (h32 : data.length < 4294967296) :
    (∀ hdr r, VssScanHeader.Scan VssCrc16 self (BinaryReader.Initialize data data.length 0)
        = some (true, hdr, r) →
      data.take 20 = infoMagic.take 20 ∧
      (le16 data 32 = VssType_Project ∨ le16 data 32 = VssType_File) ∧
      le16 data 34 = 6 ∧
      le16 data 56 = VssMarker_DataHeader ∧
      hdr.m_Type = le16 data 32) ∧
    (36 ≤ data.length → le16 data 34 ≠ 6 →
      ∃ hdr r, VssScanHeader.Scan VssCrc16 self (BinaryReader.Initialize data data.length 0)
        = some (false, hdr, r)) := by
  constructor
  · intro hdr r h
    obtain ⟨hmagic, _, _, htype, hkind, hver, _, hmarker, _⟩ :=
      Scan_accept_layout VssCrc16 self hdr data r h32 h
    exact ⟨hmagic, hkind, hver, hmarker, htype⟩
  · intro h36 hv
    exact Scan_other_version VssCrc16 self data h32 h36 hv

/-- C9, witness: `Scan` accepts the buffer `infoDH52`, and returns `false` on the same
buffer with version 5. -/
theorem C9_Scan_accepts_only_valid_headers_witness :
    infoDH52.length < 4294967296 ∧
    VssScanHeader.Scan crcZero header0 (BinaryReader.Initialize infoDH52 infoDH52.length 0)
      = some (true, headerDH52, ⟨infoDH52, 60, 60⟩) ∧
    (infoDH52.take 20 = infoMagic.take 20 ∧
      (le16 infoDH52 32 = VssType_Project ∨ le16 infoDH52 32 = VssType_File) ∧
      le16 infoDH52 34 = 6 ∧
      le16 infoDH52 56 = VssMarker_DataHeader ∧
      headerDH52.m_Type = le16 infoDH52 32) ∧
    infoVersion5.length < 4294967296 ∧ 36 ≤ infoVersion5.length ∧ le16 infoVersion5 34 ≠ 6 ∧
    (∃ hdr r,
      VssScanHeader.Scan crcZero header0
        (BinaryReader.Initialize infoVersion5 infoVersion5.length 0) = some (false, hdr, r)) :=
  ⟨by decide, by decide,
    (C9_Scan_accepts_only_valid_headers crcZero header0 infoDH52 (by decide)).1
      headerDH52 ⟨infoDH52, 60, 60⟩ (by decide),
    by decide, by decide, by decide,
    (C9_Scan_accepts_only_valid_headers crcZero header0 infoVersion5 (by decide)).2
      (by decide) (by decide)⟩

/-- C10, counterexample: `Scan` accepts `infoDH52`, whose bytes at offset 48 + 4 are not the
`DH` marker, and returns `false` on `infoDH48`, which carries a `DH` chunk header (size 4,
marker `DH`, stored CRC 0) at offset 48. -/
theorem C10_chunk_header_is_not_at_48 :
    VssScanHeader.Scan crcZero header0 (BinaryReader.Initialize infoDH52 infoDH52.length 0)
      = some (true, headerDH52, ⟨infoDH52, 60, 60⟩) ∧
    le16 infoDH52 (48 + 4) ≠ VssMarker_DataHeader ∧
    le32 infoDH48 48 = 4 ∧ le16 infoDH48 (48 + 4) = VssMarker_DataHeader ∧
    le16 infoDH48 (48 + 6) = 0 ∧
    VssScanHeader.Scan crcZero header0 (BinaryReader.Initialize infoDH48 infoDH48.length 0)
      = some (false, headerDH48, ⟨infoDH48, 60, 52⟩) := by
  decide

/-- C10, amended: the fixed header of an info file is 52 bytes long. Whenever `Scan`
returns `true` on a buffer read from offset 0, the buffer holds at least 58 bytes, the 16
bytes at offsets 36..51 are zero, the marker `DH` stands at offset 56 (chunk header offset
52 plus 4), and a non-zero stored CRC at offset 58 equals the checksum of the bytes that
start at offset 60, their number being the u32 at offset 52. -/
theorem C10_chunk_header_at_52 (VssCrc16 : List u08 → Nat → Nat) (self hdr : VssScanHeader)
    (data : List u08) (r : BinaryReader) (h32 : data.length < 4294967296)
    (h : VssScanHeader.Scan VssCrc16 self (BinaryReader.Initialize data data.length 0)
      = some (true, hdr, r)) :
    58 ≤ data.length ∧
    (∀ j, 36 ≤ j → j < 52 → byteAt data j = 0) ∧
    le16 data 56 = VssMarker_DataHeader ∧
    (60 ≤ data.length → le16 data 58 ≠ 0 →
      BinaryReader.ComputeCRC VssCrc16 ⟨data, data.length, 60⟩ (le32 data 52)
        = some (le16 data 58)) := by
  obtain ⟨_, h58, _, _, _, _, hzeros, hmarker, hcrc⟩ :=
    Scan_accept_layout VssCrc16 self hdr data r h32 h
  exact ⟨h58, hzeros, hmarker, hcrc⟩

/-- C10, witness: the buffer `infoDH52crc`, whose chunk at offset 52 stores the CRC 7, with a
checksum function that answers 7. -/
theorem C10_chunk_header_at_52_witness :
    infoDH52crc.length < 4294967296 ∧
    VssScanHeader.Scan crcSeven header0
      (BinaryReader.Initialize infoDH52crc infoDH52crc.length 0)
      = some (true, headerDH52, ⟨infoDH52crc, 60, 60⟩) ∧
    58 ≤ infoDH52crc.length ∧
    (∀ j, 36 ≤ j → j < 52 → byteAt infoDH52crc j = 0) ∧
    le16 infoDH52crc 56 = VssMarker_DataHeader ∧
    (60 ≤ infoDH52crc.length → le16 infoDH52crc 58 ≠ 0 →
      BinaryReader.ComputeCRC crcSeven ⟨infoDH52crc, infoDH52crc.length, 60⟩
        (le32 infoDH52crc 52) = some (le16 infoDH52crc 58)) :=
  ⟨by decide, by decide,
    C10_chunk_header_at_52 crcSeven header0 headerDH52 infoDH52crc ⟨infoDH52crc, 60, 60⟩
      (by decide) (by decide)⟩

set_option maxRecDepth 100000

/-! ## Record decoders: auxiliary facts -/

/-- `Read16` with at least two bytes remaining. -/
theorem Read16_at (data : List u08) (size off : Nat) (hsize : size = data.length)
    (h32 : size < 4294967296) (h : off + 2 ≤ size) :
    BinaryReader.Read16 ⟨data, size, off⟩ = some (le16 data off, ⟨data, size, off + 2⟩) := by
  have h0 : data[off]? = some data[off] := List.getElem?_eq_getElem (by omega)
  have h1 : data[off + 1]? = some data[off + 1] := List.getElem?_eq_getElem (by omega)
  rw [Read16_some data size off _ _ hsize h32 h0 h1]
  unfold le16
  rw [byteAt_of_getElem? data off _ h0, byteAt_of_getElem? data (off + 1) _ h1]

/-- `Read32` with at least four bytes remaining. -/
theorem Read32_at (data : List u08) (size off : Nat) (hsize : size = data.length)
    (h32 : size < 4294967296) (h : off + 4 ≤ size) :
    BinaryReader.Read32 ⟨data, size, off⟩ = some (le32 data off, ⟨data, size, off + 4⟩) := by
  have h0 : data[off]? = some data[off] := List.getElem?_eq_getElem (by omega)
  have h1 : data[off + 1]? = some data[off + 1] := List.getElem?_eq_getElem (by omega)
  have h2 : data[off + 2]? = some data[off + 2] := List.getElem?_eq_getElem (by omega)
  have h3 : data[off + 3]? = some data[off + 3] := List.getElem?_eq_getElem (by omega)
  rw [Read32_some data size off _ _ _ _ hsize h32 h0 h1 h2 h3]
  unfold le32
  rw [byteAt_of_getElem? data off _ h0, byteAt_of_getElem? data (off + 1) _ h1,
    byteAt_of_getElem? data (off + 2) _ h2, byteAt_of_getElem? data (off + 3) _ h3]

/-- `ReadData` with at least `n` bytes remaining. -/
theorem ReadData_at (data : List u08) (size off n : Nat) (hsize : size = data.length)
    (h32 : size < 4294967296) (h : off + n ≤ size) :
    BinaryReader.ReadData ⟨data, size, off⟩ n
      = some (true, bytesAt data off n, ⟨data, size, off + n⟩) := by
  have hwf : BinaryReader.WellFormed ⟨data, size, off⟩ := ⟨hsize, h32, Nat.le_of_add_right_le h⟩
  have hsum : off + n < 4294967296 := Nat.lt_of_le_of_lt h h32
  exact (ReadData_without_wrap ⟨data, size, off⟩ hwf n hsum).1 h

/-- `VssNameToNumber` gives a number on every buffer of at least 8 characters. -/
theorem nameToNumberLoop_some (name : List Nat) :
    ∀ (n : Nat) (num : Int), n ≤ name.length → ∃ v, nameToNumberLoop name n num = some v := by
  intro n
  induction n with
  | zero =>
    intro num _
    exact ⟨num, rfl⟩
  | succ i ih =>
    intro num hlen
    unfold nameToNumberLoop
    rw [List.getElem?_eq_getElem (by omega)]
    simp only
    split
    · exact ih _ (by omega)
    · split
      · exact ih _ (by omega)
      · exact ⟨-1, rfl⟩

/-- `VssNameToNumber` gives a number on the 10 bytes of a db-name field. -/
theorem VssNameToNumber_bytesAt (data : List u08) (k : Nat) (h : k + 10 ≤ data.length) :
    ∃ v, VssNameToNumber (charsOf (bytesAt data k 10)) = some v := by
  apply nameToNumberLoop_some
  unfold charsOf bytesAt
  rw [List.length_map, List.length_take, List.length_drop]
  omega

/-! ## Record decoders: the claims -/

/-- C17: on a well-formed cursor with at least 56 bytes remaining, `VssScanChild::Scan` sets
type to the LE16 at payload offset 0, flags to the LE16 at 2, name flags to the LE16 at 4,
the name to bytes 6..39, the name offset to the LE32 at 40, passes over the 2 reserved bytes
at 44..45, sets the db-name to bytes 46..55, advances the cursor by exactly 56 and returns
`true`. -/
theorem C17_child_layout (self : VssScanChild) (r : BinaryReader) (hwf : r.WellFormed)
    (h : r.m_Offset + 56 ≤ r.m_DataSize) :
    VssScanChild.Scan self r = some (true,
      { m_Type := le16 r.m_pData r.m_Offset,
        m_Flags := le16 r.m_pData (r.m_Offset + 2),
        m_NameFlags := le16 r.m_pData (r.m_Offset + 4),
        m_Name := bytesAt r.m_pData (r.m_Offset + 6) 34,
        m_NameOffset := le32 r.m_pData (r.m_Offset + 40),
        m_Zero := self.m_Zero,
        m_DBName := bytesAt r.m_pData (r.m_Offset + 46) 10 },
      { r with m_Offset := r.m_Offset + 56 }) := by
  obtain ⟨data, size, off⟩ := r
  obtain ⟨hsize, h32, _⟩ := hwf
  simp only at hsize h32 h
  unfold VssScanChild.Scan
  simp (disch := omega) only [Read16_at, Read32_at, ReadData_at, Nat.add_assoc, Nat.reduceAdd]

/-- The fixed part of `VssScanLogEntry::Scan` with at least 88 bytes remaining. -/
theorem scanFixed_at (self : VssScanLogEntry) (data : List u08) (size off : Nat)
    (hsize : size = data.length) (h32 : size < 4294967296) (h : off + 88 ≤ size) :
    VssScanLogEntry.scanFixed self ⟨data, size, off⟩ = some (
      { self with
        m_FileName := self.m_FileName.set 0 0, m_FileReference := -1,
        m_BranchReference := -1,
        m_PreviousOffset := le32 data off,
        m_Opcode := le16 data (off + 4),
        m_VersionNumber := le16 data (off + 6),
        m_Timestamp := le32 data (off + 8),
        m_Username := bytesAt data (off + 12) 32,
        m_Label := bytesAt data (off + 44) 32,
        m_CommentOffset := le32 data (off + 76),
        m_LabelOffset := le32 data (off + 80),
        m_CommentLength := le16 data (off + 84),
        m_LabelLength := le16 data (off + 86) },
      ⟨data, size, off + 88⟩) := by
  simp (disch := omega) only [VssScanLogEntry.scanFixed, Read16_at, Read32_at, ReadData_at,
    Nat.add_assoc, Nat.reduceAdd]

/-- Having the same fixed fields is transitive. -/
theorem sameFixed_trans (a b c : VssScanLogEntry) (h1 : sameFixed a b) (h2 : sameFixed b c) :
    sameFixed a c := by
  unfold sameFixed at *
  obtain ⟨a1, a2, a3, a4, a5, a6, a7, a8, a9, a10⟩ := h1
  obtain ⟨b1, b2, b3, b4, b5, b6, b7, b8, b9, b10⟩ := h2
  exact ⟨b1.trans a1, b2.trans a2, b3.trans a3, b4.trans a4, b5.trans a5, b6.trans a6,
    b7.trans a7, b8.trans a8, b9.trans a9, b10.trans a10⟩

/-- The shared-path step leaves the fixed fields alone. -/
theorem scanSharedPath_fixed (e other : VssScanLogEntry) (r q : BinaryReader)
    (h : VssScanLogEntry.scanSharedPath e r = some (other, q)) : sameFixed e other := by
  unfold VssScanLogEntry.scanSharedPath at h
  split at h
  · split at h
    · exact absurd h (by simp)
    · simp only [Option.some.injEq, Prod.mk.injEq] at h
      obtain ⟨rfl, _⟩ := h
      exact ⟨rfl, rfl, rfl, rfl, rfl, rfl, rfl, rfl, rfl, rfl⟩
  · simp only [Option.some.injEq, Prod.mk.injEq] at h
    obtain ⟨rfl, _⟩ := h
    exact ⟨rfl, rfl, rfl, rfl, rfl, rfl, rfl, rfl, rfl, rfl⟩

/-- The check-in step leaves the fixed fields alone. -/
theorem scanCheckedIn_fixed (e other : VssScanLogEntry) (r q : BinaryReader)
    (h : VssScanLogEntry.scanCheckedIn e r = some (other, q)) : sameFixed e other := by
  unfold VssScanLogEntry.scanCheckedIn at h
  repeat (split at h; · exact absurd h (by simp))
  simp only [Option.some.injEq, Prod.mk.injEq] at h
  obtain ⟨rfl, _⟩ := h
  exact ⟨rfl, rfl, rfl, rfl, rfl, rfl, rfl, rfl, rfl, rfl⟩

/-- The name step leaves the fixed fields alone. -/
theorem scanName_fixed (e other : VssScanLogEntry) (r q : BinaryReader)
    (h : VssScanLogEntry.scanName e r = some (other, q)) : sameFixed e other := by
  unfold VssScanLogEntry.scanName at h
  repeat (split at h; · exact absurd h (by simp))
  simp only [Option.some.injEq, Prod.mk.injEq] at h
  obtain ⟨rfl, _⟩ := h
  exact ⟨rfl, rfl, rfl, rfl, rfl, rfl, rfl, rfl, rfl, rfl⟩

/-- Reading the file reference leaves the fixed fields alone. -/
theorem scanFileReference_fixed (e other : VssScanLogEntry) (r q : BinaryReader)
    (h : VssScanLogEntry.scanFileReference e r = some (other, q)) : sameFixed e other := by
  unfold VssScanLogEntry.scanFileReference at h
  repeat (split at h; · exact absurd h (by simp))
  simp only [Option.some.injEq, Prod.mk.injEq] at h
  obtain ⟨rfl, _⟩ := h
  exact ⟨rfl, rfl, rfl, rfl, rfl, rfl, rfl, rfl, rfl, rfl⟩

/-- The reference step leaves the fixed fields alone. -/
theorem scanReference_fixed (e other : VssScanLogEntry) (r q : BinaryReader)
    (h : VssScanLogEntry.scanReference e r = some (other, q)) : sameFixed e other := by
  unfold VssScanLogEntry.scanReference at h
  split at h
  · repeat (split at h; · exact absurd h (by simp))
    have hs := scanFileReference_fixed _ _ _ _ h
    exact hs
  · split at h
    · repeat (split at h; · exact absurd h (by simp))
      exact scanFileReference_fixed _ _ _ _ h
    · exact scanFileReference_fixed _ _ _ _ h

/-- The branch step leaves the fixed fields alone. -/
theorem scanBranch_fixed (e other : VssScanLogEntry) (r q : BinaryReader)
    (h : VssScanLogEntry.scanBranch e r = some (other, q)) : sameFixed e other := by
  unfold VssScanLogEntry.scanBranch at h
  split at h
  · repeat (split at h; · exact absurd h (by simp))
    simp only [Option.some.injEq, Prod.mk.injEq] at h
    obtain ⟨rfl, _⟩ := h
    exact ⟨rfl, rfl, rfl, rfl, rfl, rfl, rfl, rfl, rfl, rfl⟩
  · simp only [Option.some.injEq, Prod.mk.injEq] at h
    obtain ⟨rfl, _⟩ := h
    exact ⟨rfl, rfl, rfl, rfl, rfl, rfl, rfl, rfl, rfl, rfl⟩

/-- Whatever `VssScanLogEntry::Scan` returns has the fixed fields its first part stored. -/
theorem Scan_keeps_fixed (self e : VssScanLogEntry) (r q : BinaryReader)
    (h : VssScanLogEntry.Scan self r = some (e, q)) :
    ∃ e0 r0, VssScanLogEntry.scanFixed self r = some (e0, r0) ∧ sameFixed e0 e := by
  unfold VssScanLogEntry.Scan at h
  split at h
  · exact absurd h (by simp)
  rename_i e0 r0 h0
  refine ⟨e0, r0, h0, ?_⟩
  split at h
  · exact absurd h (by simp)
  rename_i e1 r1 h1
  have s1 := scanSharedPath_fixed _ _ _ _ h1
  split at h
  · exact sameFixed_trans _ _ _ s1 (scanCheckedIn_fixed _ _ _ _ h)
  · split at h
    · exact absurd h (by simp)
    rename_i e2 r2 h2
    split at h
    · exact absurd h (by simp)
    rename_i e3 r3 h3
    exact sameFixed_trans _ _ _ s1 (sameFixed_trans _ _ _ (scanName_fixed _ _ _ _ h2)
      (sameFixed_trans _ _ _ (scanReference_fixed _ _ _ _ h3) (scanBranch_fixed _ _ _ _ h)))

/-- `VssScanLogEntry::Scan` on a SharedFile (14) entry with at least 404 bytes remaining. -/
theorem Scan_shared_file (self : VssScanLogEntry) (data : List u08) (size off : Nat)
    (hsize : size = data.length) (h32 : size < 4294967296) (h : off + 404 ≤ size)
    (hop : le16 data (off + 4) = 14) :
    ∃ v, VssNameToNumber (charsOf (bytesAt data (off + 394) 10)) = some v ∧
      VssScanLogEntry.Scan self ⟨data, size, off⟩ = some (
        { self with
          m_BranchReference := -1,
          m_PreviousOffset := le32 data off,
          m_Opcode := le16 data (off + 4),
          m_VersionNumber := le16 data (off + 6),
          m_Timestamp := le32 data (off + 8),
          m_Username := bytesAt data (off + 12) 32,
          m_Label := bytesAt data (off + 44) 32,
          m_CommentOffset := le32 data (off + 76),
          m_LabelOffset := le32 data (off + 80),
          m_CommentLength := le16 data (off + 84),
          m_LabelLength := le16 data (off + 86),
          m_DatabasePath := bytesAt data (off + 88) 260,
          m_FileName := bytesAt data (off + 350) 34,
          m_NamesFileOffset := le32 data (off + 384),
          m_FileReference := v },
        ⟨data, size, off + 404⟩) := by
  obtain ⟨v, hv⟩ := VssNameToNumber_bytesAt data (off + 394) (by omega)
  refine ⟨v, hv, ?_⟩
  simp (disch := omega) only [VssScanLogEntry.Scan, VssScanLogEntry.scanFixed,
    VssScanLogEntry.scanSharedPath, VssScanLogEntry.scanName, VssScanLogEntry.scanReference,
    VssScanLogEntry.scanFileReference, VssScanLogEntry.scanBranch, Read16_at, Read32_at,
    ReadData_at, Nat.add_assoc, Nat.reduceAdd, hop, hv, VssOpcode_SharedFile,
    VssOpcode_CheckedInFile, VssOpcode_RenamedProject, VssOpcode_RenamedFile,
    VssOpcode_BranchedFile, Nat.reduceEqDiff, reduceIte, or_self]

/-- `VssScanLogEntry::Scan` on a RenamedProject (10) or RenamedFile (11) entry with at least
178 bytes remaining. -/
theorem Scan_renamed (self : VssScanLogEntry) (data : List u08) (size off : Nat)
    (hsize : size = data.length) (h32 : size < 4294967296) (h : off + 178 ≤ size)
    (hop : le16 data (off + 4) = 10 ∨ le16 data (off + 4) = 11) :
    ∃ v, VssNameToNumber (charsOf (bytesAt data (off + 168) 10)) = some v ∧
      VssScanLogEntry.Scan self ⟨data, size, off⟩ = some (
        { self with
          m_BranchReference := -1,
          m_PreviousOffset := le32 data off,
          m_Opcode := le16 data (off + 4),
          m_VersionNumber := le16 data (off + 6),
          m_Timestamp := le32 data (off + 8),
          m_Username := bytesAt data (off + 12) 32,
          m_Label := bytesAt data (off + 44) 32,
          m_CommentOffset := le32 data (off + 76),
          m_LabelOffset := le32 data (off + 80),
          m_CommentLength := le16 data (off + 84),
          m_LabelLength := le16 data (off + 86),
          m_FileName := bytesAt data (off + 90) 34,
          m_NamesFileOffset := le32 data (off + 124),
          m_NewFileName := bytesAt data (off + 130) 34,
          m_NewFileNamesOffset := le32 data (off + 164),
          m_FileReference := v },
        ⟨data, size, off + 178⟩) := by
  obtain ⟨v, hv⟩ := VssNameToNumber_bytesAt data (off + 168) (by omega)
  refine ⟨v, hv, ?_⟩
  rcases hop with hop | hop <;>
  simp (disch := omega) only [VssScanLogEntry.Scan, VssScanLogEntry.scanFixed,
    VssScanLogEntry.scanSharedPath, VssScanLogEntry.scanName, VssScanLogEntry.scanReference,
    VssScanLogEntry.scanFileReference, VssScanLogEntry.scanBranch, Read16_at, Read32_at,
    ReadData_at, Nat.add_assoc, Nat.reduceAdd, hop, hv, VssOpcode_SharedFile,
    VssOpcode_CheckedInFile, VssOpcode_RenamedProject, VssOpcode_RenamedFile,
    VssOpcode_BranchedFile, Nat.reduceEqDiff, reduceIte, or_self, or_true, true_or, or_false,
    false_or]

/-- `VssScanLogEntry::Scan` on a BranchedFile (15) entry with at least 148 bytes
remaining. -/
theorem Scan_branched (self : VssScanLogEntry) (data : List u08) (size off : Nat)
    (hsize : size = data.length) (h32 : size < 4294967296) (h : off + 148 ≤ size)
    (hop : le16 data (off + 4) = 15) :
    ∃ v w, VssNameToNumber (charsOf (bytesAt data (off + 128) 10)) = some v ∧
      VssNameToNumber (charsOf (bytesAt data (off + 138) 10)) = some w ∧
      VssScanLogEntry.Scan self ⟨data, size, off⟩ = some (
        { self with
          m_PreviousOffset := le32 data off,
          m_Opcode := le16 data (off + 4),
          m_VersionNumber := le16 data (off + 6),
          m_Timestamp := le32 data (off + 8),
          m_Username := bytesAt data (off + 12) 32,
          m_Label := bytesAt data (off + 44) 32,
          m_CommentOffset := le32 data (off + 76),
          m_LabelOffset := le32 data (off + 80),
          m_CommentLength := le16 data (off + 84),
          m_LabelLength := le16 data (off + 86),
          m_FileName := bytesAt data (off + 90) 34,
          m_NamesFileOffset := le32 data (off + 124),
          m_FileReference := v,
          m_BranchReference := w },
        ⟨data, size, off + 148⟩) := by
  obtain ⟨v, hv⟩ := VssNameToNumber_bytesAt data (off + 128) (by omega)
  obtain ⟨w, hw⟩ := VssNameToNumber_bytesAt data (off + 138) (by omega)
  refine ⟨v, w, hv, hw, ?_⟩
  simp (disch := omega) only [VssScanLogEntry.Scan, VssScanLogEntry.scanFixed,
    VssScanLogEntry.scanSharedPath, VssScanLogEntry.scanName, VssScanLogEntry.scanReference,
    VssScanLogEntry.scanFileReference, VssScanLogEntry.scanBranch, Read16_at, Read32_at,
    ReadData_at, Nat.add_assoc, Nat.reduceAdd, hop, hv, hw, VssOpcode_SharedFile,
    VssOpcode_CheckedInFile, VssOpcode_RenamedProject, VssOpcode_RenamedFile,
    VssOpcode_BranchedFile, Nat.reduceEqDiff, reduceIte, or_self]

/-- `VssScanLogEntry::Scan` on an entry whose opcode is none of 10, 11, 14, 15, 17, with at
least 138 bytes remaining. -/
theorem Scan_plain (self : VssScanLogEntry) (data : List u08) (size off : Nat)
    (hsize : size = data.length) (h32 : size < 4294967296) (h : off + 138 ≤ size)
    (h10 : le16 data (off + 4) ≠ 10) (h11 : le16 data (off + 4) ≠ 11)
    (h14 : le16 data (off + 4) ≠ 14) (h15 : le16 data (off + 4) ≠ 15)
    (h17 : le16 data (off + 4) ≠ 17) :
    ∃ v, VssNameToNumber (charsOf (bytesAt data (off + 128) 10)) = some v ∧
      VssScanLogEntry.Scan self ⟨data, size, off⟩ = some (
        { self with
          m_BranchReference := -1,
          m_PreviousOffset := le32 data off,
          m_Opcode := le16 data (off + 4),
          m_VersionNumber := le16 data (off + 6),
          m_Timestamp := le32 data (off + 8),
          m_Username := bytesAt data (off + 12) 32,
          m_Label := bytesAt data (off + 44) 32,
          m_CommentOffset := le32 data (off + 76),
          m_LabelOffset := le32 data (off + 80),
          m_CommentLength := le16 data (off + 84),
          m_LabelLength := le16 data (off + 86),
          m_FileName := bytesAt data (off + 90) 34,
          m_NamesFileOffset := le32 data (off + 124),
          m_FileReference := v },
        ⟨data, size, off + 138⟩) := by
  obtain ⟨v, hv⟩ := VssNameToNumber_bytesAt data (off + 128) (by omega)
  refine ⟨v, hv, ?_⟩
  have e10 : ¬ (10 = le16 data (off + 4)) := fun e => h10 e.symm
  have e11 : ¬ (11 = le16 data (off + 4)) := fun e => h11 e.symm
  have e14 : ¬ (14 = le16 data (off + 4)) := fun e => h14 e.symm
  have e15 : ¬ (15 = le16 data (off + 4)) := fun e => h15 e.symm
  have e17 : ¬ (17 = le16 data (off + 4)) := fun e => h17 e.symm
  simp (disch := omega) only [VssScanLogEntry.Scan, VssScanLogEntry.scanFixed,
    VssScanLogEntry.scanSharedPath, VssScanLogEntry.scanName, VssScanLogEntry.scanReference,
    VssScanLogEntry.scanFileReference, VssScanLogEntry.scanBranch, Read16_at, Read32_at,
    ReadData_at, Nat.add_assoc, Nat.reduceAdd, hv, VssOpcode_SharedFile,
    VssOpcode_CheckedInFile, VssOpcode_RenamedProject, VssOpcode_RenamedFile,
    VssOpcode_BranchedFile, e10, e11, e14, e15, e17, reduceIte, or_self, if_false]

/-- The characters of a db-name field, position by position. -/
theorem charsOf_bytesAt_getElem? (data : List u08) (k n j : Nat) (hj : j < n)
    (hk : k + j < data.length) :
    (charsOf (bytesAt data k n))[j]? = some (byteAt data (k + j)) := by
  unfold charsOf bytesAt byteAt
  rw [List.getElem?_map, List.getElem?_take_of_lt hj, List.getElem?_drop,
    List.getD_eq_getElem?_getD, List.getElem?_eq_getElem hk]
  rfl

/-- C14, counterexample: on the 404-byte SharedFile entry `logEntry14` the 10 bytes at
payload offset 354 decode to 1, yet `Scan` stores the file reference 2 and leaves the cursor
at 404, not at 364. -/
theorem C14_shared_file_is_not_364_bytes :
    le16 logEntry14 4 = VssOpcode_SharedFile ∧
    VssNameToNumber (charsOf (bytesAt logEntry14 354 10)) = some 1 ∧
    (VssScanLogEntry.Scan logEntry0 ⟨logEntry14, 404, 0⟩).map
      (fun p => (p.1.m_FileReference, p.2.m_Offset)) = some (2, 404) := by
  refine ⟨by decide, by decide, ?_⟩
  obtain ⟨v, hv, hs⟩ := Scan_shared_file logEntry0 logEntry14 404 0 (by decide) (by decide)
    (by decide) (by decide)
  have hv2 : VssNameToNumber (charsOf (bytesAt logEntry14 (0 + 394) 10)) = some 2 := by decide
  rw [hv2] at hv
  rw [hs, ← Option.some.inj hv]
  rfl

/-- C14, amended: for a log entry with opcode SharedFile (14) on a well-formed cursor with
at least 404 bytes remaining, the tail after the 88-byte prefix is the database path (bytes
88..347), a name-flags u16 (348), the name (bytes 350..383), the names offset (LE32 at 384),
three reserved u16s (388..393) and a 10-byte db-name: the file reference is the name-codec
decoding of the 10 bytes at payload offset 394, the branch reference is `-1`, and `Scan`
consumes 404 bytes in total. -/
theorem C14_shared_file_layout (self : VssScanLogEntry) (r : BinaryReader)
    (hwf : r.WellFormed) (h : r.m_Offset + 404 ≤ r.m_DataSize)
    (hop : le16 r.m_pData (r.m_Offset + 4) = VssOpcode_SharedFile) :
    ∃ v, VssNameToNumber (charsOf (bytesAt r.m_pData (r.m_Offset + 394) 10)) = some v ∧
      VssScanLogEntry.Scan self r = some (
        { self with
          m_BranchReference := -1,
          m_PreviousOffset := le32 r.m_pData r.m_Offset,
          m_Opcode := le16 r.m_pData (r.m_Offset + 4),
          m_VersionNumber := le16 r.m_pData (r.m_Offset + 6),
          m_Timestamp := le32 r.m_pData (r.m_Offset + 8),
          m_Username := bytesAt r.m_pData (r.m_Offset + 12) 32,
          m_Label := bytesAt r.m_pData (r.m_Offset + 44) 32,
          m_CommentOffset := le32 r.m_pData (r.m_Offset + 76),
          m_LabelOffset := le32 r.m_pData (r.m_Offset + 80),
          m_CommentLength := le16 r.m_pData (r.m_Offset + 84),
          m_LabelLength := le16 r.m_pData (r.m_Offset + 86),
          m_DatabasePath := bytesAt r.m_pData (r.m_Offset + 88) 260,
          m_FileName := bytesAt r.m_pData (r.m_Offset + 350) 34,
          m_NamesFileOffset := le32 r.m_pData (r.m_Offset + 384),
          m_FileReference := v },
        { r with m_Offset := r.m_Offset + 404 }) :=
  Scan_shared_file self r.m_pData r.m_DataSize r.m_Offset hwf.1 hwf.2.1 h hop

/-- C14, witness: the entry `logEntry14` read from offset 0 into `logEntry0`. -/
theorem C14_shared_file_layout_witness :
    BinaryReader.WellFormed ⟨logEntry14, 404, 0⟩ ∧ 0 + 404 ≤ 404 ∧
    le16 logEntry14 (0 + 4) = VssOpcode_SharedFile ∧
    (VssScanLogEntry.Scan logEntry0 ⟨logEntry14, 404, 0⟩).map
      (fun p => (p.1.m_BranchReference, p.1.m_FileName, p.2.m_Offset))
      = some (-1, bytesAt logEntry14 350 34, 404) := by
  refine ⟨by decide, by decide, by decide, ?_⟩
  obtain ⟨v, _, hs⟩ := C14_shared_file_layout logEntry0 ⟨logEntry14, 404, 0⟩ (by decide)
    (by decide) (by decide)
  rw [hs]
  rfl

/-- A CheckedInFile entry with its 356 bytes in the buffer is decoded, and the cursor ends
356 bytes further. -/
theorem Scan_checked_in (self : VssScanLogEntry) (data : List u08) (size off : Nat)
    (hsize : size = data.length) (h32 : size < 4294967296) (h : off + 356 ≤ size)
    (hop : le16 data (off + 4) = 17) :
    ∃ e, VssScanLogEntry.Scan self ⟨data, size, off⟩
      = some (e, ⟨data, size, off + 356⟩) := by
  simp (disch := omega) only [VssScanLogEntry.Scan, VssScanLogEntry.scanFixed,
    VssScanLogEntry.scanSharedPath, VssScanLogEntry.scanCheckedIn, Read16_at, Read32_at,
    ReadData_at, Nat.add_assoc, Nat.reduceAdd, hop, VssOpcode_SharedFile,
    VssOpcode_CheckedInFile, Nat.reduceEqDiff, reduceIte]
  exact ⟨_, rfl⟩

/-- C13: on a well-formed cursor with at least 88 bytes remaining, the fixed part of
`VssScanLogEntry::Scan` stores previous offset = LE32 at payload offset 0, opcode = LE16 at
4, version = LE16 at 6, time stamp = LE32 at 8, user name = bytes 12..43, label = bytes
44..75, comment offset = LE32 at 76, label offset = LE32 at 80, comment length = LE16 at 84
and label length = LE16 at 86, and leaves the cursor 88 bytes further; every record `Scan`
returns carries these values in those fields. And `Scan` does return a record, with the
cursor at its end, whenever the bytes remaining hold the whole entry, whose length the
opcode at payload offset 4 determines. -/
theorem C13_log_entry_fixed_layout (self : VssScanLogEntry) (r : BinaryReader)
    (hwf : r.WellFormed) (h : r.m_Offset + 88 ≤ r.m_DataSize) :
    (∃ e, VssScanLogEntry.scanFixed self r = some (e, { r with m_Offset := r.m_Offset + 88 }) ∧
      LogEntryFixed e r.m_pData r.m_Offset) ∧
    (∀ e q, VssScanLogEntry.Scan self r = some (e, q) →
      LogEntryFixed e r.m_pData r.m_Offset) ∧
    (r.m_Offset + logEntryLength (le16 r.m_pData (r.m_Offset + 4)) ≤ r.m_DataSize →
      ∃ e, VssScanLogEntry.Scan self r = some (e,
          { r with m_Offset := r.m_Offset + logEntryLength (le16 r.m_pData (r.m_Offset + 4)) }) ∧
        LogEntryFixed e r.m_pData r.m_Offset) := by
  obtain ⟨data, size, off⟩ := r
  obtain ⟨hsize, h32, _⟩ := hwf
  simp only at hsize h32 h
  have hf := scanFixed_at self data size off hsize h32 h
  have h2 : ∀ e q, VssScanLogEntry.Scan self ⟨data, size, off⟩ = some (e, q) →
      LogEntryFixed e data off := by
    intro e q hs
    obtain ⟨e0, r0, h0, hsame⟩ := Scan_keeps_fixed self e _ q hs
    rw [hf] at h0
    simp only [Option.some.injEq, Prod.mk.injEq] at h0
    obtain ⟨rfl, _⟩ := h0
    obtain ⟨a1, a2, a3, a4, a5, a6, a7, a8, a9, a10⟩ := hsame
    exact ⟨a1, a2, a3, a4, a5, a6, a7, a8, a9, a10⟩
  refine ⟨⟨_, hf, rfl, rfl, rfl, rfl, rfl, rfl, rfl, rfl, rfl, rfl⟩, h2, ?_⟩
  intro hall
  simp only at hall ⊢
  have hret : ∃ e, VssScanLogEntry.Scan self ⟨data, size, off⟩
      = some (e, ⟨data, size, off + logEntryLength (le16 data (off + 4))⟩) := by
    unfold logEntryLength VssOpcode_CheckedInFile VssOpcode_SharedFile
      VssOpcode_RenamedProject VssOpcode_RenamedFile VssOpcode_BranchedFile at hall ⊢
    by_cases h17 : le16 data (off + 4) = 17
    · rw [if_pos h17] at hall ⊢
      exact Scan_checked_in self data size off hsize h32 hall h17
    rw [if_neg h17] at hall ⊢
    by_cases h14 : le16 data (off + 4) = 14
    · rw [if_pos h14] at hall ⊢
      obtain ⟨v, _, hs⟩ := Scan_shared_file self data size off hsize h32 hall h14
      exact ⟨_, hs⟩
    rw [if_neg h14] at hall ⊢
    by_cases hren : le16 data (off + 4) = 10 ∨ le16 data (off + 4) = 11
    · rw [if_pos hren] at hall ⊢
      obtain ⟨v, _, hs⟩ := Scan_renamed self data size off hsize h32 hall hren
      exact ⟨_, hs⟩
    rw [if_neg hren] at hall ⊢
    by_cases h15 : le16 data (off + 4) = 15
    · rw [if_pos h15] at hall ⊢
      obtain ⟨v, w, _, _, hs⟩ := Scan_branched self data size off hsize h32 hall h15
      exact ⟨_, hs⟩
    rw [if_neg h15] at hall ⊢
    obtain ⟨v, _, hs⟩ := Scan_plain self data size off hsize h32 hall
      (fun e => hren (Or.inl e)) (fun e => hren (Or.inr e)) h14 h15 h17
    exact ⟨_, hs⟩
  obtain ⟨e, hs⟩ := hret
  exact ⟨e, hs, h2 e _ hs⟩

/-- C13, witness: the 356-byte CheckedInFile entry `logEntry17` read from offset 0 into
`logEntry0`: `Scan` returns a record and leaves the cursor at 356. -/
theorem C13_log_entry_fixed_layout_witness :
    BinaryReader.WellFormed ⟨logEntry17, 356, 0⟩ ∧ 0 + 88 ≤ 356 ∧
    0 + logEntryLength (le16 logEntry17 (0 + 4)) ≤ 356 ∧
    (∃ e, VssScanLogEntry.scanFixed logEntry0 ⟨logEntry17, 356, 0⟩
        = some (e, ⟨logEntry17, 356, 0 + 88⟩) ∧ LogEntryFixed e logEntry17 0) ∧
    (∀ e q, VssScanLogEntry.Scan logEntry0 ⟨logEntry17, 356, 0⟩ = some (e, q) →
      LogEntryFixed e logEntry17 0) ∧
    (∃ e, VssScanLogEntry.Scan logEntry0 ⟨logEntry17, 356, 0⟩
        = some (e, ⟨logEntry17, 356, 0 + logEntryLength (le16 logEntry17 (0 + 4))⟩) ∧
      LogEntryFixed e logEntry17 0) ∧
    (VssScanLogEntry.Scan logEntry0 ⟨logEntry17, 356, 0⟩).map
        (fun p => (p.1.m_PreviousOffset, p.1.m_Opcode, p.1.m_VersionNumber, p.2.m_Offset))
      = some (5, 17, 3, 356) := by
  have hall : 0 + logEntryLength (le16 logEntry17 (0 + 4)) ≤ 356 := by decide
  have hthm := C13_log_entry_fixed_layout logEntry0 ⟨logEntry17, 356, 0⟩ (by decide)
    (by decide)
  exact ⟨by decide, by decide, hall, hthm.1, hthm.2.1, hthm.2.2 hall, by decide⟩

/-- C15: for a log entry with opcode CheckedInFile (17) on a well-formed cursor with at
least 356 bytes remaining, `VssScanLogEntry::Scan` reads the difference offset (LE32 at
payload offset 88), a reserved u32 and the database path (bytes 96..355) and stops with the
cursor advanced by exactly 356; no name field is stored to apart from the NUL put into
`m_FileName[0]` on entry, which makes the file name the empty string, and the file reference
and branch reference are both `-1`. -/
theorem C15_checked_in_layout (self : VssScanLogEntry) (r : BinaryReader)
    (hwf : r.WellFormed) (h : r.m_Offset + 356 ≤ r.m_DataSize)
    (hop : le16 r.m_pData (r.m_Offset + 4) = VssOpcode_CheckedInFile) :
    VssScanLogEntry.Scan self r = some (
      { self with
        m_FileName := self.m_FileName.set 0 0, m_FileReference := -1,
        m_BranchReference := -1,
        m_PreviousOffset := le32 r.m_pData r.m_Offset,
        m_Opcode := le16 r.m_pData (r.m_Offset + 4),
        m_VersionNumber := le16 r.m_pData (r.m_Offset + 6),
        m_Timestamp := le32 r.m_pData (r.m_Offset + 8),
        m_Username := bytesAt r.m_pData (r.m_Offset + 12) 32,
        m_Label := bytesAt r.m_pData (r.m_Offset + 44) 32,
        m_CommentOffset := le32 r.m_pData (r.m_Offset + 76),
        m_LabelOffset := le32 r.m_pData (r.m_Offset + 80),
        m_CommentLength := le16 r.m_pData (r.m_Offset + 84),
        m_LabelLength := le16 r.m_pData (r.m_Offset + 86),
        m_DifferenceOffset := le32 r.m_pData (r.m_Offset + 88),
        m_DatabasePath := bytesAt r.m_pData (r.m_Offset + 96) 260 },
      { r with m_Offset := r.m_Offset + 356 }) := by
  obtain ⟨data, size, off⟩ := r
  obtain ⟨hsize, h32, _⟩ := hwf
  simp only [VssOpcode_CheckedInFile] at hsize h32 h hop
  simp (disch := omega) only [VssScanLogEntry.Scan, VssScanLogEntry.scanFixed,
    VssScanLogEntry.scanSharedPath, VssScanLogEntry.scanCheckedIn, Read16_at, Read32_at,
    ReadData_at, Nat.add_assoc, Nat.reduceAdd, hop, VssOpcode_SharedFile,
    VssOpcode_CheckedInFile, Nat.reduceEqDiff, reduceIte]

/-- C15, witness: the entry `logEntry17` read from offset 0 into `logEntry0`: difference
offset 7, an empty file name, both references `-1`, the cursor at 356. -/
theorem C15_checked_in_layout_witness :
    BinaryReader.WellFormed ⟨logEntry17, 356, 0⟩ ∧ 0 + 356 ≤ 356 ∧
    le16 logEntry17 (0 + 4) = VssOpcode_CheckedInFile ∧
    (VssScanLogEntry.Scan logEntry0 ⟨logEntry17, 356, 0⟩).map
      (fun p => (p.1.m_DifferenceOffset, p.1.m_FileName.head?, p.1.m_FileReference,
        p.1.m_BranchReference, p.2.m_Offset))
      = some (7, some 0, -1, -1, 356) := by
  refine ⟨by decide, by decide, by decide, ?_⟩
  rw [C15_checked_in_layout logEntry0 ⟨logEntry17, 356, 0⟩ (by decide) (by decide)
    (by decide)]
  decide

/-- C16: on a well-formed cursor with enough bytes remaining, for every opcode other than
14 and 17 `VssScanLogEntry::Scan` reads name flags (LE16 at payload offset 88), the name
(bytes 90..123) and the names offset (LE32 at 124). For RenamedProject and RenamedFile (10,
11) it then reads new-name flags (128), the new name (130..163) and the new names offset
(164), decodes the file reference from the 10 bytes at 168 and consumes 178 bytes. For
BranchedFile (15) it decodes the file reference from the 10 bytes at 128 and the branch
reference from the 10 bytes at 138 and consumes 148 bytes. For every other opcode it decodes
the file reference from the 10 bytes at 128 and consumes 138 bytes. The branch reference is
`-1` unless the opcode is 15. -/
theorem C16_name_tail_layout (self : VssScanLogEntry) (r : BinaryReader)
    (hwf : r.WellFormed) :
    ((le16 r.m_pData (r.m_Offset + 4) = VssOpcode_RenamedProject ∨
        le16 r.m_pData (r.m_Offset + 4) = VssOpcode_RenamedFile) →
      r.m_Offset + 178 ≤ r.m_DataSize →
      ∃ v, VssNameToNumber (charsOf (bytesAt r.m_pData (r.m_Offset + 168) 10)) = some v ∧
        VssScanLogEntry.Scan self r = some (
          { self with
            m_BranchReference := -1,
            m_PreviousOffset := le32 r.m_pData r.m_Offset,
            m_Opcode := le16 r.m_pData (r.m_Offset + 4),
            m_VersionNumber := le16 r.m_pData (r.m_Offset + 6),
            m_Timestamp := le32 r.m_pData (r.m_Offset + 8),
            m_Username := bytesAt r.m_pData (r.m_Offset + 12) 32,
            m_Label := bytesAt r.m_pData (r.m_Offset + 44) 32,
            m_CommentOffset := le32 r.m_pData (r.m_Offset + 76),
            m_LabelOffset := le32 r.m_pData (r.m_Offset + 80),
            m_CommentLength := le16 r.m_pData (r.m_Offset + 84),
            m_LabelLength := le16 r.m_pData (r.m_Offset + 86),
            m_FileName := bytesAt r.m_pData (r.m_Offset + 90) 34,
            m_NamesFileOffset := le32 r.m_pData (r.m_Offset + 124),
            m_NewFileName := bytesAt r.m_pData (r.m_Offset + 130) 34,
            m_NewFileNamesOffset := le32 r.m_pData (r.m_Offset + 164),
            m_FileReference := v },
          { r with m_Offset := r.m_Offset + 178 })) ∧
    (le16 r.m_pData (r.m_Offset + 4) = VssOpcode_BranchedFile →
      r.m_Offset + 148 ≤ r.m_DataSize →
      ∃ v w, VssNameToNumber (charsOf (bytesAt r.m_pData (r.m_Offset + 128) 10)) = some v ∧
        VssNameToNumber (charsOf (bytesAt r.m_pData (r.m_Offset + 138) 10)) = some w ∧
        VssScanLogEntry.Scan self r = some (
          { self with
            m_PreviousOffset := le32 r.m_pData r.m_Offset,
            m_Opcode := le16 r.m_pData (r.m_Offset + 4),
            m_VersionNumber := le16 r.m_pData (r.m_Offset + 6),
            m_Timestamp := le32 r.m_pData (r.m_Offset + 8),
            m_Username := bytesAt r.m_pData (r.m_Offset + 12) 32,
            m_Label := bytesAt r.m_pData (r.m_Offset + 44) 32,
            m_CommentOffset := le32 r.m_pData (r.m_Offset + 76),
            m_LabelOffset := le32 r.m_pData (r.m_Offset + 80),
            m_CommentLength := le16 r.m_pData (r.m_Offset + 84),
            m_LabelLength := le16 r.m_pData (r.m_Offset + 86),
            m_FileName := bytesAt r.m_pData (r.m_Offset + 90) 34,
            m_NamesFileOffset := le32 r.m_pData (r.m_Offset + 124),
            m_FileReference := v,
            m_BranchReference := w },
          { r with m_Offset := r.m_Offset + 148 })) ∧
    (le16 r.m_pData (r.m_Offset + 4) ≠ VssOpcode_RenamedProject →
      le16 r.m_pData (r.m_Offset + 4) ≠ VssOpcode_RenamedFile →
      le16 r.m_pData (r.m_Offset + 4) ≠ VssOpcode_SharedFile →
      le16 r.m_pData (r.m_Offset + 4) ≠ VssOpcode_BranchedFile →
      le16 r.m_pData (r.m_Offset + 4) ≠ VssOpcode_CheckedInFile →
      r.m_Offset + 138 ≤ r.m_DataSize →
      ∃ v, VssNameToNumber (charsOf (bytesAt r.m_pData (r.m_Offset + 128) 10)) = some v ∧
        VssScanLogEntry.Scan self r = some (
          { self with
            m_BranchReference := -1,
            m_PreviousOffset := le32 r.m_pData r.m_Offset,
            m_Opcode := le16 r.m_pData (r.m_Offset + 4),
            m_VersionNumber := le16 r.m_pData (r.m_Offset + 6),
            m_Timestamp := le32 r.m_pData (r.m_Offset + 8),
            m_Username := bytesAt r.m_pData (r.m_Offset + 12) 32,
            m_Label := bytesAt r.m_pData (r.m_Offset + 44) 32,
            m_CommentOffset := le32 r.m_pData (r.m_Offset + 76),
            m_LabelOffset := le32 r.m_pData (r.m_Offset + 80),
            m_CommentLength := le16 r.m_pData (r.m_Offset + 84),
            m_LabelLength := le16 r.m_pData (r.m_Offset + 86),
            m_FileName := bytesAt r.m_pData (r.m_Offset + 90) 34,
            m_NamesFileOffset := le32 r.m_pData (r.m_Offset + 124),
            m_FileReference := v },
          { r with m_Offset := r.m_Offset + 138 })) := by
  refine ⟨?_, ?_, ?_⟩
  · intro hop h
    exact Scan_renamed self r.m_pData r.m_DataSize r.m_Offset hwf.1 hwf.2.1 h hop
  · intro hop h
    exact Scan_branched self r.m_pData r.m_DataSize r.m_Offset hwf.1 hwf.2.1 h hop
  · intro h10 h11 h14 h15 h17 h
    exact Scan_plain self r.m_pData r.m_DataSize r.m_Offset hwf.1 hwf.2.1 h h10 h11 h14 h15
      h17

/-- C16, witness: the RenamedFile entry `logEntry11`, the BranchedFile entry `logEntry15` and
the AddedFile entry `logEntry3`, each read from offset 0 into `logEntry0`. -/
theorem C16_name_tail_layout_witness :
    BinaryReader.WellFormed ⟨logEntry11, 178, 0⟩ ∧
    (VssScanLogEntry.Scan logEntry0 ⟨logEntry11, 178, 0⟩).map
      (fun p => (p.1.m_FileReference, p.1.m_BranchReference, p.2.m_Offset))
      = some (1, -1, 178) ∧
    BinaryReader.WellFormed ⟨logEntry15, 148, 0⟩ ∧
    (VssScanLogEntry.Scan logEntry0 ⟨logEntry15, 148, 0⟩).map
      (fun p => (p.1.m_FileReference, p.1.m_BranchReference, p.2.m_Offset))
      = some (1, 2, 148) ∧
    BinaryReader.WellFormed ⟨logEntry3, 138, 0⟩ ∧
    (VssScanLogEntry.Scan logEntry0 ⟨logEntry3, 138, 0⟩).map
      (fun p => (p.1.m_FileReference, p.1.m_BranchReference, p.2.m_Offset))
      = some (2, -1, 138) := by
  refine ⟨by decide, ?_, by decide, ?_, by decide, ?_⟩
  · obtain ⟨v, hv, hs⟩ := (C16_name_tail_layout logEntry0 ⟨logEntry11, 178, 0⟩
      (by decide)).1 (by decide) (by decide)
    have hv2 : VssNameToNumber (charsOf (bytesAt logEntry11 (0 + 168) 10)) = some 1 := by
      decide
    rw [hv2] at hv
    rw [hs, ← Option.some.inj hv]
    rfl
  · obtain ⟨v, w, hv, hw, hs⟩ := (C16_name_tail_layout logEntry0 ⟨logEntry15, 148, 0⟩
      (by decide)).2.1 (by decide) (by decide)
    have hv2 : VssNameToNumber (charsOf (bytesAt logEntry15 (0 + 128) 10)) = some 1 := by
      decide
    have hw2 : VssNameToNumber (charsOf (bytesAt logEntry15 (0 + 138) 10)) = some 2 := by
      decide
    rw [hv2] at hv
    rw [hw2] at hw
    rw [hs, ← Option.some.inj hv, ← Option.some.inj hw]
    rfl
  · obtain ⟨v, hv, hs⟩ := (C16_name_tail_layout logEntry0 ⟨logEntry3, 138, 0⟩
      (by decide)).2.2 (by decide) (by decide) (by decide) (by decide) (by decide)
      (by decide)
    have hv2 : VssNameToNumber (charsOf (bytesAt logEntry3 (0 + 128) 10)) = some 2 := by
      decide
    rw [hv2] at hv
    rw [hs, ← Option.some.inj hv]
    rfl

/-- C17, witness: the 56-byte child record `childBytes` read from offset 0 into `child0`. -/
theorem C17_child_layout_witness :
    BinaryReader.WellFormed ⟨childBytes, 56, 0⟩ ∧ 0 + 56 ≤ 56 ∧
    (VssScanChild.Scan child0 ⟨childBytes, 56, 0⟩).map
      (fun p => (p.1, p.2.1.m_Type, p.2.1.m_Flags, p.2.1.m_DBName, p.2.2.m_Offset))
      = some (true, 2, 8, dbName1, 56) := by
  refine ⟨by decide, by decide, ?_⟩
  rw [C17_child_layout child0 ⟨childBytes, 56, 0⟩ (by decide) (by decide)]
  decide

/-- C18: on a well-formed cursor with at least 14 bytes remaining, `VssScanParent::Scan` sets
the previous offset to the LE32 at payload offset 0 and the parent index to the name-codec
decoding of bytes 4..13, leaving the cursor 14 bytes further; when the first 8 bytes of that
name are zero the parent index is `-1`. -/
theorem C18_parent_layout (r : BinaryReader) (hwf : r.WellFormed)
    (h : r.m_Offset + 14 ≤ r.m_DataSize) :
    ∃ v, VssNameToNumber (charsOf (bytesAt r.m_pData (r.m_Offset + 4) 10)) = some v ∧
      VssScanParent.Scan r = some (
        { m_PreviousOffset := le32 r.m_pData r.m_Offset, m_ParentIndex := v },
        { r with m_Offset := r.m_Offset + 14 }) ∧
      ((∀ j, j < 8 → byteAt r.m_pData (r.m_Offset + 4 + j) = 0) → v = -1) := by
  obtain ⟨data, size, off⟩ := r
  obtain ⟨hsize, h32, _⟩ := hwf
  simp only at hsize h32 h
  obtain ⟨v, hv⟩ := VssNameToNumber_bytesAt data (off + 4) (by omega)
  refine ⟨v, hv, ?_, ?_⟩
  · simp (disch := omega) only [VssScanParent.Scan, Read32_at, ReadData_at, Nat.add_assoc,
      Nat.reduceAdd, hv]
  · intro hz
    have hbad : VssNameToNumber (charsOf (bytesAt data (off + 4) 10)) = some (-1) := by
      apply nameToNumberLoop_nonletter
      · unfold charsOf bytesAt
        rw [List.length_map, List.length_take, List.length_drop]
        omega
      · refine ⟨0, 0, by omega, ?_, ?_⟩
        · rw [charsOf_bytesAt_getElem? data (off + 4) 10 0 (by omega) (by omega)]
          have := hz 0 (by omega)
          simp only [this]
        · unfold isAsciiLetter
          omega
    rw [hv] at hbad
    exact Option.some.inj hbad

/-- C18, witness: the parent record `parentBytes` (name `caaaaaaa`) and the record
`parentZeroed` (name zeroed out), each read from offset 0. -/
theorem C18_parent_layout_witness :
    BinaryReader.WellFormed ⟨parentBytes, 14, 0⟩ ∧ 0 + 14 ≤ 14 ∧
    VssScanParent.Scan ⟨parentBytes, 14, 0⟩
      = some ({ m_PreviousOffset := 6, m_ParentIndex := 2 }, ⟨parentBytes, 14, 14⟩) ∧
    BinaryReader.WellFormed ⟨parentZeroed, 14, 0⟩ ∧
    (∀ j, j < 8 → byteAt parentZeroed (0 + 4 + j) = 0) ∧
    VssScanParent.Scan ⟨parentZeroed, 14, 0⟩
      = some ({ m_PreviousOffset := 6, m_ParentIndex := -1 }, ⟨parentZeroed, 14, 14⟩) := by
  refine ⟨by decide, by decide, ?_, by decide, by decide, ?_⟩
  · obtain ⟨v, hv, hs, _⟩ := C18_parent_layout ⟨parentBytes, 14, 0⟩ (by decide) (by decide)
    have hv2 : VssNameToNumber (charsOf (bytesAt parentBytes (0 + 4) 10)) = some 2 := by decide
    rw [hv2] at hv
    rw [hs, ← Option.some.inj hv]
    rfl
  · obtain ⟨v, _, hs, hz⟩ := C18_parent_layout ⟨parentZeroed, 14, 0⟩ (by decide) (by decide)
    rw [hs, hz (by decide)]
    rfl

/-- C19: on a well-formed cursor with at least 666 bytes remaining, `VssScanCheckout::Scan`
reads the user name (32 bytes) at payload offset 0, the check-out time (LE32) at 32, the file
name (260 bytes) at 36, the machine (32 bytes) at 296, the project (260 bytes) at 328, the
comment (64 bytes) at 588, the check-out version (LE16) at 652, the check-out flag (LE16) at
654, the next check-out (LE32) at 656, flag 1 (LE16) at 660, flag 2 (LE16) at 662 and the
check-in version (LE16) at 664, advances the cursor by exactly 666 and returns `true`. -/
theorem C19_checkout_layout (r : BinaryReader) (hwf : r.WellFormed)
    (h : r.m_Offset + 666 ≤ r.m_DataSize) :
    VssScanCheckout.Scan r = some (true,
      { m_Username := bytesAt r.m_pData r.m_Offset 32,
        m_CheckoutTime := le32 r.m_pData (r.m_Offset + 32),
        m_Filename := bytesAt r.m_pData (r.m_Offset + 36) 260,
        m_Machine := bytesAt r.m_pData (r.m_Offset + 296) 32,
        m_Project := bytesAt r.m_pData (r.m_Offset + 328) 260,
        m_Comment := bytesAt r.m_pData (r.m_Offset + 588) 64,
        m_CheckoutVersion := le16 r.m_pData (r.m_Offset + 652),
        m_CheckoutFlag := le16 r.m_pData (r.m_Offset + 654),
        m_NextCheckout := le32 r.m_pData (r.m_Offset + 656),
        m_Flag1 := le16 r.m_pData (r.m_Offset + 660),
        m_Flag2 := le16 r.m_pData (r.m_Offset + 662),
        m_CheckinVersion := le16 r.m_pData (r.m_Offset + 664) },
      { r with m_Offset := r.m_Offset + 666 }) := by
  obtain ⟨data, size, off⟩ := r
  obtain ⟨hsize, h32, _⟩ := hwf
  simp only at hsize h32 h
  simp (disch := omega) only [VssScanCheckout.Scan, Read16_at, Read32_at, ReadData_at,
    Nat.add_assoc, Nat.reduceAdd]

/-- C19, witness: the 666-byte check-out record `checkoutBytes` read from offset 0. -/
theorem C19_checkout_layout_witness :
    BinaryReader.WellFormed ⟨checkoutBytes, 666, 0⟩ ∧ 0 + 666 ≤ 666 ∧
    (VssScanCheckout.Scan ⟨checkoutBytes, 666, 0⟩).map
      (fun p => (p.1, p.2.1.m_CheckoutTime, p.2.1.m_CheckoutVersion, p.2.1.m_CheckoutFlag,
        p.2.2.m_Offset))
      = some (true, 4, 1, 64, 666) := by
  refine ⟨by decide, by decide, ?_⟩
  rw [C19_checkout_layout ⟨checkoutBytes, 666, 0⟩ (by decide) (by decide)]
  decide

/-! ## Info-file header: padding -/

/-- The byte accessor away from the index that was overwritten. -/
theorem byteAt_set_ne (data : List u08) (j k : Nat) (b : u08) (h : j ≠ k) :
    byteAt (data.set j b) k = byteAt data k := by
  unfold byteAt
  rw [List.getD_eq_getElem?_getD, List.getD_eq_getElem?_getD, List.getElem?_set_ne h]

/-- The byte accessor at the index that was overwritten. -/
theorem byteAt_set_self (data : List u08) (j : Nat) (b : u08) (h : j < data.length) :
    byteAt (data.set j b) j = b.val := by
  unfold byteAt
  rw [List.getD_eq_getElem?_getD, List.getElem?_set_self h]
  rfl

/-- The comparison loop of `TestBytes` answers `true` when the compared bytes are present
and equal. -/
theorem testBytesLoop_of_eq (bytes data : List u08) (offset : Nat) :
    ∀ (fuel i : Nat),
      (∀ k, i ≤ k → k < i + fuel →
        ∃ x, bytes[k]? = some x ∧ data[(k + offset) % 4294967296]? = some x) →
      BinaryReader.testBytesLoop bytes data offset fuel i = some true := by
  intro fuel
  induction fuel with
  | zero =>
    intro i _
    rfl
  | succ fuel ih =>
    intro i h
    obtain ⟨x, hx, hy⟩ := h i (by omega) (by omega)
    unfold BinaryReader.testBytesLoop
    rw [hx, hy]
    simp only [ne_eq, not_true_eq_false, if_false]
    exact ih (i + 1) (fun k h1 h2 => h k (by omega) (by omega))

/-- `TestBytes` accepts a buffer of at least 20 bytes that starts with the magic string. -/
theorem TestBytes_of_magic (data : List u08) (h20 : 20 ≤ data.length)
    (h32 : data.length < 4294967296) (hm : data.take 20 = infoMagic.take 20) :
    BinaryReader.TestBytes ⟨data, data.length, 0⟩ infoMagic 20 = some true := by
  unfold BinaryReader.TestBytes
  have hc : ¬ ((0 + 20) % 4294967296 > data.length) := by omega
  simp only [hc, if_false]
  apply testBytesLoop_of_eq
  intro k _ hk
  have hk20 : k < 20 := by omega
  have e1 : infoMagic[k]? = (infoMagic.take 20)[k]? := (List.getElem?_take_of_lt hk20).symm
  have e2 : data[k]? = (data.take 20)[k]? := (List.getElem?_take_of_lt hk20).symm
  refine ⟨data[k], ?_, ?_⟩
  · rw [e1, ← hm, ← e2]
    exact List.getElem?_eq_getElem (by omega)
  · rw [Nat.add_zero, Nat.mod_eq_of_lt (by omega)]
    exact List.getElem?_eq_getElem (by omega)

/-- The zero-reading loop runs to its end over bytes that are all zero. -/
theorem readZeros32_of_zero (data : List u08) (size : Nat) (hsize : size = data.length)
    (h32 : size < 4294967296) :
    ∀ (n off : Nat), off + 4 * n ≤ size →
      (∀ k, off ≤ k → k < off + 4 * n → byteAt data k = 0) →
      readZeros32 n ⟨data, size, off⟩ = some (true, ⟨data, size, off + 4 * n⟩) := by
  intro n
  induction n with
  | zero =>
    intro off _ _
    rfl
  | succ n ih =>
    intro off hle hz
    unfold readZeros32
    rw [Read32_at data size off hsize h32 (by omega)]
    have hv : le32 data off = 0 := by
      unfold le32
      rw [hz off (by omega) (by omega), hz (off + 1) (by omega) (by omega),
        hz (off + 2) (by omega) (by omega), hz (off + 3) (by omega) (by omega)]
      rfl
    simp only [hv, ne_eq, not_true_eq_false, if_false]
    rw [ih (off + 4) (by omega) (fun k h1 h2 => hz k (by omega) (by omega))]
    have e : off + 4 + 4 * n = off + 4 * (n + 1) := by omega
    rw [e]

/-- The zero-reading loop returns early when one of the bytes it reads is not zero. -/
theorem readZeros32_of_nonzero (data : List u08) (size : Nat) (hsize : size = data.length)
    (h32 : size < 4294967296) (j : Nat) (hj : byteAt data j ≠ 0) :
    ∀ (n off : Nat), off + 4 * n ≤ size → off ≤ j → j < off + 4 * n →
      ∃ r, readZeros32 n ⟨data, size, off⟩ = some (false, r) := by
  intro n
  induction n with
  | zero =>
    intro off _ h1 h2
    omega
  | succ n ih =>
    intro off hle h1 h2
    unfold readZeros32
    rw [Read32_at data size off hsize h32 (by omega)]
    simp only
    split
    · exact ⟨_, rfl⟩
    · rename_i hv
      have hv0 : le32 data off = 0 := by omega
      unfold le32 at hv0
      have hj4 : off + 4 ≤ j := by
        by_contra hlt
        have : j = off ∨ j = off + 1 ∨ j = off + 2 ∨ j = off + 3 := by omega
        rcases this with e | e | e | e <;> subst e <;> omega
      exact ih (off + 4) (by omega) hj4 (by omega)

/-- Overwriting a byte at or after index `m` leaves the first `m` bytes alone. -/
theorem take_set_of_le (data : List u08) (m j : Nat) (b : u08) (h : m ≤ j) :
    (data.set j b).take m = data.take m := by
  apply List.ext_getElem?
  intro i
  by_cases hi : i < m
  · rw [List.getElem?_take_of_lt hi, List.getElem?_take_of_lt hi,
      List.getElem?_set_ne (by omega)]
  · rw [List.getElem?_take_eq_none (by omega), List.getElem?_take_eq_none (by omega)]

/-- The little-endian 16-bit value away from the index that was overwritten. -/
theorem le16_set_ne (data : List u08) (j k : Nat) (b : u08) (h1 : j ≠ k) (h2 : j ≠ k + 1) :
    le16 (data.set j b) k = le16 data k := by
  unfold le16
  rw [byteAt_set_ne data j k b h1, byteAt_set_ne data j (k + 1) b h2]

/-- `Scan` returns `false` on an accepted buffer in which one of the 12 padding bytes
(offsets 20..31) or of the 16 zero bytes (offsets 36..51) has been made non-zero. -/
theorem Scan_rejects_padding (VssCrc16 : List u08 → Nat → Nat) (self hdr : VssScanHeader)
    (data : List u08) (r : BinaryReader) (h32 : data.length < 4294967296)
    (hacc : VssScanHeader.Scan VssCrc16 self (BinaryReader.Initialize data data.length 0)
      = some (true, hdr, r))
    (j : Nat) (b : u08) (hb : b.val ≠ 0) (hj : (20 ≤ j ∧ j < 32) ∨ (36 ≤ j ∧ j < 52)) :
    ∃ hdr2 r2, VssScanHeader.Scan VssCrc16 self
      (BinaryReader.Initialize (data.set j b) (data.set j b).length 0)
        = some (false, hdr2, r2) := by
  obtain ⟨hmagic, h58, hzA, _, hkind, hver, hzB, _, _⟩ :=
    Scan_accept_layout VssCrc16 self hdr data r h32 hacc
  have hlen : (data.set j b).length = data.length := List.length_set data j b
  have h32b : (data.set j b).length < 4294967296 := by omega
  have hjlt : j < data.length := by omega
  have hbyte : byteAt (data.set j b) j ≠ 0 := by
    rw [byteAt_set_self data j b hjlt]
    exact hb
  have hT : BinaryReader.TestBytes ⟨data.set j b, (data.set j b).length, 0⟩ infoMagic 20
      = some true := by
    apply TestBytes_of_magic _ (by omega) h32b
    rw [take_set_of_le data 20 j b (by omega)]
    exact hmagic
  rw [Initialize_zero]
  unfold VssScanHeader.Scan
  rw [hT]
  simp only [Skip_twenty (data.set j b) (data.set j b).length (by omega)]
  rcases hj with ⟨hj1, hj2⟩ | ⟨hj1, hj2⟩
  · obtain ⟨r1, hz⟩ := readZeros32_of_nonzero (data.set j b) _ rfl h32b j hbyte 3 20
      (by omega) hj1 (by omega)
    rw [hz]
    exact ⟨_, _, rfl⟩
  · have hz1 := readZeros32_of_zero (data.set j b) _ rfl h32b 3 20 (by omega)
      (fun k h1 h2 => by
        rw [byteAt_set_ne data j k b (by omega)]
        exact hzA k h1 (by omega))
    rw [hz1]
    simp only
    rw [Read16_at (data.set j b) _ (20 + 4 * 3) rfl h32b (by omega)]
    simp only
    have e32 : le16 (data.set j b) (20 + 4 * 3) = le16 data 32 :=
      le16_set_ne data j 32 b (by omega) (by omega)
    have hty : ¬ (VssType_File ≠ le16 (data.set j b) (20 + 4 * 3) ∧
        VssType_Project ≠ le16 (data.set j b) (20 + 4 * 3)) := by
      rw [e32]
      rcases hkind with e | e <;> rw [e] <;> simp
    rw [if_neg hty]
    rw [Read16_at (data.set j b) _ (20 + 4 * 3 + 2) rfl h32b (by omega)]
    simp only
    have e34 : le16 (data.set j b) (20 + 4 * 3 + 2) = le16 data 34 :=
      le16_set_ne data j 34 b (by omega) (by omega)
    have hv : ¬ (6 ≠ le16 (data.set j b) (20 + 4 * 3 + 2)) := by
      rw [e34, hver]
      simp
    rw [if_neg hv]
    obtain ⟨r4, hz4⟩ := readZeros32_of_nonzero (data.set j b) _ rfl h32b j hbyte 4
      (20 + 4 * 3 + 2 + 2) (by omega) (by omega) (by omega)
    rw [hz4]
    exact ⟨_, _, rfl⟩

/-- C12, counterexample: `Scan` accepts `infoDH52`, and returns `false` once the padding
byte at offset 20, or the zero byte at offset 51, is set to 1. -/
theorem C12_nonzero_padding_is_rejected :
    VssScanHeader.Scan crcZero header0 (BinaryReader.Initialize infoDH52 infoDH52.length 0)
      = some (true, headerDH52, ⟨infoDH52, 60, 60⟩) ∧
    infoPadding20 = infoDH52.set 20 1 ∧
    VssScanHeader.Scan crcZero header0
      (BinaryReader.Initialize infoPadding20 infoPadding20.length 0)
      = some (false, header0, ⟨infoPadding20, 60, 24⟩) ∧
    infoPadding51 = infoDH52.set 51 1 ∧
    VssScanHeader.Scan crcZero header0
      (BinaryReader.Initialize infoPadding51 infoPadding51.length 0)
      = some (false, headerDH48, ⟨infoPadding51, 60, 52⟩) := by
  decide

/-- C12, amended: the zero fields of the fixed header are enforced. For every info buffer
that `Scan` accepts, changing any of the 12 padding bytes after the magic (offsets 20..31) or
any of the 16 zero bytes after the version field (offsets 36..51) to a non-zero value makes
`Scan` return `false`. -/
theorem C12_padding_is_enforced (VssCrc16 : List u08 → Nat → Nat) (self hdr : VssScanHeader)
    (data : List u08) (r : BinaryReader) (h32 : data.length < 4294967296)
    (hacc : VssScanHeader.Scan VssCrc16 self (BinaryReader.Initialize data data.length 0)
      = some (true, hdr, r))
    (j : Nat) (b : u08) (hb : b.val ≠ 0) (hj : (20 ≤ j ∧ j < 32) ∨ (36 ≤ j ∧ j < 52)) :
    ∃ hdr2 r2, VssScanHeader.Scan VssCrc16 self
      (BinaryReader.Initialize (data.set j b) (data.set j b).length 0)
        = some (false, hdr2, r2) :=
  Scan_rejects_padding VssCrc16 self hdr data r h32 hacc j b hb hj

/-- C12, witness: the accepted buffer `infoDH52` with the byte at offset 40 set to 255. -/
theorem C12_padding_is_enforced_witness :
    infoDH52.length < 4294967296 ∧
    VssScanHeader.Scan crcZero header0 (BinaryReader.Initialize infoDH52 infoDH52.length 0)
      = some (true, headerDH52, ⟨infoDH52, 60, 60⟩) ∧
    (255 : u08).val ≠ 0 ∧ ((20 ≤ 40 ∧ 40 < 32) ∨ (36 ≤ 40 ∧ 40 < 52)) ∧
    (∃ hdr2 r2, VssScanHeader.Scan crcZero header0
      (BinaryReader.Initialize (infoDH52.set 40 255) (infoDH52.set 40 255).length 0)
        = some (false, hdr2, r2)) :=
  ⟨by decide, by decide, by decide, by decide,
    C12_padding_is_enforced crcZero header0 headerDH52 infoDH52 ⟨infoDH52, 60, 60⟩ (by decide)
      (by decide) 40 255 (by decide) (by decide)⟩

/-! ## Graph assembly: auxiliary facts -/

/-- Nothing changed is a special case of `NodeMarked`. -/
theorem NodeMarked_refl (n : VssNode_t) : NodeMarked n n :=
  ⟨rfl, rfl, rfl, rfl, Or.inl rfl⟩

/-- `NodeMarked` composes. -/
theorem NodeMarked_trans (a b c : VssNode_t) (h1 : NodeMarked a b) (h2 : NodeMarked b c) :
    NodeMarked a c := by
  obtain ⟨a1, a2, a3, a4, a5⟩ := h1
  obtain ⟨b1, b2, b3, b4, b5⟩ := h2
  refine ⟨b1.trans a1, b2.trans a2, b3.trans a3, b4.trans a4, ?_⟩
  rcases a5 with e1 | ⟨z1, info1, hi1, ht1, hk1⟩
  · rcases b5 with e2 | ⟨z2, info2, hi2, ht2, hk2⟩
    · exact Or.inl (e2.trans e1)
    · right
      refine ⟨e1 ▸ z2, info2, a2 ▸ hi2, ht2, hk2⟩
  · rcases b5 with e2 | ⟨z2, info2, hi2, ht2, hk2⟩
    · right
      exact ⟨z1, info1, hi1, e2 ▸ ht1, e2 ▸ hk1⟩
    · exfalso
      unfold VssType_Project VssType_File at hk1
      omega

/-- Nothing changed is a special case of `Marked`. -/
theorem Marked_refl (t : VssTree) : Marked t t := by
  refine ⟨rfl, rfl, ?_⟩
  intro i n m h1 h2
  rw [h1] at h2
  rw [← Option.some.inj h2]
  exact NodeMarked_refl n

/-- `Marked` composes. -/
theorem Marked_trans (t u v : VssTree) (h1 : Marked t u) (h2 : Marked u v) : Marked t v := by
  obtain ⟨c1, l1, n1⟩ := h1
  obtain ⟨c2, l2, n2⟩ := h2
  refine ⟨c2.trans c1, l2.trans l1, ?_⟩
  intro i n m hn hm
  have hi : i < t.m_pNodes.length := (List.getElem?_eq_some_iff.mp hn).1
  have hlt : i < u.m_pNodes.length := by omega
  have hu : u.m_pNodes[i]? = some u.m_pNodes[i] := List.getElem?_eq_getElem hlt
  exact NodeMarked_trans _ _ _ (n1 i n _ hn hu) (n2 i _ m hu hm)

/-- Assembly steps keep the node table well formed. -/
theorem WellFormed_of_Marked (t u : VssTree) (hwf : t.WellFormed) (h : Marked t u) :
    u.WellFormed := by
  obtain ⟨_, hl, hn⟩ := h
  intro i node info hnode hinfo
  have hi : i < u.m_pNodes.length := (List.getElem?_eq_some_iff.mp hnode).1
  have hlt : i < t.m_pNodes.length := by omega
  have ht : t.m_pNodes[i]? = some t.m_pNodes[i] := List.getElem?_eq_getElem hlt
  obtain ⟨e1, e2, _, _, _⟩ := hn i _ node ht hnode
  rw [e1]
  exact hwf i _ info ht (e2 ▸ hinfo)

/-- Storing a parent identifier is an assembly step. -/
theorem setParentID_Marked (t : VssTree) (index parentID : Nat) :
    Marked t (t.setParentID index parentID) := by
  unfold VssTree.setParentID
  simp only [List.get?_eq_getElem?]
  split
  · exact Marked_refl t
  · rename_i node hnode
    refine ⟨rfl, List.length_set _ _ _, ?_⟩
    intro i n m hn hm
    simp only [List.getElem?_set] at hm
    split at hm
    · rename_i hi
      subst hi
      split at hm
      · rw [hnode] at hn
        rw [← Option.some.inj hn, ← Option.some.inj hm]
        exact ⟨rfl, rfl, rfl, rfl, Or.inl rfl⟩
      · exact absurd hm (by simp)
    · rw [hn] at hm
      rw [← Option.some.inj hm]
      exact NodeMarked_refl n

/-- Storing the kind field of the header into a node whose type is 0 is an assembly step. -/
theorem setType_Marked (t : VssTree) (index : Nat) (node : VssNode_t) (info : List u08)
    (hnode : t.m_pNodes[index]? = some node) (hzero : node.Type_ = 0)
    (hinfo : node.pInfo = some info)
    (hkind : le16 info 32 = VssType_Project ∨ le16 info 32 = VssType_File) :
    Marked t (t.setType index (le16 info 32)) := by
  unfold VssTree.setType
  simp only [List.get?_eq_getElem?]
  rw [hnode]
  refine ⟨rfl, List.length_set _ _ _, ?_⟩
  intro i n m hn hm
  simp only [List.getElem?_set] at hm
  split at hm
  · rename_i hi
    subst hi
    split at hm
    · rw [hnode] at hn
      rw [← Option.some.inj hn, ← Option.some.inj hm]
      exact ⟨rfl, rfl, rfl, rfl, Or.inr ⟨hzero, info, hinfo, rfl, hkind⟩⟩
    · exact absurd hm (by simp)
  · rw [hn] at hm
    rw [← Option.some.inj hm]
    exact NodeMarked_refl n

/-- The project branch changes nothing but the parent identifier of the node. -/
theorem scanProjectInfo_Marked (VssCrc16 : List u08 → Nat → Nat) (fuel index : Nat)
    (t u : VssTree) (reader : BinaryReader) (log out : List Report) (b : Bool)
    (h : scanProjectInfo VssCrc16 fuel index t reader log = Run.done (b, u, out)) :
    Marked t u := by
  unfold scanProjectInfo at h
  split at h
  · exact absurd h (by simp)
  split at h
  · exact absurd h (by simp)
  rename_i parentName _ _
  split at h
  · exact absurd h (by simp)
  · rename_i t1 hstep
    simp only [Run.done.injEq, Prod.mk.injEq] at h
    obtain ⟨_, rfl, _⟩ := h
    split at hstep
    · split at hstep
      · exact absurd hstep (by simp)
      · simp only [Option.some.injEq, Prod.mk.injEq] at hstep
        rw [← hstep.1]
        exact setParentID_Marked t index _
    · simp only [Option.some.injEq, Prod.mk.injEq] at hstep
      rw [← hstep.1]
      exact Marked_refl t
  · rename_i t1 hstep
    have hm : Marked t t1 := by
      split at hstep
      · split at hstep
        · exact absurd hstep (by simp)
        · simp only [Option.some.injEq, Prod.mk.injEq] at hstep
          rw [← hstep.1]
          exact setParentID_Marked t index _
      · simp only [Option.some.injEq, Prod.mk.injEq] at hstep
        rw [← hstep.1]
        exact Marked_refl t
    split at h
    · exact absurd h (by simp)
    split at h
    · exact absurd h (by simp)
    split at h
    · simp only [Run.done.injEq, Prod.mk.injEq] at h
      obtain ⟨_, rfl, _⟩ := h
      exact hm
    · split at h
      · exact absurd h (by simp)
      · exact absurd h (by simp)
      · simp only [Run.done.injEq, Prod.mk.injEq] at h
        obtain ⟨_, rfl, _⟩ := h
        exact hm

/-- The chunk loop over the data stream of a project only takes assembly steps when the
recursive call does. -/
theorem dataLoop_Marked (VssCrc16 : List u08 → Nat → Nat)
    (visit : Nat → VssTree → List Report → Run (Bool × VssTree × List Report))
    (hvisit : ∀ (index : Nat) (t u : VssTree) (log out : List Report) (b : Bool),
      t.WellFormed → visit index t log = Run.done (b, u, out) → Marked t u) :
    ∀ (fuel : Nat) (childScan : VssScanChild) (reader : BinaryReader) (t u : VssTree)
      (log out : List Report) (b : Bool), t.WellFormed →
      dataLoop VssCrc16 visit fuel childScan reader t log = Run.done (b, u, out) →
      Marked t u := by
  intro fuel
  induction fuel with
  | zero =>
    intro childScan reader t u log out b _ h
    exact absurd h (by simp [dataLoop])
  | succ fuel ih =>
    intro childScan reader t u log out b hwf h
    unfold dataLoop at h
    split at h
    · split at h
      · exact absurd h (by simp)
      split at h
      · exact absurd h (by simp)
      · simp only [Run.done.injEq, Prod.mk.injEq] at h
        obtain ⟨_, rfl, _⟩ := h
        exact Marked_refl t
      · split at h
        · split at h
          · exact absurd h (by simp)
          split at h
          · exact absurd h (by simp)
          split at h
          · exact absurd h (by simp)
          · exact absurd h (by simp)
          · rename_i t1 log1 hv
            have hm1 := hvisit _ _ _ _ _ _ hwf hv
            exact Marked_trans _ _ _ hm1
              (ih _ _ _ _ _ _ _ (WellFormed_of_Marked _ _ hwf hm1) h)
        · exact ih _ _ _ _ _ _ _ hwf h
    · simp only [Run.done.injEq, Prod.mk.injEq] at h
      obtain ⟨_, rfl, _⟩ := h
      exact Marked_refl t

/-- Every call of `AssembleDirectoryLinks` that returns only takes assembly steps: buffers
stay, and a type changes only from 0 to the kind field of the fixed header. -/
theorem AssembleDirectoryLinks_Marked (VssCrc16 VssCrc32 : List u08 → Nat → Nat) :
    ∀ (fuel index depth : Nat) (path : Option (List Nat))
      (t u : VssTree) (log out : List Report) (b : Bool),
      t.WellFormed →
      VssTree.AssembleDirectoryLinks VssCrc16 VssCrc32 fuel index depth path t log
        = Run.done (b, u, out) →
      Marked t u := by
  intro fuel
  induction fuel with
  | zero =>
    intro index depth path t u log out b _ h
    exact absurd h (by simp [VssTree.AssembleDirectoryLinks])
  | succ fuel ih =>
    intro index depth path t u log out b hwf h
    unfold VssTree.AssembleDirectoryLinks at h
    simp only [List.get?_eq_getElem?] at h
    split at h
    · exact absurd h (by simp)
    rename_i node hnode
    split at h
    · rename_i info data hinfo hdata
      obtain ⟨hsize, h32⟩ := hwf index node info hnode hinfo
      rw [hsize] at h
      split at h
      · exact absurd h (by simp)
      · simp only [Run.done.injEq, Prod.mk.injEq] at h
        obtain ⟨_, rfl, _⟩ := h
        exact Marked_refl t
      · rename_i header reader hscan
        obtain ⟨_, _, _, hty, hkind, _⟩ :=
          Scan_accept_layout VssCrc16 localHeader header info reader h32 hscan
        split at h
        · exact absurd h (by simp)
        rename_i pathname hpath
        split at h
        · simp only [Run.done.injEq, Prod.mk.injEq] at h
          obtain ⟨_, rfl, _⟩ := h
          exact Marked_refl t
        · rename_i hzero
          have hz : node.Type_ = 0 := by omega
          have hset : Marked t (t.setType index header.m_Type) := by
            rw [hty]
            exact setType_Marked t index node info hnode hz hinfo hkind
          split at h
          · split at h
            · exact absurd h (by simp)
            · exact absurd h (by simp)
            · rename_i t1 log1 hproj
              simp only [Run.done.injEq, Prod.mk.injEq] at h
              obtain ⟨_, rfl, _⟩ := h
              exact Marked_trans _ _ _ hset (scanProjectInfo_Marked _ _ _ _ _ _ _ _ _ hproj)
            · rename_i t1 log1 hproj
              have hm1 : Marked t t1 :=
                Marked_trans _ _ _ hset (scanProjectInfo_Marked _ _ _ _ _ _ _ _ _ hproj)
              exact Marked_trans _ _ _ hm1
                (dataLoop_Marked VssCrc16 _
                  (fun i a c l o r ha hr => ih i _ _ a c l o r ha hr) _ _ _ _ _ _ _ _
                  (WellFormed_of_Marked _ _ hwf hm1) h)
          · split at h
            · exact absurd h (by simp)
            · exact absurd h (by simp)
            · simp only [Run.done.injEq, Prod.mk.injEq] at h
              obtain ⟨_, rfl, _⟩ := h
              exact hset
    · simp only [Run.done.injEq, Prod.mk.injEq] at h
      obtain ⟨_, rfl, _⟩ := h
      exact Marked_refl t

/-- Assembly steps keep the invariant of the node table. -/
theorem KindsFromHeader_of_Marked (t u : VssTree) (hinv : t.KindsFromHeader)
    (h : Marked t u) : u.KindsFromHeader := by
  obtain ⟨_, hl, hn⟩ := h
  intro i m hm hne
  have hi : i < u.m_pNodes.length := (List.getElem?_eq_some_iff.mp hm).1
  have hlt : i < t.m_pNodes.length := by omega
  have ht : t.m_pNodes[i]? = some t.m_pNodes[i] := List.getElem?_eq_getElem hlt
  obtain ⟨_, e2, _, _, e5⟩ := hn i _ m ht hm
  rcases e5 with e | ⟨_, info, hinfo, hty, hkind⟩
  · obtain ⟨info, hinfo, hty, hkind⟩ := hinv i _ ht (e ▸ hne)
    exact ⟨info, e2.trans hinfo, e.trans hty, e ▸ hkind⟩
  · exact ⟨info, e2.trans hinfo, hty, hkind⟩

/-- Assembly steps never reset a type that is not 0. -/
theorem Marked_type_ne_zero (t u : VssTree) (h : Marked t u) (i : Nat) (n : VssNode_t)
    (hn : t.m_pNodes[i]? = some n) (hz : n.Type_ ≠ 0) :
    ∃ m, u.m_pNodes[i]? = some m ∧ m.Type_ ≠ 0 := by
  obtain ⟨_, hl, hnodes⟩ := h
  have hi : i < t.m_pNodes.length := (List.getElem?_eq_some_iff.mp hn).1
  have hlt : i < u.m_pNodes.length := by omega
  have hu : u.m_pNodes[i]? = some u.m_pNodes[i] := List.getElem?_eq_getElem hlt
  obtain ⟨_, _, _, _, e5⟩ := hnodes i n _ hn hu
  refine ⟨_, hu, ?_⟩
  rcases e5 with e | ⟨z, _⟩
  · rw [e]
    exact hz
  · exact absurd z hz

/-- The node that `setType` stores to. -/
theorem setType_getElem? (t : VssTree) (index type : Nat) (node : VssNode_t)
    (hnode : t.m_pNodes[index]? = some node) :
    (t.setType index type).m_pNodes[index]? = some { node with Type_ := type } := by
  have hi : index < t.m_pNodes.length := (List.getElem?_eq_some_iff.mp hnode).1
  unfold VssTree.setType
  simp only [List.get?_eq_getElem?]
  rw [hnode]
  simp only [List.getElem?_set, if_pos hi, if_true]

/-- A call of `AssembleDirectoryLinks` that returns `true` leaves the type of its node
different from 0. -/
theorem AssembleDirectoryLinks_true_visited (VssCrc16 VssCrc32 : List u08 → Nat → Nat)
    (fuel index depth : Nat) (path : Option (List Nat))
    (t u : VssTree) (log out : List Report) (hwf : t.WellFormed)
    (h : VssTree.AssembleDirectoryLinks VssCrc16 VssCrc32 fuel index depth path t log
      = Run.done (true, u, out)) :
    ∃ m, u.m_pNodes[index]? = some m ∧ m.Type_ ≠ 0 := by
  cases fuel with
  | zero => exact absurd h (by simp [VssTree.AssembleDirectoryLinks])
  | succ fuel =>
    unfold VssTree.AssembleDirectoryLinks at h
    simp only [List.get?_eq_getElem?] at h
    split at h
    · exact absurd h (by simp)
    rename_i node hnode
    split at h
    · rename_i info data hinfo hdata
      obtain ⟨hsize, h32⟩ := hwf index node info hnode hinfo
      rw [hsize] at h
      split at h
      · exact absurd h (by simp)
      · exact absurd h (by simp)
      · rename_i header reader hscan
        obtain ⟨_, _, _, hty, hkind, _⟩ :=
          Scan_accept_layout VssCrc16 localHeader header info reader h32 hscan
        split at h
        · exact absurd h (by simp)
        rename_i pathname hpath
        split at h
        · rename_i hvisited
          simp only [Run.done.injEq, Prod.mk.injEq, true_and] at h
          obtain ⟨rfl, _⟩ := h
          exact ⟨node, hnode, fun e => hvisited e.symm⟩
        · rename_i hzero
          have hz : node.Type_ = 0 := by omega
          have hne : header.m_Type ≠ 0 := by
            rw [hty]
            unfold VssType_Project VssType_File at hkind
            omega
          have hstored := setType_getElem? t index header.m_Type node hnode
          have hset : Marked t (t.setType index header.m_Type) := by
            rw [hty]
            exact setType_Marked t index node info hnode hz hinfo hkind
          split at h
          · split at h
            · exact absurd h (by simp)
            · exact absurd h (by simp)
            · exact absurd h (by simp)
            · rename_i t1 log1 hproj
              have hm1 := scanProjectInfo_Marked _ _ _ _ _ _ _ _ _ hproj
              have hm2 := dataLoop_Marked VssCrc16 _
                (fun i a c l o r ha hr =>
                  AssembleDirectoryLinks_Marked VssCrc16 VssCrc32 fuel i _ _ a c l o r ha hr)
                _ _ _ _ _ _ _ _
                (WellFormed_of_Marked _ _ hwf (Marked_trans _ _ _ hset hm1)) h
              exact Marked_type_ne_zero _ _ (Marked_trans _ _ _ hm1 hm2) index _ hstored hne
          · split at h
            · exact absurd h (by simp)
            · exact absurd h (by simp)
            · simp only [Run.done.injEq, Prod.mk.injEq] at h
              obtain ⟨_, rfl, _⟩ := h
              exact ⟨_, hstored, hne⟩
    · exact absurd h (by simp)

/-- A run whose summary is known is a run that returned. -/
theorem Run.summary_done (k : Nat) (r : Run (Bool × VssTree × List Report)) (b : Bool)
    (types : List Nat) (log : List Report) (h : Run.summary k r = Run.done (b, types, log)) :
    ∃ u, r = Run.done (b, u, log) ∧ u.types k = types := by
  cases r with
  | done a =>
    obtain ⟨b1, u, log1⟩ := a
    simp only [Run.summary, Run.done.injEq, Prod.mk.injEq] at h
    obtain ⟨rfl, rfl, rfl⟩ := h
    exact ⟨u, rfl, rfl⟩
  | fault => exact absurd h (by simp [Run.summary])
  | timeout => exact absurd h (by simp [Run.summary])

/-- The sample tables are well formed. -/
theorem treeOf_WellFormed (nodes : List VssNode_t)
    (h : ∀ n ∈ nodes, ∀ info, n.pInfo = some info →
      n.InfoSize = info.length ∧ info.length < 4294967296) :
    (treeOf nodes).WellFormed := by
  intro i node info hnode hinfo
  have hmem : node ∈ (treeOf nodes).m_pNodes := by
    obtain ⟨hi, he⟩ := List.getElem?_eq_some_iff.mp hnode
    rw [← he]
    apply List.getElem_mem
  simp only [treeOf, List.mem_append, List.mem_replicate] at hmem
  rcases hmem with hm | ⟨_, rfl⟩
  · exact h node hm info hinfo
  · exact absurd hinfo (by simp)

/-- A table whose types are all 0 satisfies the invariant. -/
theorem treeOf_KindsFromHeader (nodes : List VssNode_t) (h : ∀ n ∈ nodes, n.Type_ = 0) :
    (treeOf nodes).KindsFromHeader := by
  intro i node hnode hne
  have hmem : node ∈ (treeOf nodes).m_pNodes := by
    obtain ⟨hi, he⟩ := List.getElem?_eq_some_iff.mp hnode
    rw [← he]
    apply List.getElem_mem
  simp only [treeOf, List.mem_append, List.mem_replicate] at hmem
  rcases hmem with hm | ⟨_, rfl⟩
  · exact absurd (h node hm) hne
  · exact absurd rfl hne

/-! ## Graph assembly: the claims -/

set_option maxHeartbeats 1000000

/-- C11, counterexample: the project of `treeKindAndType2` has kind 1 at offset 32 of its
info buffer and 2 in the first field of its `DH` chunk, at offset 60. The call on node 0
returns `true` and leaves type 1 in the node, which is not the value of that first field. -/
theorem C11_type_is_not_type2 :
    treeKindAndType2.m_pNodes.head? = some (nodeOf (infoNoChunks 1 2) []) ∧
    le16 (infoNoChunks 1 2) 32 = 1 ∧ le16 (infoNoChunks 1 2) 60 = 2 ∧
    Run.summary 1 (VssTree.AssembleDirectoryLinks crcZero crcZero 3 0 0 none treeKindAndType2 [])
      = Run.done (true, [1], [Report.visiting 0 416]) := by
  decide

/-- C11, amended: the type of a visited node is the kind field of the fixed header, not the
first field of the `DH` chunk. Whenever a call of `AssembleDirectoryLinks` returns, on a table
whose info sizes are the lengths of the info buffers and in which every type other than 0 is
the kind field at offset 32 of the info buffer of its node and is project (1) or file (2),
the same holds of the table it leaves; and when the call returns `true`, the type of its node
is not 0. -/
theorem C11_visited_type_is_header_kind (VssCrc16 VssCrc32 : List u08 → Nat → Nat)
    (fuel index depth : Nat) (path : Option (List Nat))
    (t u : VssTree) (log out : List Report) (b : Bool)
    (hwf : t.WellFormed) (hinv : t.KindsFromHeader)
    (h : VssTree.AssembleDirectoryLinks VssCrc16 VssCrc32 fuel index depth path t log
      = Run.done (b, u, out)) :
    u.KindsFromHeader ∧
    (b = true → ∃ node, u.m_pNodes[index]? = some node ∧ node.Type_ ≠ 0) := by
  refine ⟨KindsFromHeader_of_Marked t u hinv
    (AssembleDirectoryLinks_Marked VssCrc16 VssCrc32 fuel index depth path t u log out b hwf
      h), ?_⟩
  intro hb
  subst hb
  exact AssembleDirectoryLinks_true_visited VssCrc16 VssCrc32 fuel index
    depth path t u log out hwf h

/-- C11, witness: the project of `treeProjectAndFile` and the file it holds. The call on
node 0 returns `true` and leaves the types 1 and 2. -/
theorem C11_visited_type_is_header_kind_witness :
    treeProjectAndFile.WellFormed ∧ treeProjectAndFile.KindsFromHeader ∧
    ∃ u, VssTree.AssembleDirectoryLinks crcZero crcZero 3 0 0 none treeProjectAndFile []
        = Run.done (true, u, [Report.visiting 0 416, Report.visiting 1 416,
            Report.unexpectedCheckoutInactive 0]) ∧
      u.types 2 = [1, 2] ∧ u.KindsFromHeader ∧
      (true = true → ∃ node, u.m_pNodes[0]? = some node ∧ node.Type_ ≠ 0) := by
  have hwf : treeProjectAndFile.WellFormed := treeOf_WellFormed _ (by decide)
  have hinv : treeProjectAndFile.KindsFromHeader := treeOf_KindsFromHeader _ (by decide)
  obtain ⟨u, hu, hty⟩ := Run.summary_done 2
    (VssTree.AssembleDirectoryLinks crcZero crcZero 3 0 0 none treeProjectAndFile []) true [1, 2]
    [Report.visiting 0 416, Report.visiting 1 416, Report.unexpectedCheckoutInactive 0]
    (by decide)
  exact ⟨hwf, hinv, u, hu, hty,
    C11_visited_type_is_header_kind crcZero crcZero 3 0 0 none treeProjectAndFile u [] _ true
      hwf hinv hu⟩

/-- With a checksum function that returns 7, the file of `treeFileTwoChunks` is assembled. -/
theorem treeFileTwoChunks_run_seven :
    Run.summary 1 (VssTree.AssembleDirectoryLinks crcSeven crcZero 4 0 0 none treeFileTwoChunks [])
      = Run.done (true, [2], [Report.visiting 0 440, Report.unexpectedCheckoutInactive 0,
          Report.unknownChunk 0x5858, Report.unknownChunk 0x5858]) := by
  decide

/-- With a checksum function that returns 0, the visit of the file of `treeFileTwoChunks`
returns `false` at its first chunk. -/
theorem treeFileTwoChunks_run_zero :
    Run.summary 1 (VssTree.AssembleDirectoryLinks crcZero crcZero 4 0 0 none treeFileTwoChunks [])
      = Run.done (false, [2], [Report.visiting 0 440, Report.unexpectedCheckoutInactive 0,
          Report.badCRC]) := by
  decide

/-- With a checksum function that returns 7, both projects of `treeDataTwoChunks` are
assembled. -/
theorem treeDataTwoChunks_run_seven :
    Run.summary 2 (VssTree.AssembleDirectoryLinks crcSeven crcZero 4 0 0 none treeDataTwoChunks [])
      = Run.done (true, [1, 1], [Report.visiting 0 416, Report.unknownChunkID 0x5858,
          Report.visiting 1 416]) := by
  decide

/-- With a checksum function that returns 0, the visit of node 0 of `treeDataTwoChunks`
returns `false` at the first chunk of its data stream. -/
theorem treeDataTwoChunks_run_zero :
    Run.summary 2 (VssTree.AssembleDirectoryLinks crcZero crcZero 4 0 0 none treeDataTwoChunks [])
      = Run.done (false, [1, 0], [Report.visiting 0 416, Report.badCRC]) := by
  decide

/-- C20, counterexample: the info stream of the file of `treeFileTwoChunks` holds a chunk with
stored CRC 7 at offset 416 and a second chunk at offset 428; the data stream of the project
of `treeDataTwoChunks` holds a chunk with stored CRC 7 and then the child chunk of node 1.
With a checksum function that answers 7 both visits return `true` and reach the second
chunk. With one that answers 0 the first chunk has a bad CRC: both visits return `false`,
`bad CRC` is the last line printed, the second chunk of the file is not reported, and the
child, node 1, is not visited (its type stays 0). -/
theorem C20_bad_crc_ends_the_visit :
    readChunkHeader ⟨infoNoChunks 2 2 ++ chunkXX 7 ++ chunkXX 0, 440, 416⟩
      = some (4, 0x5858, 7, ⟨infoNoChunks 2 2 ++ chunkXX 7 ++ chunkXX 0, 440, 424⟩) ∧
    BinaryReader.ComputeCRC crcZero ⟨infoNoChunks 2 2 ++ chunkXX 7 ++ chunkXX 0, 440, 424⟩ 4
      = some 0 ∧
    Run.summary 1 (VssTree.AssembleDirectoryLinks crcSeven crcZero 4 0 0 none treeFileTwoChunks [])
      = Run.done (true, [2], [Report.visiting 0 440, Report.unexpectedCheckoutInactive 0,
          Report.unknownChunk 0x5858, Report.unknownChunk 0x5858]) ∧
    Run.summary 1 (VssTree.AssembleDirectoryLinks crcZero crcZero 4 0 0 none treeFileTwoChunks [])
      = Run.done (false, [2], [Report.visiting 0 440, Report.unexpectedCheckoutInactive 0,
          Report.badCRC]) ∧
    Run.summary 2 (VssTree.AssembleDirectoryLinks crcSeven crcZero 4 0 0 none treeDataTwoChunks [])
      = Run.done (true, [1, 1], [Report.visiting 0 416, Report.unknownChunkID 0x5858,
          Report.visiting 1 416]) ∧
    Run.summary 2 (VssTree.AssembleDirectoryLinks crcZero crcZero 4 0 0 none treeDataTwoChunks [])
      = Run.done (false, [1, 0], [Report.visiting 0 416, Report.badCRC]) :=
  ⟨by decide, by decide, treeFileTwoChunks_run_seven, treeFileTwoChunks_run_zero,
    treeDataTwoChunks_run_seven, treeDataTwoChunks_run_zero⟩


/-! ## Unused nodes: auxiliary facts -/

/-- The loop of `LookForUnused` over the identifiers `i .. i + fuel - 1`, all in the table:
it adds to the counters the numbers of unallocated nodes and of orphans among them, and
prints one line for each orphan, in order. -/
theorem lookForUnusedLoop_range (t : VssTree) :
    ∀ (fuel i notAllocated notVisited : Nat) (out : List UnusedLine),
      i + fuel ≤ t.m_pNodes.length → notAllocated + fuel < 4294967296 →
      notVisited + fuel < 4294967296 →
      lookForUnusedLoop t.m_pNodes fuel i notAllocated notVisited out
        = some (notAllocated + ((List.range' i fuel).filter t.isUnallocated).length,
            notVisited + ((List.range' i fuel).filter t.isOrphan).length,
            out ++ ((List.range' i fuel).filter t.isOrphan).map
              (fun k => UnusedLine.skipped k (printedName k))) := by
  intro fuel
  induction fuel with
  | zero =>
    intro i na nv out _ _ _
    simp [lookForUnusedLoop]
  | succ fuel ih =>
    intro i na nv out hi hna hnv
    have hlt : i < t.m_pNodes.length := by omega
    have hget : t.m_pNodes.get? i = some t.m_pNodes[i] := by
      rw [List.get?_eq_getElem?]
      exact List.getElem?_eq_getElem hlt
    unfold lookForUnusedLoop
    rw [hget]
    simp only [List.range'_succ]
    cases hinfo : t.m_pNodes[i].pInfo with
    | none =>
      have hu : t.isUnallocated i = true := by
        unfold VssTree.isUnallocated
        rw [hget]
        simp [hinfo]
      have ho : t.isOrphan i = false := by
        unfold VssTree.isOrphan
        rw [hget]
        simp [hinfo]
      simp only [hinfo]
      rw [Nat.mod_eq_of_lt (by omega), ih (i + 1) (na + 1) nv out (by omega) (by omega) (by omega)]
      simp only [List.filter_cons, hu, ho, if_true, List.length_cons, Bool.false_eq_true,
        if_false]
      congr 2
      omega
    | some info =>
      have hu : t.isUnallocated i = false := by
        unfold VssTree.isUnallocated
        rw [hget]
        simp [hinfo]
      simp only [hinfo]
      by_cases hty : 0 = t.m_pNodes[i].Type_
      · have ho : t.isOrphan i = true := by
          unfold VssTree.isOrphan
          rw [hget]
          simp [hinfo, ← hty]
        rw [if_pos hty, Nat.mod_eq_of_lt (by omega),
          ih (i + 1) na (nv + 1) _ (by omega) (by omega) (by omega)]
        simp only [List.filter_cons, hu, ho, if_true, List.length_cons, Bool.false_eq_true,
          if_false, List.map_cons, List.append_assoc, List.singleton_append]
        congr 2
        congr 1
        omega
      · have ho : t.isOrphan i = false := by
          have hne : ¬ t.m_pNodes[i].Type_ = 0 := fun e => hty e.symm
          unfold VssTree.isOrphan
          rw [hget]
          simp [hinfo, hne]
        rw [if_neg hty, ih (i + 1) na nv out (by omega) (by omega) (by omega)]
        simp only [List.filter_cons, hu, ho, Bool.false_eq_true, if_false]

/-- The name printed for a node: eight lower-case letters, the base-26 digits of the
identifier with the least significant first, whatever the array held before. -/
theorem printedName_digits (i : Nat) (hi : i < 4294967296) (buf : List Nat)
    (hb : 9 ≤ buf.length) :
    (VssNumberToName i buf).take 8 = printedName i ∧
    printedName i = [97 + i % 26, 97 + i / 26 % 26, 97 + i / 26 / 26 % 26,
      97 + i / 26 / 26 / 26 % 26, 97 + i / 26 / 26 / 26 / 26 % 26,
      97 + i / 26 / 26 / 26 / 26 / 26 % 26, 97 + i / 26 / 26 / 26 / 26 / 26 / 26 % 26,
      97 + i / 26 / 26 / 26 / 26 / 26 / 26 / 26 % 26] := by
  obtain ⟨c0, c1, c2, c3, c4, c5, c6, c7, c8, rest, rfl⟩ := buffer_nine buf hb
  have e : printedName i = [97 + i % 26, 97 + i / 26 % 26, 97 + i / 26 / 26 % 26,
      97 + i / 26 / 26 / 26 % 26, 97 + i / 26 / 26 / 26 / 26 % 26,
      97 + i / 26 / 26 / 26 / 26 / 26 % 26, 97 + i / 26 / 26 / 26 / 26 / 26 / 26 % 26,
      97 + i / 26 / 26 / 26 / 26 / 26 / 26 / 26 % 26] := by
    unfold printedName
    have e16 : List.replicate 16 (0 : Nat)
        = 0 :: 0 :: 0 :: 0 :: 0 :: 0 :: 0 :: 0 :: 0 :: List.replicate 7 0 := rfl
    rw [e16, VssNumberToName_cons _ _ _ _ _ _ _ _ _ _ _ hi]
    rfl
  rw [e, VssNumberToName_cons _ _ _ _ _ _ _ _ _ _ _ hi]
  exact ⟨rfl, rfl⟩

/-! ## Unused nodes: the claims -/

/-- C25: `LookForUnused`, on a table that holds the first `m_NodeCount` nodes, returns
`true` and leaves the tree as it was. It prints one `skipped` line for every identifier below
`m_NodeCount` whose node has an info buffer and type 0, in increasing order, with the
identifier and its name; then the number of identifiers below `m_NodeCount` whose node has no
info buffer, and the number of those skipped. The name is the eight letters of
`VssNumberToName`. -/
theorem C25_LookForUnused_counts (t : VssTree) (htable : t.m_NodeCount ≤ t.m_pNodes.length)
    (h32 : t.m_NodeCount < 4294967296) :
    t.LookForUnused = some (true, t,
      ((List.range t.m_NodeCount).filter t.isOrphan).map
          (fun k => UnusedLine.skipped k (printedName k))
        ++ [UnusedLine.notAllocated ((List.range t.m_NodeCount).filter t.isUnallocated).length,
            UnusedLine.notVisited ((List.range t.m_NodeCount).filter t.isOrphan).length]) ∧
    (∀ k, k < t.m_NodeCount → ∀ buf : List Nat, 9 ≤ buf.length →
      (VssNumberToName k buf).take 8 = printedName k ∧
      ∀ c ∈ printedName k, 97 ≤ c ∧ c ≤ 122) := by
  constructor
  · unfold VssTree.LookForUnused
    rw [lookForUnusedLoop_range t t.m_NodeCount 0 0 0 [] (by omega) (by omega) (by omega)]
    simp only [Nat.zero_add, List.nil_append, List.range_eq_range']
  · intro k hk buf hb
    obtain ⟨e1, e2⟩ := printedName_digits k (by omega) buf hb
    refine ⟨e1, ?_⟩
    intro c hc
    rw [e2] at hc
    simp only [List.mem_cons, List.mem_singleton, List.not_mem_nil, or_false] at hc
    omega

/-- C25, witness: a table with a visited project, an orphan (node 1, `baaaaaaa`), an
unallocated node and a visited file. -/
theorem C25_LookForUnused_counts_witness :
    treeWithOrphan.m_NodeCount ≤ treeWithOrphan.m_pNodes.length ∧
    treeWithOrphan.m_NodeCount < 4294967296 ∧
    treeWithOrphan.LookForUnused = some (true, treeWithOrphan,
      [UnusedLine.skipped 1 [98, 97, 97, 97, 97, 97, 97, 97],
        UnusedLine.notAllocated 1, UnusedLine.notVisited 1]) := by
  have hlen : treeWithOrphan.m_NodeCount ≤ treeWithOrphan.m_pNodes.length := by
    unfold treeWithOrphan
    simp only [List.length_append, List.length_replicate, List.length_cons, List.length_nil]
    omega
  have hlines : ((List.range treeWithOrphan.m_NodeCount).filter treeWithOrphan.isOrphan).map
        (fun k => UnusedLine.skipped k (printedName k))
      ++ [UnusedLine.notAllocated
            ((List.range treeWithOrphan.m_NodeCount).filter
              treeWithOrphan.isUnallocated).length,
          UnusedLine.notVisited
            ((List.range treeWithOrphan.m_NodeCount).filter treeWithOrphan.isOrphan).length]
      = [UnusedLine.skipped 1 [98, 97, 97, 97, 97, 97, 97, 97],
          UnusedLine.notAllocated 1, UnusedLine.notVisited 1] := by
    decide
  refine ⟨hlen, by decide, ?_⟩
  rw [(C25_LookForUnused_counts treeWithOrphan hlen (by decide)).1, hlines]

/-! ## Import of one file: auxiliary facts -/

/-- The table the constructor leaves holds `m_MaxNodes` zeroed nodes. -/
theorem new_table : VssTree.new.m_MaxNodes = VssTree.new.m_pNodes.length ∧
    VssTree.new.m_MaxNodes < 4294967296 ∧
    ∀ i, i < 4096 → VssTree.new.m_pNodes[i]? = some nodeZero := by
  refine ⟨?_, ?_, ?_⟩
  · unfold VssTree.new
    rw [List.length_replicate]
  · unfold VssTree.new
    decide
  · intro i hi
    unfold VssTree.new nodeZero
    rw [List.getElem?_replicate, if_pos hi]

/-- The table the constructor leaves satisfies the invariant. -/
theorem new_OccupiedBelowCount : VssTree.new.OccupiedBelowCount := by
  intro i node hnode hocc
  have hmem : node ∈ VssTree.new.m_pNodes := by
    obtain ⟨hi, he⟩ := List.getElem?_eq_some_iff.mp hnode
    rw [← he]
    apply List.getElem_mem
  unfold VssTree.new at hmem
  rw [List.mem_replicate] at hmem
  obtain ⟨_, rfl⟩ := hmem
  simp at hocc

/-- Raising the node count, for an index below `2^32 - 1`. -/
theorem raiseNodeCount_eq (t : VssTree) (index : Nat) (h : index + 1 < 4294967296) :
    t.raiseNodeCount index = { t with m_NodeCount := max t.m_NodeCount (index + 1) } := by
  unfold VssTree.raiseNodeCount
  by_cases hc : t.m_NodeCount ≤ index
  · rw [if_pos hc, Nat.mod_eq_of_lt h, Nat.max_eq_right (by omega)]
  · rw [if_neg hc, Nat.max_eq_left (by omega)]

/-- The second part of `ImportFile` with the addressed slot empty and the file delivered
whole. -/
theorem importSlot_stores (t : VssTree) (index : Nat) (isInfo : Bool) (node : VssNode_t)
    (byteCount : Nat) (pData : List u08) (hnode : t.m_pNodes[index]? = some node)
    (hslot : node.slot isInfo = none) :
    t.importSlot index isInfo (FileAnswer.opened byteCount byteCount pData) = some (true,
      { t with
        m_pNodes := t.m_pNodes.set index (node.store isInfo byteCount pData),
        m_InfoCount := if isInfo then (t.m_InfoCount + 1) % 4294967296 else t.m_InfoCount,
        m_DataCount := if isInfo then t.m_DataCount else (t.m_DataCount + 1) % 4294967296,
        m_MemorySize := (t.m_MemorySize + byteCount) % 4294967296 }) := by
  unfold VssTree.importSlot
  rw [List.get?_eq_getElem?, hnode]
  cases isInfo with
  | true =>
    simp only [VssNode_t.slot, if_true] at hslot
    simp only [hslot, VssNode_t.store, if_true, Option.isSome_none, Bool.false_eq_true,
      if_false, ne_eq, not_true_eq_false]
  | false =>
    simp only [VssNode_t.slot, Bool.false_eq_true, if_false] at hslot
    simp only [hslot, VssNode_t.store, Bool.false_eq_true, if_false, Option.isSome_none,
      ne_eq, not_true_eq_false]

/-- The second part of `ImportFile` returns `true` only with the addressed slot empty and
the file delivered whole. -/
theorem importSlot_true (t u : VssTree) (index : Nat) (isInfo : Bool) (file : FileAnswer)
    (h : t.importSlot index isInfo file = some (true, u)) :
    ∃ node byteCount pData, t.m_pNodes[index]? = some node ∧ node.slot isInfo = none ∧
      file = FileAnswer.opened byteCount byteCount pData := by
  unfold VssTree.importSlot at h
  rw [List.get?_eq_getElem?] at h
  cases hnode : t.m_pNodes[index]? with
  | none =>
    rw [hnode] at h
    exact absurd h (by simp)
  | some node =>
    rw [hnode] at h
    simp only at h
    cases isInfo with
    | true =>
      cases hp : node.pInfo with
      | some b => simp [hp] at h
      | none =>
        cases file with
        | cannotOpen => simp [hp] at h
        | opened byteCount readSize pData =>
          by_cases hread : readSize = byteCount
          · subst hread
            exact ⟨node, readSize, pData, rfl, by simp [VssNode_t.slot, hp], rfl⟩
          · simp [hp, hread] at h
    | false =>
      cases hp : node.pData with
      | some b => simp [hp] at h
      | none =>
        cases file with
        | cannotOpen => simp [hp] at h
        | opened byteCount readSize pData =>
          by_cases hread : readSize = byteCount
          · subst hread
            exact ⟨node, readSize, pData, rfl, by simp [VssNode_t.slot, hp], rfl⟩
          · simp [hp, hread] at h

/-- The second part of `ImportFile` leaves the tree as it was when it returns `false`. -/
theorem importSlot_false (t u : VssTree) (index : Nat) (isInfo : Bool) (file : FileAnswer)
    (h : t.importSlot index isInfo file = some (false, u)) : u = t := by
  unfold VssTree.importSlot at h
  rw [List.get?_eq_getElem?] at h
  cases hnode : t.m_pNodes[index]? with
  | none =>
    rw [hnode] at h
    exact absurd h (by simp)
  | some node =>
    rw [hnode] at h
    simp only at h
    cases isInfo with
    | true =>
      cases hp : node.pInfo with
      | some b =>
        simp [hp] at h
        exact h.symm
      | none =>
        cases file with
        | cannotOpen =>
          simp [hp] at h
          exact h.symm
        | opened byteCount readSize pData =>
          by_cases hread : readSize = byteCount
          · simp [hp, hread] at h
          · simp [hp, hread] at h
            exact h.symm
    | false =>
      cases hp : node.pData with
      | some b =>
        simp [hp] at h
        exact h.symm
      | none =>
        cases file with
        | cannotOpen =>
          simp [hp] at h
          exact h.symm
        | opened byteCount readSize pData =>
          by_cases hread : readSize = byteCount
          · simp [hp, hread] at h
          · simp [hp, hread] at h
            exact h.symm

/-- The second part of `ImportFile` with the addressed slot holding a buffer. -/
theorem importSlot_duplicate (t : VssTree) (index : Nat) (isInfo : Bool) (file : FileAnswer)
    (node : VssNode_t) (hnode : t.m_pNodes[index]? = some node)
    (hocc : (node.slot isInfo).isSome) :
    t.importSlot index isInfo file = some (false, t) := by
  unfold VssTree.importSlot
  rw [List.get?_eq_getElem?, hnode]
  unfold VssNode_t.slot at hocc
  cases isInfo with
  | true =>
    simp only [if_true] at hocc ⊢
    rw [if_pos hocc]
  | false =>
    simp only [Bool.false_eq_true, if_false] at hocc ⊢
    rw [if_pos hocc]

/-- `ImportFile` keeps the invariant of the node table, whatever it returns. -/
theorem ImportFile_OccupiedBelowCount (t u : VssTree) (index : Nat) (isInfo : Bool)
    (file : FileAnswer) (b : Bool) (h32 : t.m_MaxNodes < 4294967296)
    (hinv : t.OccupiedBelowCount) (h : t.ImportFile index isInfo file = some (b, u)) :
    u.OccupiedBelowCount := by
  unfold VssTree.ImportFile at h
  split at h
  · simp only [Option.some.injEq, Prod.mk.injEq] at h
    rw [← h.2]
    exact hinv
  rename_i hindex
  rw [raiseNodeCount_eq t index (by omega)] at h
  have hraised : ({ t with m_NodeCount := max t.m_NodeCount (index + 1) } :
      VssTree).OccupiedBelowCount := by
    intro i node hnode hocc
    have := hinv i node hnode hocc
    show i < max t.m_NodeCount (index + 1)
    omega
  cases b with
  | false =>
    rw [importSlot_false _ u index isInfo file h]
    exact hraised
  | true =>
    obtain ⟨node, byteCount, pData, hnode, hslot, rfl⟩ := importSlot_true _ u index isInfo file h
    rw [importSlot_stores _ index isInfo node byteCount pData hnode hslot] at h
    simp only [Option.some.injEq, Prod.mk.injEq, true_and] at h
    subst h
    intro i m hm hocc
    simp only [List.getElem?_set] at hm
    show i < max t.m_NodeCount (index + 1)
    split at hm
    · rename_i hi
      subst hi
      omega
    · have := hinv i m hm hocc
      omega

/-- `Free` on a table that holds the first `m_NodeCount` nodes leaves a table that satisfies
the invariant, provided the table satisfied it before. -/
theorem freeNodes_empty : ∀ (n : Nat) (nodes out : List VssNode_t),
    freeNodes n nodes = some out →
    (∀ (i : Nat) (node : VssNode_t), nodes[i]? = some node →
      (node.pInfo.isSome ∨ node.pData.isSome) → i < n) →
    ∀ (i : Nat) (node : VssNode_t), out[i]? = some node →
      ¬ (node.pInfo.isSome ∨ node.pData.isSome) := by
  intro n
  induction n with
  | zero =>
    intro nodes out h hinv i node hnode hocc
    simp only [freeNodes, Option.some.injEq] at h
    subst h
    exact absurd (hinv i node hnode hocc) (by omega)
  | succ n ih =>
    intro nodes out h hinv i node hnode hocc
    cases nodes with
    | nil => exact absurd h (by simp [freeNodes])
    | cons first rest =>
      unfold freeNodes at h
      split at h
      · exact absurd h (by simp)
      rename_i rest2 hrest
      simp only [Option.some.injEq] at h
      subst h
      cases i with
      | zero =>
        simp only [List.getElem?_cons_zero, Option.some.injEq] at hnode
        subst hnode
        simp at hocc
      | succ i =>
        simp only [List.getElem?_cons_succ] at hnode
        refine ih rest rest2 hrest ?_ i node hnode hocc
        intro j m hm ho
        have := hinv (j + 1) m (by simpa using hm) ho
        omega

/-- The table `Free` leaves satisfies the invariant. -/
theorem Free_OccupiedBelowCount (t u : VssTree) (hinv : t.OccupiedBelowCount)
    (h : t.Free = some u) : u.OccupiedBelowCount := by
  unfold VssTree.Free at h
  split at h
  · exact absurd h (by simp)
  rename_i nodes hnodes
  simp only [Option.some.injEq] at h
  subst h
  intro i node hnode hocc
  exact absurd hocc (freeNodes_empty _ _ _ hnodes hinv i node hnode)

/-- Assembly steps keep the invariant of the node table. -/
theorem OccupiedBelowCount_of_Marked (t u : VssTree) (hinv : t.OccupiedBelowCount)
    (h : Marked t u) : u.OccupiedBelowCount := by
  obtain ⟨hc, hl, hn⟩ := h
  intro i m hm hocc
  have hi : i < u.m_pNodes.length := (List.getElem?_eq_some_iff.mp hm).1
  have hlt : i < t.m_pNodes.length := by omega
  have ht : t.m_pNodes[i]? = some t.m_pNodes[i] := List.getElem?_eq_getElem hlt
  obtain ⟨_, e2, _, e4, _⟩ := hn i _ m ht hm
  rw [hc]
  exact hinv i _ ht (e2 ▸ e4 ▸ hocc)

/-! ## Import of one file: the claims -/

/-- C26: `ImportFile` on a table in which every node that holds a buffer lies below the node
count (as in every state the constructor, `Free`, `ImportFile` and the assembly produce).
With an index at or above the capacity, or with the addressed slot of the node already
holding a buffer, it returns `false` and leaves the tree, counters included, as it was. When
the slot is empty and the file is delivered whole it returns `true`, stores the buffer and
its size in that slot of that node only, and the node count becomes the larger of the old
count and `index + 1`; and it returns `true` in no other case. -/
theorem C26_ImportFile_slots (t : VssTree) (index : Nat) (isInfo : Bool) (file : FileAnswer)
    (h32 : t.m_MaxNodes < 4294967296) (hinv : t.OccupiedBelowCount) :
    (t.m_MaxNodes ≤ index → t.ImportFile index isInfo file = some (false, t)) ∧
    (∀ node, index < t.m_MaxNodes → t.m_pNodes[index]? = some node →
      (node.slot isInfo).isSome → t.ImportFile index isInfo file = some (false, t)) ∧
    (∀ node byteCount pData, index < t.m_MaxNodes → t.m_pNodes[index]? = some node →
      node.slot isInfo = none →
      t.ImportFile index isInfo (FileAnswer.opened byteCount byteCount pData) = some (true,
        { t with
          m_NodeCount := max t.m_NodeCount (index + 1),
          m_pNodes := t.m_pNodes.set index (node.store isInfo byteCount pData),
          m_InfoCount := if isInfo then (t.m_InfoCount + 1) % 4294967296 else t.m_InfoCount,
          m_DataCount := if isInfo then t.m_DataCount else (t.m_DataCount + 1) % 4294967296,
          m_MemorySize := (t.m_MemorySize + byteCount) % 4294967296 })) ∧
    (∀ u, t.ImportFile index isInfo file = some (true, u) →
      index < t.m_MaxNodes ∧
      ∃ node byteCount pData, t.m_pNodes[index]? = some node ∧ node.slot isInfo = none ∧
        file = FileAnswer.opened byteCount byteCount pData) := by
  refine ⟨?_, ?_, ?_, ?_⟩
  · intro hcap
    unfold VssTree.ImportFile
    rw [if_pos hcap]
  · intro node hindex hnode hocc
    have hbelow : index < t.m_NodeCount := by
      apply hinv index node hnode
      unfold VssNode_t.slot at hocc
      cases isInfo with
      | true => exact Or.inl (by simpa using hocc)
      | false => exact Or.inr (by simpa using hocc)
    unfold VssTree.ImportFile
    rw [if_neg (by omega)]
    have hsame : t.raiseNodeCount index = t := by
      unfold VssTree.raiseNodeCount
      rw [if_neg (by omega)]
    rw [hsame]
    exact importSlot_duplicate t index isInfo file node hnode hocc
  · intro node byteCount pData hindex hnode hslot
    unfold VssTree.ImportFile
    rw [if_neg (by omega), raiseNodeCount_eq t index (by omega)]
    exact importSlot_stores _ index isInfo node byteCount pData hnode hslot
  · intro u h
    unfold VssTree.ImportFile at h
    split at h
    · exact absurd h (by simp)
    rename_i hindex
    have htrue := importSlot_true _ u index isInfo file h
    rw [raiseNodeCount_eq t index (by omega)] at htrue
    exact ⟨by omega, htrue⟩

/-- C26, witness: importing the 60-byte info file of node 1 into the table the constructor
leaves. -/
theorem C26_ImportFile_slots_witness :
    VssTree.new.m_MaxNodes < 4294967296 ∧ VssTree.new.OccupiedBelowCount ∧
    1 < VssTree.new.m_MaxNodes ∧ VssTree.new.m_pNodes[1]? = some nodeZero ∧
    nodeZero.slot true = none ∧
    VssTree.new.ImportFile 1 true (FileAnswer.opened 60 60 infoDH52) = some (true,
      { VssTree.new with
        m_NodeCount := max VssTree.new.m_NodeCount (1 + 1),
        m_pNodes := VssTree.new.m_pNodes.set 1 (nodeZero.store true 60 infoDH52),
        m_InfoCount := if true then (VssTree.new.m_InfoCount + 1) % 4294967296
          else VssTree.new.m_InfoCount,
        m_DataCount := if true then VssTree.new.m_DataCount
          else (VssTree.new.m_DataCount + 1) % 4294967296,
        m_MemorySize := (VssTree.new.m_MemorySize + 60) % 4294967296 }) :=
  ⟨new_table.2.1, new_OccupiedBelowCount, by decide, new_table.2.2 1 (by decide), rfl,
    (C26_ImportFile_slots VssTree.new 1 true (FileAnswer.opened 60 60 infoDH52) new_table.2.1
      new_OccupiedBelowCount).2.2.1 nodeZero 60 infoDH52 (by decide)
      (new_table.2.2 1 (by decide)) rfl⟩

/-! ## Info-file header: the cursor after the header -/

/-- When `Scan` accepts a buffer of at least 60 bytes, what it returns is what the decoding
of the `DH` payload returns from offset 60, with the kind field already stored. -/
theorem Scan_accept_payload (VssCrc16 : List u08 → Nat → Nat) (self hdr : VssScanHeader)
    (data : List u08) (r : BinaryReader) (h32 : data.length < 4294967296)
    (h60 : 60 ≤ data.length)
    (h : VssScanHeader.Scan VssCrc16 self (BinaryReader.Initialize data data.length 0)
      = some (true, hdr, r)) :
    VssScanHeader.scanDataHeader { self with m_Type := le16 data 32 } ⟨data, data.length, 60⟩
      = some (true, hdr, r) := by
  rw [Initialize_zero] at h
  unfold VssScanHeader.Scan at h
  split at h
  · exact absurd h (by simp)
  · exact absurd h (by simp)
  rename_i hT
  obtain ⟨h20, hmagic⟩ := TestBytes_magic data data.length hT
  simp only [Skip_twenty data data.length h20] at h
  split at h
  · exact absurd h (by simp)
  · exact absurd h (by simp)
  rename_i r1 hz3
  split at h
  · exact absurd h (by simp)
  rename_i type r2 hty
  split at h
  · exact absurd h (by simp)
  rename_i htype
  split at h
  · exact absurd h (by simp)
  rename_i version r3 hver
  split at h
  · exact absurd h (by simp)
  rename_i hversion
  split at h
  · exact absurd h (by simp)
  · exact absurd h (by simp)
  rename_i r4 hz4
  split at h
  · exact absurd h (by simp)
  rename_i chunkSize r5 hcs
  split at h
  · exact absurd h (by simp)
  rename_i marker r6 hmk
  split at h
  · exact absurd h (by simp)
  rename_i crc r7 hcr
  split at h
  · exact absurd h (by simp)
  · exact absurd h (by simp)
  rename_i hmis
  split at h
  · exact absurd h (by simp)
  rename_i hmarker
  have htype2 : type = 2 ∨ type = 1 := by
    unfold VssType_File VssType_Project at htype
    omega
  have hversion2 : version = 6 := by omega
  have hmarker2 : marker = 18500 := by
    unfold VssMarker_DataHeader at hmarker
    omega
  rcases readZeros32_true data _ rfl h32 3 20 r1 h20 hz3 with e | ⟨hle32, e, hzA⟩
  · subst e
    obtain ⟨hv, _⟩ := Read16_at_end data _ rfl _ _ hty
    omega
  subst e
  rcases Read16_cases data _ 32 rfl h32 hle32 _ _ hty with ⟨_, hv, _⟩ | ⟨hle34, htv, e⟩
  · omega
  subst e
  rcases Read16_cases data _ 34 rfl h32 hle34 _ _ hver with ⟨_, hv, _⟩ | ⟨hle36, hvv, e⟩
  · omega
  subst e
  rcases readZeros32_true data _ rfl h32 4 36 r4 hle36 hz4 with e | ⟨hle52, e, hzB⟩
  · subst e
    obtain ⟨_, e5⟩ := Read32_at_end data _ rfl _ _ hcs
    subst e5
    obtain ⟨hv, _⟩ := Read16_at_end data _ rfl _ _ hmk
    omega
  subst e
  rcases Read32_cases data _ 52 rfl h32 hle52 _ _ hcs with ⟨_, e⟩ | ⟨hle56, hcsv, e⟩
  · subst e
    obtain ⟨hv, _⟩ := Read16_at_end data _ rfl _ _ hmk
    omega
  subst e
  rcases Read16_cases data _ 56 rfl h32 hle56 _ _ hmk with ⟨_, hv, _⟩ | ⟨hle58, hmv, e⟩
  · omega
  subst e
  rcases Read16_cases data _ 58 rfl h32 hle58 _ _ hcr with ⟨hlt, _, _⟩ | ⟨_, hcv, e⟩
  · omega
  subst e
  rw [← htv]
  exact h

/-- The decoding of the `DH` payload from offset 60 of a buffer of at least 140 bytes: it
reads the 80 bytes at offsets 60..139 and leaves the cursor at 140. -/
theorem scanDataHeader_at (self : VssScanHeader) (data : List u08) (size : Nat)
    (hsize : size = data.length) (h32 : size < 4294967296) (h : 140 ≤ size) :
    VssScanHeader.scanDataHeader self ⟨data, size, 60⟩ = some (true,
      { m_Type := self.m_Type, m_LogEntryCount := le16 data 62,
        m_HasParentFlag := le16 data 64, m_Name := bytesAt data 66 34,
        m_NameOffset := le32 data 100, m_BranchNumber := le16 data 104,
        m_FirstLogEntry := le32 data 108, m_LastLogEntry := le32 data 112,
        m_FileSize := le32 data 116 },
      ⟨data, size, 140⟩) := by
  simp (disch := omega) only [VssScanHeader.scanDataHeader, Read16_at, Read32_at, ReadData_at,
    Nat.reduceAdd]

/-- When `Scan` accepts a buffer of at least 140 bytes, the cursor is at offset 140. -/
theorem Scan_accept_cursor (VssCrc16 : List u08 → Nat → Nat) (self hdr : VssScanHeader)
    (data : List u08) (r : BinaryReader) (h32 : data.length < 4294967296)
    (h140 : 140 ≤ data.length)
    (h : VssScanHeader.Scan VssCrc16 self (BinaryReader.Initialize data data.length 0)
      = some (true, hdr, r)) :
    r = ⟨data, data.length, 140⟩ := by
  have hp := Scan_accept_payload VssCrc16 self hdr data r h32 (by omega) h
  rw [scanDataHeader_at _ data _ rfl h32 h140] at hp
  simp only [Option.some.injEq, Prod.mk.injEq, true_and] at hp
  exact hp.2.symm

/-- The chunk header read with at least 8 bytes remaining. -/
theorem readChunkHeader_at (data : List u08) (size off : Nat) (hsize : size = data.length)
    (h32 : size < 4294967296) (h : off + 8 ≤ size) :
    readChunkHeader ⟨data, size, off⟩
      = some (le32 data off, le16 data (off + 4), le16 data (off + 6),
          ⟨data, size, off + 8⟩) := by
  simp (disch := omega) only [readChunkHeader, Read16_at, Read32_at, Nat.add_assoc,
    Nat.reduceAdd]

/-- The fields of a file that precede its chunks, with at least 276 bytes remaining: the
cursor advances by 276. -/
theorem filePrefix_at (VssCrc32 : List u08 → Nat → Nat) (fdata : List u08) (fsize : Nat)
    (data : List u08) (size off : Nat) (hsize : size = data.length)
    (h32 : size < 4294967296) (h : off + 276 ≤ size) :
    ∃ printed, filePrefix VssCrc32 fdata fsize ⟨data, size, off⟩
      = some (le16 data (off + 20), le16 data (off + 22), ⟨data, size, off + 276⟩,
          printed) := by
  simp (disch := omega) only [filePrefix, Read16_at, Read32_at, ReadData_at, Nat.add_assoc,
    Nat.reduceAdd]
  exact ⟨_, rfl⟩

/-- The branch of a project, with at least 276 bytes remaining: either it returns `false`
before its chunk loop, for the parent name or for the two counts, or it runs the chunk loop
from the cursor 276 bytes further. -/
theorem scanProjectInfo_at (VssCrc16 : List u08 → Nat → Nat) (fuel index : Nat)
    (t : VssTree) (log : List Report) (data : List u08) (size off : Nat)
    (hsize : size = data.length) (h32 : size < 4294967296) (h : off + 276 ≤ size) :
    ∃ t1,
      scanProjectInfo VssCrc16 fuel index t ⟨data, size, off⟩ log
        = Run.done (false, t1, log ++ [Report.invalidParent]) ∨
      scanProjectInfo VssCrc16 fuel index t ⟨data, size, off⟩ log
        = Run.done (false, t1, log ++ [Report.projectCountAboveChildCount
            (le16 data (off + 274)) (le16 data (off + 272))]) ∨
      scanProjectInfo VssCrc16 fuel index t ⟨data, size, off⟩ log
        = Run.withTree t1
            (projectInfoLoop VssCrc16 fuel localLogEntry ⟨data, size, off + 276⟩ log) := by
  have hloop : ∀ (t1 : VssTree) (r : Run (Bool × List Report)),
      (match r with
        | Run.fault => Run.fault
        | Run.timeout => Run.timeout
        | Run.done (result, log) => Run.done (result, t1, log)) = Run.withTree t1 r := by
    intro t1 r
    cases r with
    | done a => rfl
    | fault => rfl
    | timeout => rfl
  have hrest : ∀ t1 : VssTree,
      (match BinaryReader.Read16 ⟨data, size, off + 272⟩ with
      | none => Run.fault
      | some (childCount, reader) =>
        match reader.Read16 with
        | none => Run.fault
        | some (projectCount, reader) =>
          if projectCount > childCount then
            Run.done (false, t1,
              log ++ [Report.projectCountAboveChildCount projectCount childCount])
          else
            match projectInfoLoop VssCrc16 fuel localLogEntry reader log with
            | Run.fault => Run.fault
            | Run.timeout => Run.timeout
            | Run.done (result, log) => Run.done (result, t1, log))
        = Run.done (false, t1, log ++ [Report.projectCountAboveChildCount
            (le16 data (off + 274)) (le16 data (off + 272))]) ∨
      (match BinaryReader.Read16 ⟨data, size, off + 272⟩ with
      | none => Run.fault
      | some (childCount, reader) =>
        match reader.Read16 with
        | none => Run.fault
        | some (projectCount, reader) =>
          if projectCount > childCount then
            Run.done (false, t1,
              log ++ [Report.projectCountAboveChildCount projectCount childCount])
          else
            match projectInfoLoop VssCrc16 fuel localLogEntry reader log with
            | Run.fault => Run.fault
            | Run.timeout => Run.timeout
            | Run.done (result, log) => Run.done (result, t1, log))
        = Run.withTree t1
            (projectInfoLoop VssCrc16 fuel localLogEntry ⟨data, size, off + 276⟩ log) := by
    intro t1
    simp (disch := omega) only [Read16_at, Nat.add_assoc, Nat.reduceAdd]
    by_cases hc : le16 data (off + 274) > le16 data (off + 272)
    · left
      rw [if_pos hc]
    · right
      rw [if_neg hc]
      exact hloop t1 _
  unfold scanProjectInfo
  simp (disch := omega) only [ReadData_at, Nat.add_assoc, Nat.reduceAdd]
  by_cases hp : 0 ≠ ((bytesAt data (off + 260) 12).getD 0 0).val
  · rw [if_pos hp]
    obtain ⟨v, hv⟩ := nameToNumberLoop_some (charsOf (bytesAt data (off + 260) 12)) 8 0 (by
      unfold charsOf bytesAt
      rw [List.length_map, List.length_take, List.length_drop]
      omega)
    unfold VssNameToNumber
    rw [hv]
    simp only
    refine ⟨t.setParentID index (intToU32 v), ?_⟩
    by_cases hbad : intToU32 v ≥ t.m_NodeCount
    · left
      simp only [hbad, decide_True]
    · right
      simp only [hbad, decide_False]
      exact hrest _
  · rw [if_neg hp]
    simp only
    exact ⟨t, Or.inr (hrest t)⟩

/-- The first visit of a file: the call stores the type and is the branch for a file. -/
theorem AssembleDirectoryLinks_file (VssCrc16 VssCrc32 : List u08 → Nat → Nat)
    (fuel index depth : Nat) (path : Option (List Nat)) (t : VssTree) (node : VssNode_t)
    (info data : List u08) (header : VssScanHeader) (reader : BinaryReader)
    (pathname : List Nat) (log : List Report)
    (hnode : t.m_pNodes[index]? = some node) (hinfo : node.pInfo = some info)
    (hdata : node.pData = some data) (hzero : node.Type_ = 0)
    (hscan : VssScanHeader.Scan VssCrc16 localHeader
      (BinaryReader.Initialize info node.InfoSize 0) = some (true, header, reader))
    (hpath : pathnameOf path header.m_Name = some pathname)
    (hkind : VssType_Project ≠ header.m_Type) :
    VssTree.AssembleDirectoryLinks VssCrc16 VssCrc32 (fuel + 1) index depth path t log
      = Run.withTree (t.setType index header.m_Type)
          (scanFileInfo VssCrc16 VssCrc32 fuel data node.DataSize reader
            (log ++ [Report.visiting index node.InfoSize])) := by
  unfold VssTree.AssembleDirectoryLinks
  simp only [List.get?_eq_getElem?, hnode, hinfo, hdata, hscan, hpath]
  rw [if_neg (by omega), if_neg hkind]
  cases scanFileInfo VssCrc16 VssCrc32 fuel data node.DataSize reader
      (log ++ [Report.visiting index node.InfoSize]) with
  | fault => rfl
  | timeout => rfl
  | done a => rfl

/-- The first visit of a project: the call stores the type and is the first branch, followed
when it gets to its end by the chunk loop over the data stream. -/
theorem AssembleDirectoryLinks_project (VssCrc16 VssCrc32 : List u08 → Nat → Nat)
    (fuel index depth : Nat) (path : Option (List Nat)) (t : VssTree) (node : VssNode_t)
    (info data : List u08) (header : VssScanHeader) (reader : BinaryReader)
    (pathname : List Nat) (log : List Report)
    (hnode : t.m_pNodes[index]? = some node) (hinfo : node.pInfo = some info)
    (hdata : node.pData = some data) (hzero : node.Type_ = 0)
    (hscan : VssScanHeader.Scan VssCrc16 localHeader
      (BinaryReader.Initialize info node.InfoSize 0) = some (true, header, reader))
    (hpath : pathnameOf path header.m_Name = some pathname)
    (hkind : VssType_Project = header.m_Type) :
    VssTree.AssembleDirectoryLinks VssCrc16 VssCrc32 (fuel + 1) index depth path t log
      = (scanProjectInfo VssCrc16 fuel index (t.setType index header.m_Type) reader
          (log ++ [Report.visiting index node.InfoSize])).whenTrue
          (dataLoop VssCrc16
            (fun child => VssTree.AssembleDirectoryLinks VssCrc16 VssCrc32 fuel child
              ((depth + 1) % 4294967296) (some pathname))
            fuel localChild (BinaryReader.Initialize data node.DataSize 0)) := by
  conv_lhs => unfold VssTree.AssembleDirectoryLinks
  simp only [List.get?_eq_getElem?, hnode, hinfo, hdata, hscan, hpath]
  rw [if_neg (by omega), if_pos hkind]
  cases scanProjectInfo VssCrc16 fuel index (t.setType index header.m_Type) reader
      (log ++ [Report.visiting index node.InfoSize]) with
  | fault => rfl
  | timeout => rfl
  | done a =>
    obtain ⟨b, t1, l1⟩ := a
    cases b with
    | false => rfl
    | true => rfl

/-! ## Info-file header: the cursor, the claims -/

/-- C29, counterexample: the project info buffers `infoSizedDH 4` and `infoSizedDH 100` are
accepted with the size field of the `DH` chunk, at offset 52, equal to 4 and to 100. The
payload starts at offset 60; the cursor after `Scan` is at 140 both times, not at 64 and not
at 160. -/
theorem C29_cursor_ignores_the_size_field :
    le32 (infoSizedDH 4) 52 = 4 ∧
    (VssScanHeader.Scan crcZero localHeader (BinaryReader.Initialize (infoSizedDH 4) 416 0)).map
      (fun p => (p.1, p.2.2.m_Offset)) = some (true, 140) ∧
    le32 (infoSizedDH 100) 52 = 100 ∧
    (VssScanHeader.Scan crcZero localHeader
      (BinaryReader.Initialize (infoSizedDH 100) 416 0)).map
      (fun p => (p.1, p.2.2.m_Offset)) = some (true, 140) :=
  ⟨by decide, by decide, by decide, by decide⟩

/-- C29, amended: the header decoder does not advance by the size field of the `DH` chunk.
It reads the 80 bytes of the `DH` layout one field after the other: whenever `Scan` accepts
an info buffer of at least 140 bytes, the cursor it leaves is at offset 140, which is the
base offset 60 of the payload plus 80, whatever the size field at offset 52 holds. -/
theorem C29_cursor_after_header (VssCrc16 : List u08 → Nat → Nat) (self : VssScanHeader)
    (data : List u08) (h32 : data.length < 4294967296) (h140 : 140 ≤ data.length)
    (h : (VssScanHeader.Scan VssCrc16 self (BinaryReader.Initialize data data.length 0)).map
      (fun p => p.1) = some true) :
    (VssScanHeader.Scan VssCrc16 self (BinaryReader.Initialize data data.length 0)).map
      (fun p => p.2.2) = some ⟨data, data.length, 60 + 80⟩ := by
  cases hs : VssScanHeader.Scan VssCrc16 self (BinaryReader.Initialize data data.length 0) with
  | none =>
    rw [hs] at h
    exact absurd h (by simp)
  | some p =>
    obtain ⟨b, hdr, r⟩ := p
    rw [hs] at h
    simp only [Option.map_some', Option.some.injEq] at h
    subst h
    rw [Scan_accept_cursor VssCrc16 self hdr data r h32 h140 hs]
    rfl

/-- C29, witness: the buffer `infoSizedDH 4`, whose `DH` chunk claims 4 bytes. -/
theorem C29_cursor_after_header_witness :
    (infoSizedDH 4).length < 4294967296 ∧ 140 ≤ (infoSizedDH 4).length ∧
    (VssScanHeader.Scan crcZero localHeader
      (BinaryReader.Initialize (infoSizedDH 4) (infoSizedDH 4).length 0)).map
      (fun p => p.1) = some true ∧
    (VssScanHeader.Scan crcZero localHeader
      (BinaryReader.Initialize (infoSizedDH 4) (infoSizedDH 4).length 0)).map
      (fun p => p.2.2) = some ⟨infoSizedDH 4, (infoSizedDH 4).length, 60 + 80⟩ :=
  ⟨by decide, by decide, by decide,
    C29_cursor_after_header crcZero localHeader (infoSizedDH 4) (by decide) (by decide)
      (by decide)⟩

/-- C20, amended: a chunk CRC mismatch is fatal for the stream it occurs in and for the
visit of its node. When a chunk loop of `AssembleDirectoryLinks` (over the info stream of a
project, over the info stream of a file, or over the data stream of a project) stands before
a chunk whose stored CRC is not 0 and differs from the CRC computed over its payload, the
loop prints `bad CRC` and returns `false` at once: no chunk after it is processed, and the
tree and the counters are left as they were. And when the first visit of a node gets to
that state of the loop, in the branch for a file, in the first branch for a project, or in
the loop over the data stream that follows it, the call returns `false` with `bad CRC` as
the last line printed, and the tree is the one the loop stood with. -/
theorem C20_bad_crc_is_fatal (VssCrc16 VssCrc32 : List u08 → Nat → Nat)
    (visit : Nat → VssTree → List Report → Run (Bool × VssTree × List Report))
    (fuel : Nat) (logEntry : VssScanLogEntry) (childScan : VssScanChild)
    (branchNum parentNum : Nat) (t : VssTree) (reader payload : BinaryReader)
    (log : List Report) (chunkSize chunkID crc computed : Nat)
    (hmore : reader.m_Offset < reader.m_DataSize)
    (hchunk : readChunkHeader reader = some (chunkSize, chunkID, crc, payload))
    (hstored : crc ≠ 0)
    (hcomputed : payload.ComputeCRC VssCrc16 chunkSize = some computed)
    (hdiff : crc ≠ computed) :
    (projectInfoLoop VssCrc16 (fuel + 1) logEntry reader log
      = Run.done (false, log ++ [Report.badCRC]) ∧
    fileInfoLoop VssCrc16 (fuel + 1) logEntry branchNum parentNum reader log
      = Run.done (false, branchNum, parentNum, log ++ [Report.badCRC]) ∧
    dataLoop VssCrc16 visit (fuel + 1) childScan reader t log
      = Run.done (false, t, log ++ [Report.badCRC])) ∧
    (∀ (budget index depth : Nat) (path : Option (List Nat)) (t0 : VssTree)
      (node : VssNode_t) (info data : List u08) (header : VssScanHeader)
      (start : BinaryReader) (pathname : List Nat) (log0 : List Report),
      t0.m_pNodes[index]? = some node → node.pInfo = some info → node.pData = some data →
      node.Type_ = 0 →
      VssScanHeader.Scan VssCrc16 localHeader (BinaryReader.Initialize info node.InfoSize 0)
        = some (true, header, start) →
      pathnameOf path header.m_Name = some pathname →
      ((∀ branchCount parentCount : Nat, VssType_Project ≠ header.m_Type →
        scanFileInfo VssCrc16 VssCrc32 budget data node.DataSize start
            (log0 ++ [Report.visiting index node.InfoSize])
          = Run.fileEnd branchCount parentCount
              (fileInfoLoop VssCrc16 (fuel + 1) logEntry branchNum parentNum reader log) →
        VssTree.AssembleDirectoryLinks VssCrc16 VssCrc32 (budget + 1) index depth path t0 log0
          = Run.done (false, t0.setType index header.m_Type, log ++ [Report.badCRC])) ∧
      (VssType_Project = header.m_Type →
        scanProjectInfo VssCrc16 budget index (t0.setType index header.m_Type) start
            (log0 ++ [Report.visiting index node.InfoSize])
          = Run.withTree t (projectInfoLoop VssCrc16 (fuel + 1) logEntry reader log) →
        VssTree.AssembleDirectoryLinks VssCrc16 VssCrc32 (budget + 1) index depth path t0 log0
          = Run.done (false, t, log ++ [Report.badCRC])) ∧
      (∀ (t1 : VssTree) (log1 : List Report), VssType_Project = header.m_Type →
        scanProjectInfo VssCrc16 budget index (t0.setType index header.m_Type) start
            (log0 ++ [Report.visiting index node.InfoSize])
          = Run.done (true, t1, log1) →
        dataLoop VssCrc16
            (fun child => VssTree.AssembleDirectoryLinks VssCrc16 VssCrc32 budget child
              ((depth + 1) % 4294967296) (some pathname))
            budget localChild (BinaryReader.Initialize data node.DataSize 0) t1 log1
          = dataLoop VssCrc16
              (fun child => VssTree.AssembleDirectoryLinks VssCrc16 VssCrc32 budget child
                ((depth + 1) % 4294967296) (some pathname))
              (fuel + 1) childScan reader t log →
        VssTree.AssembleDirectoryLinks VssCrc16 VssCrc32 (budget + 1) index depth path t0 log0
          = Run.done (false, t, log ++ [Report.badCRC])))) := by
  have hbad : crcMismatch VssCrc16 payload crc chunkSize = some true := by
    unfold crcMismatch
    rw [if_pos (fun e => hstored e.symm), hcomputed]
    simp only [Option.some.injEq, decide_eq_true_eq]
    exact hdiff
  have hp : ∀ l : List Report, projectInfoLoop VssCrc16 (fuel + 1) logEntry reader l
      = Run.done (false, l ++ [Report.badCRC]) := by
    intro l
    unfold projectInfoLoop
    rw [if_pos hmore, hchunk]
    simp only [hbad]
  have hf : fileInfoLoop VssCrc16 (fuel + 1) logEntry branchNum parentNum reader log
      = Run.done (false, branchNum, parentNum, log ++ [Report.badCRC]) := by
    unfold fileInfoLoop
    rw [if_pos hmore, hchunk]
    simp only [hbad]
  have hd : ∀ v : Nat → VssTree → List Report → Run (Bool × VssTree × List Report),
      dataLoop VssCrc16 v (fuel + 1) childScan reader t log
        = Run.done (false, t, log ++ [Report.badCRC]) := by
    intro v
    unfold dataLoop
    rw [if_pos hmore, hchunk]
    simp only [hbad]
  refine ⟨⟨hp log, hf, hd visit⟩, ?_⟩
  intro budget index depth path t0 node info data header start pathname log0 hnode hinfo
    hdata hzero hscan hpath
  refine ⟨?_, ?_, ?_⟩
  · intro branchCount parentCount hkind hbranch
    rw [AssembleDirectoryLinks_file VssCrc16 VssCrc32 budget index depth path t0 node info
      data header start pathname log0 hnode hinfo hdata hzero hscan hpath hkind, hbranch, hf]
    rfl
  · intro hkind hbranch
    rw [AssembleDirectoryLinks_project VssCrc16 VssCrc32 budget index depth path t0 node info
      data header start pathname log0 hnode hinfo hdata hzero hscan hpath hkind, hbranch,
      hp log]
    rfl
  · intro t1 log1 hkind hbranch hloop
    rw [AssembleDirectoryLinks_project VssCrc16 VssCrc32 budget index depth path t0 node info
      data header start pathname log0 hnode hinfo hdata hzero hscan hpath hkind, hbranch]
    simp only [Run.whenTrue]
    rw [hloop]
    exact hd _

/-- The header scan of the node of `treeFileSecondChunk`. -/
theorem treeFileSecondChunk_header :
    VssScanHeader.Scan crcZero localHeader
        (BinaryReader.Initialize (infoNoChunks 2 2 ++ chunkXX 0 ++ chunkXX 7)
          (nodeOf (infoNoChunks 2 2 ++ chunkXX 0 ++ chunkXX 7) []).InfoSize 0)
      = some (true, { localHeader with m_Type := 2 },
          ⟨infoNoChunks 2 2 ++ chunkXX 0 ++ chunkXX 7, 440, 140⟩) := by
  decide

/-- The info stream of the node of `treeFileSecondChunk`, up to its second chunk. -/
theorem treeFileSecondChunk_info :
    scanFileInfo crcZero crcZero 2 []
        (nodeOf (infoNoChunks 2 2 ++ chunkXX 0 ++ chunkXX 7) []).DataSize
        ⟨infoNoChunks 2 2 ++ chunkXX 0 ++ chunkXX 7, 440, 140⟩
        ([] ++ [Report.visiting 0 (nodeOf (infoNoChunks 2 2 ++ chunkXX 0 ++ chunkXX 7) []).InfoSize])
      = Run.fileEnd 0 0
          (fileInfoLoop crcZero (0 + 1) localLogEntry 0 0
            ⟨infoNoChunks 2 2 ++ chunkXX 0 ++ chunkXX 7, 440, 428⟩
            [Report.visiting 0 440, Report.unexpectedCheckoutInactive 0,
              Report.unknownChunk 0x5858]) :=
  rfl

/-- The header scan of the node of `treeProjectSecondChunk`. -/
theorem treeProjectSecondChunk_header :
    VssScanHeader.Scan crcZero localHeader
        (BinaryReader.Initialize (infoNoChunks 1 1 ++ chunkXX 0 ++ chunkXX 7)
          (nodeOf (infoNoChunks 1 1 ++ chunkXX 0 ++ chunkXX 7) []).InfoSize 0)
      = some (true, { localHeader with m_Type := 1 },
          ⟨infoNoChunks 1 1 ++ chunkXX 0 ++ chunkXX 7, 440, 140⟩) := by
  decide

/-- The info stream of the node of `treeProjectSecondChunk`, up to its second chunk. -/
theorem treeProjectSecondChunk_info :
    scanProjectInfo crcZero 2 0
        (treeProjectSecondChunk.setType 0 ({ localHeader with m_Type := 1 } : VssScanHeader).m_Type)
        ⟨infoNoChunks 1 1 ++ chunkXX 0 ++ chunkXX 7, 440, 140⟩
        ([] ++ [Report.visiting 0
          (nodeOf (infoNoChunks 1 1 ++ chunkXX 0 ++ chunkXX 7) []).InfoSize])
      = Run.withTree (treeProjectSecondChunk.setType 0 1)
          (projectInfoLoop crcZero (0 + 1) localLogEntry
            ⟨infoNoChunks 1 1 ++ chunkXX 0 ++ chunkXX 7, 440, 428⟩
            [Report.visiting 0 440, Report.unknownChunk 0x5858]) :=
  rfl

/-- The header scan of node 0 of `treeDataSecondChunk`. -/
theorem treeDataSecondChunk_header :
    VssScanHeader.Scan crcZero localHeader
        (BinaryReader.Initialize (infoNoChunks 1 1)
          (nodeOf (infoNoChunks 1 1)
            (chunkChildOf dbName1 ++ chunkXX 7 ++ chunkChildOf dbName2)).InfoSize 0)
      = some (true, { localHeader with m_Type := 1 }, ⟨infoNoChunks 1 1, 416, 140⟩) := by
  decide

/-- The info stream of node 0 of `treeDataSecondChunk`. -/
theorem treeDataSecondChunk_info :
    scanProjectInfo crcZero 3 0
        (treeDataSecondChunk.setType 0 ({ localHeader with m_Type := 1 } : VssScanHeader).m_Type)
        ⟨infoNoChunks 1 1, 416, 140⟩
        ([] ++ [Report.visiting 0
          (nodeOf (infoNoChunks 1 1)
            (chunkChildOf dbName1 ++ chunkXX 7 ++ chunkChildOf dbName2)).InfoSize])
      = Run.done (true, treeDataSecondChunk.setType 0 1, [Report.visiting 0 416]) :=
  rfl

/-- The data stream of node 0 of `treeDataSecondChunk`, up to its second chunk. -/
theorem treeDataSecondChunk_data :
    dataLoop crcZero
        (fun child => VssTree.AssembleDirectoryLinks crcZero crcZero 3 child
          ((0 + 1) % 4294967296) (some []))
        3 localChild
        (BinaryReader.Initialize (chunkChildOf dbName1 ++ chunkXX 7 ++ chunkChildOf dbName2)
          (nodeOf (infoNoChunks 1 1)
            (chunkChildOf dbName1 ++ chunkXX 7 ++ chunkChildOf dbName2)).DataSize 0)
        (treeDataSecondChunk.setType 0 1) [Report.visiting 0 416]
      = dataLoop crcZero
          (fun child => VssTree.AssembleDirectoryLinks crcZero crcZero 3 child
            ((0 + 1) % 4294967296) (some []))
          (1 + 1)
          { m_Type := 2, m_Flags := 8, m_NameFlags := 0, m_Name := List.replicate 34 0,
            m_NameOffset := 0, m_Zero := localChild.m_Zero, m_DBName := dbName1 }
          ⟨chunkChildOf dbName1 ++ chunkXX 7 ++ chunkChildOf dbName2, 140, 64⟩
          ((treeDataSecondChunk.setType 0 1).setType 1 1)
          [Report.visiting 0 416, Report.visiting 1 416] :=
  rfl

/-- The types of the first three nodes of `treeDataSecondChunk` after the run. -/
theorem treeDataSecondChunk_types :
    ((treeDataSecondChunk.setType 0 1).setType 1 1).types 3 = [1, 1, 0] := by
  decide

/-- C20, witness: the second chunk of the info stream of the file of `treeFileSecondChunk`,
of the info stream of the project of `treeProjectSecondChunk` and of the data stream of the
project of `treeDataSecondChunk` has the stored CRC 7, while the checksum function answers
0. Each visit passes the first chunk, stands before the second and returns `false`; in the
third tree the child named by the first chunk was visited and the one named by the third
chunk is not. -/
theorem C20_bad_crc_is_fatal_witness :
    readChunkHeader ⟨infoNoChunks 2 2 ++ chunkXX 0 ++ chunkXX 7, 440, 428⟩
      = some (4, 0x5858, 7, ⟨infoNoChunks 2 2 ++ chunkXX 0 ++ chunkXX 7, 440, 436⟩) ∧
    BinaryReader.ComputeCRC crcZero ⟨infoNoChunks 2 2 ++ chunkXX 0 ++ chunkXX 7, 440, 436⟩ 4
      = some 0 ∧
    VssTree.AssembleDirectoryLinks crcZero crcZero (2 + 1) 0 0 none treeFileSecondChunk []
      = Run.done (false, treeFileSecondChunk.setType 0 2,
          [Report.visiting 0 440, Report.unexpectedCheckoutInactive 0,
            Report.unknownChunk 0x5858] ++ [Report.badCRC]) ∧
    readChunkHeader ⟨infoNoChunks 1 1 ++ chunkXX 0 ++ chunkXX 7, 440, 428⟩
      = some (4, 0x5858, 7, ⟨infoNoChunks 1 1 ++ chunkXX 0 ++ chunkXX 7, 440, 436⟩) ∧
    VssTree.AssembleDirectoryLinks crcZero crcZero (2 + 1) 0 0 none treeProjectSecondChunk []
      = Run.done (false, treeProjectSecondChunk.setType 0 1,
          [Report.visiting 0 440, Report.unknownChunk 0x5858] ++ [Report.badCRC]) ∧
    readChunkHeader
        ⟨chunkChildOf dbName1 ++ chunkXX 7 ++ chunkChildOf dbName2, 140, 64⟩
      = some (4, 0x5858, 7,
          ⟨chunkChildOf dbName1 ++ chunkXX 7 ++ chunkChildOf dbName2, 140, 72⟩) ∧
    VssTree.AssembleDirectoryLinks crcZero crcZero (3 + 1) 0 0 none treeDataSecondChunk []
      = Run.done (false, (treeDataSecondChunk.setType 0 1).setType 1 1,
          [Report.visiting 0 416, Report.visiting 1 416] ++ [Report.badCRC]) ∧
    ((treeDataSecondChunk.setType 0 1).setType 1 1).types 3 = [1, 1, 0] := by
  have hnode1 : treeFileSecondChunk.m_pNodes[0]?
      = some (nodeOf (infoNoChunks 2 2 ++ chunkXX 0 ++ chunkXX 7) []) := by
    unfold treeFileSecondChunk treeOf
    simp only [List.cons_append, List.getElem?_cons_zero]
  have hnode2 : treeProjectSecondChunk.m_pNodes[0]?
      = some (nodeOf (infoNoChunks 1 1 ++ chunkXX 0 ++ chunkXX 7) []) := by
    unfold treeProjectSecondChunk treeOf
    simp only [List.cons_append, List.getElem?_cons_zero]
  have hnode3 : treeDataSecondChunk.m_pNodes[0]?
      = some (nodeOf (infoNoChunks 1 1)
          (chunkChildOf dbName1 ++ chunkXX 7 ++ chunkChildOf dbName2)) := by
    unfold treeDataSecondChunk treeOf
    simp only [List.cons_append, List.getElem?_cons_zero]
  have hfile := (C20_bad_crc_is_fatal crcZero crcZero visitNothing 0 localLogEntry localChild
    0 0 treeFileSecondChunk ⟨infoNoChunks 2 2 ++ chunkXX 0 ++ chunkXX 7, 440, 428⟩
    ⟨infoNoChunks 2 2 ++ chunkXX 0 ++ chunkXX 7, 440, 436⟩
    [Report.visiting 0 440, Report.unexpectedCheckoutInactive 0, Report.unknownChunk 0x5858]
    4 0x5858 7 0 (by decide) (by decide) (by decide) (by decide) (by decide)).2
    2 0 0 none treeFileSecondChunk (nodeOf (infoNoChunks 2 2 ++ chunkXX 0 ++ chunkXX 7) [])
    (infoNoChunks 2 2 ++ chunkXX 0 ++ chunkXX 7) [] { localHeader with m_Type := 2 }
    ⟨infoNoChunks 2 2 ++ chunkXX 0 ++ chunkXX 7, 440, 140⟩ [] [] hnode1 rfl rfl rfl
    treeFileSecondChunk_header (by decide)
  have hproject := (C20_bad_crc_is_fatal crcZero crcZero visitNothing 0 localLogEntry
    localChild 0 0 (treeProjectSecondChunk.setType 0 1)
    ⟨infoNoChunks 1 1 ++ chunkXX 0 ++ chunkXX 7, 440, 428⟩
    ⟨infoNoChunks 1 1 ++ chunkXX 0 ++ chunkXX 7, 440, 436⟩
    [Report.visiting 0 440, Report.unknownChunk 0x5858]
    4 0x5858 7 0 (by decide) (by decide) (by decide) (by decide) (by decide)).2
    2 0 0 none treeProjectSecondChunk
    (nodeOf (infoNoChunks 1 1 ++ chunkXX 0 ++ chunkXX 7) [])
    (infoNoChunks 1 1 ++ chunkXX 0 ++ chunkXX 7) [] { localHeader with m_Type := 1 }
    ⟨infoNoChunks 1 1 ++ chunkXX 0 ++ chunkXX 7, 440, 140⟩ [] [] hnode2 rfl rfl rfl
    treeProjectSecondChunk_header (by decide)
  have hdata := (C20_bad_crc_is_fatal crcZero crcZero visitNothing 1
    localLogEntry
    { m_Type := 2, m_Flags := 8, m_NameFlags := 0, m_Name := List.replicate 34 0,
      m_NameOffset := 0, m_Zero := localChild.m_Zero, m_DBName := dbName1 }
    0 0 ((treeDataSecondChunk.setType 0 1).setType 1 1)
    ⟨chunkChildOf dbName1 ++ chunkXX 7 ++ chunkChildOf dbName2, 140, 64⟩
    ⟨chunkChildOf dbName1 ++ chunkXX 7 ++ chunkChildOf dbName2, 140, 72⟩
    [Report.visiting 0 416, Report.visiting 1 416]
    4 0x5858 7 0 (by decide) (by decide) (by decide) (by decide) (by decide)).2
    3 0 0 none treeDataSecondChunk
    (nodeOf (infoNoChunks 1 1) (chunkChildOf dbName1 ++ chunkXX 7 ++ chunkChildOf dbName2))
    (infoNoChunks 1 1) (chunkChildOf dbName1 ++ chunkXX 7 ++ chunkChildOf dbName2)
    { localHeader with m_Type := 1 } ⟨infoNoChunks 1 1, 416, 140⟩ [] [] hnode3 rfl rfl rfl
    treeDataSecondChunk_header (by decide)
  exact ⟨by decide, by decide, hfile.1 0 0 (by decide) treeFileSecondChunk_info, by decide,
    hproject.2.1 (by decide) treeProjectSecondChunk_info, by decide,
    hdata.2.2 (treeDataSecondChunk.setType 0 1) [Report.visiting 0 416] (by decide)
      treeDataSecondChunk_info treeDataSecondChunk_data,
    treeDataSecondChunk_types⟩

/-! ## Chunk loops at the end of a stream: auxiliary facts -/

/-- `Read16` with fewer than two bytes remaining returns 0 and moves to the end. -/
theorem Read16_short (data : List u08) (size off : Nat) (h32 : size + 2 < 4294967296)
    (hoff : off ≤ size) (h : size < off + 2) :
    BinaryReader.Read16 ⟨data, size, off⟩ = some (0, ⟨data, size, size⟩) := by
  unfold BinaryReader.Read16
  have hg : (off + 2) % 4294967296 > size := by
    rw [Nat.mod_eq_of_lt (by omega)]
    omega
  simp only [hg, if_true]

/-- The chunk header read with exactly one byte remaining: size, marker and stored CRC are
all read as 0, and the cursor is at the end. -/
theorem readChunkHeader_one_byte (data : List u08) (size off : Nat)
    (h32 : size + 2 < 4294967296) (h : size = off + 1) :
    readChunkHeader ⟨data, size, off⟩ = some (0, 0, 0, ⟨data, size, size⟩) := by
  unfold readChunkHeader
  rw [Read32_at_most_one_byte ⟨data, size, off⟩ (show size < off + 2 by omega)
    (show off + 2 < 4294967296 by omega)]
  simp only
  rw [Read16_short data size size h32 (Nat.le_refl _) (by omega)]
  simp only
  rw [Read16_short data size size h32 (Nat.le_refl _) (by omega)]

/-- The chunk header read with 4 or 5 bytes remaining: the size is read, the marker and the
stored CRC are read as 0, and the cursor is at the end. -/
theorem readChunkHeader_size_only (data : List u08) (size off : Nat)
    (hsize : size = data.length) (h32 : size + 2 < 4294967296) (hlo : off + 4 ≤ size)
    (hhi : size < off + 6) :
    readChunkHeader ⟨data, size, off⟩ = some (le32 data off, 0, 0, ⟨data, size, size⟩) := by
  unfold readChunkHeader
  rw [Read32_at data size off hsize (by omega) hlo]
  simp only
  rw [Read16_short data size (off + 4) h32 hlo (by omega)]
  simp only
  rw [Read16_short data size size h32 (Nat.le_refl _) (by omega)]

/-- The chunk header read with 2 or 3 bytes remaining: `Read32` reads outside the buffer. -/
theorem readChunkHeader_outside (data : List u08) (size off : Nat)
    (hsize : size = data.length) (h32 : size < 4294967296) (hlo : off + 2 ≤ size)
    (hhi : size < off + 4) :
    readChunkHeader ⟨data, size, off⟩ = none := by
  unfold readChunkHeader
  rw [Read32_two_or_three_bytes data size off hsize h32 hlo hhi]

/-- A stored CRC of 0 is never tested. -/
theorem crcMismatch_zero (VssCrc16 : List u08 → Nat → Nat) (reader : BinaryReader)
    (chunkSize : Nat) : crcMismatch VssCrc16 reader 0 chunkSize = some false := by
  unfold crcMismatch
  rw [if_neg (by omega)]

/-- The three chunk loops standing before a header that is read as marker 0 and stored CRC 0
with the cursor at the end: each prints its line for an unknown chunk, sets the cursor past
the end and ends, returning `true`. -/
theorem loops_end_after_zero_header (VssCrc16 : List u08 → Nat → Nat)
    (visit : Nat → VssTree → List Report → Run (Bool × VssTree × List Report))
    (fuel : Nat) (logEntry : VssScanLogEntry) (childScan : VssScanChild)
    (branchNum parentNum : Nat) (t : VssTree) (log : List Report) (data : List u08)
    (size off chunkSize : Nat) (hoff : off < size) (hwrap : size + chunkSize < 4294967296)
    (hheader : readChunkHeader ⟨data, size, off⟩ = some (chunkSize, 0, 0, ⟨data, size, size⟩)) :
    projectInfoLoop VssCrc16 (fuel + 2) logEntry ⟨data, size, off⟩ log
      = Run.done (true, log ++ [Report.unknownChunk 0]) ∧
    fileInfoLoop VssCrc16 (fuel + 2) logEntry branchNum parentNum ⟨data, size, off⟩ log
      = Run.done (true, branchNum, parentNum, log ++ [Report.unknownChunk 0]) ∧
    dataLoop VssCrc16 visit (fuel + 2) childScan ⟨data, size, off⟩ t log
      = Run.done (true, t, log ++ [Report.unknownChunkID 0]) := by
  have hnext : nextChunk ⟨data, size, size⟩ chunkSize = ⟨data, size, size + chunkSize⟩ := by
    unfold nextChunk BinaryReader.SetOffset
    simp only [Nat.mod_eq_of_lt hwrap]
  have hend : ¬ size + chunkSize < size := by omega
  refine ⟨?_, ?_, ?_⟩
  · unfold projectInfoLoop
    simp only [hoff, if_true, hheader, crcMismatch_zero, hnext]
    rw [if_neg (by decide), if_neg (by decide)]
    unfold projectInfoLoop
    simp only [hend, if_false]
  · unfold fileInfoLoop
    simp only [hoff, if_true, hheader, crcMismatch_zero, hnext]
    rw [if_neg (by decide), if_neg (by decide), if_neg (by decide), if_neg (by decide),
      if_neg (by decide), if_neg (by decide)]
    unfold fileInfoLoop
    simp only [hend, if_false]
  · unfold dataLoop
    simp only [hoff, if_true, hheader, crcMismatch_zero, hnext]
    rw [if_neg (by decide)]
    unfold dataLoop
    simp only [hend, if_false]

/-- The three chunk loops when the chunk header cannot be read inside the buffer. -/
theorem loops_fault_without_header (VssCrc16 : List u08 → Nat → Nat)
    (visit : Nat → VssTree → List Report → Run (Bool × VssTree × List Report))
    (fuel : Nat) (logEntry : VssScanLogEntry) (childScan : VssScanChild)
    (branchNum parentNum : Nat) (t : VssTree) (log : List Report) (reader : BinaryReader)
    (hoff : reader.m_Offset < reader.m_DataSize) (hheader : readChunkHeader reader = none) :
    projectInfoLoop VssCrc16 (fuel + 1) logEntry reader log = Run.fault ∧
    fileInfoLoop VssCrc16 (fuel + 1) logEntry branchNum parentNum reader log = Run.fault ∧
    dataLoop VssCrc16 visit (fuel + 1) childScan reader t log = Run.fault := by
  refine ⟨?_, ?_, ?_⟩
  · unfold projectInfoLoop
    simp only [hoff, if_true, hheader]
  · unfold fileInfoLoop
    simp only [hoff, if_true, hheader]
  · unfold dataLoop
    simp only [hoff, if_true, hheader]

/-! ## Chunk loops at the end of a stream: the claims -/

/-- C21, counterexample: no chunk loop reports a truncated stream. The data stream of the
project of `treeTrailingByte` is one byte long: the call returns `true` after printing the
line for an unknown chunk with marker 0. The chunk loop of a file standing at offset 416 of a
417-byte info buffer does the same. The data stream of the project of `treeOvershoot` holds
one chunk whose size field is 1000 with 4 bytes of payload: the cursor is set to 1008, past
the 12 bytes of the buffer, and the call returns `true`. -/
theorem C21_truncated_stream_is_not_reported :
    Run.summary 1 (VssTree.AssembleDirectoryLinks crcZero crcZero 3 0 0 none treeTrailingByte [])
      = Run.done (true, [1], [Report.visiting 0 416, Report.unknownChunkID 0]) ∧
    fileInfoLoop crcZero 2 localLogEntry 0 0 ⟨infoNoChunks 2 2 ++ [255], 417, 416⟩ []
      = Run.done (true, 0, 0, [Report.unknownChunk 0]) ∧
    Run.summary 1 (VssTree.AssembleDirectoryLinks crcZero crcZero 3 0 0 none treeOvershoot [])
      = Run.done (true, [1], [Report.visiting 0 416, Report.unknownChunkID 0x5858]) ∧
    nextChunk ⟨streamOvershoot, 12, 8⟩ 1000 = ⟨streamOvershoot, 12, 1008⟩ :=
  ⟨by decide, by decide, by decide, by decide⟩


/-! ## Header errors during assembly: auxiliary facts -/

/-- A call of `AssembleDirectoryLinks` returns `true` only on a node whose header is valid:
the magic string matches, the kind is project or file and the version is 6. -/
theorem AssembleDirectoryLinks_true_header (VssCrc16 VssCrc32 : List u08 → Nat → Nat)
    (fuel index depth : Nat) (path : Option (List Nat))
    (t u : VssTree) (log out : List Report) (hwf : t.WellFormed)
    (h : VssTree.AssembleDirectoryLinks VssCrc16 VssCrc32 fuel index depth path t log
      = Run.done (true, u, out)) :
    ∃ node info, t.m_pNodes[index]? = some node ∧ node.pInfo = some info ∧
      info.take 20 = infoMagic.take 20 ∧
      (le16 info 32 = VssType_Project ∨ le16 info 32 = VssType_File) ∧ le16 info 34 = 6 := by
  cases fuel with
  | zero => exact absurd h (by simp [VssTree.AssembleDirectoryLinks])
  | succ fuel =>
    unfold VssTree.AssembleDirectoryLinks at h
    simp only [List.get?_eq_getElem?] at h
    split at h
    · exact absurd h (by simp)
    rename_i node hnode
    split at h
    · rename_i info data hinfo hdata
      obtain ⟨hsize, h32⟩ := hwf index node info hnode hinfo
      rw [hsize] at h
      split at h
      · exact absurd h (by simp)
      · exact absurd h (by simp)
      · rename_i header reader hscan
        split at h
        · exact absurd h (by simp)
        obtain ⟨hmagic, _, _, _, hkind, hversion, _⟩ :=
          Scan_accept_layout VssCrc16 localHeader header info reader h32 hscan
        exact ⟨node, info, hnode, hinfo, hmagic, hkind, hversion⟩
    · exact absurd h (by simp)

/-- The chunk loop over the data stream of a project does not look at what the nested call
returns. -/
theorem dataLoop_ignores_result (VssCrc16 : List u08 → Nat → Nat)
    (visit : Nat → VssTree → List Report → Run (Bool × VssTree × List Report)) :
    ∀ (fuel : Nat) (childScan : VssScanChild) (reader : BinaryReader) (t : VssTree)
      (log : List Report),
      dataLoop VssCrc16 visit fuel childScan reader t log
        = dataLoop VssCrc16 (fun i t l => (visit i t l).ignoreResult) fuel childScan reader t
            log := by
  intro fuel
  induction fuel with
  | zero =>
    intro childScan reader t log
    rfl
  | succ fuel ih =>
    intro childScan reader t log
    unfold dataLoop
    split
    · split
      · rfl
      · split
        · rfl
        · rfl
        · split
          · split
            · rfl
            · split
              · rfl
              · rename_i number _
                cases hv : visit (intToU32 number) t log with
                | done a =>
                  obtain ⟨b, t1, log1⟩ := a
                  simp only [Run.ignoreResult]
                  exact ih _ _ _ _
                | fault => rfl
                | timeout => rfl
          · exact ih _ _ _ _
    · rfl

/-! ## Header errors during assembly: the claims -/

/-- C22, counterexample: the three children of the project of `treeBadChildren` have a wrong
magic string, the kind 3 and the version 5. The call on each child returns `false`; the call
on the project, node 0, returns `true`, leaving the three children unvisited. -/
theorem C22_bad_child_header_is_not_fatal :
    Run.summary 4 (VssTree.AssembleDirectoryLinks crcZero crcZero 2 1 0 none treeBadChildren [])
      = Run.done (false, [0, 0, 0, 0], []) ∧
    Run.summary 4 (VssTree.AssembleDirectoryLinks crcZero crcZero 2 2 0 none treeBadChildren [])
      = Run.done (false, [0, 0, 0, 0], []) ∧
    Run.summary 4 (VssTree.AssembleDirectoryLinks crcZero crcZero 2 3 0 none treeBadChildren [])
      = Run.done (false, [0, 0, 0, 0], []) ∧
    Run.summary 4 (VssTree.AssembleDirectoryLinks crcZero crcZero 5 0 0 none treeBadChildren [])
      = Run.done (true, [1, 0, 0, 0], [Report.visiting 0 416]) :=
  ⟨by decide, by decide, by decide, by decide⟩

/-- C22, amended: a header error is fatal for the call on the node that has it, and only for
that call. A call of `AssembleDirectoryLinks` returns `true` only on a node whose magic
string matches, whose kind is 1 or 2 and whose version is 6; so a header error at the root
makes the call on the root return `false`. The chunk loop over the data stream of a project
does not look at what the call on a child returns: its outcome is the same when every such
call is taken to return `true`. -/
theorem C22_header_error_fails_its_own_call (VssCrc16 VssCrc32 : List u08 → Nat → Nat)
    (fuel index depth : Nat) (path : Option (List Nat))
    (t u : VssTree) (log out : List Report) (hwf : t.WellFormed)
    (h : VssTree.AssembleDirectoryLinks VssCrc16 VssCrc32 fuel index depth path t log
      = Run.done (true, u, out)) :
    (∃ node info, t.m_pNodes[index]? = some node ∧ node.pInfo = some info ∧
      info.take 20 = infoMagic.take 20 ∧
      (le16 info 32 = VssType_Project ∨ le16 info 32 = VssType_File) ∧ le16 info 34 = 6) ∧
    (∀ (visit : Nat → VssTree → List Report → Run (Bool × VssTree × List Report))
      (loopFuel : Nat) (childScan : VssScanChild) (reader : BinaryReader) (v : VssTree)
      (lines : List Report),
      dataLoop VssCrc16 visit loopFuel childScan reader v lines
        = dataLoop VssCrc16 (fun i t l => (visit i t l).ignoreResult) loopFuel childScan
            reader v lines) :=
  ⟨AssembleDirectoryLinks_true_header VssCrc16 VssCrc32 fuel index depth path t u log out hwf h,
    fun visit loopFuel childScan reader v lines =>
      dataLoop_ignores_result VssCrc16 visit loopFuel childScan reader v lines⟩

/-- C22, witness: the call on the project of `treeBadChildren`, which returns `true`; the
header of the project is valid. -/
theorem C22_header_error_fails_its_own_call_witness :
    treeBadChildren.WellFormed ∧
    ∃ u, VssTree.AssembleDirectoryLinks crcZero crcZero 5 0 0 none treeBadChildren []
        = Run.done (true, u, [Report.visiting 0 416]) ∧
      ∃ node info, treeBadChildren.m_pNodes[0]? = some node ∧ node.pInfo = some info ∧
        info.take 20 = infoMagic.take 20 ∧
        (le16 info 32 = VssType_Project ∨ le16 info 32 = VssType_File) ∧ le16 info 34 = 6 := by
  have hwf : treeBadChildren.WellFormed := treeOf_WellFormed _ (by decide)
  obtain ⟨u, hu, _⟩ := Run.summary_done 4
    (VssTree.AssembleDirectoryLinks crcZero crcZero 5 0 0 none treeBadChildren []) true [1, 0, 0, 0]
    [Report.visiting 0 416] (by decide)
  exact ⟨hwf, u, hu,
    (C22_header_error_fails_its_own_call crcZero crcZero 5 0 0 none treeBadChildren u [] _ hwf
      hu).1⟩

/-! ## Child identifiers: auxiliary facts -/

/-- A call of `AssembleDirectoryLinks` with an index outside the node table reads
`m_pNodes[index]` outside the table. -/
theorem AssembleDirectoryLinks_outside_table (VssCrc16 VssCrc32 : List u08 → Nat → Nat)
    (fuel index depth : Nat) (path : Option (List Nat))
    (t : VssTree) (log : List Report) (h : t.m_pNodes.length ≤ index) :
    VssTree.AssembleDirectoryLinks VssCrc16 VssCrc32 (fuel + 1) index depth path t log
      = Run.fault := by
  unfold VssTree.AssembleDirectoryLinks
  rw [List.get?_eq_getElem?, List.getElem?_eq_none h]

/-! ## Child identifiers: the claims -/

/-- C23: the child chunk of `treeChildUnnamed` has an empty db-name, which decodes to `-1`,
and the one of `treeChildFar` the db-name `aaabaaaa`, which decodes to 17576. The table has
4096 nodes. The call on the project passes `0xFFFFFFFF`, and 17576, as the index of the
nested call, which reads `m_pNodes[index]` outside the table. -/
theorem C23_child_index_is_not_checked :
    VssNameToNumber (charsOf (List.replicate 10 0)) = some (-1) ∧
    intToU32 (-1) = 0xFFFFFFFF ∧
    VssNameToNumber (charsOf dbName17576) = some 17576 ∧
    treeChildUnnamed.m_pNodes.length = 4096 ∧ treeChildFar.m_pNodes.length = 4096 ∧
    VssTree.AssembleDirectoryLinks crcZero crcZero 3 0 0 none treeChildUnnamed [] = Run.fault ∧
    VssTree.AssembleDirectoryLinks crcZero crcZero 3 0 0 none treeChildFar [] = Run.fault := by
  refine ⟨by decide, by decide, by decide, ?_, ?_, ?_, ?_⟩
  · unfold treeChildUnnamed treeOf
    simp only [List.length_append, List.length_replicate, List.length_cons, List.length_nil]
  · unfold treeChildFar treeOf
    simp only [List.length_append, List.length_replicate, List.length_cons, List.length_nil]
  · decide
  · decide

/-! ## Child record on short input: auxiliary facts -/

/-- With 42 or 43 bytes remaining, `VssScanChild::Scan` reaches the name offset with 2 or 3
bytes remaining, and `Read32` reads it from outside the buffer. -/
theorem Scan_child_outside (self : VssScanChild) (data : List u08) (size off : Nat)
    (hsize : size = data.length) (h32 : size < 4294967296) (hlo : off + 42 ≤ size)
    (hhi : size < off + 44) :
    VssScanChild.Scan self ⟨data, size, off⟩ = none := by
  unfold VssScanChild.Scan
  simp (disch := omega) only [Read16_at, ReadData_at, Nat.add_assoc, Nat.reduceAdd]
  rw [Read32_two_or_three_bytes data size (off + 40) hsize h32 (by omega) (by omega)]

/-- `ReadData` with fewer than `n` bytes remaining fills the output with zeros and moves to
the end. -/
theorem ReadData_short (data : List u08) (size off n : Nat) (h32 : off + n < 4294967296)
    (h : size < off + n) :
    BinaryReader.ReadData ⟨data, size, off⟩ n
      = some (false, List.replicate n 0, ⟨data, size, size⟩) := by
  unfold BinaryReader.ReadData
  have hg : (off + n) % 4294967296 > size := by
    rw [Nat.mod_eq_of_lt h32]
    omega
  simp only [hg, if_true]

/-- `Read32` with fewer than two bytes remaining returns 0 and moves to the end. -/
theorem Read32_short (data : List u08) (size off : Nat) (h32 : off + 2 < 4294967296)
    (h : size < off + 2) :
    BinaryReader.Read32 ⟨data, size, off⟩ = some (0, ⟨data, size, size⟩) :=
  Read32_at_most_one_byte ⟨data, size, off⟩ h h32

/-- With fewer than 56 bytes remaining, and neither 42 nor 43 of them, `VssScanChild::Scan`
returns with the cursor at the end of the buffer and a db-name of ten zero bytes. -/
theorem Scan_child_short (self : VssScanChild) (data : List u08) (size off : Nat)
    (hsize : size = data.length) (h32 : size + 56 < 4294967296) (hoff : off ≤ size)
    (hshort : size < off + 56) (hnot : size < off + 42 ∨ off + 44 ≤ size) :
    ∃ child, VssScanChild.Scan self ⟨data, size, off⟩ = some (true, child, ⟨data, size, size⟩) ∧
      child.m_DBName = List.replicate 10 0 := by
  unfold VssScanChild.Scan
  by_cases h2 : size < off + 2
  · simp (disch := omega) only [Read16_short, ReadData_short, Read32_short]
    exact ⟨_, rfl, rfl⟩
  by_cases h4 : size < off + 4
  · simp (disch := omega) only [Read16_at, Read16_short, ReadData_short, Read32_short]
    exact ⟨_, rfl, rfl⟩
  by_cases h6 : size < off + 6
  · simp (disch := omega) only [Read16_at, Nat.add_assoc, Nat.reduceAdd]
    simp (disch := omega) only [Read16_short, ReadData_short, Read32_short]
    exact ⟨_, rfl, rfl⟩
  by_cases h40 : size < off + 40
  · simp (disch := omega) only [Read16_at, Nat.add_assoc, Nat.reduceAdd]
    simp (disch := omega) only [Read16_short, ReadData_short, Read32_short]
    exact ⟨_, rfl, rfl⟩
  by_cases h42 : size < off + 42
  · simp (disch := omega) only [Read16_at, ReadData_at, Nat.add_assoc, Nat.reduceAdd]
    simp (disch := omega) only [Read16_short, ReadData_short, Read32_short]
    exact ⟨_, rfl, rfl⟩
  by_cases h46 : size < off + 46
  · simp (disch := omega) only [Read16_at, ReadData_at, Read32_at, Nat.add_assoc,
      Nat.reduceAdd]
    simp (disch := omega) only [Read16_short, ReadData_short, Read32_short]
    exact ⟨_, rfl, rfl⟩
  · simp (disch := omega) only [Read16_at, ReadData_at, Read32_at, Nat.add_assoc,
      Nat.reduceAdd]
    simp (disch := omega) only [Read16_short, ReadData_short, Read32_short]
    exact ⟨_, rfl, rfl⟩

/-! ## Chunk loops on a header that is cut off -/

/-- At the end of the buffer `VssScanLogEntry::Scan` reads every field as 0 and returns. -/
theorem Scan_logEntry_at_end (self : VssScanLogEntry) (data : List u08) (size : Nat)
    (h32 : size + 260 < 4294967296) :
    ∃ e, VssScanLogEntry.Scan self ⟨data, size, size⟩ = some (e, ⟨data, size, size⟩) := by
  have hnum : VssNameToNumber (charsOf (List.replicate 10 (0 : u08))) = some (-1) := by decide
  simp (disch := omega) only [VssScanLogEntry.Scan, VssScanLogEntry.scanFixed,
    VssScanLogEntry.scanSharedPath, VssScanLogEntry.scanName, VssScanLogEntry.scanReference,
    VssScanLogEntry.scanFileReference, VssScanLogEntry.scanBranch, Read16_short, Read32_short,
    ReadData_short, VssOpcode_SharedFile, VssOpcode_CheckedInFile, VssOpcode_RenamedProject,
    VssOpcode_RenamedFile, VssOpcode_BranchedFile, Nat.reduceEqDiff, reduceIte, or_self, hnum]
  exact ⟨_, rfl⟩

/-- At the end of the buffer `VssScanCheckout::Scan` reads every field as 0 and returns. -/
theorem Scan_checkout_at_end (data : List u08) (size : Nat) (h32 : size + 260 < 4294967296) :
    ∃ c, VssScanCheckout.Scan ⟨data, size, size⟩
      = some (true, c, ⟨data, size, size⟩) := by
  simp (disch := omega) only [VssScanCheckout.Scan, Read16_short, Read32_short, ReadData_short]
  exact ⟨_, rfl⟩

/-- At the end of the buffer `VssScanParent::Scan` reads an empty name, whose number is
`-1`. -/
theorem Scan_parent_at_end (data : List u08) (size : Nat) (h32 : size + 260 < 4294967296) :
    VssScanParent.Scan ⟨data, size, size⟩
      = some ({ m_PreviousOffset := 0, m_ParentIndex := -1 }, ⟨data, size, size⟩) := by
  have hnum : VssNameToNumber (charsOf (List.replicate 10 (0 : u08))) = some (-1) := by decide
  simp (disch := omega) only [VssScanParent.Scan, Read32_short, ReadData_short, hnum]

/-- At the end of the buffer `PrintComment` reads nothing from it and returns, when the end
plus the size does not wrap. -/
theorem PrintComment_at_end (data : List u08) (size chunkSize : Nat) (hpos : 0 < size)
    (hwrap : size + chunkSize < 4294967296) :
    (PrintComment ⟨data, size, size⟩ chunkSize).isSome = true := by
  unfold PrintComment
  rw [if_neg (by
    rw [Nat.mod_eq_of_lt (by omega)]
    omega)]
  by_cases hz : chunkSize = 0
  · subst hz
    unfold BinaryReader.ReadData
    simp only [Nat.add_zero, Nat.mod_eq_of_lt (show size < 4294967296 by omega),
      gt_iff_lt, Nat.lt_irrefl, if_false, BinaryReader.copyLoop]
    rfl
  · rw [ReadData_short data size size chunkSize hwrap (by omega)]
    rfl

/-- The chunk header read with 6 or 7 bytes remaining: size and marker are read from the
buffer, the stored CRC is read as 0, and the cursor is at the end. -/
theorem readChunkHeader_no_crc (data : List u08) (size off : Nat)
    (hsize : size = data.length) (h32 : size + 2 < 4294967296) (hlo : off + 6 ≤ size)
    (hhi : size < off + 8) :
    readChunkHeader ⟨data, size, off⟩
      = some (le32 data off, le16 data (off + 4), 0, ⟨data, size, size⟩) := by
  unfold readChunkHeader
  rw [Read32_at data size off hsize (by omega) (by omega)]
  simp only
  rw [Read16_at data size (off + 4) hsize (by omega) (by omega)]
  simp only
  rw [Read16_short data size (off + 4 + 2) h32 (by omega) (by omega)]

/-- The three chunk loops standing before a header that is read with the stored CRC 0 and
the cursor at the end of the buffer, when the end plus the size does not wrap: each acts on
the chunk by its marker, every field of the record being read as 0, sets the cursor past the
end and ends, returning `true`. -/
theorem loops_end_after_short_header (VssCrc16 : List u08 → Nat → Nat)
    (visit : Nat → VssTree → List Report → Run (Bool × VssTree × List Report))
    (fuel : Nat) (logEntry : VssScanLogEntry) (childScan : VssScanChild)
    (branchNum parentNum : Nat) (t : VssTree) (log : List Report) (data : List u08)
    (size off chunkSize chunkID : Nat) (hsize : size = data.length) (hoff : off < size)
    (h32 : size + 260 < 4294967296) (hwrap : size + chunkSize < 4294967296)
    (hheader : readChunkHeader ⟨data, size, off⟩
      = some (chunkSize, chunkID, 0, ⟨data, size, size⟩)) :
    projectInfoLoop VssCrc16 (fuel + 2) logEntry ⟨data, size, off⟩ log
      = Run.done (true, log ++
          (if chunkID = VssMarker_Comment ∨ chunkID = VssMarker_LogEntry then []
            else [Report.unknownChunk chunkID])) ∧
    fileInfoLoop VssCrc16 (fuel + 2) logEntry branchNum parentNum ⟨data, size, off⟩ log
      = Run.done (true,
          (if chunkID = VssMarker_BranchFile then (branchNum + 1) % 65536 else branchNum),
          parentNum,
          log ++
            (if chunkID = VssMarker_BranchFile ∨ chunkID = VssMarker_CheckOut ∨
                chunkID = VssMarker_Comment ∨ chunkID = VssMarker_Difference ∨
                chunkID = VssMarker_LogEntry ∨ chunkID = VssMarker_ParentFolder then []
              else [Report.unknownChunk chunkID])) ∧
    dataLoop VssCrc16 visit (fuel + 2) childScan ⟨data, size, off⟩ t log
      = (if chunkID = VssMarker_Child then
          (visit 0xFFFFFFFF t log).andThen (fun t log => Run.done (true, t, log))
        else Run.done (true, t, log ++ [Report.unknownChunkID chunkID])) := by
  have hnext : nextChunk ⟨data, size, size⟩ chunkSize = ⟨data, size, size + chunkSize⟩ := by
    unfold nextChunk BinaryReader.SetOffset
    simp only [Nat.mod_eq_of_lt hwrap]
  have hend : ¬ size + chunkSize < size := by omega
  have hp1 : ∀ (e : VssScanLogEntry) (l : List Report),
      projectInfoLoop VssCrc16 (fuel + 1) e ⟨data, size, size + chunkSize⟩ l
        = Run.done (true, l) := by
    intro e l
    unfold projectInfoLoop
    simp only [hend, if_false]
  have hf1 : ∀ (e : VssScanLogEntry) (bn pn : Nat) (l : List Report),
      fileInfoLoop VssCrc16 (fuel + 1) e bn pn ⟨data, size, size + chunkSize⟩ l
        = Run.done (true, bn, pn, l) := by
    intro e bn pn l
    unfold fileInfoLoop
    simp only [hend, if_false]
  have hd1 : ∀ (c : VssScanChild) (u : VssTree) (l : List Report),
      dataLoop VssCrc16 visit (fuel + 1) c ⟨data, size, size + chunkSize⟩ u l
        = Run.done (true, u, l) := by
    intro c u l
    unfold dataLoop
    simp only [hend, if_false]
  obtain ⟨e, he⟩ := Scan_logEntry_at_end logEntry data size h32
  have hcomment := PrintComment_at_end data size chunkSize (by omega) hwrap
  refine ⟨?_, ?_, ?_⟩
  · conv_lhs => unfold projectInfoLoop
    simp only [hoff, if_true, hheader, crcMismatch_zero, hnext]
    by_cases h1 : chunkID = VssMarker_Comment
    · rw [if_pos h1, if_pos (Or.inl h1)]
      cases hpc : PrintComment ⟨data, size, size⟩ chunkSize with
      | none =>
        rw [hpc] at hcomment
        exact absurd hcomment (by simp)
      | some r =>
        simp only
        rw [hp1, List.append_nil]
    rw [if_neg h1]
    by_cases h2 : chunkID = VssMarker_LogEntry
    · rw [if_pos h2, if_pos (Or.inr h2), he]
      simp only
      rw [hp1, List.append_nil]
    rw [if_neg h2, if_neg (by
      intro hor
      rcases hor with hor | hor
      · exact h1 hor
      · exact h2 hor)]
    exact hp1 _ _
  · conv_lhs => unfold fileInfoLoop
    simp only [hoff, if_true, hheader, crcMismatch_zero, hnext]
    by_cases h1 : chunkID = VssMarker_BranchFile
    · rw [if_pos h1, if_pos h1, if_pos (Or.inl h1)]
      rw [Read32_short data size size (by omega) (by omega)]
      simp only
      rw [ReadData_short data size size 10 (by omega) (by omega)]
      simp only
      rw [hf1, List.append_nil]
    rw [if_neg h1, if_neg h1]
    by_cases h2 : chunkID = VssMarker_CheckOut
    · rw [if_pos h2, if_pos (Or.inr (Or.inl h2))]
      obtain ⟨c, hc⟩ := Scan_checkout_at_end data size h32
      rw [hc]
      simp only
      rw [hf1, List.append_nil]
    rw [if_neg h2]
    by_cases h3 : chunkID = VssMarker_Comment
    · rw [if_pos h3, if_pos (Or.inr (Or.inr (Or.inl h3)))]
      cases hpc : PrintComment ⟨data, size, size⟩ chunkSize with
      | none =>
        rw [hpc] at hcomment
        exact absurd hcomment (by simp)
      | some r =>
        simp only
        rw [hf1, List.append_nil]
    rw [if_neg h3]
    by_cases h4 : chunkID = VssMarker_Difference
    · rw [if_pos h4, if_pos (Or.inr (Or.inr (Or.inr (Or.inl h4))))]
      rw [hf1, List.append_nil]
    rw [if_neg h4]
    by_cases h5 : chunkID = VssMarker_LogEntry
    · rw [if_pos h5, if_pos (Or.inr (Or.inr (Or.inr (Or.inr (Or.inl h5))))), he]
      simp only
      rw [hf1, List.append_nil]
    rw [if_neg h5]
    by_cases h6 : chunkID = VssMarker_ParentFolder
    · rw [if_pos h6, if_pos (Or.inr (Or.inr (Or.inr (Or.inr (Or.inr h6))))),
        Scan_parent_at_end data size h32]
      simp only
      rw [if_neg (by decide), hf1, List.append_nil]
    rw [if_neg h6, if_neg (by
      intro hor
      rcases hor with hor | hor | hor | hor | hor | hor
      · exact h1 hor
      · exact h2 hor
      · exact h3 hor
      · exact h4 hor
      · exact h5 hor
      · exact h6 hor)]
    exact hf1 _ _ _ _
  · conv_lhs => unfold dataLoop
    simp only [hoff, if_true, hheader, crcMismatch_zero, hnext]
    by_cases h1 : chunkID = VssMarker_Child
    · rw [if_pos h1, if_pos h1]
      obtain ⟨child, hc, hname⟩ := Scan_child_short childScan data size size hsize (by omega)
        (Nat.le_refl _) (by omega) (Or.inl (by omega))
      have hnum : VssNameToNumber (charsOf (List.replicate 10 (0 : u08))) = some (-1) := by
        decide
      have hidx : intToU32 (-1) = 0xFFFFFFFF := by decide
      rw [hc]
      simp only [hname, hnum, hidx]
      cases visit 0xFFFFFFFF t log with
      | fault => rfl
      | timeout => rfl
      | done a =>
        obtain ⟨b, u, l⟩ := a
        simp only [Run.andThen]
        exact hd1 _ _ _
    · rw [if_neg h1, if_neg h1]
      exact hd1 _ _ _

/-- One pass of the three chunk loops over a header that is read as marker 0 and stored CRC
0 with the cursor at the end: each prints its line for an unknown chunk and goes on from the
end of the buffer plus the size, reduced modulo `2^32`. -/
theorem loops_pass_zero_header (VssCrc16 : List u08 → Nat → Nat)
    (visit : Nat → VssTree → List Report → Run (Bool × VssTree × List Report))
    (fuel : Nat) (logEntry : VssScanLogEntry) (childScan : VssScanChild)
    (branchNum parentNum : Nat) (t : VssTree) (log : List Report) (data : List u08)
    (size off chunkSize : Nat) (hoff : off < size)
    (hheader : readChunkHeader ⟨data, size, off⟩
      = some (chunkSize, 0, 0, ⟨data, size, size⟩)) :
    projectInfoLoop VssCrc16 (fuel + 1) logEntry ⟨data, size, off⟩ log
      = projectInfoLoop VssCrc16 fuel logEntry ⟨data, size, (size + chunkSize) % 4294967296⟩
          (log ++ [Report.unknownChunk 0]) ∧
    fileInfoLoop VssCrc16 (fuel + 1) logEntry branchNum parentNum ⟨data, size, off⟩ log
      = fileInfoLoop VssCrc16 fuel logEntry branchNum parentNum
          ⟨data, size, (size + chunkSize) % 4294967296⟩ (log ++ [Report.unknownChunk 0]) ∧
    dataLoop VssCrc16 visit (fuel + 1) childScan ⟨data, size, off⟩ t log
      = dataLoop VssCrc16 visit fuel childScan ⟨data, size, (size + chunkSize) % 4294967296⟩ t
          (log ++ [Report.unknownChunkID 0]) := by
  have hnext : nextChunk ⟨data, size, size⟩ chunkSize
      = ⟨data, size, (size + chunkSize) % 4294967296⟩ := rfl
  refine ⟨?_, ?_, ?_⟩
  · conv_lhs => unfold projectInfoLoop
    simp only [hoff, if_true, hheader, crcMismatch_zero, hnext]
    rw [if_neg (by decide), if_neg (by decide)]
  · conv_lhs => unfold fileInfoLoop
    simp only [hoff, if_true, hheader, crcMismatch_zero, hnext]
    rw [if_neg (by decide), if_neg (by decide), if_neg (by decide), if_neg (by decide),
      if_neg (by decide), if_neg (by decide)]
  · conv_lhs => unfold dataLoop
    simp only [hoff, if_true, hheader, crcMismatch_zero, hnext]
    rw [if_neg (by decide)]

/-- The three chunk loops do not end on `streamWrapShort`: the pass over its 4 bytes sets
the cursor to `(4 + 0xFFFFFFFC) mod 2^32 = 0`. -/
theorem loops_streamWrapShort (VssCrc16 : List u08 → Nat → Nat)
    (visit : Nat → VssTree → List Report → Run (Bool × VssTree × List Report))
    (logEntry : VssScanLogEntry) (childScan : VssScanChild) (branchNum parentNum : Nat)
    (t : VssTree) :
    ∀ (fuel : Nat) (log : List Report),
      projectInfoLoop VssCrc16 fuel logEntry ⟨streamWrapShort, 4, 0⟩ log = Run.timeout ∧
      fileInfoLoop VssCrc16 fuel logEntry branchNum parentNum ⟨streamWrapShort, 4, 0⟩ log
        = Run.timeout ∧
      dataLoop VssCrc16 visit fuel childScan ⟨streamWrapShort, 4, 0⟩ t log = Run.timeout := by
  have hheader : readChunkHeader ⟨streamWrapShort, 4, 0⟩
      = some (4294967292, 0, 0, ⟨streamWrapShort, 4, 4⟩) := by decide
  intro fuel
  induction fuel with
  | zero =>
    intro log
    exact ⟨rfl, rfl, rfl⟩
  | succ n ih =>
    intro log
    obtain ⟨h1, h2, h3⟩ := loops_pass_zero_header VssCrc16 visit n logEntry childScan
      branchNum parentNum t log streamWrapShort 4 0 4294967292 (by decide) hheader
    have hcursor : (4 + 4294967292) % 4294967296 = 0 := by decide
    rw [hcursor] at h1 h2 h3
    rw [h1, h2, h3]
    exact ⟨(ih _).1, (ih _).2.1, (ih _).2.2⟩

/-- C21, amended: the chunk loops of `AssembleDirectoryLinks` have no report for a truncated
stream; each runs while the offset is below the size of the buffer and reads a chunk header
whatever the number of bytes remaining. In a buffer of fewer than `2^32 - 2` bytes: with
exactly 1 byte remaining, size, marker and stored CRC are read as 0, the loop prints its line
for an unknown chunk with marker 0 and ends, returning `true`. With 2 or 3 bytes remaining
the size is read from outside the buffer. With 4 or 5 bytes remaining the size is read from
the buffer, marker and stored CRC are read as 0, the same line is printed and the loop goes
on from the end of the buffer plus that size, reduced modulo `2^32`: when the sum stays
below `2^32` the loop ends there, returning `true`; when it does not, the cursor is back
inside the buffer, and on the 4 bytes `FC FF FF FF` no loop ends. With 6 or 7 bytes remaining
(in a buffer of fewer than `2^32 - 260` bytes) size and marker are read from the buffer and
the stored CRC as 0, so that no CRC is tested and the chunk is acted on by its marker, with
every field of its record read as 0 from the end of the buffer: the file loop counts a `BF`
chunk as a branch, the data loop makes the nested call for a child chunk with the index
`0xFFFFFFFF` of an empty name, a marker the loop does not know is printed; when the end of
the buffer plus the size stays below `2^32` the loop then ends, returning `true`. -/
theorem C21_short_header_is_read_as_zeros (VssCrc16 : List u08 → Nat → Nat)
    (visit : Nat → VssTree → List Report → Run (Bool × VssTree × List Report))
    (fuel : Nat) (logEntry : VssScanLogEntry) (childScan : VssScanChild)
    (branchNum parentNum : Nat) (t : VssTree) (log : List Report) (data : List u08)
    (size off : Nat) (hsize : size = data.length) (h32 : size + 2 < 4294967296) :
    ((size = off + 1 ∨
        (off + 4 ≤ size ∧ size < off + 6 ∧ size + le32 data off < 4294967296)) →
      projectInfoLoop VssCrc16 (fuel + 2) logEntry ⟨data, size, off⟩ log
        = Run.done (true, log ++ [Report.unknownChunk 0]) ∧
      fileInfoLoop VssCrc16 (fuel + 2) logEntry branchNum parentNum ⟨data, size, off⟩ log
        = Run.done (true, branchNum, parentNum, log ++ [Report.unknownChunk 0]) ∧
      dataLoop VssCrc16 visit (fuel + 2) childScan ⟨data, size, off⟩ t log
        = Run.done (true, t, log ++ [Report.unknownChunkID 0])) ∧
    (off + 2 ≤ size → size < off + 4 →
      projectInfoLoop VssCrc16 (fuel + 1) logEntry ⟨data, size, off⟩ log = Run.fault ∧
      fileInfoLoop VssCrc16 (fuel + 1) logEntry branchNum parentNum ⟨data, size, off⟩ log
        = Run.fault ∧
      dataLoop VssCrc16 visit (fuel + 1) childScan ⟨data, size, off⟩ t log = Run.fault) ∧
    (off + 4 ≤ size → size < off + 6 →
      readChunkHeader ⟨data, size, off⟩ = some (le32 data off, 0, 0, ⟨data, size, size⟩) ∧
      projectInfoLoop VssCrc16 (fuel + 1) logEntry ⟨data, size, off⟩ log
        = projectInfoLoop VssCrc16 fuel logEntry
            ⟨data, size, (size + le32 data off) % 4294967296⟩
            (log ++ [Report.unknownChunk 0]) ∧
      fileInfoLoop VssCrc16 (fuel + 1) logEntry branchNum parentNum ⟨data, size, off⟩ log
        = fileInfoLoop VssCrc16 fuel logEntry branchNum parentNum
            ⟨data, size, (size + le32 data off) % 4294967296⟩
            (log ++ [Report.unknownChunk 0]) ∧
      dataLoop VssCrc16 visit (fuel + 1) childScan ⟨data, size, off⟩ t log
        = dataLoop VssCrc16 visit fuel childScan
            ⟨data, size, (size + le32 data off) % 4294967296⟩ t
            (log ++ [Report.unknownChunkID 0])) ∧
    (projectInfoLoop VssCrc16 fuel logEntry ⟨streamWrapShort, 4, 0⟩ log = Run.timeout ∧
      fileInfoLoop VssCrc16 fuel logEntry branchNum parentNum ⟨streamWrapShort, 4, 0⟩ log
        = Run.timeout ∧
      dataLoop VssCrc16 visit fuel childScan ⟨streamWrapShort, 4, 0⟩ t log = Run.timeout) ∧
    (off + 6 ≤ size → size < off + 8 → size + 260 < 4294967296 →
      readChunkHeader ⟨data, size, off⟩
        = some (le32 data off, le16 data (off + 4), 0, ⟨data, size, size⟩) ∧
      (size + le32 data off < 4294967296 →
        projectInfoLoop VssCrc16 (fuel + 2) logEntry ⟨data, size, off⟩ log
          = Run.done (true, log ++
              (if le16 data (off + 4) = VssMarker_Comment ∨
                  le16 data (off + 4) = VssMarker_LogEntry then []
                else [Report.unknownChunk (le16 data (off + 4))])) ∧
        fileInfoLoop VssCrc16 (fuel + 2) logEntry branchNum parentNum ⟨data, size, off⟩ log
          = Run.done (true,
              (if le16 data (off + 4) = VssMarker_BranchFile then (branchNum + 1) % 65536
                else branchNum),
              parentNum,
              log ++
                (if le16 data (off + 4) = VssMarker_BranchFile ∨
                    le16 data (off + 4) = VssMarker_CheckOut ∨
                    le16 data (off + 4) = VssMarker_Comment ∨
                    le16 data (off + 4) = VssMarker_Difference ∨
                    le16 data (off + 4) = VssMarker_LogEntry ∨
                    le16 data (off + 4) = VssMarker_ParentFolder then []
                  else [Report.unknownChunk (le16 data (off + 4))])) ∧
        dataLoop VssCrc16 visit (fuel + 2) childScan ⟨data, size, off⟩ t log
          = (if le16 data (off + 4) = VssMarker_Child then
              (visit 0xFFFFFFFF t log).andThen (fun t log => Run.done (true, t, log))
            else Run.done (true, t, log ++ [Report.unknownChunkID (le16 data (off + 4))]))))
    := by
  refine ⟨?_, ?_, ?_, ?_, ?_⟩
  · intro hrem
    rcases hrem with h1 | ⟨hlo, hhi, hwrap⟩
    · exact loops_end_after_zero_header VssCrc16 visit fuel logEntry childScan branchNum
        parentNum t log data size off 0 (by omega) (by omega)
        (readChunkHeader_one_byte data size off h32 h1)
    · exact loops_end_after_zero_header VssCrc16 visit fuel logEntry childScan branchNum
        parentNum t log data size off (le32 data off) (by omega) hwrap
        (readChunkHeader_size_only data size off hsize h32 hlo hhi)
  · intro hlo hhi
    exact loops_fault_without_header VssCrc16 visit fuel logEntry childScan branchNum
      parentNum t log ⟨data, size, off⟩ (show off < size by omega)
      (readChunkHeader_outside data size off hsize (by omega) hlo hhi)
  · intro hlo hhi
    have hheader := readChunkHeader_size_only data size off hsize h32 hlo hhi
    exact ⟨hheader, loops_pass_zero_header VssCrc16 visit fuel logEntry childScan branchNum
      parentNum t log data size off (le32 data off) (by omega) hheader⟩
  · exact loops_streamWrapShort VssCrc16 visit logEntry childScan branchNum parentNum t fuel
      log
  · intro hlo hhi h260
    have hheader := readChunkHeader_no_crc data size off hsize h32 hlo hhi
    refine ⟨hheader, ?_⟩
    intro hwrap
    exact loops_end_after_short_header VssCrc16 visit fuel logEntry childScan branchNum
      parentNum t log data size off (le32 data off) (le16 data (off + 4)) hsize (by omega)
      h260 hwrap hheader

/-- C21, witness: the three loops at the start of a stream of one byte, and at the start of
the 6 bytes of `streamBranchShort`, where the file loop counts a branch. -/
theorem C21_short_header_is_read_as_zeros_witness :
    1 = ([255] : List u08).length ∧ 1 + 2 < 4294967296 ∧ 1 = 0 + 1 ∧
    (projectInfoLoop crcZero (0 + 2) localLogEntry ⟨[255], 1, 0⟩ []
        = Run.done (true, [] ++ [Report.unknownChunk 0]) ∧
      fileInfoLoop crcZero (0 + 2) localLogEntry 0 0 ⟨[255], 1, 0⟩ []
        = Run.done (true, 0, 0, [] ++ [Report.unknownChunk 0]) ∧
      dataLoop crcZero visitNothing (0 + 2) localChild ⟨[255], 1, 0⟩ treeTrailingByte []
        = Run.done (true, treeTrailingByte, [] ++ [Report.unknownChunkID 0])) ∧
    6 = streamBranchShort.length ∧ 6 + 2 < 4294967296 ∧ 0 + 6 ≤ 6 ∧ 6 < 0 + 8 ∧
    6 + 260 < 4294967296 ∧ 6 + le32 streamBranchShort 0 < 4294967296 ∧
    le16 streamBranchShort (0 + 4) = VssMarker_BranchFile ∧
    fileInfoLoop crcZero (0 + 2) localLogEntry 0 0 ⟨streamBranchShort, 6, 0⟩ []
      = Run.done (true, 1, 0, []) := by
  have hone := (C21_short_header_is_read_as_zeros crcZero visitNothing 0 localLogEntry
    localChild 0 0 treeTrailingByte [] [255] 1 0 (by decide) (by decide)).1
    (Or.inl (by decide))
  have hsix := ((C21_short_header_is_read_as_zeros crcZero visitNothing 0 localLogEntry
    localChild 0 0 treeTrailingByte [] streamBranchShort 6 0 (by decide)
    (by decide)).2.2.2.2 (by decide) (by decide) (by decide)).2 (by decide)
  have hmarker : le16 streamBranchShort (0 + 4) = VssMarker_BranchFile := by decide
  have hfile := hsix.2.1
  rw [if_pos hmarker, if_pos (Or.inl hmarker)] at hfile
  exact ⟨by decide, by decide, by decide, hone, by decide, by decide, by decide, by decide,
    by decide, by decide, hmarker, hfile⟩

/-! ## Child record on short input: the claims -/

/-- C27: a cursor at the start of a buffer of 42 bytes, and one at the start of a buffer of
43 bytes, have fewer than 56 bytes remaining. `VssScanChild::Scan` reads type, flags, name
flags and the 34 bytes of the name, then calls `Read32` with 2 and with 3 bytes remaining,
which reads `m_pData[42]` and `m_pData[43]`, and `m_pData[43]`, outside the buffer. -/
theorem C27_child_scan_reads_past_the_end :
    VssScanChild.Scan localChild ⟨List.replicate 42 0, 42, 0⟩ = none ∧
    VssScanChild.Scan localChild ⟨List.replicate 43 0, 43, 0⟩ = none ∧
    BinaryReader.Read32 ⟨List.replicate 42 0, 42, 40⟩ = none ∧
    BinaryReader.Read32 ⟨List.replicate 43 0, 43, 40⟩ = none :=
  ⟨Scan_child_outside localChild (List.replicate 42 0) 42 0 (by decide) (by decide)
      (by decide) (by decide),
    Scan_child_outside localChild (List.replicate 43 0) 43 0 (by decide) (by decide)
      (by decide) (by decide),
    by decide, by decide⟩

/-! ## Decoders and the size of their chunk: auxiliary facts -/

/-- `VssScanChild::Scan` with at least 56 bytes remaining. -/
theorem Scan_child_at (self : VssScanChild) (data : List u08) (size off : Nat)
    (hsize : size = data.length) (h32 : size < 4294967296) (h : off + 56 ≤ size) :
    VssScanChild.Scan self ⟨data, size, off⟩ = some (true,
      { m_Type := le16 data off, m_Flags := le16 data (off + 2),
        m_NameFlags := le16 data (off + 4), m_Name := bytesAt data (off + 6) 34,
        m_NameOffset := le32 data (off + 40), m_Zero := self.m_Zero,
        m_DBName := bytesAt data (off + 46) 10 },
      ⟨data, size, off + 56⟩) := by
  unfold VssScanChild.Scan
  simp (disch := omega) only [Read16_at, Read32_at, ReadData_at, Nat.add_assoc, Nat.reduceAdd]

/-- One pass of the data loop over a child chunk with stored CRC 0 and at least 56 bytes
after its header: the record is read from those 56 bytes, whatever the size field holds. -/
theorem dataLoop_child (VssCrc16 : List u08 → Nat → Nat)
    (visit : Nat → VssTree → List Report → Run (Bool × VssTree × List Report))
    (fuel : Nat) (childScan : VssScanChild) (t : VssTree) (log : List Report)
    (data : List u08) (size off : Nat) (hsize : size = data.length)
    (h32 : size < 4294967296) (h : off + 64 ≤ size)
    (hmarker : le16 data (off + 4) = VssMarker_Child) (hcrc : le16 data (off + 6) = 0) :
    ∃ v, VssNameToNumber (charsOf (bytesAt data (off + 54) 10)) = some v ∧
      dataLoop VssCrc16 visit (fuel + 1) childScan ⟨data, size, off⟩ t log
        = (visit (intToU32 v) t log).andThen (fun t1 log1 =>
            dataLoop VssCrc16 visit fuel
              { m_Type := le16 data (off + 8), m_Flags := le16 data (off + 10),
                m_NameFlags := le16 data (off + 12), m_Name := bytesAt data (off + 14) 34,
                m_NameOffset := le32 data (off + 48), m_Zero := childScan.m_Zero,
                m_DBName := bytesAt data (off + 54) 10 }
              (nextChunk ⟨data, size, off + 8⟩ (le32 data off)) t1 log1) := by
  obtain ⟨v, hv⟩ := VssNameToNumber_bytesAt data (off + 54) (by omega)
  refine ⟨v, hv, ?_⟩
  conv_lhs => unfold dataLoop
  rw [if_pos (show off < size by omega), readChunkHeader_at data size off hsize h32 (by omega)]
  simp only [hcrc, hmarker, crcMismatch_zero, if_true]
  rw [Scan_child_at childScan data size (off + 8) hsize h32 (by omega)]
  simp only [Nat.add_assoc, Nat.reduceAdd, hv]
  cases visit (intToU32 v) t log with
  | done a =>
    obtain ⟨b, t1, log1⟩ := a
    rfl
  | fault => rfl
  | timeout => rfl

/-- One pass of the chunk loop of a file over a parent chunk with stored CRC 0 and at least
14 bytes after its header: the record is read from those 14 bytes, whatever the size field
holds. -/
theorem fileInfoLoop_parent (VssCrc16 : List u08 → Nat → Nat) (fuel : Nat)
    (logEntry : VssScanLogEntry) (branchNum parentNum : Nat) (log : List Report)
    (data : List u08) (size off : Nat) (hsize : size = data.length)
    (h32 : size < 4294967296) (h : off + 22 ≤ size)
    (hmarker : le16 data (off + 4) = VssMarker_ParentFolder)
    (hcrc : le16 data (off + 6) = 0) :
    ∃ v, VssNameToNumber (charsOf (bytesAt data (off + 12) 10)) = some v ∧
      fileInfoLoop VssCrc16 (fuel + 1) logEntry branchNum parentNum ⟨data, size, off⟩ log
        = fileInfoLoop VssCrc16 fuel logEntry branchNum
            (if v ≥ 0 then (parentNum + 1) % 65536 else parentNum)
            (nextChunk ⟨data, size, off + 8⟩ (le32 data off)) log := by
  obtain ⟨v, hv⟩ := VssNameToNumber_bytesAt data (off + 12) (by omega)
  refine ⟨v, hv, ?_⟩
  conv_lhs => unfold fileInfoLoop
  rw [if_pos (show off < size by omega), readChunkHeader_at data size off hsize h32 (by omega)]
  simp only [hcrc, hmarker, crcMismatch_zero]
  rw [if_neg (by decide), if_neg (by decide), if_neg (by decide), if_neg (by decide),
    if_neg (by decide), if_pos True.intro]
  simp (disch := omega) only [VssScanParent.Scan, Read32_at, ReadData_at, Nat.add_assoc,
    Nat.reduceAdd, hv]

/-! ## Decoders and the size of their chunk: the claims -/

/-- C28, counterexample: the child chunk of `treeChildCut` has the size 46, so that its bytes
are those at offsets 8..53 of the data stream; the two data streams differ only in the 10
bytes at offsets 54..63, after the chunk. The record decoded for the chunk takes its db-name
from those bytes: the nested call visits node 1 with the one stream and node 2 with the
other. -/
theorem C28_record_depends_on_bytes_after_the_chunk :
    le32 (chunkChildCut ++ dbName1) 0 = 46 ∧ le32 (chunkChildCut ++ dbName2) 0 = 46 ∧
    (chunkChildCut ++ dbName1).take 54 = (chunkChildCut ++ dbName2).take 54 ∧
    Run.summary 3 (VssTree.AssembleDirectoryLinks crcZero crcZero 4 0 0 none
      (treeChildCut dbName1) [])
      = Run.done (false, [1, 1, 0],
          [Report.visiting 0 416, Report.visiting 1 416, Report.badCRC]) ∧
    Run.summary 3 (VssTree.AssembleDirectoryLinks crcZero crcZero 4 0 0 none
      (treeChildCut dbName2) [])
      = Run.done (false, [1, 0, 1],
          [Report.visiting 0 416, Report.visiting 2 416, Report.badCRC]) :=
  ⟨by decide, by decide, by decide, by decide, by decide⟩

/-- C28, amended: a decoder is not confined to its chunk; it reads from the cursor of the
stream, and the size field of the chunk only tells where the next chunk header is read. For a
child chunk of a data stream with stored CRC 0 and at least 56 bytes in the buffer after its
header, the record is made of those 56 bytes and the nested call gets the number decoded from
the 10 bytes at payload offset 46, whatever the size field holds; likewise the record of a
parent chunk of the info stream of a file is made of the 14 bytes after its header. -/
theorem C28_decoder_reads_from_the_stream (VssCrc16 : List u08 → Nat → Nat)
    (visit : Nat → VssTree → List Report → Run (Bool × VssTree × List Report))
    (fuel : Nat) (logEntry : VssScanLogEntry) (childScan : VssScanChild)
    (branchNum parentNum : Nat) (t : VssTree) (log : List Report) (data : List u08)
    (size off : Nat) (hsize : size = data.length) (h32 : size < 4294967296)
    (hcrc : le16 data (off + 6) = 0) :
    (off + 64 ≤ size → le16 data (off + 4) = VssMarker_Child →
      ∃ v, VssNameToNumber (charsOf (bytesAt data (off + 54) 10)) = some v ∧
        dataLoop VssCrc16 visit (fuel + 1) childScan ⟨data, size, off⟩ t log
          = (visit (intToU32 v) t log).andThen (fun t1 log1 =>
              dataLoop VssCrc16 visit fuel
                { m_Type := le16 data (off + 8), m_Flags := le16 data (off + 10),
                  m_NameFlags := le16 data (off + 12), m_Name := bytesAt data (off + 14) 34,
                  m_NameOffset := le32 data (off + 48), m_Zero := childScan.m_Zero,
                  m_DBName := bytesAt data (off + 54) 10 }
                (nextChunk ⟨data, size, off + 8⟩ (le32 data off)) t1 log1)) ∧
    (off + 22 ≤ size → le16 data (off + 4) = VssMarker_ParentFolder →
      ∃ v, VssNameToNumber (charsOf (bytesAt data (off + 12) 10)) = some v ∧
        fileInfoLoop VssCrc16 (fuel + 1) logEntry branchNum parentNum ⟨data, size, off⟩ log
          = fileInfoLoop VssCrc16 fuel logEntry branchNum
              (if v ≥ 0 then (parentNum + 1) % 65536 else parentNum)
              (nextChunk ⟨data, size, off + 8⟩ (le32 data off)) log) :=
  ⟨fun h hmarker => dataLoop_child VssCrc16 visit fuel childScan t log data size off hsize h32
      h hmarker hcrc,
    fun h hmarker => fileInfoLoop_parent VssCrc16 fuel logEntry branchNum parentNum log data
      size off hsize h32 h hmarker hcrc⟩

/-- C28, witness: the data stream `chunkChildCut ++ dbName1`, whose child chunk has the size
46: the nested call gets the number 1, decoded from the 10 bytes after the chunk. -/
theorem C28_decoder_reads_from_the_stream_witness :
    64 = (chunkChildCut ++ dbName1).length ∧ 64 < 4294967296 ∧
    le16 (chunkChildCut ++ dbName1) (0 + 6) = 0 ∧ 0 + 64 ≤ 64 ∧
    le16 (chunkChildCut ++ dbName1) (0 + 4) = VssMarker_Child ∧
    le32 (chunkChildCut ++ dbName1) 0 = 46 ∧
    VssNameToNumber (charsOf (bytesAt (chunkChildCut ++ dbName1) (0 + 54) 10)) = some 1 ∧
    ∃ v, VssNameToNumber (charsOf (bytesAt (chunkChildCut ++ dbName1) (0 + 54) 10)) = some v ∧
      dataLoop crcZero visitNothing (0 + 1) localChild ⟨chunkChildCut ++ dbName1, 64, 0⟩
          (treeChildCut dbName1) []
        = (visitNothing (intToU32 v) (treeChildCut dbName1) []).andThen (fun t1 log1 =>
            dataLoop crcZero visitNothing 0
              { m_Type := le16 (chunkChildCut ++ dbName1) (0 + 8),
                m_Flags := le16 (chunkChildCut ++ dbName1) (0 + 10),
                m_NameFlags := le16 (chunkChildCut ++ dbName1) (0 + 12),
                m_Name := bytesAt (chunkChildCut ++ dbName1) (0 + 14) 34,
                m_NameOffset := le32 (chunkChildCut ++ dbName1) (0 + 48),
                m_Zero := localChild.m_Zero,
                m_DBName := bytesAt (chunkChildCut ++ dbName1) (0 + 54) 10 }
              (nextChunk ⟨chunkChildCut ++ dbName1, 64, 0 + 8⟩
                (le32 (chunkChildCut ++ dbName1) 0)) t1 log1) :=
  ⟨by decide, by decide, by decide, by decide, by decide, by decide, by decide,
    (C28_decoder_reads_from_the_stream crcZero visitNothing 0 localLogEntry localChild 0 0
      (treeChildCut dbName1) [] (chunkChildCut ++ dbName1) 64 0 (by decide) (by decide)
      (by decide)).1 (by decide) (by decide)⟩

/-! ## Visit once: auxiliary facts -/

/-- Nothing changed is a special case of `Settled`. -/
theorem Settled_refl (VssCrc16 : List u08 → Nat → Nat) (t : VssTree) : Settled VssCrc16 t t := by
  refine ⟨rfl, ?_⟩
  intro i n m hn hm
  rw [hn] at hm
  have e : n = m := Option.some.inj hm
  subst e
  exact ⟨fun _ => rfl, fun hz hne => absurd hz hne⟩

/-- `Settled` composes. -/
theorem Settled_trans (VssCrc16 : List u08 → Nat → Nat) (t u v : VssTree)
    (h1 : Settled VssCrc16 t u) (h2 : Settled VssCrc16 u v) : Settled VssCrc16 t v := by
  obtain ⟨l1, n1⟩ := h1
  obtain ⟨l2, n2⟩ := h2
  refine ⟨l2.trans l1, ?_⟩
  intro i n k hn hk
  have hi : i < t.m_pNodes.length := (List.getElem?_eq_some_iff.mp hn).1
  have hlt : i < u.m_pNodes.length := by omega
  have hu : u.m_pNodes[i]? = some u.m_pNodes[i] := List.getElem?_eq_getElem hlt
  obtain ⟨a1, a2⟩ := n1 i n _ hn hu
  obtain ⟨b1, b2⟩ := n2 i _ k hu hk
  constructor
  · intro hne
    have e := a1 hne
    rw [b1 (by rw [e]; exact hne), e]
  · intro hz hk0
    by_cases hm : u.m_pNodes[i].Type_ = 0
    · exact b2 hm hk0
    · rw [b1 hm]
      exact a2 hz hm

/-- Assembly steps keep the invariant of the node table. -/
theorem VisitedAccepted_of_Settled (VssCrc16 : List u08 → Nat → Nat) (t u : VssTree)
    (hinv : t.VisitedAccepted VssCrc16) (h : Settled VssCrc16 t u) :
    u.VisitedAccepted VssCrc16 := by
  obtain ⟨hl, hn⟩ := h
  intro i m hm hne
  have hi : i < u.m_pNodes.length := (List.getElem?_eq_some_iff.mp hm).1
  have hlt : i < t.m_pNodes.length := by omega
  have ht : t.m_pNodes[i]? = some t.m_pNodes[i] := List.getElem?_eq_getElem hlt
  obtain ⟨a1, a2⟩ := hn i _ m ht hm
  by_cases hz : t.m_pNodes[i].Type_ = 0
  · exact a2 hz hne
  · rw [a1 hz]
    exact hinv i _ ht hz

/-- Replacing a node whose type is 0 by one that can be visited is an assembly step. -/
theorem Settled_set (VssCrc16 : List u08 → Nat → Nat) (t : VssTree) (index : Nat)
    (node changed : VssNode_t) (hnode : t.m_pNodes[index]? = some node)
    (hzero : node.Type_ = 0) (hacc : changed.Accepted VssCrc16) :
    Settled VssCrc16 t { t with m_pNodes := t.m_pNodes.set index changed } := by
  refine ⟨List.length_set _ _ _, ?_⟩
  intro i n m hn hm
  simp only [List.getElem?_set] at hm
  split at hm
  · rename_i hi
    subst hi
    rw [hnode] at hn
    have e : node = n := Option.some.inj hn
    subst e
    split at hm
    · have e2 : changed = m := Option.some.inj hm
      subst e2
      exact ⟨fun hne => absurd hzero hne, fun _ _ => hacc⟩
    · exact absurd hm (by simp)
  · rw [hn] at hm
    have e : n = m := Option.some.inj hm
    subst e
    exact ⟨fun _ => rfl, fun hz hne => absurd hz hne⟩

/-- The tree after the type of a node has been stored. -/
theorem setType_eq (t : VssTree) (index type : Nat) (node : VssNode_t)
    (hnode : t.m_pNodes[index]? = some node) :
    t.setType index type
      = { t with m_pNodes := t.m_pNodes.set index { node with Type_ := type } } := by
  unfold VssTree.setType
  rw [List.get?_eq_getElem?, hnode]

/-- The tree after the type and then the parent identifier of a node have been stored. -/
theorem setParentID_setType_eq (t : VssTree) (index type parentID : Nat) (node : VssNode_t)
    (hnode : t.m_pNodes[index]? = some node) :
    (t.setType index type).setParentID index parentID
      = { t with
          m_pNodes := t.m_pNodes.set index
            { node with Type_ := type, ParentID := parentID } } := by
  have hi : index < t.m_pNodes.length := (List.getElem?_eq_some_iff.mp hnode).1
  rw [setType_eq t index type node hnode]
  unfold VssTree.setParentID
  simp only [List.get?_eq_getElem?, List.getElem?_set, if_pos hi, if_true, List.set_set]

/-- The project branch, run on the tree in which the type of a node that was 0 has just been
stored, is an assembly step from the tree before that store. -/
theorem scanProjectInfo_Settled (VssCrc16 : List u08 → Nat → Nat) (fuel index type : Nat)
    (t u : VssTree) (node : VssNode_t) (reader : BinaryReader) (log out : List Report)
    (b : Bool) (hnode : t.m_pNodes[index]? = some node) (hzero : node.Type_ = 0)
    (hacc : node.Accepted VssCrc16)
    (h : scanProjectInfo VssCrc16 fuel index (t.setType index type) reader log
      = Run.done (b, u, out)) :
    Settled VssCrc16 t u := by
  have hacc1 : ∀ p : Nat, VssNode_t.Accepted VssCrc16
      { node with Type_ := type, ParentID := p } := fun _ => hacc
  have hacc0 : VssNode_t.Accepted VssCrc16 { node with Type_ := type } := hacc
  have hS0 : Settled VssCrc16 t (t.setType index type) := by
    rw [setType_eq t index type node hnode]
    exact Settled_set VssCrc16 t index node _ hnode hzero hacc0
  have hS1 : ∀ p : Nat, Settled VssCrc16 t ((t.setType index type).setParentID index p) := by
    intro p
    rw [setParentID_setType_eq t index type p node hnode]
    exact Settled_set VssCrc16 t index node _ hnode hzero (hacc1 p)
  unfold scanProjectInfo at h
  split at h
  · exact absurd h (by simp)
  split at h
  · exact absurd h (by simp)
  rename_i parentName _ _
  have hstep : ∀ (t1 : VssTree) (flag : Bool),
      (if 0 ≠ (parentName.getD 0 0).val then
        match VssNameToNumber (charsOf parentName) with
        | none => none
        | some number =>
          some ((t.setType index type).setParentID index (intToU32 number),
            decide (intToU32 number ≥ (t.setType index type).m_NodeCount))
      else some (t.setType index type, false)) = some (t1, flag) →
      Settled VssCrc16 t t1 := by
    intro t1 flag hstep
    split at hstep
    · split at hstep
      · exact absurd hstep (by simp)
      · simp only [Option.some.injEq, Prod.mk.injEq] at hstep
        rw [← hstep.1]
        exact hS1 _
    · simp only [Option.some.injEq, Prod.mk.injEq] at hstep
      rw [← hstep.1]
      exact hS0
  split at h
  · exact absurd h (by simp)
  · rename_i t1 hs
    simp only [Run.done.injEq, Prod.mk.injEq] at h
    obtain ⟨_, rfl, _⟩ := h
    exact hstep _ _ hs
  · rename_i t1 hs
    have hm := hstep _ _ hs
    split at h
    · exact absurd h (by simp)
    split at h
    · exact absurd h (by simp)
    split at h
    · simp only [Run.done.injEq, Prod.mk.injEq] at h
      obtain ⟨_, rfl, _⟩ := h
      exact hm
    · split at h
      · exact absurd h (by simp)
      · exact absurd h (by simp)
      · simp only [Run.done.injEq, Prod.mk.injEq] at h
        obtain ⟨_, rfl, _⟩ := h
        exact hm

/-- The chunk loop over the data stream of a project only takes assembly steps when the
nested call does. -/
theorem dataLoop_Settled (VssCrc16 : List u08 → Nat → Nat)
    (visit : Nat → VssTree → List Report → Run (Bool × VssTree × List Report))
    (hvisit : ∀ (index : Nat) (t u : VssTree) (log out : List Report) (b : Bool),
      t.WellFormed → visit index t log = Run.done (b, u, out) →
        Marked t u ∧ Settled VssCrc16 t u) :
    ∀ (fuel : Nat) (childScan : VssScanChild) (reader : BinaryReader) (t u : VssTree)
      (log out : List Report) (b : Bool), t.WellFormed →
      dataLoop VssCrc16 visit fuel childScan reader t log = Run.done (b, u, out) →
      Settled VssCrc16 t u := by
  intro fuel
  induction fuel with
  | zero =>
    intro childScan reader t u log out b _ h
    exact absurd h (by simp [dataLoop])
  | succ fuel ih =>
    intro childScan reader t u log out b hwf h
    unfold dataLoop at h
    split at h
    · split at h
      · exact absurd h (by simp)
      split at h
      · exact absurd h (by simp)
      · simp only [Run.done.injEq, Prod.mk.injEq] at h
        obtain ⟨_, rfl, _⟩ := h
        exact Settled_refl VssCrc16 t
      · split at h
        · split at h
          · exact absurd h (by simp)
          split at h
          · exact absurd h (by simp)
          split at h
          · exact absurd h (by simp)
          · exact absurd h (by simp)
          · rename_i t1 log1 hv
            obtain ⟨hm1, hs1⟩ := hvisit _ _ _ _ _ _ hwf hv
            exact Settled_trans VssCrc16 _ _ _ hs1
              (ih _ _ _ _ _ _ _ (WellFormed_of_Marked _ _ hwf hm1) h)
        · exact ih _ _ _ _ _ _ _ hwf h
    · simp only [Run.done.injEq, Prod.mk.injEq] at h
      obtain ⟨_, rfl, _⟩ := h
      exact Settled_refl VssCrc16 t

/-- Every call of `AssembleDirectoryLinks` that returns only takes assembly steps: a node
whose type is not 0 is never stored to again, and a node gets a type only after its buffers
were found and its header accepted. -/
theorem AssembleDirectoryLinks_Settled (VssCrc16 VssCrc32 : List u08 → Nat → Nat) :
    ∀ (fuel index depth : Nat) (path : Option (List Nat))
      (t u : VssTree) (log out : List Report) (b : Bool),
      t.WellFormed →
      VssTree.AssembleDirectoryLinks VssCrc16 VssCrc32 fuel index depth path t log
        = Run.done (b, u, out) →
      Settled VssCrc16 t u := by
  intro fuel
  induction fuel with
  | zero =>
    intro index depth path t u log out b _ h
    exact absurd h (by simp [VssTree.AssembleDirectoryLinks])
  | succ fuel ih =>
    intro index depth path t u log out b hwf h
    unfold VssTree.AssembleDirectoryLinks at h
    simp only [List.get?_eq_getElem?] at h
    split at h
    · exact absurd h (by simp)
    rename_i node hnode
    split at h
    · rename_i info data hinfo hdata
      obtain ⟨hsize, h32⟩ := hwf index node info hnode hinfo
      split at h
      · exact absurd h (by simp)
      · simp only [Run.done.injEq, Prod.mk.injEq] at h
        obtain ⟨_, rfl, _⟩ := h
        exact Settled_refl VssCrc16 t
      · rename_i header reader hscan
        have hacc : node.Accepted VssCrc16 := ⟨info, data, header, reader, hinfo, hdata, hscan⟩
        rw [hsize] at hscan
        obtain ⟨_, _, _, hty, hkind, _⟩ :=
          Scan_accept_layout VssCrc16 localHeader header info reader h32 hscan
        split at h
        · exact absurd h (by simp)
        rename_i pathname hpath
        split at h
        · simp only [Run.done.injEq, Prod.mk.injEq] at h
          obtain ⟨_, rfl, _⟩ := h
          exact Settled_refl VssCrc16 t
        · rename_i hzero
          have hz : node.Type_ = 0 := by omega
          have hset : Marked t (t.setType index header.m_Type) := by
            rw [hty]
            exact setType_Marked t index node info hnode hz hinfo hkind
          split at h
          · split at h
            · exact absurd h (by simp)
            · exact absurd h (by simp)
            · rename_i t1 log1 hproj
              simp only [Run.done.injEq, Prod.mk.injEq] at h
              obtain ⟨_, rfl, _⟩ := h
              exact scanProjectInfo_Settled VssCrc16 _ _ _ _ _ node _ _ _ _ hnode hz hacc hproj
            · rename_i t1 log1 hproj
              have hs1 : Settled VssCrc16 t t1 :=
                scanProjectInfo_Settled VssCrc16 _ _ _ _ _ node _ _ _ _ hnode hz hacc hproj
              have hm1 : Marked t t1 :=
                Marked_trans _ _ _ hset (scanProjectInfo_Marked _ _ _ _ _ _ _ _ _ hproj)
              exact Settled_trans VssCrc16 _ _ _ hs1
                (dataLoop_Settled VssCrc16 _
                  (fun i a c l o r ha hr =>
                    ⟨AssembleDirectoryLinks_Marked VssCrc16 VssCrc32 fuel i _ _ a c l o r ha hr,
                      ih i _ _ a c l o r ha hr⟩)
                  _ _ _ _ _ _ _ _ (WellFormed_of_Marked _ _ hwf hm1) h)
          · split at h
            · exact absurd h (by simp)
            · exact absurd h (by simp)
            · simp only [Run.done.injEq, Prod.mk.injEq] at h
              obtain ⟨_, rfl, _⟩ := h
              rw [setType_eq t index _ node hnode]
              exact Settled_set VssCrc16 t index node _ hnode hz hacc
    · simp only [Run.done.injEq, Prod.mk.injEq] at h
      obtain ⟨_, rfl, _⟩ := h
      exact Settled_refl VssCrc16 t

/-- A call of `AssembleDirectoryLinks` on a node that can be visited and whose type is not
0: it returns `true` after printing its line, and needs no budget for a loop or a nested
call. -/
theorem AssembleDirectoryLinks_revisit (VssCrc16 VssCrc32 : List u08 → Nat → Nat)
    (fuel index depth : Nat) (path : Option (List Nat))
    (t : VssTree) (node : VssNode_t) (log : List Report)
    (hnode : t.m_pNodes[index]? = some node) (hfits : node.Fits VssCrc16 path)
    (hvisited : node.Type_ ≠ 0) :
    VssTree.AssembleDirectoryLinks VssCrc16 VssCrc32 (fuel + 1) index depth path t log
      = Run.done (true, t, log ++ [Report.visiting index node.InfoSize]) := by
  obtain ⟨info, data, hdr, r, pathname, hinfo, hdata, hscan, hpath⟩ := hfits
  unfold VssTree.AssembleDirectoryLinks
  simp only [List.get?_eq_getElem?, hnode, hinfo, hdata, hscan, hpath]
  rw [if_pos (fun e => hvisited e.symm)]

/-- A sample table whose nodes with a type other than 0 can be visited satisfies the
invariant. -/
theorem treeOf_VisitedAccepted (VssCrc16 : List u08 → Nat → Nat) (nodes : List VssNode_t)
    (h : ∀ n ∈ nodes, n.Type_ ≠ 0 → n.Accepted VssCrc16) :
    (treeOf nodes).VisitedAccepted VssCrc16 := by
  intro i node hnode hne
  have hmem : node ∈ (treeOf nodes).m_pNodes := by
    obtain ⟨hi, he⟩ := List.getElem?_eq_some_iff.mp hnode
    rw [← he]
    apply List.getElem_mem
  simp only [treeOf, List.mem_append, List.mem_replicate] at hmem
  rcases hmem with hm | ⟨_, rfl⟩
  · exact h node hm hne
  · exact absurd rfl hne

/-! ## Visit once: the claims -/

/-- C24, counterexample: node 0 of `treeVisitedCrc` has the type 1 and a `DH` chunk whose
stored CRC is 7. A call on it runs `header.Scan` again before it tests the type: with a
checksum function that answers 7 the call returns `true`, with one that answers 0 it returns
`false` and prints nothing, so the header chunk is decoded, and its CRC tested, on every
visit. And a call on the typed node 0 of `treeVisited` with a path of 255 characters copies
the path, a backslash and the name into the 256 bytes of `pathname` before it tests the
type, and writes past the end of the array. -/
theorem C24_revisit_scans_the_header :
    (treeVisitedCrc.m_pNodes.get? 0).map (fun n => n.Type_) = some 1 ∧
    Run.summary 1 (VssTree.AssembleDirectoryLinks crcSeven crcZero 1 0 0 none treeVisitedCrc [])
      = Run.done (true, [1], [Report.visiting 0 416]) ∧
    Run.summary 1 (VssTree.AssembleDirectoryLinks crcZero crcZero 1 0 0 none treeVisitedCrc [])
      = Run.done (false, [1], []) ∧
    (treeVisited.m_pNodes.get? 0).map (fun n => n.Type_) = some 1 ∧
    VssTree.AssembleDirectoryLinks crcZero crcZero 1 0 7 (some (List.replicate 255 97))
      treeVisited [] = Run.fault :=
  ⟨by decide, by decide, by decide, by decide, by decide⟩

/-- C24, amended: a call of `AssembleDirectoryLinks` on a node whose type is not 0 tests the
two buffers, runs `header.Scan` on the info buffer and builds the path name before it tests
the type. Its result is determined by these three steps alone: it reports a missing buffer
and returns `false`; or `Scan` reads outside the buffer; or `Scan` rejects the header and the
call returns `false`; or the path name does not fit `pathname`; or else the call prints its
own line and returns `true`. In each case the tree is left as it was, and a budget of 1 is
enough, under which any pass of a chunk loop and any nested call would end the run as
`Run.timeout`: no chunk after the header is decoded and no child is entered. In particular
the call returns `true` when the header is accepted and the path name fits. And whatever
node a call is made on, a node whose type is not 0 before the call is the same node after
it, type and parent identifier included; and when every node with a type other than 0 has
both buffers and an accepted header before the call (as in every table the assembly produces
from one whose types are all 0), so it is after the call. -/
theorem C24_visit_once (VssCrc16 VssCrc32 : List u08 → Nat → Nat) (t : VssTree) (index : Nat)
    (node : VssNode_t) (hnode : t.m_pNodes[index]? = some node) (hvisited : node.Type_ ≠ 0) :
    (∀ (fuel depth : Nat) (path : Option (List Nat)) (log : List Report),
      node.pInfo = none ∨ node.pData = none →
      VssTree.AssembleDirectoryLinks VssCrc16 VssCrc32 (fuel + 1) index depth path t log
        = Run.done (false, t, log ++ [Report.nodeMissing index])) ∧
    (∀ (fuel depth : Nat) (path : Option (List Nat)) (log : List Report)
      (info data : List u08), node.pInfo = some info → node.pData = some data →
      VssTree.AssembleDirectoryLinks VssCrc16 VssCrc32 (fuel + 1) index depth path t log
        = match VssScanHeader.Scan VssCrc16 localHeader
            (BinaryReader.Initialize info node.InfoSize 0) with
          | none => Run.fault
          | some (false, _, _) => Run.done (false, t, log)
          | some (true, header, _) =>
            match pathnameOf path header.m_Name with
            | none => Run.fault
            | some _ => Run.done (true, t, log ++ [Report.visiting index node.InfoSize])) ∧
    (∀ (fuel depth : Nat) (path : Option (List Nat)) (log : List Report),
      node.Fits VssCrc16 path →
      VssTree.AssembleDirectoryLinks VssCrc16 VssCrc32 (fuel + 1) index depth path t log
        = Run.done (true, t, log ++ [Report.visiting index node.InfoSize])) ∧
    (∀ (fuel other depth : Nat) (path : Option (List Nat))
      (u : VssTree) (log out : List Report) (b : Bool), t.WellFormed →
      VssTree.AssembleDirectoryLinks VssCrc16 VssCrc32 fuel other depth path t log
        = Run.done (b, u, out) →
      u.m_pNodes[index]? = some node ∧
      (t.VisitedAccepted VssCrc16 → u.VisitedAccepted VssCrc16)) := by
  refine ⟨?_, ?_, ?_, ?_⟩
  · intro fuel depth path log hmissing
    unfold VssTree.AssembleDirectoryLinks
    simp only [List.get?_eq_getElem?, hnode]
    rcases hmissing with h | h
    · simp only [h]
    · cases hi : node.pInfo with
      | none => simp only [h]
      | some info => simp only [h]
  · intro fuel depth path log info data hinfo hdata
    unfold VssTree.AssembleDirectoryLinks
    simp only [List.get?_eq_getElem?, hnode, hinfo, hdata]
    cases hs : VssScanHeader.Scan VssCrc16 localHeader
        (BinaryReader.Initialize info node.InfoSize 0) with
    | none => rfl
    | some p =>
      obtain ⟨b, header, reader⟩ := p
      cases b with
      | false => rfl
      | true =>
        simp only
        cases hp : pathnameOf path header.m_Name with
        | none => rfl
        | some pathname =>
          simp only
          rw [if_pos (fun e => hvisited e.symm)]
  · intro fuel depth path log hfits
    exact AssembleDirectoryLinks_revisit VssCrc16 VssCrc32 fuel index depth path t node log
      hnode hfits hvisited
  · intro fuel other depth path u log out b hwf h
    have hs :=
      AssembleDirectoryLinks_Settled VssCrc16 VssCrc32 fuel other depth path t u log out b hwf h
    refine ⟨?_, fun hinv => VisitedAccepted_of_Settled VssCrc16 t u hinv hs⟩
    obtain ⟨hl, hn⟩ := hs
    have hi : index < t.m_pNodes.length := (List.getElem?_eq_some_iff.mp hnode).1
    have hlt : index < u.m_pNodes.length := by omega
    have hu : u.m_pNodes[index]? = some u.m_pNodes[index] := List.getElem?_eq_getElem hlt
    rw [hu, (hn index node _ hnode hu).1 hvisited]

/-- C24, witness: the project of `treeVisited` has the type 1, an accepted header with an
empty name and a data stream that names node 1; the call on it with budget 1 and no path
returns `true` and leaves the tree as it was. -/
theorem C24_visit_once_witness :
    treeVisited.m_pNodes[0]?
      = some { nodeOf (infoNoChunks 1 1) (chunkChild 0) with Type_ := 1 } ∧
    ({ nodeOf (infoNoChunks 1 1) (chunkChild 0) with Type_ := 1 } : VssNode_t).Type_ ≠ 0 ∧
    VssNode_t.Fits crcZero none { nodeOf (infoNoChunks 1 1) (chunkChild 0) with Type_ := 1 } ∧
    VssTree.AssembleDirectoryLinks crcZero crcZero (0 + 1) 0 0 none treeVisited []
      = Run.done (true, treeVisited, [] ++ [Report.visiting 0
          ({ nodeOf (infoNoChunks 1 1) (chunkChild 0) with Type_ := 1 } : VssNode_t).InfoSize])
    := by
  have hfits : VssNode_t.Fits crcZero none
      { nodeOf (infoNoChunks 1 1) (chunkChild 0) with Type_ := 1 } :=
    ⟨infoNoChunks 1 1, chunkChild 0, { localHeader with m_Type := 1 },
      ⟨infoNoChunks 1 1, 416, 140⟩, [], rfl, rfl, by decide, by decide⟩
  have hnode : treeVisited.m_pNodes[0]?
      = some { nodeOf (infoNoChunks 1 1) (chunkChild 0) with Type_ := 1 } := by
    unfold treeVisited treeOf
    simp only [List.cons_append, List.getElem?_cons_zero]
  exact ⟨hnode, by decide, hfits,
    (C24_visit_once crcZero crcZero treeVisited 0 _ hnode (by decide)).2.2.1 0 0 none []
      hfits⟩

/-! ## Log entries and the object they are scanned into: auxiliary facts -/

/-- The fixed part of `Scan`, run on two objects: both runs read the same bytes, and the
results agree on the fixed fields and on the two references. -/
theorem scanFixed_any_object (a b e : VssScanLogEntry) (r q : BinaryReader)
    (h : VssScanLogEntry.scanFixed a r = some (e, q)) :
    ∃ e2, VssScanLogEntry.scanFixed b r = some (e2, q) ∧ sameStored e e2 := by
  unfold VssScanLogEntry.scanFixed at h ⊢
  repeat (split at h; · exact absurd h (by simp))
  simp only [Option.some.injEq, Prod.mk.injEq] at h
  obtain ⟨rfl, rfl⟩ := h
  exact ⟨_, rfl, ⟨rfl, rfl, rfl, rfl, rfl, rfl, rfl, rfl, rfl, rfl⟩, rfl, rfl⟩

/-- The shared-path step, run on two objects that agree on what was stored so far. -/
theorem scanSharedPath_any_object (a b e : VssScanLogEntry) (r q : BinaryReader)
    (hab : sameStored a b) (h : VssScanLogEntry.scanSharedPath a r = some (e, q)) :
    ∃ e2, VssScanLogEntry.scanSharedPath b r = some (e2, q) ∧ sameStored e e2 := by
  obtain ⟨hf, h1, h2⟩ := hab
  have hop : b.m_Opcode = a.m_Opcode := hf.2.1
  unfold VssScanLogEntry.scanSharedPath at h ⊢
  by_cases hc : VssOpcode_SharedFile = a.m_Opcode
  · rw [if_pos hc] at h
    rw [if_pos (hc.trans hop.symm)]
    split at h
    · exact absurd h (by simp)
    · simp only [Option.some.injEq, Prod.mk.injEq] at h
      obtain ⟨rfl, rfl⟩ := h
      exact ⟨_, rfl, hf, h1, h2⟩
  · rw [if_neg hc] at h
    rw [if_neg (fun e => hc (e.trans hop))]
    simp only [Option.some.injEq, Prod.mk.injEq] at h
    obtain ⟨rfl, rfl⟩ := h
    exact ⟨_, rfl, hf, h1, h2⟩

/-- The check-in step, run on two objects that agree on what was stored so far. -/
theorem scanCheckedIn_any_object (a b e : VssScanLogEntry) (r q : BinaryReader)
    (hab : sameStored a b) (h : VssScanLogEntry.scanCheckedIn a r = some (e, q)) :
    ∃ e2, VssScanLogEntry.scanCheckedIn b r = some (e2, q) ∧ sameStored e e2 := by
  obtain ⟨hf, h1, h2⟩ := hab
  unfold VssScanLogEntry.scanCheckedIn at h ⊢
  repeat (split at h; · exact absurd h (by simp))
  simp only [Option.some.injEq, Prod.mk.injEq] at h
  obtain ⟨rfl, rfl⟩ := h
  exact ⟨_, rfl, hf, h1, h2⟩

/-- The name step, run on two objects that agree on what was stored so far. -/
theorem scanName_any_object (a b e : VssScanLogEntry) (r q : BinaryReader)
    (hab : sameStored a b) (h : VssScanLogEntry.scanName a r = some (e, q)) :
    ∃ e2, VssScanLogEntry.scanName b r = some (e2, q) ∧ sameStored e e2 := by
  obtain ⟨hf, h1, h2⟩ := hab
  unfold VssScanLogEntry.scanName at h ⊢
  repeat (split at h; · exact absurd h (by simp))
  simp only [Option.some.injEq, Prod.mk.injEq] at h
  obtain ⟨rfl, rfl⟩ := h
  exact ⟨_, rfl, hf, h1, h2⟩

/-- The reading of a file reference, run on two objects that agree on what was stored so
far. -/
theorem scanFileReference_any_object (a b e : VssScanLogEntry) (r q : BinaryReader)
    (hab : sameStored a b) (h : VssScanLogEntry.scanFileReference a r = some (e, q)) :
    ∃ e2, VssScanLogEntry.scanFileReference b r = some (e2, q) ∧ sameStored e e2 := by
  obtain ⟨hf, h1, h2⟩ := hab
  unfold VssScanLogEntry.scanFileReference at h ⊢
  repeat (split at h; · exact absurd h (by simp))
  simp only [Option.some.injEq, Prod.mk.injEq] at h
  obtain ⟨rfl, rfl⟩ := h
  exact ⟨_, rfl, hf, rfl, h2⟩

/-- The reference step, run on two objects that agree on what was stored so far. -/
theorem scanReference_any_object (a b e : VssScanLogEntry) (r q : BinaryReader)
    (hab : sameStored a b) (h : VssScanLogEntry.scanReference a r = some (e, q)) :
    ∃ e2, VssScanLogEntry.scanReference b r = some (e2, q) ∧ sameStored e e2 := by
  have hop : b.m_Opcode = a.m_Opcode := hab.1.2.1
  unfold VssScanLogEntry.scanReference at h ⊢
  by_cases hc : VssOpcode_RenamedProject = a.m_Opcode ∨ VssOpcode_RenamedFile = a.m_Opcode
  · rw [if_pos hc] at h
    rw [if_pos (by rw [hop]; exact hc)]
    repeat (split at h; · exact absurd h (by simp))
    refine scanFileReference_any_object _ _ _ _ _ ?_ h
    exact ⟨hab.1, hab.2.1, hab.2.2⟩
  · rw [if_neg hc] at h
    rw [if_neg (by rw [hop]; exact hc)]
    by_cases hs : VssOpcode_SharedFile = a.m_Opcode
    · rw [if_pos hs] at h
      rw [if_pos (hs.trans hop.symm)]
      repeat (split at h; · exact absurd h (by simp))
      exact scanFileReference_any_object _ _ _ _ _ hab h
    · rw [if_neg hs] at h
      rw [if_neg (fun e => hs (e.trans hop))]
      exact scanFileReference_any_object _ _ _ _ _ hab h

/-- The branch step, run on two objects that agree on what was stored so far. -/
theorem scanBranch_any_object (a b e : VssScanLogEntry) (r q : BinaryReader)
    (hab : sameStored a b) (h : VssScanLogEntry.scanBranch a r = some (e, q)) :
    ∃ e2, VssScanLogEntry.scanBranch b r = some (e2, q) ∧ sameStored e e2 := by
  obtain ⟨hf, h1, h2⟩ := hab
  have hop : b.m_Opcode = a.m_Opcode := hf.2.1
  unfold VssScanLogEntry.scanBranch at h ⊢
  by_cases hc : VssOpcode_BranchedFile = a.m_Opcode
  · rw [if_pos hc] at h
    rw [if_pos (hc.trans hop.symm)]
    repeat (split at h; · exact absurd h (by simp))
    simp only [Option.some.injEq, Prod.mk.injEq] at h
    obtain ⟨rfl, rfl⟩ := h
    exact ⟨_, rfl, hf, h1, rfl⟩
  · rw [if_neg hc] at h
    rw [if_neg (fun e => hc (e.trans hop))]
    simp only [Option.some.injEq, Prod.mk.injEq] at h
    obtain ⟨rfl, rfl⟩ := h
    exact ⟨_, rfl, hf, h1, h2⟩

/-- `Scan`, run on two objects: both runs read the same bytes, and the results agree on the
fixed fields and on the two references. -/
theorem Scan_any_object (a b e : VssScanLogEntry) (r q : BinaryReader)
    (h : VssScanLogEntry.Scan a r = some (e, q)) :
    ∃ e2, VssScanLogEntry.Scan b r = some (e2, q) ∧ sameStored e e2 := by
  unfold VssScanLogEntry.Scan at h ⊢
  split at h
  · exact absurd h (by simp)
  rename_i a0 r0 h0
  obtain ⟨b0, hb0, s0⟩ := scanFixed_any_object a b a0 r r0 h0
  rw [hb0]
  simp only
  split at h
  · exact absurd h (by simp)
  rename_i a1 r1 h1
  obtain ⟨b1, hb1, s1⟩ := scanSharedPath_any_object a0 b0 a1 r0 r1 s0 h1
  rw [hb1]
  simp only
  have hop : b1.m_Opcode = a1.m_Opcode := s1.1.2.1
  by_cases hc : VssOpcode_CheckedInFile = a1.m_Opcode
  · rw [if_pos hc] at h
    rw [if_pos (hc.trans hop.symm)]
    exact scanCheckedIn_any_object a1 b1 e r1 q s1 h
  · rw [if_neg hc] at h
    rw [if_neg (fun e => hc (e.trans hop))]
    split at h
    · exact absurd h (by simp)
    rename_i a2 r2 h2
    obtain ⟨b2, hb2, s2⟩ := scanName_any_object a1 b1 a2 r1 r2 s1 h2
    rw [hb2]
    simp only
    split at h
    · exact absurd h (by simp)
    rename_i a3 r3 h3
    obtain ⟨b3, hb3, s3⟩ := scanReference_any_object a2 b2 a3 r2 r3 s2 h3
    rw [hb3]
    simp only
    exact scanBranch_any_object a3 b3 e r3 q s3 h

/-- The steps of `Scan` other than the reference step never store to the new-name fields. -/
theorem Scan_keeps_new_name (self e : VssScanLogEntry) (r q : BinaryReader)
    (h : VssScanLogEntry.Scan self r = some (e, q))
    (hop : ¬ (VssOpcode_RenamedProject = e.m_Opcode ∨ VssOpcode_RenamedFile = e.m_Opcode)) :
    e.m_NewFileName = self.m_NewFileName ∧
    e.m_NewFileNamesOffset = self.m_NewFileNamesOffset := by
  unfold VssScanLogEntry.Scan at h
  split at h
  · exact absurd h (by simp)
  rename_i a0 r0 h0
  have k0 : a0.m_NewFileName = self.m_NewFileName ∧
      a0.m_NewFileNamesOffset = self.m_NewFileNamesOffset := by
    unfold VssScanLogEntry.scanFixed at h0
    repeat (split at h0; · exact absurd h0 (by simp))
    simp only [Option.some.injEq, Prod.mk.injEq] at h0
    obtain ⟨rfl, _⟩ := h0
    exact ⟨rfl, rfl⟩
  split at h
  · exact absurd h (by simp)
  rename_i a1 r1 h1
  have k1 : a1.m_NewFileName = a0.m_NewFileName ∧
      a1.m_NewFileNamesOffset = a0.m_NewFileNamesOffset := by
    unfold VssScanLogEntry.scanSharedPath at h1
    split at h1
    · split at h1
      · exact absurd h1 (by simp)
      · simp only [Option.some.injEq, Prod.mk.injEq] at h1
        obtain ⟨rfl, _⟩ := h1
        exact ⟨rfl, rfl⟩
    · simp only [Option.some.injEq, Prod.mk.injEq] at h1
      obtain ⟨rfl, _⟩ := h1
      exact ⟨rfl, rfl⟩
  split at h
  · unfold VssScanLogEntry.scanCheckedIn at h
    repeat (split at h; · exact absurd h (by simp))
    simp only [Option.some.injEq, Prod.mk.injEq] at h
    obtain ⟨rfl, _⟩ := h
    exact ⟨k1.1.trans k0.1, k1.2.trans k0.2⟩
  · split at h
    · exact absurd h (by simp)
    rename_i a2 r2 h2
    have f2 := scanName_fixed _ _ _ _ h2
    have k2 : a2.m_NewFileName = a1.m_NewFileName ∧
        a2.m_NewFileNamesOffset = a1.m_NewFileNamesOffset := by
      unfold VssScanLogEntry.scanName at h2
      repeat (split at h2; · exact absurd h2 (by simp))
      simp only [Option.some.injEq, Prod.mk.injEq] at h2
      obtain ⟨rfl, _⟩ := h2
      exact ⟨rfl, rfl⟩
    split at h
    · exact absurd h (by simp)
    rename_i a3 r3 h3
    have f3 := scanReference_fixed _ _ _ _ h3
    have f4 := scanBranch_fixed _ _ _ _ h
    have hop2 : ¬ (VssOpcode_RenamedProject = a2.m_Opcode ∨
        VssOpcode_RenamedFile = a2.m_Opcode) := by
      rw [← f3.2.1, ← f4.2.1]
      exact hop
    have kref : ∀ (x y : VssScanLogEntry) (p p2 : BinaryReader),
        VssScanLogEntry.scanFileReference x p = some (y, p2) →
        y.m_NewFileName = x.m_NewFileName ∧
        y.m_NewFileNamesOffset = x.m_NewFileNamesOffset := by
      intro x y p p2 hx
      unfold VssScanLogEntry.scanFileReference at hx
      repeat (split at hx; · exact absurd hx (by simp))
      simp only [Option.some.injEq, Prod.mk.injEq] at hx
      obtain ⟨rfl, _⟩ := hx
      exact ⟨rfl, rfl⟩
    have k3 : a3.m_NewFileName = a2.m_NewFileName ∧
        a3.m_NewFileNamesOffset = a2.m_NewFileNamesOffset := by
      unfold VssScanLogEntry.scanReference at h3
      rw [if_neg hop2] at h3
      split at h3
      · repeat (split at h3; · exact absurd h3 (by simp))
        exact kref _ _ _ _ h3
      · exact kref _ _ _ _ h3
    have k4 : e.m_NewFileName = a3.m_NewFileName ∧
        e.m_NewFileNamesOffset = a3.m_NewFileNamesOffset := by
      unfold VssScanLogEntry.scanBranch at h
      split at h
      · repeat (split at h; · exact absurd h (by simp))
        simp only [Option.some.injEq, Prod.mk.injEq] at h
        obtain ⟨rfl, _⟩ := h
        exact ⟨rfl, rfl⟩
      · simp only [Option.some.injEq, Prod.mk.injEq] at h
        obtain ⟨rfl, _⟩ := h
        exact ⟨rfl, rfl⟩
    exact ⟨k4.1.trans (k3.1.trans (k2.1.trans (k1.1.trans k0.1))),
      k4.2.trans (k3.2.trans (k2.2.trans (k1.2.trans k0.2)))⟩

/-! ## Log entries and the object they are scanned into: the claims -/

/-- C31, counterexample: the AddedFile entry `logEntry3` scanned from the same cursor into
the zeroed object `localLogEntry` and into `logEntry0`, whose arrays hold the letter `x` and
whose numbers are 9. `Scan` stores neither the database path nor the difference offset nor
the new-name fields for this opcode: the two records differ in all of them. -/
theorem C31_unstored_fields_keep_the_prior_value :
    (VssScanLogEntry.Scan localLogEntry ⟨logEntry3, 138, 0⟩).map
      (fun p => (p.1.m_DatabasePath, p.1.m_DifferenceOffset, p.1.m_NewFileName,
        p.1.m_NewFileNamesOffset, p.2.m_Offset))
      = some (List.replicate 260 0, 0, List.replicate 34 0, 0, 138) ∧
    (VssScanLogEntry.Scan logEntry0 ⟨logEntry3, 138, 0⟩).map
      (fun p => (p.1.m_DatabasePath, p.1.m_DifferenceOffset, p.1.m_NewFileName,
        p.1.m_NewFileNamesOffset, p.2.m_Offset))
      = some (List.replicate 260 120, 9, List.replicate 34 120, 9, 138) :=
  ⟨by decide, by decide⟩

/-- C31, amended: scanning the same cursor into two objects reads the same bytes and leaves
the cursor at the same place, and the two records agree on the ten fixed fields, on the file
reference and on the branch reference, whatever the objects held before. (The other fields
are stored for some opcodes only.) -/
theorem C31_stored_fields_do_not_depend_on_the_object (a b : VssScanLogEntry)
    (r : BinaryReader) :
    (VssScanLogEntry.Scan a r).map (fun p => p.2)
      = (VssScanLogEntry.Scan b r).map (fun p => p.2) ∧
    (∀ (e e2 : VssScanLogEntry) (q q2 : BinaryReader),
      VssScanLogEntry.Scan a r = some (e, q) → VssScanLogEntry.Scan b r = some (e2, q2) →
      sameStored e e2) := by
  constructor
  · cases ha : VssScanLogEntry.Scan a r with
    | none =>
      cases hb : VssScanLogEntry.Scan b r with
      | none => rfl
      | some p =>
        obtain ⟨e2, q2⟩ := p
        obtain ⟨e, he, _⟩ := Scan_any_object b a e2 r q2 hb
        rw [ha] at he
        exact absurd he (by simp)
    | some p =>
      obtain ⟨e, q⟩ := p
      obtain ⟨e2, he2, _⟩ := Scan_any_object a b e r q ha
      rw [he2]
      rfl
  · intro e e2 q q2 ha hb
    obtain ⟨e3, he3, hs⟩ := Scan_any_object a b e r q ha
    rw [hb] at he3
    simp only [Option.some.injEq, Prod.mk.injEq] at he3
    rw [he3.1]
    exact hs

/-- C31, witness: `logEntry3` scanned into `logEntry0` and into `localLogEntry`. -/
theorem C31_stored_fields_do_not_depend_on_the_object_witness :
    (VssScanLogEntry.Scan logEntry0 ⟨logEntry3, 138, 0⟩).map (fun p => p.2)
      = some ⟨logEntry3, 138, 138⟩ ∧
    (VssScanLogEntry.Scan logEntry0 ⟨logEntry3, 138, 0⟩).map (fun p => p.2)
      = (VssScanLogEntry.Scan localLogEntry ⟨logEntry3, 138, 0⟩).map (fun p => p.2) :=
  ⟨by decide,
    (C31_stored_fields_do_not_depend_on_the_object logEntry0 localLogEntry
      ⟨logEntry3, 138, 0⟩).1⟩

/-- C32: the comment on `m_NewFileName` in `VssScanLogEntry.h` says that, outside a rename,
the new-name members are the same as `m_FileName` and `m_NamesFileOffset`. `Scan` stores to
them only for the two rename opcodes and copies nothing otherwise: for every other opcode
they hold after the call what the object held before it. So for the AddedFile entry
`logEntry3`, whose name tail is read, scanned into `logEntry0`: the name is 34 zero bytes
and its offset 0, while the new name still holds the 34 letters `x` and its offset the 9
they held before the call. -/
theorem C32_new_name_is_not_the_name :
    (∀ (self e : VssScanLogEntry) (r q : BinaryReader),
      VssScanLogEntry.Scan self r = some (e, q) →
      ¬ (VssOpcode_RenamedProject = e.m_Opcode ∨ VssOpcode_RenamedFile = e.m_Opcode) →
      e.m_NewFileName = self.m_NewFileName ∧
      e.m_NewFileNamesOffset = self.m_NewFileNamesOffset) ∧
    le16 logEntry3 4 = 3 ∧
    (VssScanLogEntry.Scan logEntry0 ⟨logEntry3, 138, 0⟩).map
      (fun p => (p.1.m_FileName, p.1.m_NamesFileOffset, p.1.m_NewFileName,
        p.1.m_NewFileNamesOffset))
      = some (List.replicate 34 0, 0, List.replicate 34 120, 9) :=
  ⟨fun self e r q h hop => Scan_keeps_new_name self e r q h hop, by decide, by decide⟩


/-! ## Name codec, range of the result: auxiliary facts -/

/-- One pass of the decoding loop over a letter, in either case. -/
theorem nameToNumberLoop_letter (name : List Nat) (i : Nat) (num : Int) (c : Nat)
    (h : name[i]? = some c) (hc : isAsciiLetter c) :
    nameToNumberLoop name (i + 1) num = nameToNumberLoop name i (nameStep num (letterDigit c)) := by
  conv_lhs => unfold nameToNumberLoop
  rw [h]
  unfold isAsciiLetter at hc
  unfold letterDigit
  by_cases hl : 97 ≤ c ∧ c ≤ 122
  · simp only [hl, and_self, if_true]
  · have hu : 65 ≤ c ∧ c ≤ 90 := by
      rcases hc with hc | hc
      · exact absurd hc hl
      · exact hc
    simp only [if_neg hl, hu, and_self, if_true]

/-- Decoding a name of 8 letters yields its base-26 value wrapped to a 32-bit `int`. -/
theorem VssNameToNumber_letters (name : List Nat) (hlen : 8 ≤ name.length)
    (hlet : ∀ c ∈ name.take 8, isAsciiLetter c) :
    VssNameToNumber name = some (toS32 (lettersValue (name.take 8))) := by
  obtain ⟨c0, c1, c2, c3, c4, c5, c6, c7, rest, rfl⟩ := buffer_eight name hlen
  simp only [List.take_succ_cons, List.take_zero, List.mem_cons, List.mem_singleton,
    forall_eq_or_imp, forall_eq, List.not_mem_nil, false_implies, implies_true, and_true]
    at hlet
  obtain ⟨h0, h1, h2, h3, h4, h5, h6, h7⟩ := hlet
  unfold VssNameToNumber
  rw [nameToNumberLoop_letter _ 7 _ c7 (by simp) h7,
    nameToNumberLoop_letter _ 6 _ c6 (by simp) h6,
    nameToNumberLoop_letter _ 5 _ c5 (by simp) h5,
    nameToNumberLoop_letter _ 4 _ c4 (by simp) h4,
    nameToNumberLoop_letter _ 3 _ c3 (by simp) h3,
    nameToNumberLoop_letter _ 2 _ c2 (by simp) h2,
    nameToNumberLoop_letter _ 1 _ c1 (by simp) h1,
    nameToNumberLoop_letter _ 0 _ c0 (by simp) h0]
  have e7 : nameStep 0 (letterDigit c7) = toS32 ((letterDigit c7 : Nat) : Int) := by
    unfold nameStep toS32 toU32
    omega
  rw [e7, nameStep_wrap, nameStep_wrap, nameStep_wrap, nameStep_wrap, nameStep_wrap,
    nameStep_wrap, nameStep_wrap]
  simp only [nameToNumberLoop, List.take_succ_cons, List.take_zero, lettersValue]
  refine congrArg some (congrArg toS32 ?_)
  push_cast
  ring

/-- The characters `VssNumberToName` writes: position `k` holds digit `k` of the number. -/
theorem VssNumberToName_getElem? (i : Nat) (hi : i < 4294967296) (buf : List Nat)
    (hb : 9 ≤ buf.length) (k : Nat) (hk : k < 8) :
    (VssNumberToName i buf)[k]? = some (97 + i / 26 ^ k % 26) := by
  obtain ⟨c0, c1, c2, c3, c4, c5, c6, c7, c8, rest, rfl⟩ := buffer_nine buf hb
  rw [VssNumberToName_cons _ _ _ _ _ _ _ _ _ _ _ hi]
  interval_cases k <;>
    simp only [List.getElem?_cons_succ, List.getElem?_cons_zero, Nat.div_div_eq_div_mul,
      pow_zero, Nat.div_one, Nat.reducePow, Nat.reduceMul]

/-- The accumulator of the decoding loop before the pass over position `k - 1` of the name
written for `i` is `i / 26 ^ k`. -/
theorem nameToNumberLoop_encoded (i : Nat) (hi : i < 2147483648) (buf : List Nat)
    (hb : 9 ≤ buf.length) :
    ∀ j : Nat, j ≤ 8 →
      nameToNumberLoop (VssNumberToName i buf) 8 0
        = nameToNumberLoop (VssNumberToName i buf) (8 - j) ((i / 26 ^ (8 - j) : Nat) : Int) := by
  intro j
  induction j with
  | zero =>
    intro _
    have h0 : i / 26 ^ 8 = 0 := Nat.div_eq_of_lt (by norm_num; omega)
    simp only [Nat.sub_zero, h0, Nat.cast_zero]
  | succ j ih =>
    intro hj
    rw [ih (by omega)]
    have hk : 8 - j = (8 - (j + 1)) + 1 := by omega
    have hget := VssNumberToName_getElem? i (by omega) buf hb (8 - (j + 1)) (by omega)
    rw [hk, nameToNumberLoop_letter _ _ _ _ hget (Or.inl (by omega))]
    have hd : letterDigit (97 + i / 26 ^ (8 - (j + 1)) % 26) = i / 26 ^ (8 - (j + 1)) % 26 := by
      unfold letterDigit
      rw [if_pos (by omega)]
      omega
    have hq : i / 26 ^ (8 - (j + 1) + 1) = i / 26 ^ (8 - (j + 1)) / 26 := by
      rw [pow_succ, Nat.div_div_eq_div_mul]
    have hlt : i / 26 ^ (8 - (j + 1)) < 2147483648 :=
      lt_of_le_of_lt (Nat.div_le_self _ _) hi
    rw [hd, hq, nameStep_horner _ hlt]

/-! ## Name codec, range of the result: the claims -/

/-- C36, counterexample: the name `vxlrmxna` is made of 8 ASCII letters and decodes to the
sentinel `-1`; the name `zzzzzzzz` is made of 8 ASCII letters and decodes to the negative
value `-1626332929`. -/
theorem C36_eight_letters_decode_to_minus_one :
    (∀ c ∈ name_vxlrmxna.take 8, isAsciiLetter c) ∧
    VssNameToNumber name_vxlrmxna = some (-1) ∧
    (∀ c ∈ name_zzzzzzzz.take 8, isAsciiLetter c) ∧
    (∃ v : Int, VssNameToNumber name_zzzzzzzz = some v ∧ v < 0) := by
  refine ⟨by decide, by decide, by decide, -1626332929, by decide, by decide⟩

/-- C36, amended: for every name made of 8 ASCII letters, `VssNameToNumber` returns the
base-26 value of the name wrapped to a 32-bit `int`. The result is non-negative exactly when
the value modulo `2^32` is below `2^31`, it is the sentinel `-1` exactly when the value
modulo `2^32` is `2^32 - 1`, and for a value below `2^31` it is the value itself. -/
theorem C36_letters_decode_to_the_wrapped_value (name : List Nat) (hlen : 8 ≤ name.length)
    (hlet : ∀ c ∈ name.take 8, isAsciiLetter c) :
    ∃ v : Int, VssNameToNumber name = some v ∧
      v = toS32 (lettersValue (name.take 8)) ∧
      (0 ≤ v ↔ lettersValue (name.take 8) % 4294967296 < 2147483648) ∧
      (v = -1 ↔ lettersValue (name.take 8) % 4294967296 = 4294967295) ∧
      (lettersValue (name.take 8) < 2147483648 → v = lettersValue (name.take 8)) := by
  refine ⟨_, VssNameToNumber_letters name hlen hlet, rfl, ?_, ?_, ?_⟩
  · unfold toS32
    omega
  · unfold toS32
    omega
  · intro h
    unfold toS32
    omega

/-- C36, witness: the name `ZzAbCdEf`. -/
theorem C36_letters_decode_to_the_wrapped_value_witness :
    8 ≤ name_ZzAbCdEf.length ∧ (∀ c ∈ name_ZzAbCdEf.take 8, isAsciiLetter c) ∧
    ∃ v : Int, VssNameToNumber name_ZzAbCdEf = some v ∧
      v = toS32 (lettersValue (name_ZzAbCdEf.take 8)) ∧
      (0 ≤ v ↔ lettersValue (name_ZzAbCdEf.take 8) % 4294967296 < 2147483648) ∧
      (v = -1 ↔ lettersValue (name_ZzAbCdEf.take 8) % 4294967296 = 4294967295) ∧
      (lettersValue (name_ZzAbCdEf.take 8) < 2147483648 →
        v = lettersValue (name_ZzAbCdEf.take 8)) :=
  ⟨by decide, by decide,
    C36_letters_decode_to_the_wrapped_value name_ZzAbCdEf (by decide) (by decide)⟩

/-- C37: for every identifier `i` with `0 ≤ i < 2^31`, `VssNameToNumber` applied to the name
`VssNumberToName` writes for `i` returns `i`, and no pass of the decoding loop overflows: in
the pass over position `k` the name holds digit `k` of `i`, the accumulator holds
`i / 26 ^ (k + 1)`, and the product by 26 plus the digit is `i / 26 ^ k` exactly, below
`2^31`, which is also what the 32-bit arithmetic of the pass stores. -/
theorem C37_roundtrip_without_overflow (i : Nat) (hi : i < 2147483648) (buf : List Nat)
    (hb : 9 ≤ buf.length) :
    VssNameToNumber (VssNumberToName i buf) = some (i : Int) ∧
    ∀ k : Nat, k < 8 →
      (VssNumberToName i buf)[k]? = some (97 + i / 26 ^ k % 26) ∧
      nameToNumberLoop (VssNumberToName i buf) 8 0
        = nameToNumberLoop (VssNumberToName i buf) (k + 1) ((i / 26 ^ (k + 1) : Nat) : Int) ∧
      ((i / 26 ^ (k + 1) : Nat) : Int) * 26 + ((i / 26 ^ k % 26 : Nat) : Int)
        = ((i / 26 ^ k : Nat) : Int) ∧
      ((i / 26 ^ k : Nat) : Int) < 2147483648 ∧
      nameStep ((i / 26 ^ (k + 1) : Nat) : Int) (i / 26 ^ k % 26)
        = ((i / 26 ^ (k + 1) : Nat) : Int) * 26 + ((i / 26 ^ k % 26 : Nat) : Int) := by
  refine ⟨decode_encode_below_2_pow_31 i hi buf hb, ?_⟩
  intro k hk
  have hq : i / 26 ^ (k + 1) = i / 26 ^ k / 26 := by
    rw [pow_succ, Nat.div_div_eq_div_mul]
  have hlt : i / 26 ^ k < 2147483648 := lt_of_le_of_lt (Nat.div_le_self _ _) hi
  have hloop := nameToNumberLoop_encoded i hi buf hb (8 - (k + 1)) (by omega)
  have hk8 : 8 - (8 - (k + 1)) = k + 1 := by omega
  rw [hk8] at hloop
  refine ⟨VssNumberToName_getElem? i (by omega) buf hb k hk, hloop, ?_, ?_, ?_⟩
  · rw [hq]
    generalize i / 26 ^ k = q
    omega
  · generalize i / 26 ^ k = q at hlt
    omega
  · rw [hq]
    generalize i / 26 ^ k = q at hlt
    exact nameStep_small _ _ (by omega) (by omega)

/-- C37, witness: the identifier `2^31 - 1` and a buffer of nine NUL characters. -/
theorem C37_roundtrip_without_overflow_witness :
    2147483647 < 2147483648 ∧ 9 ≤ (List.replicate 9 0).length ∧
    VssNameToNumber (VssNumberToName 2147483647 (List.replicate 9 0))
      = some ((2147483647 : Nat) : Int) :=
  ⟨by decide, by decide,
    (C37_roundtrip_without_overflow 2147483647 (by decide) (List.replicate 9 0)
      (by decide)).1⟩

/-! ## Loops that do not end: auxiliary facts -/

/-- The header of `streamWrap`, and the cursor after the pass over it: back at offset 0. -/
theorem streamWrap_header :
    readChunkHeader ⟨streamWrap, 8, 0⟩ = some (4294967288, 0x5858, 0, ⟨streamWrap, 8, 8⟩) ∧
    nextChunk ⟨streamWrap, 8, 8⟩ 4294967288 = ⟨streamWrap, 8, 0⟩ := by
  constructor
  · decide
  · decide

/-- The chunk loop over the info stream of a project does not end on `streamWrap`. -/
theorem projectInfoLoop_streamWrap (VssCrc16 : List u08 → Nat → Nat)
    (logEntry : VssScanLogEntry) :
    ∀ (fuel : Nat) (log : List Report),
      projectInfoLoop VssCrc16 fuel logEntry ⟨streamWrap, 8, 0⟩ log = Run.timeout := by
  intro fuel
  induction fuel with
  | zero =>
    intro log
    rfl
  | succ n ih =>
    intro log
    conv_lhs => unfold projectInfoLoop
    simp only [show (0 : Nat) < 8 by decide, if_true, streamWrap_header.1, crcMismatch_zero,
      streamWrap_header.2]
    rw [if_neg (by decide), if_neg (by decide)]
    exact ih _

/-- The chunk loop over the info stream of a file does not end on `streamWrap`. -/
theorem fileInfoLoop_streamWrap (VssCrc16 : List u08 → Nat → Nat)
    (logEntry : VssScanLogEntry) (branchNum parentNum : Nat) :
    ∀ (fuel : Nat) (log : List Report),
      fileInfoLoop VssCrc16 fuel logEntry branchNum parentNum ⟨streamWrap, 8, 0⟩ log
        = Run.timeout := by
  intro fuel
  induction fuel with
  | zero =>
    intro log
    rfl
  | succ n ih =>
    intro log
    conv_lhs => unfold fileInfoLoop
    simp only [show (0 : Nat) < 8 by decide, if_true, streamWrap_header.1, crcMismatch_zero,
      streamWrap_header.2]
    rw [if_neg (by decide), if_neg (by decide), if_neg (by decide), if_neg (by decide),
      if_neg (by decide), if_neg (by decide)]
    exact ih _

/-- The chunk loop over the data stream of a project does not end on `streamWrap`. -/
theorem dataLoop_streamWrap (VssCrc16 : List u08 → Nat → Nat)
    (visit : Nat → VssTree → List Report → Run (Bool × VssTree × List Report))
    (childScan : VssScanChild) (t : VssTree) :
    ∀ (fuel : Nat) (log : List Report),
      dataLoop VssCrc16 visit fuel childScan ⟨streamWrap, 8, 0⟩ t log = Run.timeout := by
  intro fuel
  induction fuel with
  | zero =>
    intro log
    rfl
  | succ n ih =>
    intro log
    conv_lhs => unfold dataLoop
    simp only [show (0 : Nat) < 8 by decide, if_true, streamWrap_header.1, crcMismatch_zero,
      streamWrap_header.2]
    rw [if_neg (by decide)]
    exact ih _

/-- The first branch of `AssembleDirectoryLinks` for a project whose parent name is empty
and whose project count does not exceed its child count: it is the chunk loop. -/
theorem scanProjectInfo_root (VssCrc16 : List u08 → Nat → Nat) (fuel index : Nat)
    (t : VssTree) (log : List Report) (data : List u08) (size off : Nat)
    (hsize : size = data.length) (h32 : size < 4294967296) (h : off + 276 ≤ size)
    (hroot : ((bytesAt data (off + 260) 12).getD 0 0).val = 0)
    (hcount : le16 data (off + 274) ≤ le16 data (off + 272)) :
    scanProjectInfo VssCrc16 fuel index t ⟨data, size, off⟩ log
      = Run.withTree t
          (projectInfoLoop VssCrc16 fuel localLogEntry ⟨data, size, off + 276⟩ log) := by
  unfold scanProjectInfo
  simp (disch := omega) only [ReadData_at, Nat.add_assoc, Nat.reduceAdd]
  rw [if_neg (by omega)]
  simp (disch := omega) only [Read16_at, Nat.add_assoc, Nat.reduceAdd]
  rw [if_neg (by omega)]
  cases projectInfoLoop VssCrc16 fuel localLogEntry ⟨data, size, off + 276⟩ log with
  | done a => rfl
  | fault => rfl
  | timeout => rfl

/-- Once the cursor is at the end of the buffer, every read of `ApplyDifferenceData` returns
0, which is the opcode of an insertion of no bytes, and the loop does not end. -/
theorem ApplyDifferenceData_at_end (pNewFile data : List u08) (size : Nat)
    (hsize : size ≤ data.length) (h32 : size + 2 < 4294967296) :
    ∀ (fuel : Nat) (written : List u08),
      ApplyDifferenceData pNewFile fuel ⟨data, size, size⟩ written = Run.timeout := by
  intro fuel
  induction fuel with
  | zero =>
    intro written
    rfl
  | succ n ih =>
    intro written
    conv_lhs => unfold ApplyDifferenceData
    simp only [Read16_short data size size h32 (Nat.le_refl _) (by omega),
      Read32_short data size size h32 (by omega)]
    have hskip : (BinaryReader.Skip ⟨data, size, size⟩ 0).2 = ⟨data, size, size⟩ := by
      unfold BinaryReader.Skip
      simp only [Nat.zero_add, Nat.add_zero, Nat.mod_eq_of_lt (show size < 4294967296 by omega),
        Nat.lt_irrefl, if_false]
    simp only [if_true, Nat.add_zero, hsize, hskip]
    exact ih _

/-! ## Loops that do not end: the claims -/

/-- C35: the 8-byte stream `F8 FF FF FF 58 58 00 00` is one chunk header with size
`0xFFFFFFF8`, an unknown marker and stored CRC 0. The pass over it leaves the cursor at
`(8 + 0xFFFFFFF8) mod 2^32 = 0`, where it started, so the offset does not increase, and none
of the three chunk loops ends on it, whatever the number of passes allowed; neither does
`AssembleDirectoryLinks(0)` on a project with this data stream. -/
theorem C35_chunk_size_wraps_the_cursor :
    (readChunkHeader ⟨streamWrap, 8, 0⟩).map (fun h => nextChunk h.2.2.2 h.1)
      = some ⟨streamWrap, 8, 0⟩ ∧
    (∀ (VssCrc16 : List u08 → Nat → Nat) (fuel : Nat) (logEntry : VssScanLogEntry)
      (log : List Report),
      projectInfoLoop VssCrc16 fuel logEntry ⟨streamWrap, 8, 0⟩ log = Run.timeout) ∧
    (∀ (VssCrc16 : List u08 → Nat → Nat) (fuel : Nat) (logEntry : VssScanLogEntry)
      (branchNum parentNum : Nat) (log : List Report),
      fileInfoLoop VssCrc16 fuel logEntry branchNum parentNum ⟨streamWrap, 8, 0⟩ log
        = Run.timeout) ∧
    (∀ (VssCrc16 : List u08 → Nat → Nat)
      (visit : Nat → VssTree → List Report → Run (Bool × VssTree × List Report))
      (fuel : Nat) (childScan : VssScanChild) (t : VssTree) (log : List Report),
      dataLoop VssCrc16 visit fuel childScan ⟨streamWrap, 8, 0⟩ t log = Run.timeout) ∧
    (∀ fuel : Nat,
      VssTree.AssembleDirectoryLinks crcZero crcZero fuel 0 0 none treeWrap [] = Run.timeout) := by
  refine ⟨by decide, ?_, ?_, ?_, ?_⟩
  · intro VssCrc16 fuel logEntry log
    exact projectInfoLoop_streamWrap VssCrc16 logEntry fuel log
  · intro VssCrc16 fuel logEntry branchNum parentNum log
    exact fileInfoLoop_streamWrap VssCrc16 logEntry branchNum parentNum fuel log
  · intro VssCrc16 visit fuel childScan t log
    exact dataLoop_streamWrap VssCrc16 visit childScan t fuel log
  · intro fuel
    cases fuel with
    | zero => rfl
    | succ n =>
      have hnode : treeWrap.m_pNodes.get? 0 = some (nodeOf (infoNoChunks 1 1) streamWrap) :=
        rfl
      have hlen : (infoNoChunks 1 1).length = 416 := by decide
      have hdec : (VssScanHeader.Scan crcZero localHeader
          (BinaryReader.Initialize (infoNoChunks 1 1) (infoNoChunks 1 1).length 0)).map
            (fun p => (p.1, p.2.1.m_Type, p.2.1.m_Name))
          = some (true, 1, List.replicate 34 0) := by decide
      cases hs : VssScanHeader.Scan crcZero localHeader
          (BinaryReader.Initialize (infoNoChunks 1 1) (infoNoChunks 1 1).length 0) with
      | none =>
        rw [hs] at hdec
        cases hdec
      | some p =>
        obtain ⟨b, hdr, r⟩ := p
        rw [hs] at hdec
        simp only [Option.map_some', Option.some.injEq, Prod.mk.injEq] at hdec
        obtain ⟨hb, hty, hname⟩ := hdec
        subst hb
        have hr := Scan_accept_cursor crcZero localHeader hdr (infoNoChunks 1 1) r
          (by omega) (by omega) hs
        subst hr
        unfold VssTree.AssembleDirectoryLinks
        rw [hnode]
        have hpath : pathnameOf none (List.replicate 34 0) = some [] := by decide
        simp only [nodeOf, hs, hname, hpath]
        rw [if_neg (by decide), if_pos (by rw [hty]; rfl)]
        rw [scanProjectInfo_root crcZero n 0 _ _ (infoNoChunks 1 1) _ 140 rfl (by omega)
          (by omega) (by decide) (by decide)]
        cases n with
        | zero => rfl
        | succ m =>
          have hloop : projectInfoLoop crcZero (m + 1) localLogEntry
              ⟨infoNoChunks 1 1, (infoNoChunks 1 1).length, 140 + 276⟩
              ([] ++ [Report.visiting 0 (infoNoChunks 1 1).length])
              = Run.done (true, [] ++ [Report.visiting 0 (infoNoChunks 1 1).length]) := by
            unfold projectInfoLoop
            rw [if_neg (by simp only [hlen]; decide)]
          rw [hloop]
          simp only [Run.withTree]
          exact dataLoop_streamWrap crcZero _ localChild _ (m + 1) _

/-- C40: once the cursor of the reader is at the end of the buffer, `ApplyDifferenceData`
reads the opcode 0 in every pass and does not return, whatever the number of passes
allowed: so it is for the empty script, and for the 12-byte script of one copy record that
no halt record follows. A script that ends with a halt record is processed and returns. -/
theorem C40_script_without_halt_record_never_returns :
    (∀ (pNewFile : List u08) (fuel : Nat) (written : List u08),
      ApplyDifferenceData pNewFile fuel ⟨[], 0, 0⟩ written = Run.timeout) ∧
    (∀ (pNewFile : List u08) (fuel : Nat),
      ApplyDifferenceData pNewFile fuel ⟨scriptNoHalt, 12, 0⟩ [] = Run.timeout) ∧
    ApplyDifferenceData [] 2 ⟨scriptInsertHalt, 26, 0⟩ []
      = Run.done ([7, 9], ⟨scriptInsertHalt, 26, 26⟩) := by
  refine ⟨?_, ?_, by decide⟩
  · intro pNewFile fuel written
    exact ApplyDifferenceData_at_end pNewFile [] 0 (Nat.le_refl _) (by decide) fuel written
  · intro pNewFile fuel
    cases fuel with
    | zero => rfl
    | succ n =>
      have hstep : ApplyDifferenceData pNewFile (n + 1) ⟨scriptNoHalt, 12, 0⟩ []
          = ApplyDifferenceData pNewFile n ⟨scriptNoHalt, 12, 12⟩ [] := by
        conv_lhs => unfold ApplyDifferenceData
        have h1 : BinaryReader.Read16 ⟨scriptNoHalt, 12, 0⟩
            = some (1, ⟨scriptNoHalt, 12, 2⟩) := by decide
        have h2 : BinaryReader.Read16 ⟨scriptNoHalt, 12, 2⟩
            = some (0, ⟨scriptNoHalt, 12, 4⟩) := by decide
        have h3 : BinaryReader.Read32 ⟨scriptNoHalt, 12, 4⟩
            = some (0, ⟨scriptNoHalt, 12, 8⟩) := by decide
        have h4 : BinaryReader.Read32 ⟨scriptNoHalt, 12, 8⟩
            = some (0, ⟨scriptNoHalt, 12, 12⟩) := by decide
        simp only [h1, h2, h3, h4]
        rw [if_neg (by decide), if_pos True.intro, if_pos (Nat.zero_le _)]
        simp only [List.drop_zero, List.take_zero, List.append_nil]
      rw [hstep]
      exact ApplyDifferenceData_at_end pNewFile scriptNoHalt 12 (by decide) (by decide) n []

/-! ## Parent identifiers: auxiliary facts -/

/-- When the first branch of `AssembleDirectoryLinks` gets to its end for a project whose
parent name is not empty, the decoded parent name was stored and is below the node count. -/
theorem scanProjectInfo_true_parent (VssCrc16 : List u08 → Nat → Nat) (fuel index : Nat)
    (t t1 : VssTree) (log out : List Report) (data : List u08) (size off : Nat)
    (hsize : size = data.length) (h32 : size < 4294967296) (h : off + 272 ≤ size)
    (hname : ((bytesAt data (off + 260) 12).getD 0 0).val ≠ 0)
    (hrun : scanProjectInfo VssCrc16 fuel index t ⟨data, size, off⟩ log
      = Run.done (true, t1, out)) :
    ∃ v, VssNameToNumber (charsOf (bytesAt data (off + 260) 12)) = some v ∧
      t1 = t.setParentID index (intToU32 v) ∧ intToU32 v < t.m_NodeCount := by
  unfold scanProjectInfo at hrun
  simp (disch := omega) only [ReadData_at, Nat.add_assoc, Nat.reduceAdd] at hrun
  rw [if_pos (fun e => hname e.symm)] at hrun
  cases hv : VssNameToNumber (charsOf (bytesAt data (off + 260) 12)) with
  | none =>
    rw [hv] at hrun
    exact absurd hrun (by simp)
  | some v =>
    rw [hv] at hrun
    simp only at hrun
    by_cases hbad : intToU32 v ≥ t.m_NodeCount
    · simp only [hbad, decide_True] at hrun
      exact absurd hrun (by simp)
    · simp only [hbad, decide_False] at hrun
      refine ⟨v, rfl, ?_, by omega⟩
      split at hrun
      · exact absurd hrun (by simp)
      split at hrun
      · exact absurd hrun (by simp)
      split at hrun
      · exact absurd hrun (by simp)
      split at hrun
      · exact absurd hrun (by simp)
      · exact absurd hrun (by simp)
      · simp only [Run.done.injEq, Prod.mk.injEq] at hrun
        exact hrun.2.1.symm

/-- The node of a call of `AssembleDirectoryLinks` that finds it unvisited and returns
`true`: if it is left as a project and its info buffer holds a parent name, the parent
identifier stored is the decoded name, and it is below the node count. -/
theorem AssembleDirectoryLinks_true_parent (VssCrc16 VssCrc32 : List u08 → Nat → Nat)
    (fuel index depth : Nat) (path : Option (List Nat))
    (t u : VssTree) (log out : List Report) (node m : VssNode_t)
    (info : List u08) (hwf : t.WellFormed) (hnode : t.m_pNodes[index]? = some node)
    (hzero : node.Type_ = 0) (hinfo : node.pInfo = some info) (hname : hasParentName info)
    (h : VssTree.AssembleDirectoryLinks VssCrc16 VssCrc32 fuel index depth path t log
      = Run.done (true, u, out))
    (hm : u.m_pNodes[index]? = some m) (hproj : m.Type_ = VssType_Project) :
    ∃ v, VssNameToNumber (charsOf (parentNameField info)) = some v ∧
      m.ParentID = intToU32 v ∧ m.ParentID < u.m_NodeCount := by
  obtain ⟨hlen, hfirst⟩ := hname
  obtain ⟨hsize, h32⟩ := hwf index node info hnode hinfo
  cases fuel with
  | zero => exact absurd h (by simp [VssTree.AssembleDirectoryLinks])
  | succ fuel =>
    unfold VssTree.AssembleDirectoryLinks at h
    simp only [List.get?_eq_getElem?] at h
    rw [hnode] at h
    simp only at h
    split at h
    · rename_i info2 data hinfo2 hdata
      have hi : info2 = info := by
        rw [hinfo] at hinfo2
        exact (Option.some.inj hinfo2).symm
      subst hi
      split at h
      · exact absurd h (by simp)
      · exact absurd h (by simp)
      · rename_i header reader hscan
        have hacc : node.Accepted VssCrc16 :=
          ⟨info2, data, header, reader, hinfo, hdata, hscan⟩
        rw [hsize] at hscan
        obtain ⟨_, _, _, hty, hkind, _⟩ :=
          Scan_accept_layout VssCrc16 localHeader header info2 reader h32 hscan
        have hr := Scan_accept_cursor VssCrc16 localHeader header info2 reader h32
          (by omega) hscan
        subst hr
        split at h
        · exact absurd h (by simp)
        rename_i pathname hpath
        rw [if_neg (by omega)] at h
        have hset : Marked t (t.setType index header.m_Type) := by
          rw [hty]
          exact setType_Marked t index node info2 hnode hzero hinfo hkind
        split at h
        · rename_i hp
          split at h
          · exact absurd h (by simp)
          · exact absurd h (by simp)
          · exact absurd h (by simp)
          · rename_i t1 log1 hrun
            obtain ⟨v, hv, ht1, hlt⟩ := scanProjectInfo_true_parent VssCrc16 fuel index _ t1
              _ log1 info2 _ 140 rfl h32 (by omega) hfirst hrun
            have hm1 : Marked t t1 :=
              Marked_trans _ _ _ hset (scanProjectInfo_Marked _ _ _ _ _ _ _ _ _ hrun)
            have hwf1 : t1.WellFormed := WellFormed_of_Marked _ _ hwf hm1
            have hs2 : Settled VssCrc16 t1 u :=
              dataLoop_Settled VssCrc16 _
                (fun i a c l o r ha hr =>
                  ⟨AssembleDirectoryLinks_Marked VssCrc16 VssCrc32 fuel i _ _ a c l o r ha hr,
                    AssembleDirectoryLinks_Settled VssCrc16 VssCrc32 fuel i _ _ a c l o r ha hr⟩)
                _ _ _ _ _ _ _ _ hwf1 h
            have hm2 : Marked t1 u :=
              dataLoop_Marked VssCrc16 _
                (fun i a c l o r ha hr =>
                  AssembleDirectoryLinks_Marked VssCrc16 VssCrc32 fuel i _ _ a c l o r ha hr)
                _ _ _ _ _ _ _ _ hwf1 h
            have hi : index < t.m_pNodes.length := (List.getElem?_eq_some_iff.mp hnode).1
            have hn1 : t1.m_pNodes[index]?
                = some { node with Type_ := header.m_Type, ParentID := intToU32 v } := by
              rw [ht1, setParentID_setType_eq t index _ _ node hnode]
              simp only [List.getElem?_set_self hi]
            have hmeq := (hs2.2 index _ m hn1 hm).1 (by
              show header.m_Type ≠ 0
              rw [← hp]
              decide)
            have hcount : u.m_NodeCount = t.m_NodeCount := by
              rw [hm2.1, hm1.1]
            refine ⟨v, hv, ?_, ?_⟩
            · rw [hmeq]
            · rw [hmeq, hcount]
              have hc : (t.setType index header.m_Type).m_NodeCount = t.m_NodeCount :=
                hset.1
              show intToU32 v < t.m_NodeCount
              omega
        · rename_i hp
          split at h
          · exact absurd h (by simp)
          · exact absurd h (by simp)
          · simp only [Run.done.injEq, Prod.mk.injEq] at h
            obtain ⟨_, hu, _⟩ := h
            rw [← hu, setType_getElem? t index _ node hnode] at hm
            have hmt : m.Type_ = header.m_Type := by
              rw [← Option.some.inj hm]
            exact absurd (hproj.symm.trans hmt) hp
    · exact absurd h (by simp)

/-! ## Parent identifiers: the claims -/

/-- C38, counterexample: in `treeParentFar` the info buffer of node 1 holds the parent name
`daaaaaaa`, which decodes to 3, and the node count is 2. `AssembleDirectoryLinks(0)` returns
`true`; afterwards node 1 has the type of a project and the parent identifier 3. -/
theorem C38_out_of_range_parent_survives :
    hasParentName (infoParent dbName3) ∧
    VssNameToNumber (charsOf (parentNameField (infoParent dbName3))) = some 3 ∧
    (VssTree.AssembleDirectoryLinks crcZero crcZero 3 0 0 none treeParentFar []).nodeAt 1
      = some (true,
          some { nodeOf (infoParent dbName3) [] with Type_ := VssType_Project, ParentID := 3 },
          2) := by
  refine ⟨⟨by decide, by decide⟩, by decide, by decide⟩

/-- C38, amended: when a call `AssembleDirectoryLinks(index)` that finds node `index`
unvisited returns `true`, and afterwards that node has the type of a project and its info
buffer holds a non-empty parent name, then its parent identifier is the decoded parent name
and lies below the node count. -/
theorem C38_parent_in_range_after_own_visit (VssCrc16 VssCrc32 : List u08 → Nat → Nat)
    (fuel index depth : Nat) (path : Option (List Nat))
    (t u : VssTree) (log out : List Report) (node m : VssNode_t)
    (info : List u08) (hwf : t.WellFormed) (hnode : t.m_pNodes[index]? = some node)
    (hzero : node.Type_ = 0) (hinfo : node.pInfo = some info) (hname : hasParentName info)
    (h : VssTree.AssembleDirectoryLinks VssCrc16 VssCrc32 fuel index depth path t log
      = Run.done (true, u, out))
    (hm : u.m_pNodes[index]? = some m) (hproj : m.Type_ = VssType_Project) :
    ∃ v, VssNameToNumber (charsOf (parentNameField info)) = some v ∧
      m.ParentID = intToU32 v ∧ m.ParentID < u.m_NodeCount :=
  AssembleDirectoryLinks_true_parent VssCrc16 VssCrc32 fuel index
    depth path t u log out node m info hwf
    hnode hzero hinfo hname h hm hproj

/-- C38, witness: the single project of `treeParentNear`, whose parent name decodes to 0. -/
theorem C38_parent_in_range_after_own_visit_witness :
    ∃ (u : VssTree) (out : List Report) (m : VssNode_t),
      treeParentNear.WellFormed ∧
      treeParentNear.m_pNodes[0]? = some (nodeOf (infoParent dbName0) []) ∧
      hasParentName (infoParent dbName0) ∧
      VssTree.AssembleDirectoryLinks crcZero crcZero 2 0 0 none treeParentNear []
        = Run.done (true, u, out) ∧
      u.m_pNodes[0]? = some m ∧ m.Type_ = VssType_Project ∧
      ∃ v, VssNameToNumber (charsOf (parentNameField (infoParent dbName0))) = some v ∧
        m.ParentID = intToU32 v ∧ m.ParentID < u.m_NodeCount := by
  have hwf : treeParentNear.WellFormed :=
    treeOf_WellFormed _ (by
      intro n hn info hinfo
      simp only [List.mem_singleton] at hn
      subst hn
      simp only [nodeOf, Option.some.injEq] at hinfo
      subst hinfo
      exact ⟨rfl, by decide⟩)
  have hnode : treeParentNear.m_pNodes[0]? = some (nodeOf (infoParent dbName0) []) := by
    unfold treeParentNear treeOf
    simp only [List.cons_append, List.getElem?_cons_zero]
  have hname : hasParentName (infoParent dbName0) := ⟨by decide, by decide⟩
  have hdec : (VssTree.AssembleDirectoryLinks crcZero crcZero 2 0 0 none treeParentNear []).nodeAt 0
      = some (true,
          some { nodeOf (infoParent dbName0) [] with Type_ := VssType_Project, ParentID := 0 },
          1) := by decide
  cases hrun : VssTree.AssembleDirectoryLinks crcZero crcZero 2 0 0 none treeParentNear [] with
  | fault =>
    rw [hrun] at hdec
    exact absurd hdec (by simp [Run.nodeAt, Run.result])
  | timeout =>
    rw [hrun] at hdec
    exact absurd hdec (by simp [Run.nodeAt, Run.result])
  | done a =>
    obtain ⟨b, u, out⟩ := a
    rw [hrun] at hdec
    simp only [Run.nodeAt, Run.result, Option.map_some', Option.some.injEq, Prod.mk.injEq,
      List.get?_eq_getElem?] at hdec
    obtain ⟨hb, hm, _⟩ := hdec
    subst hb
    exact ⟨u, out, _, hwf, hnode, hname, rfl, hm, rfl,
      C38_parent_in_range_after_own_visit crcZero crcZero 2 0 0 none treeParentNear u [] out _ _
        _ hwf hnode rfl rfl hname hrun hm rfl⟩

/-! ## Reachable states: auxiliary facts -/

/-- What a call of `ImportFile` that returns leaves: the tree as it was, the tree with the
node count raised, or the tree with the count raised and the buffer stored in an empty
slot. -/
theorem ImportFile_cases (t u : VssTree) (index : Nat) (isInfo : Bool) (file : FileAnswer)
    (b : Bool) (hlen : t.m_pNodes.length < 4294967296)
    (h : t.ImportFile index isInfo file = some (b, u)) :
    u = t ∨
    (index < t.m_pNodes.length ∧ u = { t with m_NodeCount := max t.m_NodeCount (index + 1) }) ∨
    (∃ node byteCount readSize pData, t.m_pNodes[index]? = some node ∧
      node.slot isInfo = none ∧ file = FileAnswer.opened byteCount readSize pData ∧
      u = { t with
        m_NodeCount := max t.m_NodeCount (index + 1),
        m_pNodes := t.m_pNodes.set index (node.store isInfo byteCount pData),
        m_InfoCount := if isInfo then (t.m_InfoCount + 1) % 4294967296 else t.m_InfoCount,
        m_DataCount := if isInfo then t.m_DataCount else (t.m_DataCount + 1) % 4294967296,
        m_MemorySize := (t.m_MemorySize + byteCount) % 4294967296 }) := by
  unfold VssTree.ImportFile at h
  split at h
  · simp only [Option.some.injEq, Prod.mk.injEq] at h
    exact Or.inl h.2.symm
  have hindex : index < t.m_pNodes.length := by
    unfold VssTree.importSlot at h
    simp only [List.get?_eq_getElem?] at h
    split at h
    · exact absurd h (by simp)
    · rename_i node hnode
      have hlt := (List.getElem?_eq_some_iff.mp hnode).1
      unfold VssTree.raiseNodeCount at hlt
      split at hlt
      · exact hlt
      · exact hlt
  rw [raiseNodeCount_eq t index (by omega)] at h
  cases b with
  | false =>
    rw [importSlot_false _ u index isInfo file h]
    exact Or.inr (Or.inl ⟨hindex, rfl⟩)
  | true =>
    obtain ⟨node, byteCount, pData, hnode, hslot, rfl⟩ := importSlot_true _ u index isInfo file h
    rw [importSlot_stores _ index isInfo node byteCount pData hnode hslot] at h
    simp only [Option.some.injEq, Prod.mk.injEq, true_and] at h
    exact Or.inr (Or.inr ⟨node, byteCount, byteCount, pData, hnode, hslot, rfl, h.symm⟩)

/-- What `freeNodes` leaves: a table of the same length in which every node is either the
node it was or that node without buffers and with type 0. -/
theorem freeNodes_nodes : ∀ (n : Nat) (nodes out : List VssNode_t),
    freeNodes n nodes = some out →
    out.length = nodes.length ∧
    ∀ (i : Nat) (node : VssNode_t), out[i]? = some node →
      ∃ old, nodes[i]? = some old ∧
        (node = old ∨ node = { old with pInfo := none, pData := none, Type_ := 0 }) := by
  intro n
  induction n with
  | zero =>
    intro nodes out h
    unfold freeNodes at h
    simp only [Option.some.injEq] at h
    subst h
    exact ⟨rfl, fun i node hn => ⟨node, hn, Or.inl rfl⟩⟩
  | succ n ih =>
    intro nodes out h
    cases nodes with
    | nil => exact absurd h (by simp [freeNodes])
    | cons first rest =>
      unfold freeNodes at h
      split at h
      · exact absurd h (by simp)
      · rename_i rest2 hrest
        simp only [Option.some.injEq] at h
        subst h
        obtain ⟨hl, hn⟩ := ih rest rest2 hrest
        refine ⟨by simp only [List.length_cons, hl], ?_⟩
        intro i node hnode
        cases i with
        | zero =>
          simp only [List.getElem?_cons_zero, Option.some.injEq] at hnode
          exact ⟨first, by simp only [List.getElem?_cons_zero], Or.inr hnode.symm⟩
        | succ i =>
          simp only [List.getElem?_cons_succ] at hnode ⊢
          exact hn i node hnode

/-- The state the constructor leaves satisfies the invariants. -/
theorem new_Sound : VssTree.new.Sound := by
  have hzero : ∀ (i : Nat) (node : VssNode_t), VssTree.new.m_pNodes[i]? = some node →
      node = nodeZero := by
    intro i node hnode
    have hi := (List.getElem?_eq_some_iff.mp hnode).1
    rw [← new_table.1, show VssTree.new.m_MaxNodes = 4096 from rfl] at hi
    rw [new_table.2.2 i hi] at hnode
    exact (Option.some.inj hnode).symm
  refine ⟨?_, ?_, ?_, new_OccupiedBelowCount, ?_⟩
  · rw [← new_table.1]
    rfl
  · exact Nat.zero_le _
  · intro i node info hnode hinfo
    rw [hzero i node hnode] at hinfo
    exact absurd hinfo (by simp [nodeZero])
  · intro i node hnode hty
    rw [hzero i node hnode] at hty
    exact absurd rfl hty

/-- A call of `ImportFile` keeps the invariants. -/
theorem ImportFile_Sound (t u : VssTree) (index : Nat) (isInfo : Bool) (file : FileAnswer)
    (b : Bool) (hinv : t.Sound) (hfile : file.Sized)
    (h : t.ImportFile index isInfo file = some (b, u)) : u.Sound := by
  obtain ⟨hlen, hcount, hwf, hocc, hvis⟩ := hinv
  have hocc2 : u.OccupiedBelowCount := by
    rcases ImportFile_cases t u index isInfo file b (by omega) h with
      rfl | ⟨hindex, rfl⟩ | ⟨node, byteCount, readSize, pData, hnode, hslot, rfl, rfl⟩
    · exact hocc
    · intro i node hnode hb
      have := hocc i node hnode hb
      show i < max t.m_NodeCount (index + 1)
      omega
    · intro i m hm hb
      simp only [List.getElem?_set] at hm
      show i < max t.m_NodeCount (index + 1)
      split at hm
      · rename_i hi
        subst hi
        omega
      · have := hocc i m hm hb
        omega
  rcases ImportFile_cases t u index isInfo file b (by omega) h with
    rfl | ⟨hindex, rfl⟩ | ⟨node, byteCount, readSize, pData, hnode, hslot, rfl, rfl⟩
  · exact ⟨hlen, hcount, hwf, hocc, hvis⟩
  · refine ⟨hlen, ?_, hwf, hocc2, hvis⟩
    show max t.m_NodeCount (index + 1) ≤ t.m_pNodes.length
    omega
  · have hindex := (List.getElem?_eq_some_iff.mp hnode).1
    refine ⟨?_, ?_, ?_, hocc2, ?_⟩
    · show (t.m_pNodes.set index _).length = 4096
      rw [List.length_set]
      exact hlen
    · show max t.m_NodeCount (index + 1) ≤ (t.m_pNodes.set index _).length
      rw [List.length_set]
      omega
    · intro i m info hm hinfo
      change (t.m_pNodes.set index (node.store isInfo byteCount pData))[i]? = some m at hm
      simp only [List.getElem?_set] at hm
      split at hm
      · rename_i hi
        subst hi
        have hm2 := Option.some.inj hm
        subst hm2
        unfold VssNode_t.store at hinfo ⊢
        cases isInfo with
        | true =>
          simp only [if_true, Option.some.injEq] at hinfo ⊢
          subst hinfo
          exact ⟨hfile.1, hfile.1 ▸ hfile.2⟩
        | false =>
          simp only [Bool.false_eq_true, if_false] at hinfo ⊢
          exact hwf index node info hnode hinfo
      · exact hwf i m info hm hinfo
    · intro i m hm hty
      change (t.m_pNodes.set index (node.store isInfo byteCount pData))[i]? = some m at hm
      simp only [List.getElem?_set] at hm
      split at hm
      · rename_i hi
        subst hi
        have hm2 := Option.some.inj hm
        subst hm2
        have hty2 : node.Type_ ≠ 0 := by
          unfold VssNode_t.store at hty
          cases isInfo with
          | true => simpa using hty
          | false => simpa using hty
        have hboth := hvis index node hnode hty2
        unfold VssNode_t.slot at hslot
        cases isInfo with
        | true =>
          simp only [if_true] at hslot
          rw [hslot] at hboth
          exact absurd hboth.1 (by simp)
        | false =>
          simp only [Bool.false_eq_true, if_false] at hslot
          rw [hslot] at hboth
          exact absurd hboth.2 (by simp)
      · exact hvis i m hm hty

/-- A call of `AssembleDirectoryLinks` that returns keeps the invariants. -/
theorem AssembleDirectoryLinks_Sound (VssCrc16 VssCrc32 : List u08 → Nat → Nat)
    (fuel index depth : Nat) (path : Option (List Nat))
    (t u : VssTree) (log out : List Report) (b : Bool) (hinv : t.Sound)
    (h : VssTree.AssembleDirectoryLinks VssCrc16 VssCrc32 fuel index depth path t log
      = Run.done (b, u, out)) : u.Sound := by
  obtain ⟨hlen, hcount, hwf, hocc, hvis⟩ := hinv
  have hm := AssembleDirectoryLinks_Marked VssCrc16 VssCrc32 fuel index
    depth path t u log out b hwf h
  have hs := AssembleDirectoryLinks_Settled VssCrc16 VssCrc32 fuel index
    depth path t u log out b hwf h
  refine ⟨by rw [hm.2.1]; exact hlen, by rw [hm.1, hm.2.1]; exact hcount,
    WellFormed_of_Marked _ _ hwf hm, OccupiedBelowCount_of_Marked _ _ hocc hm, ?_⟩
  intro i m hmi hty
  have hi : i < t.m_pNodes.length := by
    rw [← hs.1]
    exact (List.getElem?_eq_some_iff.mp hmi).1
  have hn : t.m_pNodes[i]? = some t.m_pNodes[i] := List.getElem?_eq_getElem hi
  obtain ⟨hkeep, hnew⟩ := hs.2 i _ m hn hmi
  by_cases hz : t.m_pNodes[i].Type_ = 0
  · obtain ⟨info, data, _, _, hinfo, hdata, _⟩ := hnew hz hty
    rw [hinfo, hdata]
    exact ⟨rfl, rfl⟩
  · rw [hkeep hz]
    exact hvis i _ hn hz

/-- A call of `Free` keeps the invariants. -/
theorem Free_Sound (t u : VssTree) (hinv : t.Sound) (h : t.Free = some u) : u.Sound := by
  obtain ⟨hlen, hcount, hwf, hocc, hvis⟩ := hinv
  have hocc2 := Free_OccupiedBelowCount t u hocc h
  unfold VssTree.Free at h
  split at h
  · exact absurd h (by simp)
  rename_i nodes hnodes
  simp only [Option.some.injEq] at h
  subst h
  obtain ⟨hl, hn⟩ := freeNodes_nodes _ _ _ hnodes
  refine ⟨by rw [← hlen]; exact hl, Nat.zero_le _, ?_, hocc2, ?_⟩
  · intro i node info hnode hinfo
    obtain ⟨old, hold, hcase⟩ := hn i node hnode
    rcases hcase with rfl | rfl
    · exact hwf i _ info hold hinfo
    · exact absurd hinfo (by simp)
  · intro i node hnode hty
    obtain ⟨old, hold, hcase⟩ := hn i node hnode
    rcases hcase with rfl | rfl
    · exact hvis i _ hold hty
    · exact absurd rfl hty

/-- Every reachable state satisfies the invariants. -/
theorem Reachable_Sound (VssCrc16 VssCrc32 : List u08 → Nat → Nat) (t : VssTree)
    (h : Reachable VssCrc16 VssCrc32 t) : t.Sound := by
  induction h with
  | new => exact new_Sound
  | importFile t u index isInfo file b _ hfile hrun ih =>
    exact ImportFile_Sound t u index isInfo file b ih hfile hrun
  | assemble t u fuel index depth path log out b _ hrun ih =>
    exact AssembleDirectoryLinks_Sound VssCrc16 VssCrc32 fuel index depth path t u log out b ih
      hrun
  | free t u _ hrun ih => exact Free_Sound t u ih hrun

/-- Three tests of which exactly one holds for every element of a list split the list. -/
theorem filter_three (p q r : Nat → Bool) : ∀ l : List Nat,
    (∀ i ∈ l, (p i = true ∧ q i = false ∧ r i = false) ∨
      (p i = false ∧ q i = true ∧ r i = false) ∨
      (p i = false ∧ q i = false ∧ r i = true)) →
    (l.filter p).length + (l.filter q).length + (l.filter r).length = l.length := by
  intro l
  induction l with
  | nil =>
    intro _
    rfl
  | cons a l ih =>
    intro h
    have hrec := ih (fun i hi => h i (List.mem_cons_of_mem a hi))
    rcases h a (List.mem_cons_self a l) with ⟨h1, h2, h3⟩ | ⟨h1, h2, h3⟩ | ⟨h1, h2, h3⟩ <;>
    · simp only [List.filter_cons, h1, h2, h3, if_true, Bool.false_eq_true, if_false,
        List.length_cons]
      omega

/-- A test that fails from `n` on selects the same numbers below `m` as below `n`. -/
theorem filter_range_of_false (p : Nat → Bool) (n : Nat) (h : ∀ i, n ≤ i → p i = false) :
    ∀ m, n ≤ m → (List.range m).filter p = (List.range n).filter p := by
  intro m hm
  induction m with
  | zero =>
    have : n = 0 := by omega
    rw [this]
  | succ m ih =>
    by_cases hn : n = m + 1
    · rw [hn]
    · rw [List.range_succ, List.filter_append, ih (by omega)]
      simp only [List.filter_cons, h m (by omega), Bool.false_eq_true, if_false,
        List.filter_nil, List.append_nil]

/-- In a state that satisfies the invariants, `LookForUnused` returns, and its two counts and
the number of nodes with a type other than 0 add up to the node count. -/
theorem LookForUnused_Sound (t : VssTree) (hinv : t.Sound) :
    ∃ notAllocated notVisited lines,
      t.LookForUnused = some (true, t,
        lines ++ [UnusedLine.notAllocated notAllocated, UnusedLine.notVisited notVisited]) ∧
      notAllocated = ((List.range t.m_NodeCount).filter t.isUnallocated).length ∧
      notVisited = ((List.range t.m_NodeCount).filter t.isOrphan).length ∧
      notAllocated + notVisited + ((List.range t.m_pNodes.length).filter t.isVisited).length
        = t.m_NodeCount := by
  obtain ⟨hlen, hcount, hwf, hocc, hvis⟩ := hinv
  have hloop := lookForUnusedLoop_range t t.m_NodeCount 0 0 0 [] (by omega) (by omega)
    (by omega)
  refine ⟨((List.range t.m_NodeCount).filter t.isUnallocated).length,
    ((List.range t.m_NodeCount).filter t.isOrphan).length,
    ((List.range t.m_NodeCount).filter t.isOrphan).map
      (fun k => UnusedLine.skipped k (printedName k)), ?_, rfl, rfl, ?_⟩
  · unfold VssTree.LookForUnused
    rw [hloop]
    simp only [Nat.zero_add, List.nil_append, List.range_eq_range']
  · have houtside : ∀ i, t.m_NodeCount ≤ i → t.isVisited i = false := by
      intro i hi
      unfold VssTree.isVisited
      rw [List.get?_eq_getElem?]
      cases hnode : t.m_pNodes[i]? with
      | none => rfl
      | some node =>
        simp only [decide_eq_false_iff_not, not_not]
        by_contra hty
        have hb := hvis i node hnode hty
        have := hocc i node hnode (Or.inl hb.1)
        omega
    rw [filter_range_of_false t.isVisited t.m_NodeCount houtside _ hcount]
    have hsplit := filter_three t.isUnallocated t.isOrphan t.isVisited
      (List.range t.m_NodeCount) (by
        intro i hi
        rw [List.mem_range] at hi
        have hlt : i < t.m_pNodes.length := by omega
        have hnode : t.m_pNodes[i]? = some t.m_pNodes[i] := List.getElem?_eq_getElem hlt
        unfold VssTree.isUnallocated VssTree.isOrphan VssTree.isVisited
        rw [List.get?_eq_getElem?, hnode]
        simp only
        cases hinfo : t.m_pNodes[i].pInfo with
        | none =>
          left
          refine ⟨rfl, rfl, ?_⟩
          simp only [decide_eq_false_iff_not, not_not]
          by_contra hty
          have hb := hvis i _ hnode hty
          rw [hinfo] at hb
          exact absurd hb.1 (by simp)
        | some info =>
          by_cases hty : t.m_pNodes[i].Type_ = 0
          · right
            left
            simp [hty]
          · right
            right
            simp [hty])
    rw [List.length_range] at hsplit
    exact hsplit

/-- The tree `treeAssembled` is reached by importing the two files of node 0 into a new tree
and assembling from node 0. -/
theorem treeAssembled_Reachable : Reachable crcZero crcZero treeAssembled := by
  have h1 : VssTree.new.ImportFile 0 true (FileAnswer.opened 416 416 (infoNoChunks 1 1))
      = some (true, { treeImported with
          m_pNodes := VssTree.new.m_pNodes.set 0
            { nodeZero with InfoSize := 416, pInfo := some (infoNoChunks 1 1) },
          m_DataCount := 0 }) := by
    rfl
  have h2 : VssTree.ImportFile { treeImported with
          m_pNodes := VssTree.new.m_pNodes.set 0
            { nodeZero with InfoSize := 416, pInfo := some (infoNoChunks 1 1) },
          m_DataCount := 0 } 0 false (FileAnswer.opened 0 0 [])
      = some (true, treeImported) := by
    rfl
  have h3 : VssTree.AssembleDirectoryLinks crcZero crcZero 2 0 0 none treeImported []
      = Run.done (true, treeAssembled, [Report.visiting 0 416]) := by
    rfl
  have s1 : (FileAnswer.opened 416 416 (infoNoChunks 1 1)).Sized := ⟨by decide, by decide⟩
  have s2 : (FileAnswer.opened 0 0 []).Sized := ⟨rfl, by decide⟩
  exact Reachable.assemble _ _ _ _ _ _ _ _ _
    (Reachable.importFile _ _ _ _ _ _ (Reachable.importFile _ _ _ _ _ _ Reachable.new s1 h1)
      s2 h2) h3

/-! ## Reachable states: the claims -/

/-- C39: in every state reachable from the constructor through calls of `ImportFile`,
`AssembleDirectoryLinks` and `Free`, every node whose type is not 0 has both its info buffer
and its data buffer; `LookForUnused` returns there, and the unallocated count and the orphan
count it prints and the number of nodes with a type other than 0 add up to the node count. -/
theorem C39_visited_nodes_have_both_buffers (VssCrc16 VssCrc32 : List u08 → Nat → Nat)
    (t : VssTree) (h : Reachable VssCrc16 VssCrc32 t) :
    (∀ (i : Nat) (node : VssNode_t), t.m_pNodes[i]? = some node → node.Type_ ≠ 0 →
      node.pInfo.isSome ∧ node.pData.isSome) ∧
    ∃ notAllocated notVisited lines,
      t.LookForUnused = some (true, t,
        lines ++ [UnusedLine.notAllocated notAllocated, UnusedLine.notVisited notVisited]) ∧
      notAllocated = ((List.range t.m_NodeCount).filter t.isUnallocated).length ∧
      notVisited = ((List.range t.m_NodeCount).filter t.isOrphan).length ∧
      notAllocated + notVisited + ((List.range t.m_pNodes.length).filter t.isVisited).length
        = t.m_NodeCount := by
  have hinv := Reachable_Sound VssCrc16 VssCrc32 t h
  exact ⟨hinv.2.2.2.2, LookForUnused_Sound t hinv⟩

/-- C39, witness: the tree reached by importing the two files of a project as node 0 and
assembling from node 0. -/
theorem C39_visited_nodes_have_both_buffers_witness :
    Reachable crcZero crcZero treeAssembled ∧
    (∀ (i : Nat) (node : VssNode_t), treeAssembled.m_pNodes[i]? = some node →
      node.Type_ ≠ 0 → node.pInfo.isSome ∧ node.pData.isSome) ∧
    ∃ notAllocated notVisited lines,
      treeAssembled.LookForUnused = some (true, treeAssembled,
        lines ++ [UnusedLine.notAllocated notAllocated, UnusedLine.notVisited notVisited]) ∧
      notAllocated = ((List.range treeAssembled.m_NodeCount).filter
        treeAssembled.isUnallocated).length ∧
      notVisited = ((List.range treeAssembled.m_NodeCount).filter
        treeAssembled.isOrphan).length ∧
      notAllocated + notVisited
          + ((List.range treeAssembled.m_pNodes.length).filter treeAssembled.isVisited).length
        = treeAssembled.m_NodeCount :=
  ⟨treeAssembled_Reachable,
    C39_visited_nodes_have_both_buffers crcZero crcZero treeAssembled treeAssembled_Reachable⟩

/-! ## Counters of the file loop: auxiliary facts -/

/-- The chunks met from a cursor at or past the end of the buffer: none. -/
theorem chunkWalk_at_end (fuel : Nat) (r : BinaryReader) (h : ¬ r.m_Offset < r.m_DataSize) :
    chunkWalk fuel r = [] := by
  cases fuel with
  | zero => rfl
  | succ n =>
    unfold chunkWalk
    rw [if_neg h]

/-- The chunks met from a cursor before the end of the buffer: the one whose header is read
there, then those met from where `nextChunk` leaves the cursor. -/
theorem chunkWalk_cons (fuel : Nat) (r payload : BinaryReader) (chunkSize chunkID crc : Nat)
    (h : r.m_Offset < r.m_DataSize)
    (hheader : readChunkHeader r = some (chunkSize, chunkID, crc, payload)) :
    chunkWalk (fuel + 1) r
      = (r, chunkSize, chunkID, payload) :: chunkWalk fuel (nextChunk payload chunkSize) := by
  conv_lhs => unfold chunkWalk
  rw [if_pos h, hheader]

/-- One pass of the file loop, seen from the counters: when the rest of the loop counts as
the chunks met after this one say, the whole loop counts as the chunks met from here say. -/
theorem counts_step (fuel : Nat) (r payload : BinaryReader) (chunkSize chunkID crc : Nat)
    (bn pn bn2 pn2 bn1 pn1 : Nat) (h : r.m_Offset < r.m_DataSize)
    (hheader : readChunkHeader r = some (chunkSize, chunkID, crc, payload))
    (hb : bn2 = (bn + if isBranchChunk (r, chunkSize, chunkID, payload) then 1 else 0) % 65536)
    (hp : pn2 = (pn + if isParentInUse (r, chunkSize, chunkID, payload) then 1 else 0) % 65536)
    (ih : (∀ more, chunkWalk (fuel + more) (nextChunk payload chunkSize)
          = chunkWalk fuel (nextChunk payload chunkSize)) ∧
      bn1 = (bn2 + branchChunks (chunkWalk fuel (nextChunk payload chunkSize))) % 65536 ∧
      pn1 = (pn2 + parentChunksInUse (chunkWalk fuel (nextChunk payload chunkSize))) % 65536) :
    (∀ more, chunkWalk (fuel + 1 + more) r = chunkWalk (fuel + 1) r) ∧
    bn1 = (bn + branchChunks (chunkWalk (fuel + 1) r)) % 65536 ∧
    pn1 = (pn + parentChunksInUse (chunkWalk (fuel + 1) r)) % 65536 := by
  obtain ⟨hmore, hb1, hp1⟩ := ih
  refine ⟨?_, ?_, ?_⟩
  · intro more
    have e : fuel + 1 + more = (fuel + more) + 1 := by omega
    rw [e, chunkWalk_cons _ r payload chunkSize chunkID crc h hheader,
      chunkWalk_cons _ r payload chunkSize chunkID crc h hheader, hmore more]
  · rw [chunkWalk_cons _ r payload chunkSize chunkID crc h hheader, hb1, hb]
    unfold branchChunks
    rw [List.filter_cons]
    split <;> (try simp only [List.length_cons]) <;> omega
  · rw [chunkWalk_cons _ r payload chunkSize chunkID crc h hheader, hp1, hp]
    unfold parentChunksInUse
    rw [List.filter_cons]
    split <;> (try simp only [List.length_cons]) <;> omega

/-- When the file loop runs to its end, its two counters hold, modulo `2^16`, what they held
at the start plus the number of `BF` chunks and of `PF` chunks in use among the chunks met;
these chunks are the same for every larger bound. -/
theorem fileInfoLoop_counts (VssCrc16 : List u08 → Nat → Nat) :
    ∀ (fuel : Nat) (logEntry : VssScanLogEntry) (bn pn : Nat) (r : BinaryReader)
      (log : List Report) (bn1 pn1 : Nat) (out : List Report),
      bn < 65536 → pn < 65536 →
      fileInfoLoop VssCrc16 fuel logEntry bn pn r log = Run.done (true, bn1, pn1, out) →
      (∀ more, chunkWalk (fuel + more) r = chunkWalk fuel r) ∧
      bn1 = (bn + branchChunks (chunkWalk fuel r)) % 65536 ∧
      pn1 = (pn + parentChunksInUse (chunkWalk fuel r)) % 65536 := by
  intro fuel
  induction fuel with
  | zero =>
    intro logEntry bn pn r log bn1 pn1 out _ _ h
    exact absurd h (by simp [fileInfoLoop])
  | succ fuel ih =>
    intro logEntry bn pn r log bn1 pn1 out hbn hpn h
    unfold fileInfoLoop at h
    split at h
    · rename_i hoff
      split at h
      · exact absurd h (by simp)
      rename_i chunkSize chunkID crc payload hheader
      split at h
      · exact absurd h (by simp)
      · exact absurd h (by simp)
      split at h
      · rename_i hid
        split at h
        · exact absurd h (by simp)
        split at h
        · exact absurd h (by simp)
        refine counts_step fuel r payload chunkSize chunkID crc bn pn _ _ bn1 pn1 hoff
          hheader ?_ ?_ (ih _ _ _ _ _ _ _ _ (Nat.mod_lt _ (by decide)) hpn h)
        · simp only [isBranchChunk, hid, decide_True, if_true]
        · simp only [isParentInUse, hid, show ¬ VssMarker_BranchFile = VssMarker_ParentFolder
            by decide, decide_False, Bool.false_and, Bool.false_eq_true, if_false,
            Nat.add_zero, Nat.mod_eq_of_lt hpn]
      rename_i hid1
      have hnb : (bn + if isBranchChunk (r, chunkSize, chunkID, payload) then 1 else 0) % 65536
          = bn := by
        simp only [isBranchChunk, hid1, decide_False, Bool.false_eq_true, if_false,
          Nat.add_zero, Nat.mod_eq_of_lt hbn]
      have hnp : chunkID ≠ VssMarker_ParentFolder →
          (pn + if isParentInUse (r, chunkSize, chunkID, payload) then 1 else 0) % 65536
            = pn := by
        intro hne
        simp only [isParentInUse, hne, decide_False, Bool.false_and, Bool.false_eq_true,
          if_false, Nat.add_zero, Nat.mod_eq_of_lt hpn]
      split at h
      · rename_i hid
        split at h
        · exact absurd h (by simp)
        exact counts_step fuel r payload chunkSize chunkID crc bn pn _ _ bn1 pn1 hoff
          hheader hnb.symm (hnp (by rw [hid]; decide)).symm (ih _ _ _ _ _ _ _ _ hbn hpn h)
      split at h
      · rename_i hid
        split at h
        · exact absurd h (by simp)
        exact counts_step fuel r payload chunkSize chunkID crc bn pn _ _ bn1 pn1 hoff
          hheader hnb.symm (hnp (by rw [hid]; decide)).symm (ih _ _ _ _ _ _ _ _ hbn hpn h)
      split at h
      · rename_i hid
        exact counts_step fuel r payload chunkSize chunkID crc bn pn _ _ bn1 pn1 hoff
          hheader hnb.symm (hnp (by rw [hid]; decide)).symm (ih _ _ _ _ _ _ _ _ hbn hpn h)
      split at h
      · rename_i hid
        split at h
        · exact absurd h (by simp)
        exact counts_step fuel r payload chunkSize chunkID crc bn pn _ _ bn1 pn1 hoff
          hheader hnb.symm (hnp (by rw [hid]; decide)).symm (ih _ _ _ _ _ _ _ _ hbn hpn h)
      split at h
      · rename_i hid
        split at h
        · exact absurd h (by simp)
        rename_i parent rest hparent
        refine counts_step fuel r payload chunkSize chunkID crc bn pn _ _ bn1 pn1 hoff
          hheader hnb.symm ?_ (ih _ _ _ _ _ _ _ _ hbn (by
            split
            · exact Nat.mod_lt _ (by decide)
            · exact hpn) h)
        simp only [isParentInUse, hid, decide_True, Bool.true_and, hparent]
        by_cases hge : parent.m_ParentIndex ≥ 0
        · simp only [hge, decide_True, if_true]
        · simp only [hge, decide_False, Bool.false_eq_true, if_false, Nat.add_zero,
            Nat.mod_eq_of_lt hpn]
      · rename_i hid
        exact counts_step fuel r payload chunkSize chunkID crc bn pn _ _ bn1 pn1 hoff
          hheader hnb.symm (hnp hid).symm (ih _ _ _ _ _ _ _ _ hbn hpn h)
    · rename_i hoff
      simp only [Run.done.injEq, Prod.mk.injEq, true_and] at h
      obtain ⟨hb, hp, _⟩ := h
      refine ⟨fun more => ?_, ?_, ?_⟩
      · rw [chunkWalk_at_end _ r hoff, chunkWalk_at_end _ r hoff]
      · rw [chunkWalk_at_end _ r hoff, ← hb]
        simp only [branchChunks, List.filter_nil, List.length_nil, Nat.add_zero,
          Nat.mod_eq_of_lt hbn]
      · rw [chunkWalk_at_end _ r hoff, ← hp]
        simp only [parentChunksInUse, List.filter_nil, List.length_nil, Nat.add_zero,
          Nat.mod_eq_of_lt hpn]

/-- One pass of the file loop over a chunk that consists of a header alone, with size 0,
marker `BF` and stored CRC 0, either at the end of the buffer or with at least 8 bytes after
it: the branch counter goes up by one, modulo `2^16`. -/
theorem fileInfoLoop_branch_step (VssCrc16 : List u08 → Nat → Nat) (fuel : Nat)
    (logEntry : VssScanLogEntry) (bn pn : Nat) (log : List Report) (data : List u08)
    (size off : Nat) (hsize : size = data.length) (h32 : size + 22 < 4294967296)
    (h : off + 8 = size ∨ off + 16 ≤ size) (hcs : le32 data off = 0)
    (hmk : le16 data (off + 4) = VssMarker_BranchFile) (hcrc : le16 data (off + 6) = 0) :
    fileInfoLoop VssCrc16 (fuel + 1) logEntry bn pn ⟨data, size, off⟩ log
      = fileInfoLoop VssCrc16 fuel logEntry ((bn + 1) % 65536) pn ⟨data, size, off + 8⟩ log := by
  conv_lhs => unfold fileInfoLoop
  rw [if_pos (show off < size by omega),
    readChunkHeader_at data size off hsize (by omega) (by omega), hcs, hmk, hcrc]
  simp only [crcMismatch_zero, if_true]
  have hnext : nextChunk ⟨data, size, off + 8⟩ 0 = ⟨data, size, off + 8⟩ := by
    unfold nextChunk BinaryReader.SetOffset
    simp only [Nat.add_zero, Nat.mod_eq_of_lt (show off + 8 < 4294967296 by omega)]
  rw [hnext]
  rcases h with hend | hmore
  · rw [Read32_short data size (off + 8) (by omega) (by omega)]
    simp only
    rw [ReadData_short data size size 10 (by omega) (by omega)]
  · rw [Read32_at data size (off + 8) hsize (by omega) (by omega)]
    simp only
    by_cases h10 : off + 8 + 4 + 10 ≤ size
    · rw [ReadData_at data size (off + 8 + 4) 10 hsize (by omega) h10]
    · rw [ReadData_short data size (off + 8 + 4) 10 (by omega) (by omega)]

/-- The length of `infoManyBranches`. -/
theorem infoManyBranches_length : infoManyBranches.length = 524704 := by
  unfold infoManyBranches
  rw [List.length_append, List.length_map, List.length_range]
  have h : (infoNoChunks 2 2).length = 416 := by decide
  rw [h]

/-- The bytes of `infoManyBranches` before offset 416 are those of `infoNoChunks 2 2`. -/
theorem infoManyBranches_fields (j : Nat) (hj : j < 416) :
    byteAt infoManyBranches j = byteAt (infoNoChunks 2 2) j := by
  have h : (infoNoChunks 2 2).length = 416 := by decide
  unfold byteAt infoManyBranches
  rw [List.getD_append _ _ _ _ (by omega)]

/-- The bytes of `infoManyBranches` from offset 416 on repeat `branchHeader`. -/
theorem infoManyBranches_chunk (k c : Nat) (hk : k < 65536) (hc : c < 8) :
    byteAt infoManyBranches (416 + 8 * k + c) = (branchHeader.getD c 0).val := by
  have h : (infoNoChunks 2 2).length = 416 := by decide
  unfold byteAt infoManyBranches
  rw [List.getD_append_right _ _ _ _ (by omega), h, List.getD_eq_getElem?_getD,
    List.getElem?_map, List.getElem?_range (by omega)]
  have e : (416 + 8 * k + c - 416) % 8 = c := by omega
  simp only [Option.map_some', Option.getD_some, e]

/-- The chunk headers of `infoManyBranches`. -/
theorem infoManyBranches_header (k : Nat) (hk : k < 65536) :
    le32 infoManyBranches (416 + 8 * k) = 0 ∧
    le16 infoManyBranches (416 + 8 * k + 4) = VssMarker_BranchFile ∧
    le16 infoManyBranches (416 + 8 * k + 6) = 0 := by
  have b0 := infoManyBranches_chunk k 0 hk (by decide)
  have b1 := infoManyBranches_chunk k 1 hk (by decide)
  have b2 := infoManyBranches_chunk k 2 hk (by decide)
  have b3 := infoManyBranches_chunk k 3 hk (by decide)
  have b4 := infoManyBranches_chunk k 4 hk (by decide)
  have b5 := infoManyBranches_chunk k 5 hk (by decide)
  have b6 := infoManyBranches_chunk k 6 hk (by decide)
  have b7 := infoManyBranches_chunk k 7 hk (by decide)
  simp only [Nat.add_zero] at b0
  refine ⟨?_, ?_, ?_⟩
  · unfold le32
    rw [b0, show 416 + 8 * k + 1 = 416 + 8 * k + 1 from rfl, b1,
      show 416 + 8 * k + 2 = 416 + 8 * k + 2 from rfl, b2, b3]
    decide
  · unfold le16
    rw [b4, show 416 + 8 * k + 4 + 1 = 416 + 8 * k + 5 from rfl, b5]
    decide
  · unfold le16
    rw [b6, show 416 + 8 * k + 6 + 1 = 416 + 8 * k + 7 from rfl, b7]
    decide

/-- The file loop over the last `k` chunks of `infoManyBranches` adds `k` to the branch
counter, modulo `2^16`. -/
theorem fileInfoLoop_infoManyBranches (VssCrc16 : List u08 → Nat → Nat)
    (logEntry : VssScanLogEntry) (pn : Nat) (log : List Report) (fuel : Nat) :
    ∀ (k bn : Nat), k ≤ 65536 → bn < 65536 →
      fileInfoLoop VssCrc16 (fuel + k) logEntry bn pn
          ⟨infoManyBranches, 524704, 524704 - 8 * k⟩ log
        = fileInfoLoop VssCrc16 fuel logEntry ((bn + k) % 65536) pn
            ⟨infoManyBranches, 524704, 524704⟩ log := by
  intro k
  induction k with
  | zero =>
    intro bn _ hbn
    simp only [Nat.add_zero, Nat.mul_zero, Nat.sub_zero, Nat.mod_eq_of_lt hbn]
  | succ k ih =>
    intro bn hk hbn
    obtain ⟨hcs, hmk, hcrc⟩ := infoManyBranches_header (65535 - k) (by omega)
    have eoff : 524704 - 8 * (k + 1) = 416 + 8 * (65535 - k) := by omega
    have e : fuel + (k + 1) = (fuel + k) + 1 := by omega
    rw [e, eoff, fileInfoLoop_branch_step VssCrc16 (fuel + k) logEntry bn pn log
      infoManyBranches 524704 _ infoManyBranches_length.symm (by decide) (by omega) hcs hmk
      hcrc]
    have enext : 416 + 8 * (65535 - k) + 8 = 524704 - 8 * k := by omega
    rw [enext, ih _ (by omega) (Nat.mod_lt _ (by decide))]
    have em : ((bn + 1) % 65536 + k) % 65536 = (bn + (k + 1)) % 65536 := by omega
    rw [em]

/-- The last `k` chunks of `infoManyBranches` are `k` chunks with the marker `BF`. -/
theorem chunkWalk_infoManyBranches (fuel : Nat) :
    ∀ (k : Nat), k ≤ 65536 →
      branchChunks (chunkWalk (fuel + k) ⟨infoManyBranches, 524704, 524704 - 8 * k⟩)
        = k + branchChunks (chunkWalk fuel ⟨infoManyBranches, 524704, 524704⟩) := by
  intro k
  induction k with
  | zero =>
    intro _
    simp only [Nat.add_zero, Nat.mul_zero, Nat.sub_zero, Nat.zero_add]
  | succ k ih =>
    intro hk
    obtain ⟨hcs, hmk, hcrc⟩ := infoManyBranches_header (65535 - k) (by omega)
    have eoff : 524704 - 8 * (k + 1) = 416 + 8 * (65535 - k) := by omega
    have e : fuel + (k + 1) = (fuel + k) + 1 := by omega
    have hheader := readChunkHeader_at infoManyBranches 524704 (416 + 8 * (65535 - k))
      infoManyBranches_length.symm (by decide) (by omega)
    rw [hcs, hmk, hcrc] at hheader
    rw [e, eoff, chunkWalk_cons _ _ _ _ _ _ (by show 416 + 8 * (65535 - k) < 524704; omega)
      hheader]
    have hnext : nextChunk ⟨infoManyBranches, 524704, 416 + 8 * (65535 - k) + 8⟩ 0
        = ⟨infoManyBranches, 524704, 524704 - 8 * k⟩ := by
      unfold nextChunk BinaryReader.SetOffset
      simp only [Nat.add_zero]
      rw [Nat.mod_eq_of_lt (by omega)]
      have enext : 416 + 8 * (65535 - k) + 8 = 524704 - 8 * k := by omega
      rw [enext]
    rw [hnext]
    have hrec := ih (by omega)
    unfold branchChunks at hrec ⊢
    rw [List.filter_cons]
    simp only [isBranchChunk, decide_True, if_true, List.length_cons]
    omega

/-- The branch for a file, once the fixed fields are read and the chunk loop has run to its
end: it returns `true`, and a counter that differs from the count of the fixed fields is
reported. -/
theorem scanFileInfo_of_loop (VssCrc16 VssCrc32 : List u08 → Nat → Nat)
    (fuel : Nat) (data : List u08) (dataSize : Nat) (reader r : BinaryReader)
    (log printed out : List Report) (branchCount parentCount bn pn : Nat)
    (hfields : filePrefix VssCrc32 data dataSize reader
      = some (branchCount, parentCount, r, printed))
    (hloop : fileInfoLoop VssCrc16 fuel localLogEntry 0 0 r (log ++ printed)
      = Run.done (true, bn, pn, out)) :
    scanFileInfo VssCrc16 VssCrc32 fuel data dataSize reader log
      = Run.done (true,
          out
          ++ (if bn ≠ branchCount then [Report.branchCountMismatch branchCount bn] else [])
          ++ (if parentCount ≠ pn then [Report.parentCountMismatch parentCount pn]
            else [])) := by
  unfold scanFileInfo
  rw [hfields]
  simp only [hloop]

/-! ## Counters of the file loop: the claims -/

/-- C33, counterexample: the info buffer `infoManyBranches` of a file has the branch count 0
in its fixed fields and 65536 chunks with the marker `BF`. The branch of
`AssembleDirectoryLinks` for a file runs its loop to the end and returns `true`, and the
lines it prints are those of the fixed fields alone: the `u16` counter `branchNum` is back
at 0, and no branch-count mismatch is reported. -/
theorem C33_wrapped_counter_hides_a_mismatch :
    infoManyBranches.length = 524704 ∧
    branchChunks (chunkWalk 65537 ⟨infoManyBranches, 524704, 416⟩) = 65536 ∧
    ∃ printed,
      filePrefix crcZero [] 0 ⟨infoManyBranches, 524704, 140⟩
        = some (0, 0, ⟨infoManyBranches, 524704, 416⟩, printed) ∧
      fileInfoLoop crcZero 65537 localLogEntry 0 0 ⟨infoManyBranches, 524704, 416⟩ printed
        = Run.done (true, 0, 0, printed) ∧
      scanFileInfo crcZero crcZero 65537 [] 0 ⟨infoManyBranches, 524704, 140⟩ []
        = Run.done (true, printed) := by
  have hend : ∀ (bn pn : Nat) (log : List Report),
      fileInfoLoop crcZero 1 localLogEntry bn pn ⟨infoManyBranches, 524704, 524704⟩ log
        = Run.done (true, bn, pn, log) := by
    intro bn pn log
    unfold fileInfoLoop
    rw [if_neg (Nat.lt_irrefl _)]
  refine ⟨infoManyBranches_length, ?_, ?_⟩
  · have h := chunkWalk_infoManyBranches 1 65536 (Nat.le_refl _)
    rw [chunkWalk_at_end 1 _ (Nat.lt_irrefl _)] at h
    have e1 : 1 + 65536 = 65537 := by norm_num
    have e2 : 524704 - 8 * 65536 = 416 := by norm_num
    rw [e1, e2] at h
    rw [h]
    rfl
  · obtain ⟨printed, hp⟩ := filePrefix_at crcZero [] 0 infoManyBranches 524704 140
      infoManyBranches_length.symm (by decide) (by decide)
    have h160 : le16 infoManyBranches (140 + 20) = 0 := by
      unfold le16
      rw [infoManyBranches_fields _ (by decide), infoManyBranches_fields _ (by decide)]
      decide
    have h162 : le16 infoManyBranches (140 + 22) = 0 := by
      unfold le16
      rw [infoManyBranches_fields _ (by decide), infoManyBranches_fields _ (by decide)]
      decide
    rw [h160, h162] at hp
    have hloop : fileInfoLoop crcZero 65537 localLogEntry 0 0
        ⟨infoManyBranches, 524704, 416⟩ printed = Run.done (true, 0, 0, printed) := by
      have h := fileInfoLoop_infoManyBranches crcZero localLogEntry 0 printed 1 65536 0
        (Nat.le_refl _) (by decide)
      have e1 : 1 + 65536 = 65537 := by norm_num
      have e2 : 524704 - 8 * 65536 = 416 := by norm_num
      have e3 : (0 + 65536) % 65536 = 0 := by norm_num
      rw [hend, e1, e2, e3] at h
      exact h
    have hrun := scanFileInfo_of_loop crcZero crcZero 65537 [] 0
      ⟨infoManyBranches, 524704, 140⟩ ⟨infoManyBranches, 524704, 416⟩ [] printed printed 0 0
      0 0 hp hloop
    have hlines : (printed ++ (if (0 : Nat) ≠ 0 then [Report.branchCountMismatch 0 0] else [])
        ++ (if (0 : Nat) ≠ 0 then [Report.parentCountMismatch 0 0] else [])) = printed := by
      simp only [ne_eq, not_true_eq_false, if_false, List.append_nil]
    rw [hlines] at hrun
    exact ⟨printed, hp, hloop, hrun⟩

/-- C33, amended: when the chunk loop over the info stream of a file runs to its end, the
counter `branchNum` holds the number of `BF` chunks met modulo `2^16` and the counter
`parentNum` the number of `PF` chunks met whose parent name decodes to a non-negative
identifier, modulo `2^16`. The branch for a file then returns `true`, having reported a
branch-count mismatch exactly when the first differs from the branch count of the fixed
fields, and a parent-count mismatch exactly when the second differs from their parent
count. -/
theorem C33_counts_are_compared_modulo_65536 (VssCrc16 VssCrc32 : List u08 → Nat → Nat)
    (fuel : Nat) (data : List u08) (dataSize : Nat) (reader r : BinaryReader)
    (log printed out : List Report) (branchCount parentCount bn pn : Nat)
    (hfields : filePrefix VssCrc32 data dataSize reader
      = some (branchCount, parentCount, r, printed))
    (hloop : fileInfoLoop VssCrc16 fuel localLogEntry 0 0 r (log ++ printed)
      = Run.done (true, bn, pn, out)) :
    (∀ more, chunkWalk (fuel + more) r = chunkWalk fuel r) ∧
    bn = branchChunks (chunkWalk fuel r) % 65536 ∧
    pn = parentChunksInUse (chunkWalk fuel r) % 65536 ∧
    scanFileInfo VssCrc16 VssCrc32 fuel data dataSize reader log
      = Run.done (true,
          out
          ++ (if branchChunks (chunkWalk fuel r) % 65536 ≠ branchCount then
              [Report.branchCountMismatch branchCount
                (branchChunks (chunkWalk fuel r) % 65536)] else [])
          ++ (if parentCount ≠ parentChunksInUse (chunkWalk fuel r) % 65536 then
              [Report.parentCountMismatch parentCount
                (parentChunksInUse (chunkWalk fuel r) % 65536)] else [])) := by
  obtain ⟨hmore, hb, hp⟩ := fileInfoLoop_counts VssCrc16 fuel localLogEntry 0 0 r
    (log ++ printed) bn pn out (by decide) (by decide) hloop
  simp only [Nat.zero_add] at hb hp
  refine ⟨hmore, hb, hp, ?_⟩
  rw [← hb, ← hp]
  exact scanFileInfo_of_loop VssCrc16 VssCrc32 fuel data dataSize reader r log printed out
    branchCount parentCount bn pn hfields hloop

/-- C33, witness: the info buffer `infoOneBranch`, with one `BF` chunk and the branch count
0; the mismatch is reported and the result is `true`. -/
theorem C33_counts_are_compared_modulo_65536_witness :
    ∃ printed,
      filePrefix crcZero [] 0 ⟨infoOneBranch, 424, 140⟩
        = some (0, 0, ⟨infoOneBranch, 424, 416⟩, printed) ∧
      fileInfoLoop crcZero 2 localLogEntry 0 0 ⟨infoOneBranch, 424, 416⟩ ([] ++ printed)
        = Run.done (true, 1, 0, [] ++ printed) ∧
      branchChunks (chunkWalk 2 ⟨infoOneBranch, 424, 416⟩) = 1 ∧
      parentChunksInUse (chunkWalk 2 ⟨infoOneBranch, 424, 416⟩) = 0 ∧
      scanFileInfo crcZero crcZero 2 [] 0 ⟨infoOneBranch, 424, 140⟩ []
        = Run.done (true, [] ++ printed ++ [Report.branchCountMismatch 0 1] ++ []) := by
  have hlen : infoOneBranch.length = 424 := by decide
  obtain ⟨printed, hp⟩ := filePrefix_at crcZero [] 0 infoOneBranch 424 140 hlen.symm
    (by decide) (by decide)
  have h160 : le16 infoOneBranch (140 + 20) = 0 := by decide
  have h162 : le16 infoOneBranch (140 + 22) = 0 := by decide
  rw [h160, h162] at hp
  have hloop : fileInfoLoop crcZero 2 localLogEntry 0 0 ⟨infoOneBranch, 424, 416⟩
      ([] ++ printed) = Run.done (true, 1, 0, [] ++ printed) := by
    rw [fileInfoLoop_branch_step crcZero 1 localLogEntry 0 0 _ infoOneBranch 424 416
      hlen.symm (by decide) (Or.inl rfl) (by decide) (by decide) (by decide)]
    unfold fileInfoLoop
    rw [if_neg (by decide)]
  have hb : branchChunks (chunkWalk 2 ⟨infoOneBranch, 424, 416⟩) = 1 := by decide
  have hq : parentChunksInUse (chunkWalk 2 ⟨infoOneBranch, 424, 416⟩) = 0 := by decide
  have h := C33_counts_are_compared_modulo_65536 crcZero crcZero 2 [] 0
    ⟨infoOneBranch, 424, 140⟩ ⟨infoOneBranch, 424, 416⟩ [] printed ([] ++ printed) 0 0 1 0
    hp hloop
  rw [hb, hq] at h
  exact ⟨printed, hp, hloop, hb, hq, h.2.2.2⟩

/-! ## Termination of the assembly: cursors -/

end Vss
